import Mathlib

/-!
# Fallback event translation of `src/evdev.c`

A shallow embedding of the per-device event translation engine of
`src/src/evdev.c` (the fallback dispatch): the key ledger, the pending-event
buffer and its flush, the seat-wide touch slot bitmap and the auxiliary axes
of a multitouch slot, the scroll state machine with button scrolling, wheel
clicks and natural scrolling, the calibration matrix, and suspend and resume.

Conventions of the embedding.

* A C function that mutates the device, the seat bitmap or posts a
  notification is a function on `State`, which holds the device, the
  `slot_map` of its seat and the list of notifications posted so far, oldest
  first.
* A function that can hit a failing `assert` or an access outside an array
  (undefined behaviour in C) returns `Option`; `none` means that the C program
  does not continue.
* `double`/`float` values are rationals. The scroll buildup, whose size decides
  the latch of an axis, is accumulated with `double_add`, the addition rounded
  to the nearest `double`; elsewhere the arithmetic is exact. Infinities and
  NaN are not represented (division by zero yields `0` in the embedding, it
  does not in C; the divisors of the embedding are `dpi / DEFAULT_MOUSE_DPI`
  in the flush, which is non-zero for a device made by `evdev_device_create`,
  and the sizes of the two axis ranges in `evdev_device_calibrate`).
* The `uint32_t time` of `evdev_keyboard_notify_key` and
  `evdev_pointer_notify_button` is the time modulo `2 ^ 32`; every other time
  is a `uint64_t` of milliseconds, a `Nat`.
* `uint32_t seat->slot_map` is a `Nat` kept below `2 ^ 32`.
* Logging calls have no effect on the state and are left out.
* A loop that need not end runs on a fuel; running out of fuel gives `none`,
  and a result is proved for every fuel that is large enough.
-/

namespace Evdev

/-! ## Constants of `linux/input.h` and `libinput.h` -/

def EV_SYN : Nat := 0x00
def EV_KEY : Nat := 0x01
def EV_REL : Nat := 0x02
def EV_ABS : Nat := 0x03

def REL_X : Nat := 0x00
def REL_Y : Nat := 0x01
def REL_HWHEEL : Nat := 0x06
def REL_WHEEL : Nat := 0x08

def ABS_X : Nat := 0x00
def ABS_Y : Nat := 0x01
def ABS_MT_SLOT : Nat := 0x2f
def ABS_MT_TOUCH_MAJOR : Nat := 0x30
def ABS_MT_TOUCH_MINOR : Nat := 0x31
def ABS_MT_ORIENTATION : Nat := 0x34
def ABS_MT_POSITION_X : Nat := 0x35
def ABS_MT_POSITION_Y : Nat := 0x36
def ABS_MT_TRACKING_ID : Nat := 0x39

def KEY_ESC : Nat := 1
def KEY_MICMUTE : Nat := 248
def BTN_MISC : Nat := 0x100
def BTN_LEFT : Nat := 0x110
def BTN_RIGHT : Nat := 0x111
def BTN_MIDDLE : Nat := 0x112
def BTN_JOYSTICK : Nat := 0x120
def BTN_TOUCH : Nat := 0x14a
def BTN_GEAR_UP : Nat := 0x151
def KEY_OK : Nat := 0x160
def KEY_LIGHTS_TOGGLE : Nat := 0x21e
def BTN_DPAD_UP : Nat := 0x220
def BTN_TRIGGER_HAPPY40 : Nat := 0x2e7
def KEY_CNT : Nat := 0x300

/-- Capability bits of `device->seat_caps` (`enum evdev_device_seat_capability`). -/
def EVDEV_DEVICE_POINTER : Nat := 1 <<< 0
def EVDEV_DEVICE_KEYBOARD : Nat := 1 <<< 1
def EVDEV_DEVICE_TOUCH : Nat := 1 <<< 2

def LIBINPUT_POINTER_AXIS_SCROLL_VERTICAL : Nat := 0
def LIBINPUT_POINTER_AXIS_SCROLL_HORIZONTAL : Nat := 1

/-- The macro `AS_MASK(v)`, that is `1 << v`. -/
def AS_MASK (v : Nat) : Nat := 1 <<< v

def DEFAULT_MIDDLE_BUTTON_SCROLL_TIMEOUT : Nat := 200
def DEFAULT_TOUCH_PRESSURE : Int := 1
def DEFAULT_TOUCH_ORIENTATION : Int := 0
def DEFAULT_TOUCH_MAJOR : Int := 0
def DEFAULT_TOUCH_MINOR : Int := 0

/-- Modelled from the spec: the reference DPI `DEFAULT_MOUSE_DPI` of `evdev.h`
(the header is not part of the sources at hand); no proof depends on its
value. -/
def DEFAULT_MOUSE_DPI : Int := 1000

/-! ## Data model -/

inductive evdev_key_type
  | EVDEV_KEY_TYPE_NONE
  | EVDEV_KEY_TYPE_KEY
  | EVDEV_KEY_TYPE_BUTTON
  deriving DecidableEq, Repr

/-- The pending-event kinds, `enum evdev_event_type`. -/
inductive evdev_event_type
  | EVDEV_NONE
  | EVDEV_ABSOLUTE_TOUCH_DOWN
  | EVDEV_ABSOLUTE_MOTION
  | EVDEV_ABSOLUTE_TOUCH_UP
  | EVDEV_ABSOLUTE_MT_DOWN
  | EVDEV_ABSOLUTE_MT_MOTION
  | EVDEV_ABSOLUTE_MT_UP
  | EVDEV_RELATIVE_MOTION
  deriving DecidableEq, Repr

inductive libinput_key_state
  | LIBINPUT_KEY_STATE_RELEASED
  | LIBINPUT_KEY_STATE_PRESSED
  deriving DecidableEq, Repr

inductive libinput_button_state
  | LIBINPUT_BUTTON_STATE_RELEASED
  | LIBINPUT_BUTTON_STATE_PRESSED
  deriving DecidableEq, Repr

inductive libinput_pointer_axis_source
  | LIBINPUT_POINTER_AXIS_SOURCE_WHEEL
  | LIBINPUT_POINTER_AXIS_SOURCE_FINGER
  | LIBINPUT_POINTER_AXIS_SOURCE_CONTINUOUS
  deriving DecidableEq, Repr

inductive libinput_config_scroll_method
  | LIBINPUT_CONFIG_SCROLL_NO_SCROLL
  | LIBINPUT_CONFIG_SCROLL_2FG
  | LIBINPUT_CONFIG_SCROLL_EDGE
  | LIBINPUT_CONFIG_SCROLL_ON_BUTTON_DOWN
  deriving DecidableEq, Repr

open evdev_key_type evdev_event_type libinput_key_state libinput_button_state
open libinput_pointer_axis_source libinput_config_scroll_method

/-- The integer value of a key state, as passed for `int pressed`. -/
def libinput_key_state.toInt : libinput_key_state → Int
  | LIBINPUT_KEY_STATE_RELEASED => 0
  | LIBINPUT_KEY_STATE_PRESSED => 1

/-- The integer value of a button state, as passed for `int pressed`. -/
def libinput_button_state.toInt : libinput_button_state → Int
  | LIBINPUT_BUTTON_STATE_RELEASED => 0
  | LIBINPUT_BUTTON_STATE_PRESSED => 1

/-- One raw event, `struct input_event`. -/
structure input_event where
  tv_sec : Nat := 0
  tv_usec : Nat := 0
  type : Nat
  code : Nat
  value : Int
  deriving DecidableEq, Repr

structure ellipse where
  major : Int := 0
  minor : Int := 0
  orientation : Int := 0
  deriving DecidableEq, Repr

/-- One hardware multitouch slot, `struct mt_slot`. -/
structure mt_slot where
  seat_slot : Int := -1
  x : Int := 0
  y : Int := 0
  area : ellipse := {}
  pressure : Int := 0
  deriving DecidableEq, Repr

/-- One registered auxiliary axis of a slot, `struct mt_aux_data`. -/
structure mt_aux_data where
  code : Nat
  value : Int := 0
  changed : Bool := false
  deriving DecidableEq, Repr

/-- A 3x3 matrix, `struct matrix`, row by row. -/
structure matrix where
  v00 : ℚ := 1
  v01 : ℚ := 0
  v02 : ℚ := 0
  v10 : ℚ := 0
  v11 : ℚ := 1
  v12 : ℚ := 0
  v20 : ℚ := 0
  v21 : ℚ := 0
  v22 : ℚ := 1
  deriving DecidableEq

/-- The range of an absolute axis, the fields of `struct input_absinfo` in use. -/
structure input_absinfo where
  minimum : Int := 0
  maximum : Int := 0
  deriving DecidableEq, Repr

/-- The acceleration filter behind `device->pointer.filter`. The filter is an
external, pluggable object: `filter` is its `interface->filter` entry, a
function of the filter's own state, the motion and the time; the state of the
filter is represented by the list of the calls made so far. -/
structure motion_filter where
  filter : List (ℚ × ℚ × Nat) → ℚ × ℚ → Nat → ℚ × ℚ
  calls : List (ℚ × ℚ × Nat) := []

/-- The notifications posted to the consumer: one constructor per
`*_notify_*` entry point of `libinput.c` called from `evdev.c`, with the
arguments of the call. -/
inductive Notification
  | keyboard_key (time : Nat) (key : Nat) (state : libinput_key_state)
  | pointer_button (time : Nat) (button : Nat) (state : libinput_button_state)
  | pointer_motion (time : Nat) (dx dy dx_unaccel dy_unaccel : ℚ)
  | pointer_motion_absolute (time : Nat) (x y : Int)
  | pointer_axis (time : Nat) (axes : Nat) (source : libinput_pointer_axis_source)
      (x y x_discrete y_discrete : ℚ)
  | touch_down (time : Nat) (slot seat_slot : Int) (x y : Int) (area : ellipse)
      (pressure : Int)
  | touch_motion (time : Nat) (slot seat_slot : Int) (x y : Int) (area : ellipse)
      (pressure : Int)
  | touch_up (time : Nat) (slot seat_slot : Int)
  | touch_frame (time : Nat)
  | touch_aux_data (time : Nat) (slot seat_slot : Int) (code : Nat) (value : Int)
  deriving DecidableEq

/-- The fields of `struct evdev_device` read or written by the fallback
dispatch. `hw_key_mask` and `key_count` are indexed by key code;
`has_event_code_key` stands for `libevdev_has_event_code(evdev, EV_KEY, _)`.
The two callbacks `left_handed.change_to_enabled` and
`scroll.change_scroll_method` are either `NULL` (`false`) or the functions
`evdev_change_to_left_handed` and `evdev_change_scroll_method` installed by
`fallback_dispatch_create` (`true`). `scroll_timer` is the expiry time of the
button-scroll timer when armed. -/
structure Device where
  seat_caps : Nat := 0
  is_mt : Bool := false
  hw_key_mask : Nat → Bool := fun _ => false
  key_count : Nat → Int := fun _ => 0
  has_event_code_key : Nat → Bool := fun _ => false
  pending_event : evdev_event_type := EVDEV_NONE
  rel_dx : ℚ := 0
  rel_dy : ℚ := 0
  abs_x : Int := 0
  abs_y : Int := 0
  abs_seat_slot : Int := -1
  abs_apply_calibration : Bool := false
  abs_calibration : matrix := {}
  abs_usermatrix : matrix := {}
  abs_default_calibration : matrix := {}
  abs_absinfo_x : Option input_absinfo := none
  abs_absinfo_y : Option input_absinfo := none
  mt_slot : Int := 0
  mt_slots : List Evdev.mt_slot := []
  mt_aux_data_list : Option (List (List mt_aux_data)) := none
  dpi : Int := DEFAULT_MOUSE_DPI
  pointer_filter : Option motion_filter := none
  scroll_method : libinput_config_scroll_method := LIBINPUT_CONFIG_SCROLL_NO_SCROLL
  scroll_button : Nat := 0
  scroll_want_method : libinput_config_scroll_method := LIBINPUT_CONFIG_SCROLL_NO_SCROLL
  scroll_want_button : Nat := 0
  scroll_button_scroll_active : Bool := false
  scroll_timer : Option Nat := none
  scroll_direction : Nat := 0
  scroll_buildup_vertical : ℚ := 0
  scroll_buildup_horizontal : ℚ := 0
  scroll_threshold : ℚ := 5
  scroll_wheel_click_angle : Int := 15
  scroll_natural_scrolling_enabled : Bool := false
  scroll_change_scroll_method : Bool := false
  left_handed_enabled : Bool := false
  left_handed_want_enabled : Bool := false
  left_handed_change_to_enabled : Bool := false

/-- What the translation of one device works on: the device, the touch slot
bitmap `seat->slot_map` of its seat, and the notifications posted so far. -/
structure State where
  dev : Device := {}
  slot_map : Nat := 0
  out : List Notification := []

/-- Post one notification to the consumer. -/
def State.post (s : State) (n : Notification) : State :=
  { s with out := s.out ++ [n] }

/-! ## Key and button tracker -/

/-- The function `long_set_bit_state(device->hw_key_mask, code, pressed)`. -/
def hw_set_key_down (d : Device) (code : Nat) (pressed : Int) : Device :=
  { d with hw_key_mask := Function.update d.hw_key_mask code (decide (pressed ≠ 0)) }

def hw_is_key_down (d : Device) (code : Nat) : Bool :=
  d.hw_key_mask code

def get_key_down_count (d : Device) (code : Nat) : Int :=
  d.key_count code

/-- The ledger update. The element type of `key_count` is declared in
`evdev.h`; following the data model of the specification the count is an
integer without upper bound. Both `assert`s are kept: a code outside the
ledger and a release at count `0` give `none`. -/
def update_key_down_count (d : Device) (code : Nat) (pressed : Int) : Option (Device × Int) :=
  if code < KEY_CNT then
    if pressed ≠ 0 then
      let key_count := d.key_count code + 1
      some ({ d with key_count := Function.update d.key_count code key_count }, key_count)
    else if 0 < d.key_count code then
      let key_count := d.key_count code - 1
      some ({ d with key_count := Function.update d.key_count code key_count }, key_count)
    else none
  else none

/-- The parameter `time` is a `uint32_t`, the callers pass the `uint64_t`
time of the event in milliseconds: the notification carries the time modulo
`2 ^ 32`. -/
def evdev_keyboard_notify_key (s : State) (time : Nat) (key : Nat)
    (state : libinput_key_state) : Option State :=
  match update_key_down_count s.dev key state.toInt with
  | none => none
  | some (d, down_count) =>
    if (state = LIBINPUT_KEY_STATE_PRESSED ∧ down_count = 1) ∨
        (state = LIBINPUT_KEY_STATE_RELEASED ∧ down_count = 0) then
      some ({ s with dev := d }.post (Notification.keyboard_key (time % 2 ^ 32) key state))
    else some { s with dev := d }

def evdev_any_button_down (d : Device) : Bool :=
  (List.range' BTN_LEFT (BTN_JOYSTICK - BTN_LEFT)).any
    (fun button => d.has_event_code_key button && hw_is_key_down d button)

def evdev_change_to_left_handed (d : Device) : Device :=
  if d.left_handed_want_enabled = d.left_handed_enabled then d
  else if evdev_any_button_down d then d
  else { d with left_handed_enabled := d.left_handed_want_enabled }

def evdev_change_scroll_method (d : Device) : Device :=
  if d.scroll_want_method = d.scroll_method ∧ d.scroll_want_button = d.scroll_button then d
  else if evdev_any_button_down d then d
  else { d with scroll_method := d.scroll_want_method, scroll_button := d.scroll_want_button }

/-- The call of `device->left_handed.change_to_enabled`, made after a button
release was notified when the callback is installed. -/
def left_handed_hook (s : State) (state : libinput_button_state) : State :=
  if state = LIBINPUT_BUTTON_STATE_RELEASED ∧ s.dev.left_handed_change_to_enabled then
    { s with dev := evdev_change_to_left_handed s.dev }
  else s

/-- The call of `device->scroll.change_scroll_method`, made after a button
release was notified when the callback is installed. -/
def scroll_method_hook (s : State) (state : libinput_button_state) : State :=
  if state = LIBINPUT_BUTTON_STATE_RELEASED ∧ s.dev.scroll_change_scroll_method then
    { s with dev := evdev_change_scroll_method s.dev }
  else s

/-- The parameter `time` is a `uint32_t`, as in `evdev_keyboard_notify_key`:
the notification carries the time modulo `2 ^ 32`. -/
def evdev_pointer_notify_button (s : State) (time : Nat) (button : Nat)
    (state : libinput_button_state) : Option State :=
  match update_key_down_count s.dev button state.toInt with
  | none => none
  | some (d, down_count) =>
    if (state = LIBINPUT_BUTTON_STATE_PRESSED ∧ down_count = 1) ∨
        (state = LIBINPUT_BUTTON_STATE_RELEASED ∧ down_count = 0) then
      some (scroll_method_hook
        (left_handed_hook
          ({ s with dev := d }.post
            (Notification.pointer_button (time % 2 ^ 32) button state)) state)
        state)
    else some { s with dev := d }

/-- Modelled from the spec: the inline helper `evdev_to_left_handed` of
`evdev.h` (not part of the sources at hand) behind the left-handed toggle:
with left-handed mode enabled the left and the right button are exchanged. -/
def evdev_to_left_handed (d : Device) (button : Nat) : Nat :=
  if d.left_handed_enabled then
    if button = BTN_LEFT then BTN_RIGHT
    else if button = BTN_RIGHT then BTN_LEFT
    else button
  else button

def get_key_type (code : Nat) : evdev_key_type :=
  if code = BTN_TOUCH then EVDEV_KEY_TYPE_NONE
  else if KEY_ESC ≤ code ∧ code ≤ KEY_MICMUTE then EVDEV_KEY_TYPE_KEY
  else if BTN_MISC ≤ code ∧ code ≤ BTN_GEAR_UP then EVDEV_KEY_TYPE_BUTTON
  else if KEY_OK ≤ code ∧ code ≤ KEY_LIGHTS_TOGGLE then EVDEV_KEY_TYPE_KEY
  else if BTN_DPAD_UP ≤ code ∧ code ≤ BTN_TRIGGER_HAPPY40 then EVDEV_KEY_TYPE_BUTTON
  else EVDEV_KEY_TYPE_NONE

/-! ## Calibration transform -/

/-- Conversion of a `float` to `int`: truncation toward zero. -/
def trunc (q : ℚ) : Int :=
  Int.tdiv q.num q.den

/-- Modelled from the spec: `matrix_mult_vec` of `libinput-util.h` (not part
of the sources at hand), the application of the affine transform to a
coordinate pair, the results stored back into `int`s. -/
def matrix_mult_vec (m : matrix) (x y : Int) : Int × Int :=
  (trunc (x * m.v00 + y * m.v01 + m.v02), trunc (x * m.v10 + y * m.v11 + m.v12))

def transform_absolute (d : Device) (x y : Int) : Int × Int :=
  if !d.abs_apply_calibration then (x, y)
  else matrix_mult_vec d.abs_calibration x y

/-! ## Scroll state machine -/

def evdev_notify_axis (s : State) (time : Nat) (axes : Nat)
    (source : libinput_pointer_axis_source) (x y x_discrete y_discrete : ℚ) : State :=
  if s.dev.scroll_natural_scrolling_enabled then
    s.post (Notification.pointer_axis time axes source (x * -1) (y * -1)
      (x_discrete * -1) (y_discrete * -1))
  else
    s.post (Notification.pointer_axis time axes source x y x_discrete y_discrete)

def evdev_is_scrolling (d : Device) (axis : Nat) : Bool :=
  d.scroll_direction &&& AS_MASK axis != 0

def evdev_start_scrolling (d : Device) (axis : Nat) : Device :=
  { d with scroll_direction := d.scroll_direction ||| AS_MASK axis }

/-- The C library function `fabs`. -/
def fabs (x : ℚ) : ℚ := |x|

/-- Rounding of a rational to an integer nearest to it, a tie going to the
even one. -/
def round_half_even (x : ℚ) : Int :=
  let f : Int := ⌊x⌋
  let r : ℚ := x - f
  if r < 1 / 2 then f
  else if 1 / 2 < r then f + 1
  else if f % 2 = 0 then f else f + 1

/-- The `double` (IEEE 754 binary64) nearest to the rational `q`, a tie going
to the even significand, the rounding of the arithmetic operators of C in the
default rounding mode. With `e` the binary exponent of `q`, at least `-1022`
(below it the value is subnormal), the doubles around `q` are the multiples of
`2 ^ (e - 52)`. A result beyond the largest double, an infinity in C, is not
represented. -/
def double_round (q : ℚ) : ℚ :=
  if q = 0 then 0
  else
    let e : Int := max (Int.log 2 |q|) (-1022)
    let ulp : ℚ := 2 ^ (e - 52)
    (round_half_even (q / ulp) : ℚ) * ulp

/-- The operator `+` on two `double` values. -/
def double_add (a b : ℚ) : ℚ := double_round (a + b)

/-- The value of a `double` that starts at `0` and has the values of the list
added to it one after the other with `+=`. -/
def double_sum (l : List ℚ) : ℚ := l.foldl double_add 0

/-- First block of `evdev_post_scroll`: the deltas are added to the buildup of
each axis that is not scrolling yet, with the rounding of `+=` on a `double`. -/
def scroll_add_buildup (d0 : Device) (dx dy : ℚ) : Device :=
  let d1 : Device :=
    if !evdev_is_scrolling d0 LIBINPUT_POINTER_AXIS_SCROLL_VERTICAL then
      { d0 with scroll_buildup_vertical := double_add d0.scroll_buildup_vertical dy }
    else d0
  if !evdev_is_scrolling d1 LIBINPUT_POINTER_AXIS_SCROLL_HORIZONTAL then
    { d1 with scroll_buildup_horizontal := double_add d1.scroll_buildup_horizontal dx }
  else d1

/-- Second block of `evdev_post_scroll`: the distance trigger when no axis is
scrolling, the speed trigger for the other axis when one is. -/
def scroll_trigger (d2 : Device) (dx dy : ℚ) : Device :=
  let trigger_vert := d2.scroll_buildup_vertical
  let trigger_horiz := d2.scroll_buildup_horizontal
  if !evdev_is_scrolling d2 LIBINPUT_POINTER_AXIS_SCROLL_HORIZONTAL &&
      !evdev_is_scrolling d2 LIBINPUT_POINTER_AXIS_SCROLL_VERTICAL then
    let d2a : Device :=
      if fabs trigger_vert ≥ d2.scroll_threshold then
        evdev_start_scrolling d2 LIBINPUT_POINTER_AXIS_SCROLL_VERTICAL
      else d2
    if fabs trigger_horiz ≥ d2a.scroll_threshold then
      evdev_start_scrolling d2a LIBINPUT_POINTER_AXIS_SCROLL_HORIZONTAL
    else d2a
  else if !evdev_is_scrolling d2 LIBINPUT_POINTER_AXIS_SCROLL_VERTICAL then
    if fabs dy ≥ d2.scroll_threshold then
      evdev_start_scrolling d2 LIBINPUT_POINTER_AXIS_SCROLL_VERTICAL
    else d2
  else if !evdev_is_scrolling d2 LIBINPUT_POINTER_AXIS_SCROLL_HORIZONTAL then
    if fabs dx ≥ d2.scroll_threshold then
      evdev_start_scrolling d2 LIBINPUT_POINTER_AXIS_SCROLL_HORIZONTAL
    else d2
  else d2

/-- Third block of `evdev_post_scroll`: the delta of an axis that is not
scrolling is dropped, and what is left is notified unless it is all zero. -/
def scroll_emit (s3 : State) (time : Nat) (source : libinput_pointer_axis_source)
    (dx dy : ℚ) : State :=
  let dy1 : ℚ :=
    if !evdev_is_scrolling s3.dev LIBINPUT_POINTER_AXIS_SCROLL_VERTICAL then 0 else dy
  let dx1 : ℚ :=
    if !evdev_is_scrolling s3.dev LIBINPUT_POINTER_AXIS_SCROLL_HORIZONTAL then 0 else dx
  if dx1 ≠ 0 ∨ dy1 ≠ 0 then
    evdev_notify_axis s3 time s3.dev.scroll_direction source dx1 dy1 0 0
  else s3

def evdev_post_scroll (s : State) (time : Nat) (source : libinput_pointer_axis_source)
    (dx dy : ℚ) : State :=
  scroll_emit { s with dev := scroll_trigger (scroll_add_buildup s.dev dx dy) dx dy }
    time source dx dy

def evdev_stop_scroll (s : State) (time : Nat) (source : libinput_pointer_axis_source) : State :=
  let s1 : State :=
    if s.dev.scroll_direction ≠ 0 then
      s.post (Notification.pointer_axis time s.dev.scroll_direction source 0 0 0 0)
    else s
  { s1 with dev := { s1.dev with
      scroll_buildup_horizontal := 0, scroll_buildup_vertical := 0, scroll_direction := 0 } }

/-! ## Seat slot bitmap -/

/-- Bitwise complement of a 32-bit value. -/
def bnot32 (x : Nat) : Nat :=
  (2 ^ 32 - 1) ^^^ (x % 2 ^ 32)

/-- The lowest set bit of `x` among the `n` bits from position `i` on. -/
def lowest_set (x : Nat) : Nat → Nat → Option Nat
  | 0, _ => none
  | n + 1, i => if x.testBit i then some i else lowest_set x n (i + 1)

/-- The C library function `ffs` on a 32-bit `int`: one plus the index of the
least significant set bit, `0` when no bit is set. -/
def ffs (x : Nat) : Nat :=
  match lowest_set x 32 0 with
  | some i => i + 1
  | none => 0

/-- The statement `seat->slot_map |= 1 << seat_slot`. -/
def slot_map_set (slot_map : Nat) (seat_slot : Int) : Nat :=
  (slot_map ||| (1 <<< seat_slot.toNat)) % 2 ^ 32

/-- The statement `seat->slot_map &= ~(1 << seat_slot)`; a shift count outside
`0 .. 31` is undefined in C and gives `none`. -/
def slot_map_clear (slot_map : Nat) (seat_slot : Int) : Option Nat :=
  if 0 ≤ seat_slot ∧ seat_slot < 32 then
    some (slot_map &&& bnot32 (1 <<< seat_slot.toNat))
  else none

/-! ## Pending-event buffer -/

/-- The read of `device->mt.slots[device->mt.slot]`; `none` outside the table. -/
def mt_slot_data (d : Device) : Option mt_slot :=
  if 0 ≤ d.mt_slot then d.mt_slots[d.mt_slot.toNat]? else none

/-- The write of `device->mt.slots[device->mt.slot]`. -/
def mt_slot_store (d : Device) (v : mt_slot) : Device :=
  { d with mt_slots := d.mt_slots.set d.mt_slot.toNat v }

/-- The read of `device->mt.aux_data_list[slot]`; `none` when the array is
`NULL` or the slot is outside of it. -/
def mt_aux_list (d : Device) (slot : Int) : Option (List mt_aux_data) :=
  match d.mt_aux_data_list with
  | none => none
  | some lists => if 0 ≤ slot then lists[slot.toNat]? else none

/-- The write of `device->mt.aux_data_list[slot]`. -/
def mt_aux_list_store (d : Device) (slot : Int) (l : List mt_aux_data) : Device :=
  { d with mt_aux_data_list := d.mt_aux_data_list.map (fun lists => lists.set slot.toNat l) }

def evdev_flush_extra_aux_data (s : State) (time : Nat) (slot : Int) (seat_slot : Int) :
    Option State :=
  match mt_aux_list s.dev slot with
  | none => none
  | some l =>
    some { s with
      dev := mt_aux_list_store s.dev slot
        (l.map (fun a => if a.changed then { a with changed := false } else a)),
      out := s.out ++ (l.filter (fun a => a.changed)).map
        (fun a => Notification.touch_aux_data time slot seat_slot a.code a.value) }

/-- The statement `device->pending_event = EVDEV_NONE` that ends a flush. -/
def State.clear_pending (s : State) : State :=
  { s with dev := { s.dev with pending_event := EVDEV_NONE } }

/-- The call `filter_dispatch(device->pointer.filter, &motion, device, time)`
when a filter is present; without a filter the motion is left as it is. -/
def apply_filter (d : Device) (dx dy : ℚ) (time : Nat) : Device × ℚ × ℚ :=
  match d.pointer_filter with
  | some f =>
    ({ d with pointer_filter := some { f with calls := f.calls ++ [(dx, dy, time)] } },
      f.filter f.calls (dx, dy) time)
  | none => (d, dx, dy)

/-- The body of `case EVDEV_RELATIVE_MOTION:` of the flush, up to its `break`. -/
def flush_case_relative_motion (s : State) (time : Nat) : Option State :=
  let d := s.dev
  let dx_unaccel := d.rel_dx / ((d.dpi : ℚ) / (DEFAULT_MOUSE_DPI : ℚ))
  let dy_unaccel := d.rel_dy / ((d.dpi : ℚ) / (DEFAULT_MOUSE_DPI : ℚ))
  let s1 : State := { s with dev := { d with rel_dx := 0, rel_dy := 0 } }
  if d.scroll_method = LIBINPUT_CONFIG_SCROLL_ON_BUTTON_DOWN ∧
      hw_is_key_down d d.scroll_button then
    if d.scroll_button_scroll_active then
      some (evdev_post_scroll s1 time LIBINPUT_POINTER_AXIS_SOURCE_CONTINUOUS
        dx_unaccel dy_unaccel).clear_pending
    else some s1.clear_pending
  else
    let r := apply_filter s1.dev dx_unaccel dy_unaccel time
    let s2 : State := { s1 with dev := r.1 }
    if r.2.1 = 0 ∧ r.2.2 = 0 ∧ dx_unaccel = 0 ∧ dy_unaccel = 0 then
      some s2.clear_pending
    else
      some (s2.post (Notification.pointer_motion time r.2.1 r.2.2
        dx_unaccel dy_unaccel)).clear_pending

/-- The body of `case EVDEV_ABSOLUTE_MT_DOWN:` of the flush, up to its `break`. -/
def flush_case_mt_down (s : State) (time : Nat) : Option State :=
  let d := s.dev
  if d.seat_caps &&& EVDEV_DEVICE_TOUCH = 0 then some s.clear_pending
  else
    match mt_slot_data d with
    | none => none
    | some slot_data =>
      if slot_data.seat_slot ≠ -1 then some s.clear_pending
      else
        let seat_slot : Int := (ffs (bnot32 s.slot_map) : Int) - 1
        let s1 : State := { s with dev := mt_slot_store d { slot_data with seat_slot := seat_slot } }
        if seat_slot = -1 then some s1.clear_pending
        else
          let s2 : State := { s1 with slot_map := slot_map_set s1.slot_map seat_slot }
          let xy := transform_absolute s2.dev slot_data.x slot_data.y
          match evdev_flush_extra_aux_data s2 time d.mt_slot seat_slot with
          | none => none
          | some s3 =>
            some (s3.post (Notification.touch_down time d.mt_slot seat_slot xy.1 xy.2
              slot_data.area slot_data.pressure)).clear_pending

/-- The body of `case EVDEV_ABSOLUTE_MT_MOTION:` of the flush, up to its `break`. -/
def flush_case_mt_motion (s : State) (time : Nat) : Option State :=
  let d := s.dev
  if d.seat_caps &&& EVDEV_DEVICE_TOUCH = 0 then some s.clear_pending
  else
    match mt_slot_data d with
    | none => none
    | some slot_data =>
      let seat_slot := slot_data.seat_slot
      if seat_slot = -1 then some s.clear_pending
      else
        let xy := transform_absolute d slot_data.x slot_data.y
        match evdev_flush_extra_aux_data s time d.mt_slot seat_slot with
        | none => none
        | some s3 =>
          some (s3.post (Notification.touch_motion time d.mt_slot seat_slot xy.1 xy.2
            slot_data.area slot_data.pressure)).clear_pending

/-- The body of `case EVDEV_ABSOLUTE_MT_UP:` of the flush, up to its `break`. -/
def flush_case_mt_up (s : State) (time : Nat) : Option State :=
  let d := s.dev
  if d.seat_caps &&& EVDEV_DEVICE_TOUCH = 0 then some s.clear_pending
  else
    match mt_slot_data d with
    | none => none
    | some slot_data =>
      let seat_slot := slot_data.seat_slot
      let s1 : State := { s with dev := mt_slot_store d { slot_data with seat_slot := -1 } }
      if seat_slot = -1 then some s1.clear_pending
      else
        match slot_map_clear s1.slot_map seat_slot with
        | none => none
        | some m =>
          match evdev_flush_extra_aux_data { s1 with slot_map := m } time d.mt_slot seat_slot with
          | none => none
          | some s3 =>
            some (s3.post (Notification.touch_up time d.mt_slot seat_slot)).clear_pending

/-- The body of `case EVDEV_ABSOLUTE_TOUCH_DOWN:` of the flush, up to its `break`. -/
def flush_case_touch_down (s : State) (time : Nat) : Option State :=
  let d := s.dev
  if d.seat_caps &&& EVDEV_DEVICE_TOUCH = 0 then some s.clear_pending
  else if d.abs_seat_slot ≠ -1 then some s.clear_pending
  else
    let seat_slot : Int := (ffs (bnot32 s.slot_map) : Int) - 1
    let s1 : State := { s with dev := { d with abs_seat_slot := seat_slot } }
    if seat_slot = -1 then some s1.clear_pending
    else
      let s2 : State := { s1 with slot_map := slot_map_set s1.slot_map seat_slot }
      let cxy := transform_absolute s2.dev d.abs_x d.abs_y
      some (s2.post (Notification.touch_down time (-1) seat_slot cxy.1 cxy.2
        { major := DEFAULT_TOUCH_MAJOR, minor := DEFAULT_TOUCH_MINOR,
          orientation := DEFAULT_TOUCH_ORIENTATION } DEFAULT_TOUCH_PRESSURE)).clear_pending

/-- The body of `case EVDEV_ABSOLUTE_MOTION:` of the flush, up to its `break`. -/
def flush_case_absolute_motion (s : State) (time : Nat) : Option State :=
  let d := s.dev
  let cxy := transform_absolute d d.abs_x d.abs_y
  if d.seat_caps &&& EVDEV_DEVICE_TOUCH ≠ 0 then
    let seat_slot := d.abs_seat_slot
    if seat_slot = -1 then some s.clear_pending
    else
      some (s.post (Notification.touch_motion time (-1) seat_slot cxy.1 cxy.2
        { major := DEFAULT_TOUCH_MAJOR, minor := DEFAULT_TOUCH_MINOR,
          orientation := DEFAULT_TOUCH_ORIENTATION } DEFAULT_TOUCH_PRESSURE)).clear_pending
  else if d.seat_caps &&& EVDEV_DEVICE_POINTER ≠ 0 then
    some (s.post (Notification.pointer_motion_absolute time cxy.1 cxy.2)).clear_pending
  else some s.clear_pending

/-- The body of `case EVDEV_ABSOLUTE_TOUCH_UP:` of the flush, up to its `break`. -/
def flush_case_touch_up (s : State) (time : Nat) : Option State :=
  let d := s.dev
  if d.seat_caps &&& EVDEV_DEVICE_TOUCH = 0 then some s.clear_pending
  else
    let seat_slot := d.abs_seat_slot
    let s1 : State := { s with dev := { d with abs_seat_slot := -1 } }
    if seat_slot = -1 then some s1.clear_pending
    else
      match slot_map_clear s1.slot_map seat_slot with
      | none => none
      | some m =>
        some ({ s1 with slot_map := m }.post
          (Notification.touch_up time (-1) seat_slot)).clear_pending

/-- The function `evdev_flush_pending_event`: the `switch` on the pending kind;
every case but `EVDEV_NONE` ends with `device->pending_event = EVDEV_NONE`,
which is `State.clear_pending` in the case bodies. -/
def evdev_flush_pending_event (s : State) (time : Nat) : Option State :=
  match s.dev.pending_event with
  | EVDEV_NONE => some s
  | EVDEV_RELATIVE_MOTION => flush_case_relative_motion s time
  | EVDEV_ABSOLUTE_MT_DOWN => flush_case_mt_down s time
  | EVDEV_ABSOLUTE_MT_MOTION => flush_case_mt_motion s time
  | EVDEV_ABSOLUTE_MT_UP => flush_case_mt_up s time
  | EVDEV_ABSOLUTE_TOUCH_DOWN => flush_case_touch_down s time
  | EVDEV_ABSOLUTE_MOTION => flush_case_absolute_motion s time
  | EVDEV_ABSOLUTE_TOUCH_UP => flush_case_touch_up s time

/-! ## Raw event processing -/

/-- The timer callback: the button-scroll timer has fired. -/
def evdev_button_scroll_timeout (d : Device) : Device :=
  { d with scroll_button_scroll_active := true }

def evdev_button_scroll_button (s : State) (time : Nat) (is_press : Int) : Option State :=
  if is_press ≠ 0 then
    some { s with dev := { s.dev with
      scroll_timer := some (time + DEFAULT_MIDDLE_BUTTON_SCROLL_TIMEOUT) } }
  else
    let s1 : State := { s with dev := { s.dev with scroll_timer := none } }
    if s1.dev.scroll_button_scroll_active then
      let s2 := evdev_stop_scroll s1 time LIBINPUT_POINTER_AXIS_SOURCE_CONTINUOUS
      some { s2 with dev := { s2.dev with scroll_button_scroll_active := false } }
    else
      match evdev_pointer_notify_button s1 time s1.dev.scroll_button
          LIBINPUT_BUTTON_STATE_PRESSED with
      | none => none
      | some s2 =>
        evdev_pointer_notify_button s2 time s2.dev.scroll_button
          LIBINPUT_BUTTON_STATE_RELEASED

def evdev_process_touch_button (s : State) (time : Nat) (value : Int) : Option State :=
  let flushed : Option State :=
    if s.dev.pending_event ≠ EVDEV_NONE ∧ s.dev.pending_event ≠ EVDEV_ABSOLUTE_MOTION then
      evdev_flush_pending_event s time
    else some s
  match flushed with
  | none => none
  | some s1 =>
    some { s1 with dev := { s1.dev with pending_event :=
      if value ≠ 0 then EVDEV_ABSOLUTE_TOUCH_DOWN else EVDEV_ABSOLUTE_TOUCH_UP } }

def evdev_process_key (s : State) (e : input_event) (time : Nat) : Option State :=
  if e.value = 2 then some s
  else if e.code = BTN_TOUCH then
    if !s.dev.is_mt then evdev_process_touch_button s time e.value else some s
  else
    match evdev_flush_pending_event s time with
    | none => none
    | some s1 =>
      let type := get_key_type e.code
      if e.value = 0 ∧ type ≠ EVDEV_KEY_TYPE_NONE ∧ !hw_is_key_down s1.dev e.code then
        some s1
      else
        let s2 : State := { s1 with dev := hw_set_key_down s1.dev e.code e.value }
        match type with
        | EVDEV_KEY_TYPE_NONE => some s2
        | EVDEV_KEY_TYPE_KEY =>
          evdev_keyboard_notify_key s2 time e.code
            (if e.value ≠ 0 then LIBINPUT_KEY_STATE_PRESSED else LIBINPUT_KEY_STATE_RELEASED)
        | EVDEV_KEY_TYPE_BUTTON =>
          if s2.dev.scroll_method = LIBINPUT_CONFIG_SCROLL_ON_BUTTON_DOWN ∧
              e.code = s2.dev.scroll_button then
            evdev_button_scroll_button s2 time e.value
          else
            evdev_pointer_notify_button s2 time (evdev_to_left_handed s2.dev e.code)
              (if e.value ≠ 0 then LIBINPUT_BUTTON_STATE_PRESSED
               else LIBINPUT_BUTTON_STATE_RELEASED)

/-- The loop of `evdev_process_touch_extra_aux_data` over one list: the first
entry with the code of the event takes the value, and is marked changed when
the value differs. -/
def aux_data_update : List mt_aux_data → Nat → Int → List mt_aux_data × Bool
  | [], _, _ => ([], false)
  | a :: rest, code, value =>
    if a.code = code then
      ((if a.value ≠ value then { a with changed := true, value := value } else a) :: rest, true)
    else
      let r := aux_data_update rest code value
      (a :: r.1, r.2)

def evdev_process_touch_extra_aux_data (d : Device) (e : input_event) : Option (Device × Bool) :=
  match d.mt_aux_data_list with
  | none => some (d, false)
  | some _ =>
    match mt_aux_list d d.mt_slot with
    | none => none
    | some current_axis_list =>
      if current_axis_list.isEmpty then some (d, false)
      else
        let r := aux_data_update current_axis_list e.code e.value
        some (mt_aux_list_store d d.mt_slot r.1, r.2)

/-- A write to one field of the active slot in `evdev_process_touch`. -/
def mt_slot_modify (d : Device) (f : mt_slot → mt_slot) : Option Device :=
  match mt_slot_data d with
  | none => none
  | some current_slot => some (mt_slot_store d (f current_slot))

/-- The last statement of `evdev_process_touch`: wake a pending motion. -/
def wake_mt_motion (d : Device) (needs_wake : Bool) : Device :=
  if needs_wake ∧ d.pending_event = EVDEV_NONE then
    { d with pending_event := EVDEV_ABSOLUTE_MT_MOTION }
  else d

def evdev_process_touch (s : State) (e : input_event) (time : Nat) : Option State :=
  if e.code = ABS_MT_SLOT then
    match evdev_flush_pending_event s time with
    | none => none
    | some s1 => some { s1 with dev := { s1.dev with mt_slot := e.value } }
  else if e.code = ABS_MT_TRACKING_ID then
    let flushed : Option State :=
      if s.dev.pending_event ≠ EVDEV_NONE ∧ s.dev.pending_event ≠ EVDEV_ABSOLUTE_MT_MOTION then
        evdev_flush_pending_event s time
      else some s
    match flushed with
    | none => none
    | some s1 =>
      some { s1 with dev := { s1.dev with pending_event :=
        if e.value ≥ 0 then EVDEV_ABSOLUTE_MT_DOWN else EVDEV_ABSOLUTE_MT_UP } }
  else
    let r : Option (Device × Bool) :=
      if e.code = ABS_MT_POSITION_X then
        (mt_slot_modify s.dev (fun c => { c with x := e.value })).map (fun d => (d, true))
      else if e.code = ABS_MT_POSITION_Y then
        (mt_slot_modify s.dev (fun c => { c with y := e.value })).map (fun d => (d, true))
      else if e.code = ABS_MT_TOUCH_MAJOR then
        (mt_slot_modify s.dev (fun c => { c with area := { c.area with major := e.value } })).map
          (fun d => (d, true))
      else if e.code = ABS_MT_TOUCH_MINOR then
        (mt_slot_modify s.dev (fun c => { c with area := { c.area with minor := e.value } })).map
          (fun d => (d, true))
      else if e.code = ABS_MT_ORIENTATION then
        (mt_slot_modify s.dev
          (fun c => { c with area := { c.area with orientation := e.value } })).map
          (fun d => (d, true))
      else evdev_process_touch_extra_aux_data s.dev e
    match r with
    | none => none
    | some (d, needs_wake) => some { s with dev := wake_mt_motion d needs_wake }

def evdev_process_absolute_motion (d : Device) (e : input_event) : Device :=
  if e.code = ABS_X then
    let d1 := { d with abs_x := e.value }
    if d1.pending_event = EVDEV_NONE then { d1 with pending_event := EVDEV_ABSOLUTE_MOTION }
    else d1
  else if e.code = ABS_Y then
    let d1 := { d with abs_y := e.value }
    if d1.pending_event = EVDEV_NONE then { d1 with pending_event := EVDEV_ABSOLUTE_MOTION }
    else d1
  else d

def evdev_process_relative (s : State) (e : input_event) (time : Nat) : Option State :=
  if e.code = REL_X then
    let flushed : Option State :=
      if s.dev.pending_event ≠ EVDEV_RELATIVE_MOTION then evdev_flush_pending_event s time
      else some s
    match flushed with
    | none => none
    | some s1 =>
      some { s1 with dev := { s1.dev with
        rel_dx := s1.dev.rel_dx + e.value, pending_event := EVDEV_RELATIVE_MOTION } }
  else if e.code = REL_Y then
    let flushed : Option State :=
      if s.dev.pending_event ≠ EVDEV_RELATIVE_MOTION then evdev_flush_pending_event s time
      else some s
    match flushed with
    | none => none
    | some s1 =>
      some { s1 with dev := { s1.dev with
        rel_dy := s1.dev.rel_dy + e.value, pending_event := EVDEV_RELATIVE_MOTION } }
  else if e.code = REL_WHEEL then
    match evdev_flush_pending_event s time with
    | none => none
    | some s1 =>
      some (evdev_notify_axis s1 time (AS_MASK LIBINPUT_POINTER_AXIS_SCROLL_VERTICAL)
        LIBINPUT_POINTER_AXIS_SOURCE_WHEEL 0
        ((-1 * e.value * s1.dev.scroll_wheel_click_angle : Int) : ℚ) 0
        ((-1 * e.value : Int) : ℚ))
  else if e.code = REL_HWHEEL then
    match evdev_flush_pending_event s time with
    | none => none
    | some s1 =>
      some (evdev_notify_axis s1 time (AS_MASK LIBINPUT_POINTER_AXIS_SCROLL_HORIZONTAL)
        LIBINPUT_POINTER_AXIS_SOURCE_WHEEL
        ((e.value * s1.dev.scroll_wheel_click_angle : Int) : ℚ) 0
        ((e.value : Int) : ℚ) 0)
  else some s

def evdev_process_absolute (s : State) (e : input_event) (time : Nat) : Option State :=
  if s.dev.is_mt then evdev_process_touch s e time
  else some { s with dev := evdev_process_absolute_motion s.dev e }

def evdev_need_touch_frame (d : Device) : Bool :=
  if d.seat_caps &&& EVDEV_DEVICE_TOUCH = 0 then false
  else
    match d.pending_event with
    | EVDEV_NONE => false
    | EVDEV_RELATIVE_MOTION => false
    | EVDEV_ABSOLUTE_MT_DOWN => true
    | EVDEV_ABSOLUTE_MT_MOTION => true
    | EVDEV_ABSOLUTE_MT_UP => true
    | EVDEV_ABSOLUTE_TOUCH_DOWN => true
    | EVDEV_ABSOLUTE_TOUCH_UP => true
    | EVDEV_ABSOLUTE_MOTION => true

def fallback_process (s : State) (event : input_event) (time : Nat) : Option State :=
  if event.type = EV_REL then evdev_process_relative s event time
  else if event.type = EV_ABS then evdev_process_absolute s event time
  else if event.type = EV_KEY then evdev_process_key s event time
  else if event.type = EV_SYN then
    let need_frame := evdev_need_touch_frame s.dev
    match evdev_flush_pending_event s time with
    | none => none
    | some s1 => some (if need_frame then s1.post (Notification.touch_frame time) else s1)
  else some s

/-- The entry `evdev_process_event` of a device with the fallback dispatch:
the time in milliseconds is taken from the time stamp of the event. -/
def evdev_process_event (s : State) (e : input_event) : Option State :=
  fallback_process s e (e.tv_sec * 1000 + e.tv_usec / 1000)

/-- A sequence of raw events handed to `evdev_process_event` one by one. -/
def process_events (s : State) : List input_event → Option State
  | [] => some s
  | e :: rest =>
    match evdev_process_event s e with
    | none => none
    | some s1 => process_events s1 rest

/-! ## Seat: several devices sharing one slot bitmap -/

/-- A seat: the shared bitmap `slot_map`, the devices of the seat, and the
notifications posted so far, each with the index of the posting device. All
devices are driven from one thread, one raw event at a time. -/
structure Seat where
  slot_map : Nat := 0
  devices : List Device := []
  out : List (Nat × Notification) := []

/-- One raw event of device number `n` of the seat goes through
`evdev_process_event` with the bitmap of the seat. -/
def seat_process (seat : Seat) (n : Nat) (e : input_event) : Option Seat :=
  match seat.devices[n]? with
  | none => none
  | some d =>
    match evdev_process_event { dev := d, slot_map := seat.slot_map, out := [] } e with
    | none => none
    | some s1 =>
      some { slot_map := s1.slot_map, devices := seat.devices.set n s1.dev,
             out := seat.out ++ s1.out.map (fun x => (n, x)) }

/-- A sequence of raw events, each with the number of its device. -/
def seat_process_events (seat : Seat) : List (Nat × input_event) → Option Seat
  | [] => some seat
  | (n, e) :: rest =>
    match seat_process seat n e with
    | none => none
    | some seat1 => seat_process_events seat1 rest

/-- Key and button notifications, the two kinds posted by the key tracker. -/
def Notification.is_key_or_button : Notification → Bool
  | Notification.keyboard_key _ _ _ => true
  | Notification.pointer_button _ _ _ => true
  | _ => false

/-! ## Vocabulary for the seat slot properties -/

/-- The seat-slot ids held by a device: the id of the single-touch stream
first, then the id of each multitouch slot in the order of the slot table. -/
def Device.assign (d : Device) : List Int :=
  d.abs_seat_slot :: d.mt_slots.map (fun sl => sl.seat_slot)

/-- Position in `Device.assign` of the hardware slot `j` as it appears in the
touch notifications: `-1` is the single-touch stream, `0, 1, ...` are the
multitouch slots. -/
def slot_index (j : Int) : Nat := (j + 1).toNat

/-- Number of multitouch slots and single-touch streams of a device whose
seat-slot id is `i`. -/
def Device.owners (d : Device) (i : Nat) : Nat :=
  d.assign.count (i : Int)

/-- Number of multitouch slots and single-touch streams of all devices of the
seat whose seat-slot id is `i`. -/
def Seat.owners (seat : Seat) (i : Nat) : Nat :=
  (seat.devices.map (fun d => d.owners i)).sum

/-- Touch down, motion and up notifications. -/
def Notification.is_touch : Notification → Bool
  | Notification.touch_down _ _ _ _ _ _ _ => true
  | Notification.touch_motion _ _ _ _ _ _ _ => true
  | Notification.touch_up _ _ _ => true
  | _ => false

/-- What one raw event can do to the seat slots, as a relation between the
state before and after: nothing (`quiet`), a touch motion on a slot that holds
an id, a touch down that gives the lowest free id to an unassigned slot, or a
touch up that frees the id of a slot. In each case `extra` is what the event
posted, with at most one touch notification in it. -/
inductive touch_step (s s1 : State) : Prop
  | quiet (extra : List Notification) (hout : s1.out = s.out ++ extra)
      (he : extra.filter Notification.is_touch = [])
      (ha : s1.dev.assign = s.dev.assign) (hm : s1.slot_map = s.slot_map)
  | motion (extra : List Notification) (hout : s1.out = s.out ++ extra)
      (t : Nat) (j k x y : Int) (a : ellipse) (p : Int)
      (he : extra.filter Notification.is_touch = [Notification.touch_motion t j k x y a p])
      (hj : -1 ≤ j) (hk : s.dev.assign[slot_index j]? = some k) (hne : k ≠ -1)
      (ha : s1.dev.assign = s.dev.assign) (hm : s1.slot_map = s.slot_map)
  | down (extra : List Notification) (hout : s1.out = s.out ++ extra)
      (t : Nat) (j : Int) (k : Nat) (x y : Int) (a : ellipse) (p : Int)
      (he : extra.filter Notification.is_touch =
        [Notification.touch_down t j (k : Int) x y a p])
      (hj : -1 ≤ j) (hfree : s.dev.assign[slot_index j]? = some (-1))
      (hk : k < 32) (hclear : s.slot_map.testBit k = false)
      (ha : s1.dev.assign = s.dev.assign.set (slot_index j) (k : Int))
      (hm : s1.slot_map = slot_map_set s.slot_map (k : Int))
  | up (extra : List Notification) (hout : s1.out = s.out ++ extra)
      (t : Nat) (j : Int) (k : Nat)
      (he : extra.filter Notification.is_touch = [Notification.touch_up t j (k : Int)])
      (hj : -1 ≤ j) (hheld : s.dev.assign[slot_index j]? = some (k : Int))
      (hk : k < 32)
      (ha : s1.dev.assign = s.dev.assign.set (slot_index j) (-1))
      (hm : s1.slot_map = s.slot_map &&& bnot32 (1 <<< k))

/-- A step that posts no touch notification and changes neither the seat-slot
ids nor the bitmap. -/
def quiet_step (s s1 : State) : Prop :=
  ∃ extra : List Notification, s1.out = s.out ++ extra ∧
    extra.filter Notification.is_touch = [] ∧
    s1.dev.assign = s.dev.assign ∧ s1.slot_map = s.slot_map

/-- The seat is consistent: the bitmap fits 32 bits and every seat-slot id is
held by exactly one slot or stream when its bit is set, by none when it is
clear. -/
def Seat.consistent (seat : Seat) : Prop :=
  seat.slot_map < 2 ^ 32 ∧ ∀ i : Nat, seat.owners i = (seat.slot_map.testBit i).toNat

/-- What a step leaves alone as far as the key tracker is concerned: the
ledger, the hardware key bitmap, and the key and button notifications; the
notifications posted before are kept and the new ones are neither key nor
button notifications. -/
def keys_untouched (s s1 : State) : Prop :=
  s1.dev.key_count = s.dev.key_count ∧ s1.dev.hw_key_mask = s.dev.hw_key_mask ∧
  ∃ extra : List Notification, s1.out = s.out ++ extra ∧
    ∀ n ∈ extra, n.is_key_or_button = false

/-! ## Concrete devices and states used as witnesses -/

/-- A ledger with count 40 on key code 30. -/
def ledger_at_40 : Device :=
  { key_count := fun c => if c = 30 then 40 else 0 }

/-- A mouse with a pending relative motion of 3 units and no key down. -/
def moving_mouse : State :=
  { dev := { seat_caps := EVDEV_DEVICE_POINTER, pending_event := EVDEV_RELATIVE_MOTION,
             rel_dx := 3 } }

/-- The release of key code 30. -/
def release_key_30 : input_event :=
  { type := EV_KEY, code := 30, value := 0 }

/-- A device right after creation: nothing pending, empty ledger. -/
def idle_state : State := {}

/-- Successive calls of `evdev_post_scroll`, each with its time and its deltas
`(time, dx, dy)`. -/
def post_scroll_calls (s : State) (source : libinput_pointer_axis_source) :
    List (Nat × ℚ × ℚ) → State
  | [] => s
  | c :: rest => post_scroll_calls (evdev_post_scroll s c.1 source c.2.1 c.2.2) source rest

/-- Calls of `evdev_post_scroll` with `dx = 0`, given as `(time, dy)`. -/
def vertical_calls (l : List (Nat × ℚ)) : List (Nat × ℚ × ℚ) :=
  l.map (fun c => (c.1, 0, c.2))

/-- Vertical axis latched, a horizontal buildup of 100 far above the
threshold 5, horizontal axis not latched. -/
def vertical_latched : State :=
  { dev := { scroll_direction := 1, scroll_buildup_horizontal := 100, scroll_threshold := 5 } }

/-- An idle device with natural scrolling enabled and the default threshold 5. -/
def natural_scroll_idle : State :=
  { dev := { scroll_natural_scrolling_enabled := true, scroll_threshold := 5 } }

/-- An idle device whose scroll threshold is 0. -/
def zero_threshold_idle : State :=
  { dev := { scroll_threshold := 0 } }

/-- A multitouch touchscreen with two slots, the second one active and
unassigned, and a touch-down pending on it. -/
def touchscreen_down_pending : Device :=
  { seat_caps := EVDEV_DEVICE_TOUCH, is_mt := true,
    mt_slots := [{}, { x := 10, y := 20 }], mt_slot := 1,
    mt_aux_data_list := some [[], []],
    pending_event := EVDEV_ABSOLUTE_MT_DOWN }

/-- The touchscreen on a seat whose 32 seat slots are all taken. -/
def seat_full_state : State :=
  { dev := touchscreen_down_pending, slot_map := 2 ^ 32 - 1 }

/-- The touchscreen on a seat with seat slots 0, 1 and 2 taken. -/
def seat_three_taken_state : State :=
  { dev := touchscreen_down_pending, slot_map := 7 }

/-- A filter that doubles every motion. -/
def doubling_filter : motion_filter :=
  { filter := fun _ m _ => (2 * m.1, 2 * m.2) }

/-- A frame terminator stamped 1 s 5000 us. -/
def syn_report : input_event :=
  { tv_sec := 1, tv_usec := 5000, type := EV_SYN, code := 0, value := 0 }

/-- A multitouch touchscreen with two unassigned slots, nothing pending. -/
def touchscreen_idle : Device :=
  { seat_caps := EVDEV_DEVICE_TOUCH, is_mt := true,
    mt_slots := [{}, {}], mt_slot := 0, mt_aux_data_list := some [[], []] }

/-- A single-touch touchscreen, nothing pending. -/
def single_touch_idle : Device :=
  { seat_caps := EVDEV_DEVICE_TOUCH }

/-- A fresh seat with the two touchscreens. -/
def fresh_seat : Seat :=
  { devices := [touchscreen_idle, single_touch_idle] }

/-- A finger goes down on the multitouch screen, a second one on the
single-touch screen, then the first finger is lifted. -/
def two_screens_events : List (Nat × input_event) :=
  [(0, { type := EV_ABS, code := ABS_MT_TRACKING_ID, value := 7 }),
   (0, { type := EV_SYN, code := 0, value := 0 }),
   (1, { type := EV_KEY, code := BTN_TOUCH, value := 1 }),
   (1, { type := EV_SYN, code := 0, value := 0 }),
   (0, { type := EV_ABS, code := ABS_MT_TRACKING_ID, value := -1 }),
   (0, { type := EV_SYN, code := 0, value := 0 })]

/-- The seat-slot id at position `idx` of `Device.assign` of device `n` of the
seat, if there is such a device and position. -/
def Seat.holder (seat : Seat) (n : Nat) (idx : Nat) : Option Int :=
  (seat.devices[n]?).bind (fun d => d.assign[idx]?)

/-- The notifications posted between an earlier and a later state of the seat. -/
def Seat.posted_since (later earlier : Seat) : List (Nat × Notification) :=
  later.out.drop earlier.out.length

/-- While a touch is held: slot `j` of device `n` holds seat slot `k`, bit `k`
of the bitmap is set, and no other slot or stream of the seat holds `k`. -/
def Seat.holds (seat : Seat) (n : Nat) (j : Int) (k : Nat) : Prop :=
  seat.holder n (slot_index j) = some (k : Int) ∧ seat.slot_map.testBit k = true ∧
  ∀ m idx, seat.holder m idx = some (k : Int) → m = n ∧ idx = slot_index j

/-- On the fresh seat with two touchscreens: a finger goes down on slot 0 of
the multitouch screen. -/
def finger_down_events : List (Nat × input_event) :=
  [(0, { type := EV_ABS, code := ABS_MT_TRACKING_ID, value := 7 })]

/-- While it is held: it moves, and a second finger goes down on the
single-touch screen. -/
def finger_held_events : List (Nat × input_event) :=
  [(0, { type := EV_ABS, code := ABS_MT_POSITION_X, value := 40 }),
   (0, { type := EV_SYN, code := 0, value := 0 }),
   (1, { type := EV_KEY, code := BTN_TOUCH, value := 1 }),
   (1, { type := EV_SYN, code := 0, value := 0 }),
   (0, { type := EV_ABS, code := ABS_MT_TRACKING_ID, value := -1 })]

/-- A frame terminator. -/
def syn_event : input_event :=
  { type := EV_SYN, code := 0, value := 0 }

/-- A device as made by `evdev_device_create` and configured for button
scrolling on the middle button, nothing pending, no axis latched. -/
def button_scroll_idle : State :=
  { dev := { seat_caps := EVDEV_DEVICE_POINTER,
             scroll_method := LIBINPUT_CONFIG_SCROLL_ON_BUTTON_DOWN,
             scroll_button := BTN_MIDDLE,
             scroll_want_method := LIBINPUT_CONFIG_SCROLL_ON_BUTTON_DOWN,
             scroll_want_button := BTN_MIDDLE } }

/-- The raw event of a key or button `code` going down (`value = 1`) or up
(`value = 0`). -/
def key_event (code : Nat) (value : Int) : input_event :=
  { type := EV_KEY, code := code, value := value }

/-- The raw event of a relative axis `code` moving by `value`. -/
def rel_event (code : Nat) (value : Int) : input_event :=
  { type := EV_REL, code := code, value := value }

/-- A button-scrolling device with the middle button held, button scrolling
active, and a relative motion of `7` units down pending. -/
def button_scroll_moving : State :=
  { dev := { button_scroll_idle.dev with
      hw_key_mask := Function.update (fun _ => false) BTN_MIDDLE true,
      scroll_button_scroll_active := true,
      pending_event := EVDEV_RELATIVE_MOTION,
      rel_dy := 7,
      pointer_filter := some doubling_filter } }

/-! ## Calibration matrix -/

/-- The six user values of a calibration, `const float calibration[6]`: the
two upper rows `[v0 v1 v2; v3 v4 v5]` of the matrix. -/
structure farray6 where
  v0 : ℚ
  v1 : ℚ
  v2 : ℚ
  v3 : ℚ
  v4 : ℚ
  v5 : ℚ
  deriving DecidableEq

/-- Modelled from the spec: `matrix_init_identity` of `libinput-util.h` (the
header is not part of the sources at hand), the identity transform. -/
def matrix_init_identity : matrix :=
  { v00 := 1, v01 := 0, v02 := 0, v10 := 0, v11 := 1, v12 := 0, v20 := 0, v21 := 0, v22 := 1 }

/-- Modelled from the spec: `matrix_from_farray6` of `libinput-util.h`, the
affine transform with the six values as its two upper rows. -/
def matrix_from_farray6 (values : farray6) : matrix :=
  { matrix_init_identity with
    v00 := values.v0, v01 := values.v1, v02 := values.v2,
    v10 := values.v3, v11 := values.v4, v12 := values.v5 }

/-- Modelled from the spec: `matrix_to_farray6` of `libinput-util.h`, the two
upper rows of the matrix. -/
def matrix_to_farray6 (m : matrix) : farray6 :=
  { v0 := m.v00, v1 := m.v01, v2 := m.v02, v3 := m.v10, v4 := m.v11, v5 := m.v12 }

/-- Modelled from the spec: `matrix_is_identity` of `libinput-util.h`. -/
def matrix_is_identity (m : matrix) : Bool :=
  decide (m = matrix_init_identity)

/-- Modelled from the spec: `matrix_init_scale` of `libinput-util.h`. -/
def matrix_init_scale (sx sy : ℚ) : matrix :=
  { matrix_init_identity with v00 := sx, v11 := sy }

/-- Modelled from the spec: `matrix_init_translate` of `libinput-util.h`. -/
def matrix_init_translate (x y : ℚ) : matrix :=
  { matrix_init_identity with v02 := x, v12 := y }

/-- Modelled from the spec: `matrix_mult(dest, m1, m2)` of `libinput-util.h`,
the matrix product `m1 * m2`; the result is what is stored into `dest`. -/
def matrix_mult (m1 m2 : matrix) : matrix :=
  { v00 := m1.v00 * m2.v00 + m1.v01 * m2.v10 + m1.v02 * m2.v20,
    v01 := m1.v00 * m2.v01 + m1.v01 * m2.v11 + m1.v02 * m2.v21,
    v02 := m1.v00 * m2.v02 + m1.v01 * m2.v12 + m1.v02 * m2.v22,
    v10 := m1.v10 * m2.v00 + m1.v11 * m2.v10 + m1.v12 * m2.v20,
    v11 := m1.v10 * m2.v01 + m1.v11 * m2.v11 + m1.v12 * m2.v21,
    v12 := m1.v10 * m2.v02 + m1.v11 * m2.v12 + m1.v12 * m2.v22,
    v20 := m1.v20 * m2.v00 + m1.v21 * m2.v10 + m1.v22 * m2.v20,
    v21 := m1.v20 * m2.v01 + m1.v21 * m2.v11 + m1.v22 * m2.v21,
    v22 := m1.v20 * m2.v02 + m1.v21 * m2.v12 + m1.v22 * m2.v22 }

/-- The function `evdev_device_calibrate`. The two axis ranges are read
through `device->abs.absinfo_x` and `device->abs.absinfo_y`; with one of them
`NULL` the read is undefined and the result is `none`. The `int` arithmetic on
the range is taken without overflow. -/
def evdev_device_calibrate (d : Device) (calibration : farray6) : Option Device :=
  let transform := matrix_from_farray6 calibration
  let d1 : Device := { d with abs_apply_calibration := !matrix_is_identity transform }
  if !d1.abs_apply_calibration then
    some { d1 with abs_calibration := matrix_init_identity }
  else
    match d1.abs_absinfo_x, d1.abs_absinfo_y with
    | some absinfo_x, some absinfo_y =>
      let sx : ℚ := ((absinfo_x.maximum - absinfo_x.minimum + 1 : Int) : ℚ)
      let sy : ℚ := ((absinfo_y.maximum - absinfo_y.minimum + 1 : Int) : ℚ)
      let d2 : Device := { d1 with abs_usermatrix := matrix_from_farray6 calibration }
      let translate := matrix_init_translate (absinfo_x.minimum : ℚ) (absinfo_y.minimum : ℚ)
      let scale := matrix_init_scale sx sy
      let scale := matrix_mult translate scale
      let transform := matrix_mult scale transform
      let translate := matrix_init_translate (((-absinfo_x.minimum : Int) : ℚ) / sx)
        (((-absinfo_y.minimum : Int) : ℚ) / sy)
      let scale := matrix_init_scale (1 / sx) (1 / sy)
      let scale := matrix_mult translate scale
      some { d2 with abs_calibration := matrix_mult transform scale }
    | _, _ => none

def evdev_device_set_default_calibration (d : Device) (calibration : farray6) : Option Device :=
  evdev_device_calibrate { d with abs_default_calibration := matrix_from_farray6 calibration }
    calibration

def evdev_calibration_has_matrix (d : Device) : Bool :=
  d.abs_absinfo_x.isSome && d.abs_absinfo_y.isSome

/-- The function `evdev_calibration_set_matrix`; its return value is always
`LIBINPUT_CONFIG_STATUS_SUCCESS` and is left out. -/
def evdev_calibration_set_matrix (d : Device) (m : farray6) : Option Device :=
  evdev_device_calibrate d m

/-- The function `evdev_calibration_get_matrix`: the values written to the
array of the caller and the `int` returned. -/
def evdev_calibration_get_matrix (d : Device) : farray6 × Int :=
  (matrix_to_farray6 d.abs_usermatrix, if !matrix_is_identity d.abs_usermatrix then 1 else 0)

def evdev_calibration_get_default_matrix (d : Device) : farray6 × Int :=
  (matrix_to_farray6 d.abs_default_calibration,
    if !matrix_is_identity d.abs_default_calibration then 1 else 0)

/-- A sequence of calls of `evdev_calibration_set_matrix`. -/
def calibration_set_all (d : Device) : List farray6 → Option Device
  | [] => some d
  | m :: rest =>
    match evdev_calibration_set_matrix d m with
    | none => none
    | some d1 => calibration_set_all d1 rest

/-- The six values of the identity, `(1, 0, 0, 0, 1, 0)`. -/
def identity6 : farray6 :=
  { v0 := 1, v1 := 0, v2 := 0, v3 := 0, v4 := 1, v5 := 0 }

/-- A single-touch screen whose two axes both range over `0 .. 99`. -/
def screen_100 : Device :=
  { seat_caps := EVDEV_DEVICE_TOUCH,
    abs_absinfo_x := some { minimum := 0, maximum := 99 },
    abs_absinfo_y := some { minimum := 0, maximum := 99 } }

/-- The calibration that doubles the horizontal coordinate. -/
def double_x6 : farray6 :=
  { v0 := 2, v1 := 0, v2 := 0, v3 := 0, v4 := 1, v5 := 0 }

/-- The primary notifications of a flush: pointer motion, absolute motion,
scroll axis, and touch down, motion and up. -/
def Notification.is_primary : Notification → Bool
  | Notification.pointer_motion _ _ _ _ _ => true
  | Notification.pointer_motion_absolute _ _ _ => true
  | Notification.pointer_axis _ _ _ _ _ _ _ => true
  | Notification.touch_down _ _ _ _ _ _ _ => true
  | Notification.touch_motion _ _ _ _ _ _ _ => true
  | Notification.touch_up _ _ _ => true
  | _ => false

/-- The notification of a changed auxiliary axis of a touch. -/
def Notification.is_aux_data : Notification → Bool
  | Notification.touch_aux_data _ _ _ _ _ => true
  | _ => false

/-- What a flush may do to the output and the pending kind: the notifications
posted before are kept, at most one of the new ones is a primary notification,
every other new one is an auxiliary axis notification, and the pending kind
is `EVDEV_NONE`. -/
def flushed (s s1 : State) : Prop :=
  s1.dev.pending_event = EVDEV_NONE ∧
  ∃ l : List Notification, s1.out = s.out ++ l ∧
    (l.filter Notification.is_primary).length ≤ 1 ∧
    ∀ n ∈ l, n.is_primary = true ∨ n.is_aux_data = true

/-- The touch-domain pending kinds: the three multitouch kinds, the two
single-touch kinds, and absolute motion. -/
def touch_domain_kind : evdev_event_type → Bool
  | EVDEV_ABSOLUTE_MT_DOWN => true
  | EVDEV_ABSOLUTE_MT_MOTION => true
  | EVDEV_ABSOLUTE_MT_UP => true
  | EVDEV_ABSOLUTE_TOUCH_DOWN => true
  | EVDEV_ABSOLUTE_TOUCH_UP => true
  | EVDEV_ABSOLUTE_MOTION => true
  | EVDEV_NONE => false
  | EVDEV_RELATIVE_MOTION => false

/-- A touch-capable single-touch screen with an absolute motion pending while
a touch holds seat slot `0`. -/
def touchscreen_moving : State :=
  { dev := { seat_caps := EVDEV_DEVICE_TOUCH, pending_event := EVDEV_ABSOLUTE_MOTION,
             abs_x := 10, abs_y := 20, abs_seat_slot := 0 },
    slot_map := 1 }

/-- The raw event of an absolute axis `code` taking `value`. -/
def abs_event (code : Nat) (value : Int) : input_event :=
  { type := EV_ABS, code := code, value := value }

/-- A multitouch touchscreen with a motion of its first slot pending. -/
def touchscreen_mt_motion : State :=
  { dev := { touchscreen_idle with pending_event := EVDEV_ABSOLUTE_MT_MOTION } }

/-- A single-touch screen with a touch-up pending while no touch is down. -/
def single_touch_up_pending : State :=
  { dev := { single_touch_idle with pending_event := EVDEV_ABSOLUTE_TOUCH_UP } }

/-! ## Lifecycle: suspend and resume -/

def ENODEV : Int := 19
def ENOMEM : Int := 12

/-- The lifecycle fields of `struct evdev_device`, none of which the fallback
dispatch touches: the file descriptor `fd` (`-1` when closed), whether
`source` and `mtdev` are set, and the flags `suspended` and `was_removed`. -/
structure Lifecycle where
  fd : Int := -1
  source : Bool := false
  mtdev : Bool := false
  suspended : Bool := false
  was_removed : Bool := false
  deriving DecidableEq, Repr

/-- A device with its lifecycle fields: `st` is what the event translation
works on. -/
structure Managed where
  st : State := {}
  life : Lifecycle := {}

/-- The `while (get_key_down_count(device, code) > 0)` loop of
`release_pressed_keys` for one code, run for at most `fuel` iterations. The
result is `none` when a call in the body hits an `assert`, and when the count
is still positive after `fuel` iterations. -/
def release_code (time code : Nat) : Nat → State → Option State
  | 0, s => if get_key_down_count s.dev code > 0 then none else some s
  | fuel + 1, s =>
    if get_key_down_count s.dev code > 0 then
      match get_key_type code with
      | EVDEV_KEY_TYPE_NONE => release_code time code fuel s
      | EVDEV_KEY_TYPE_KEY =>
        match evdev_keyboard_notify_key s time code LIBINPUT_KEY_STATE_RELEASED with
        | none => none
        | some s1 => release_code time code fuel s1
      | EVDEV_KEY_TYPE_BUTTON =>
        match evdev_pointer_notify_button s time (evdev_to_left_handed s.dev code)
            LIBINPUT_BUTTON_STATE_RELEASED with
        | none => none
        | some s1 => release_code time code fuel s1
    else some s

/-- The `for` loop of `release_pressed_keys` over a list of codes. -/
def release_codes (time fuel : Nat) : List Nat → State → Option State
  | [], s => some s
  | code :: rest, s =>
    match release_code time code fuel s with
    | none => none
    | some s1 => release_codes time fuel rest s1

/-- The function `release_pressed_keys`. `now` is the value of
`libinput_now(libinput)`, which is `0` when the clock cannot be read; `fuel`
bounds the iterations of the inner `while` loop for each code. -/
def release_pressed_keys (s : State) (now fuel : Nat) : Option State :=
  if now = 0 then some s
  else release_codes now fuel (List.range KEY_CNT) s

/-- The function `evdev_notify_suspended_device`. The `device_suspended` hooks
are called on the other devices of the seat and act on those; the fallback
interface has none. -/
def evdev_notify_suspended_device (m : Managed) : Managed :=
  if m.life.suspended then m
  else { m with life := { m.life with suspended := true } }

/-- The function `evdev_notify_resumed_device`. -/
def evdev_notify_resumed_device (m : Managed) : Managed :=
  if !m.life.suspended then m
  else { m with life := { m.life with suspended := false } }

/-- The first part of `evdev_device_suspend`, up to the call of
`release_pressed_keys`: the other devices are told, and the event source is
removed. -/
def suspend_detach (m : Managed) : Managed :=
  let m1 := evdev_notify_suspended_device m
  if m1.life.source then { m1 with life := { m1.life with source := false } } else m1

/-- The last part of `evdev_device_suspend`, after the call of
`release_pressed_keys`: `mtdev_close_delete` and `close_restricted`. -/
def suspend_close (m : Managed) : Managed :=
  let m1 : Managed :=
    if m.life.mtdev then { m with life := { m.life with mtdev := false } } else m
  if m1.life.fd ≠ -1 then { m1 with life := { m1.life with fd := -1 } } else m1

/-- The function `evdev_device_suspend`; its return value is always `0` and is
left out. -/
def evdev_device_suspend (m : Managed) (now fuel : Nat) : Option Managed :=
  let m2 := suspend_detach m
  match release_pressed_keys m2.st now fuel with
  | none => none
  | some st3 => some (suspend_close { m2 with st := st3 })

/-- What the environment answers during one call of `evdev_device_resume`:
the result of `open_restricted` and `errno` after it, the result of
`evdev_device_compare_syspath`, the value of `evdev_need_mtdev(device)`,
whether `mtdev_new_open` and `libinput_add_fd` return a non-`NULL` pointer, and
the events that `libevdev_next_event` hands out during the forced re-sync. -/
structure resume_env where
  open_restricted : Int
  errno : Int
  compare_syspath : Int
  need_mtdev : Bool
  mtdev_new_open : Bool
  sync_events : List input_event
  add_fd : Bool

/-- The end of `evdev_device_resume`, after the call of `libinput_add_fd`:
without a source the call fails; otherwise the hardware key bitmap is cleared
and the other devices are told. -/
def resume_finish (m3 : Managed) : Int × Managed :=
  if !m3.life.source then (-ENOMEM, m3)
  else
    (0, evdev_notify_resumed_device
      { m3 with st := { m3.st with dev := { m3.st.dev with hw_key_mask := fun _ => false } } })

/-- The part of `evdev_device_resume` after `device->fd = fd`: mtdev is opened
when needed, libevdev is re-synced, its events read into a local variable and
dropped, and the event source is added. -/
def resume_setup (m1 : Managed) (env : resume_env) : Int × Managed :=
  let m2 : Managed :=
    if env.need_mtdev then { m1 with life := { m1.life with mtdev := env.mtdev_new_open } }
    else m1
  if env.need_mtdev ∧ !m2.life.mtdev then (-ENODEV, m2)
  else resume_finish { m2 with life := { m2.life with source := env.add_fd } }

/-- The function `evdev_device_resume`: the return value and the device. -/
def evdev_device_resume (m : Managed) (env : resume_env) : Int × Managed :=
  if m.life.fd ≠ -1 then (0, m)
  else if m.life.was_removed then (-ENODEV, m)
  else if env.open_restricted < 0 then (-env.errno, m)
  else if env.compare_syspath ≠ 0 then (-ENODEV, m)
  else resume_setup { m with life := { m.life with fd := env.open_restricted } } env

/-- The state after the release of key `code` was notified at `time`: the
ledger entry is `0` and the release is posted, with the time modulo `2 ^ 32`
of the `uint32_t` parameter of `evdev_keyboard_notify_key`. -/
def released_key (s : State) (time code : Nat) : State :=
  { s with
    dev := { s.dev with key_count := Function.update s.dev.key_count code 0 },
    out := s.out ++
      [Notification.keyboard_key (time % 2 ^ 32) code LIBINPUT_KEY_STATE_RELEASED] }

/-- A keyboard with key `30` down once and key `48` down twice, its handle
open. -/
def keyboard_two_down : Managed :=
  { st := { dev := { seat_caps := EVDEV_DEVICE_KEYBOARD,
                     key_count := fun c => if c = 30 then 1 else if c = 48 then 2 else 0,
                     hw_key_mask := fun c => decide (c = 30) || decide (c = 48) } },
    life := { fd := 7, source := true } }

/-- A mouse with left-handed mode enabled, nothing pressed, nothing pending. -/
def left_handed_mouse : State :=
  { dev := { seat_caps := EVDEV_DEVICE_POINTER,
             has_event_code_key := fun c => decide (c = BTN_LEFT) || decide (c = BTN_RIGHT),
             left_handed_enabled := true,
             left_handed_want_enabled := true,
             left_handed_change_to_enabled := true } }

/-- The left-handed mouse after the raw press of `BTN_LEFT` at time `5`: the
hardware bit of `BTN_LEFT` is set, the ledger counts `BTN_RIGHT`, and the
press of `BTN_RIGHT` is posted. -/
def left_handed_mouse_held : State :=
  { dev := { left_handed_mouse.dev with
      hw_key_mask := Function.update (fun _ => false) BTN_LEFT true,
      key_count := Function.update (fun _ => 0) BTN_RIGHT 1 },
    out := [Notification.pointer_button 5 BTN_RIGHT LIBINPUT_BUTTON_STATE_PRESSED] }

/-- What the release of the pressed keys leaves alone: the pending kind, the
button-scroll timer and flag, the relative accumulators and the seat bitmap;
the notifications posted before are kept and every new one is a key or button
notification. -/
def suspend_frame (s s1 : State) : Prop :=
  s1.dev.pending_event = s.dev.pending_event ∧
  s1.dev.scroll_timer = s.dev.scroll_timer ∧
  s1.dev.scroll_button_scroll_active = s.dev.scroll_button_scroll_active ∧
  s1.dev.rel_dx = s.dev.rel_dx ∧ s1.dev.rel_dy = s.dev.rel_dy ∧
  s1.slot_map = s.slot_map ∧
  ∃ l : List Notification, s1.out = s.out ++ l ∧ ∀ n ∈ l, n.is_key_or_button = true

/-- A mouse configured for button scrolling whose middle button is held: the
button-scroll timer is armed for time `200` and a relative motion is pending;
the ledger is empty and the handle is open. -/
def button_scroll_armed : Managed :=
  { st := { dev := { button_scroll_idle.dev with
      hw_key_mask := Function.update (fun _ => false) BTN_MIDDLE true,
      pending_event := EVDEV_RELATIVE_MOTION,
      rel_dx := 3,
      scroll_timer := some 200 } },
    life := { fd := 7, source := true } }

/-- An environment in which the device node opens as file descriptor `9`, is
the same device, needs no mtdev, and the event source can be added; the
re-sync of libevdev hands out the press of key `30`. -/
def resume_env_ok : resume_env :=
  { open_restricted := 9, errno := 0, compare_syspath := 0, need_mtdev := false,
    mtdev_new_open := false,
    sync_events := [{ type := EV_KEY, code := 30, value := 1 },
                    { type := EV_SYN, code := 0, value := 0 }],
    add_fd := true }

/-- The function `evdev_scroll_config_natural_set`; its return value is always
`LIBINPUT_CONFIG_STATUS_SUCCESS` and is left out. -/
def evdev_scroll_config_natural_set (d : Device) (enabled : Int) : Device :=
  { d with scroll_natural_scrolling_enabled := decide (enabled ≠ 0) }

/-- The pressure axis of a multitouch slot, `ABS_MT_PRESSURE` of
`linux/input.h`. -/
def ABS_MT_PRESSURE : Nat := 0x3a

/-- A multitouch touchscreen with one slot that holds seat slot 0, a motion
pending on it, and two auxiliary axes registered: the pressure axis, marked
changed with value 50, and axis `0x3b`, not marked. -/
def touchscreen_aux_pending : State :=
  { dev := { seat_caps := EVDEV_DEVICE_TOUCH, is_mt := true,
             mt_slots := [{ seat_slot := 0, x := 10, y := 20 }], mt_slot := 0,
             mt_aux_data_list := some [[{ code := ABS_MT_PRESSURE, value := 50, changed := true },
               { code := 0x3b, value := 7 }]],
             pending_event := EVDEV_ABSOLUTE_MT_MOTION },
    slot_map := 1 }

/-- The state `touchscreen_aux_pending` after its flush at time 5. -/
def touchscreen_aux_flushed : State :=
  { dev := { touchscreen_aux_pending.dev with
      mt_aux_data_list := some [[{ code := ABS_MT_PRESSURE, value := 50 },
        { code := 0x3b, value := 7 }]],
      pending_event := EVDEV_NONE },
    slot_map := 1,
    out := [Notification.touch_aux_data 5 0 0 ABS_MT_PRESSURE 50,
      Notification.touch_motion 5 0 0 10 20 {} 0] }

/-- A raw position event of the active multitouch slot: `ABS_MT_POSITION_X` or
`ABS_MT_POSITION_Y`. -/
def is_position_event (e : input_event) : Bool :=
  decide (e.type = EV_ABS) && (decide (e.code = ABS_MT_POSITION_X) ||
    decide (e.code = ABS_MT_POSITION_Y))

/-- The slot after the position events `ps` were written into it one after the
other: `x` and `y` hold the value of the latest event of their axis. -/
def positions_written (sd : mt_slot) (ps : List input_event) : mt_slot :=
  ps.foldl (fun c e =>
    if e.code = ABS_MT_POSITION_X then { c with x := e.value }
    else if e.code = ABS_MT_POSITION_Y then { c with y := e.value }
    else c) sd

/-- The state `s1` is the state `s` with `w` written into the active slot and
possibly another pending kind; the bitmap and the notifications are the same. -/
def slot_written (s s1 : State) (w : mt_slot) : Prop :=
  s1.dev = { s.dev with
    mt_slots := s.dev.mt_slots.set s.dev.mt_slot.toNat w,
    pending_event := s1.dev.pending_event } ∧
  s1.slot_map = s.slot_map ∧ s1.out = s.out

/-- The time stamp of a raw event in milliseconds, as computed by
`evdev_process_event`. -/
def event_time (e : input_event) : Nat :=
  e.tv_sec * 1000 + e.tv_usec / 1000

/-- A multitouch touchscreen with one unassigned slot at position `(1, 2)`,
nothing pending, on a seat where seat slot 0 is taken. -/
def touchscreen_one_slot : State :=
  { dev := { seat_caps := EVDEV_DEVICE_TOUCH, is_mt := true,
             mt_slots := [{ x := 1, y := 2 }], mt_slot := 0,
             mt_aux_data_list := some [[]] },
    slot_map := 1 }

/-- Every notification of the touch interface: touch down, motion and up, the
touch frame, and the auxiliary axis notification. -/
def Notification.is_touch_any : Notification → Bool
  | Notification.touch_down _ _ _ _ _ _ _ => true
  | Notification.touch_motion _ _ _ _ _ _ _ => true
  | Notification.touch_up _ _ _ => true
  | Notification.touch_frame _ => true
  | Notification.touch_aux_data _ _ _ _ _ => true
  | _ => false

/-- The pressure of each multitouch slot, in the order of the slot table. -/
def Device.pressures (d : Device) : List Int :=
  d.mt_slots.map (fun sl => sl.pressure)

/-- What no raw event changes: the capabilities, the multitouch flag, the
pressure of each slot, and the requested configuration with its two
callbacks. -/
def Device.fixed_part (d : Device) :
    Nat × Bool × List Int × Bool × Bool × libinput_config_scroll_method × Nat × Bool :=
  (d.seat_caps, d.is_mt, d.pressures, d.left_handed_want_enabled,
    d.left_handed_change_to_enabled, d.scroll_want_method, d.scroll_want_button,
    d.scroll_change_scroll_method)

/-- The configuration in effect: left-handed mode, scroll method and scroll
button. -/
def Device.mode_part (d : Device) : Bool × libinput_config_scroll_method × Nat :=
  (d.left_handed_enabled, d.scroll_method, d.scroll_button)

/-- No configuration change is waiting to be applied: what was requested is in
effect. -/
def Device.settled (d : Device) : Prop :=
  d.left_handed_want_enabled = d.left_handed_enabled ∧
  d.scroll_want_method = d.scroll_method ∧ d.scroll_want_button = d.scroll_button

/-- Every code with a positive ledger count is of key or button type. -/
def ledger_typed (d : Device) : Prop :=
  ∀ c, 0 < d.key_count c → get_key_type c ≠ EVDEV_KEY_TYPE_NONE

/-- The pressure carried by a touch down or motion is the one of the slot
table of `d` for a multitouch slot, and `DEFAULT_TOUCH_PRESSURE` for the
single-touch stream (slot `-1`). -/
def reports_slot_pressure (d : Device) : Notification → Prop
  | Notification.touch_down _ j _ _ _ _ p =>
    (j = -1 ∧ p = DEFAULT_TOUCH_PRESSURE) ∨ (0 ≤ j ∧ d.pressures[j.toNat]? = some p)
  | Notification.touch_motion _ j _ _ _ _ p =>
    (j = -1 ∧ p = DEFAULT_TOUCH_PRESSURE) ∨ (0 ≤ j ∧ d.pressures[j.toNat]? = some p)
  | _ => True

/-- A notification that a device in state `d` may post: none of the touch
interface without the touch capability, and the pressure of the slot table. -/
def notified_ok (d : Device) (n : Notification) : Prop :=
  (d.seat_caps &&& EVDEV_DEVICE_TOUCH = 0 → n.is_touch_any = false) ∧
  reports_slot_pressure d n

/-- What every step of the raw event processing keeps: the fixed part of the
device; the configuration in effect when no change is waiting; that every
positive ledger count is on a code of key or button type; the notifications
posted before, and every new one is one the device may post. -/
def stable (s s1 : State) : Prop :=
  s1.dev.fixed_part = s.dev.fixed_part ∧
  (s.dev.settled → s1.dev.mode_part = s.dev.mode_part) ∧
  (ledger_typed s.dev → ledger_typed s1.dev) ∧
  ∃ l : List Notification, s1.out = s.out ++ l ∧ ∀ n ∈ l, notified_ok s.dev n
/-- A mouse without the touch capability that receives absolute and
multitouch events all the same: a single-touch stream with a touch-down
pending. -/
def mouse_touch_pending : State :=
  { dev := { seat_caps := EVDEV_DEVICE_POINTER, pending_event := EVDEV_ABSOLUTE_TOUCH_DOWN,
             abs_x := 3, abs_y := 4 },
    slot_map := 5 }

/-- A multitouch touchscreen with one unassigned slot whose pressure was read
as `33` at configuration, no auxiliary axis registered, nothing pending. -/
def touchscreen_pressure_33 : State :=
  { dev := { seat_caps := EVDEV_DEVICE_TOUCH, is_mt := true,
             mt_slots := [{ pressure := 33 }], mt_slot := 0,
             mt_aux_data_list := some [[]] } }

/-- The state `touchscreen_pressure_33` after a pressure event, a tracking id
and the frame terminator stamped 1005 ms. -/
def touchscreen_pressure_33_down : State :=
  { dev := { touchscreen_pressure_33.dev with mt_slots := [{ seat_slot := 0, pressure := 33 }] },
    slot_map := 1,
    out := [Notification.touch_down 1005 0 0 0 0 {} 33, Notification.touch_frame 1005] }

/-- Left-handed mode is off: neither in effect nor requested. -/
def left_handed_off (d : Device) : Prop :=
  d.left_handed_enabled = false ∧ d.left_handed_want_enabled = false

/-- A device with key code 30 counted twice and the left button once, nothing
else in the ledger. -/
def key_and_button_down : State :=
  { dev := { seat_caps := EVDEV_DEVICE_POINTER,
             key_count := fun c => if c = 30 then 2 else if c = BTN_LEFT then 1 else 0 } }

/-- The ledger covers the hardware bitmap: no count is negative; a key-type
code whose hardware bit is set has a count of at least `1`; a button-type code
whose hardware bit is set, other than the scroll button of a device in the
button-scrolling method, has a count of at least `1` on the code it is
notified as, its image under `evdev_to_left_handed`. -/
def ledger_covers (d : Device) : Prop :=
  (∀ c, 0 ≤ d.key_count c) ∧
  (∀ c, hw_is_key_down d c = true → get_key_type c = EVDEV_KEY_TYPE_KEY →
    1 ≤ d.key_count c) ∧
  (∀ c, hw_is_key_down d c = true → get_key_type c = EVDEV_KEY_TYPE_BUTTON →
    ¬ (d.scroll_method = LIBINPUT_CONFIG_SCROLL_ON_BUTTON_DOWN ∧ c = d.scroll_button) →
    1 ≤ d.key_count (evdev_to_left_handed d c))

/-- What holds along a run of key events with no configuration change in
between: nothing is waiting to be applied, the pending kind is none or one of
the two single-touch kinds set by `BTN_TOUCH`, the seat-slot id of the
single-touch stream is `-1` or a seat slot, and the ledger covers the hardware
bitmap. -/
def key_run_inv (s : State) : Prop :=
  s.dev.settled ∧
  (s.dev.pending_event = EVDEV_NONE ∨ s.dev.pending_event = EVDEV_ABSOLUTE_TOUCH_DOWN ∨
    s.dev.pending_event = EVDEV_ABSOLUTE_TOUCH_UP) ∧
  (-1 ≤ s.dev.abs_seat_slot ∧ s.dev.abs_seat_slot < 32) ∧
  ledger_covers s.dev

/-- Two devices that differ at most in the ledger and in fields the invariant
of a run of key events does not read. -/
def key_frame (d d1 : Device) : Prop :=
  d1.fixed_part = d.fixed_part ∧ d1.mode_part = d.mode_part ∧
  d1.hw_key_mask = d.hw_key_mask ∧ d1.pending_event = d.pending_event ∧
  d1.abs_seat_slot = d.abs_seat_slot

/-- The function `evdev_left_handed_set`: the request is stored and the
callback `device->left_handed.change_to_enabled` is called. The function is
hooked up by `evdev_init_left_handed`, which installs the callback; without
the callback the call goes through a null pointer and the result is `none`. -/
def evdev_left_handed_set (d : Device) (left_handed : Int) : Option Device :=
  let d1 : Device := { d with left_handed_want_enabled := decide (left_handed ≠ 0) }
  if d1.left_handed_change_to_enabled then some (evdev_change_to_left_handed d1) else none

/-- A fresh mouse with a left and a right button, as `evdev_init_left_handed`
leaves it: left-handed mode neither in effect nor requested, the callback
installed; nothing pressed, nothing pending. -/
def two_button_mouse : State :=
  { dev := { seat_caps := EVDEV_DEVICE_POINTER,
             has_event_code_key := fun c => decide (c = BTN_LEFT) || decide (c = BTN_RIGHT),
             left_handed_enabled := false,
             left_handed_want_enabled := false,
             left_handed_change_to_enabled := true } }

/-- The delta of one unit of relative motion on a device of 1800 dpi, the
`double` nearest to `1000 / 1800`: `0.5555555555555556`. -/
def dpi_1800_delta : ℚ := 2501999792983609 / 4503599627370496

/-- Nine calls of `evdev_post_scroll` at times `1` to `9`, each with the
vertical delta `dpi_1800_delta`. -/
def dpi_1800_calls : List (Nat × ℚ) :=
  (List.range 9).map (fun i => (i + 1, dpi_1800_delta))

/-- The button-scrolling device `button_scroll_idle` with a relative motion of
`3` units to the right pending. -/
def button_scroll_motion_pending : State :=
  { button_scroll_idle with
    dev := { button_scroll_idle.dev with
      pending_event := EVDEV_RELATIVE_MOTION, rel_dx := 3 } }

/-! # Theorems -/

/-! ## Rounding to a `double` -/

theorem round_half_even_int (m : Int) : round_half_even (m : ℚ) = m := by
  unfold round_half_even
  simp only [Int.floor_intCast, sub_self]
  rw [if_pos (by norm_num)]

theorem round_half_even_le (x : ℚ) (N : Int) (h : x < N) : round_half_even x ≤ N := by
  have hf : ⌊x⌋ < N := Int.floor_lt.2 h
  unfold round_half_even
  simp only []
  split_ifs <;> omega

theorem le_round_half_even (x : ℚ) (N : Int) (h : (N : ℚ) ≤ x) : N ≤ round_half_even x := by
  have hf : N ≤ ⌊x⌋ := Int.le_floor.2 h
  unfold round_half_even
  simp only []
  split_ifs <;> omega

theorem double_round_zero : double_round 0 = 0 := by
  unfold double_round
  rw [if_pos rfl]

/-- A multiple `n * 2 ^ k` of a power of two not below the smallest subnormal,
with a significand `n` of at most 53 bits, is a `double`: rounding leaves it
as it is. -/
theorem double_round_grid (n k : Int) (hk : -1074 ≤ k) (hn : |n| ≤ 2 ^ 53) :
    double_round ((n : ℚ) * 2 ^ k) = (n : ℚ) * 2 ^ k := by
  by_cases h0 : n = 0
  · subst h0
    simp [double_round]
  have h2 : (0 : ℚ) < 2 := by norm_num
  have hpk : (0 : ℚ) < 2 ^ k := zpow_pos h2 k
  have hq : (n : ℚ) * 2 ^ k ≠ 0 := mul_ne_zero (by exact_mod_cast h0) (ne_of_gt hpk)
  have habs : |(n : ℚ) * 2 ^ k| = ((|n| : Int) : ℚ) * 2 ^ k := by
    rw [abs_mul, abs_of_pos hpk, Int.cast_abs]
  have hapos : (0 : ℚ) < ((|n| : Int) : ℚ) * 2 ^ k :=
    mul_pos (by exact_mod_cast abs_pos.2 h0) hpk
  unfold double_round
  rw [if_neg hq]
  simp only [habs]
  by_cases hlt : |n| < 2 ^ 53
  · have hL : Int.log 2 (((|n| : Int) : ℚ) * 2 ^ k) < k + 53 := by
      rw [← Int.lt_zpow_iff_log_lt (by norm_num) hapos]
      have : ((|n| : Int) : ℚ) < 2 ^ 53 := by exact_mod_cast hlt
      calc ((|n| : Int) : ℚ) * 2 ^ k < 2 ^ 53 * 2 ^ k := by
            exact mul_lt_mul_of_pos_right this hpk
        _ = ((2 : ℕ) : ℚ) ^ (k + 53) := by
            rw [zpow_add₀ (by norm_num)]
            norm_num
            ring
    generalize Int.log 2 (((|n| : Int) : ℚ) * 2 ^ k) = L at hL
    obtain ⟨J, hJ⟩ : ∃ J : ℕ, (J : Int) = k + 52 - max L (-1022) :=
      ⟨(k + 52 - max L (-1022)).toNat, by
        have : max L (-1022) ≤ k + 52 := max_le (by omega) (by omega)
        omega⟩
    have hk2 : k = (J : Int) + (max L (-1022) - 52) := by omega
    have hdiv : (n : ℚ) * 2 ^ k / 2 ^ (max L (-1022) - 52) = ((n * 2 ^ J : Int) : ℚ) := by
      have hne : (2 : ℚ) ^ (max L (-1022) - 52) ≠ 0 := ne_of_gt (zpow_pos h2 _)
      rw [div_eq_iff hne]
      nth_rewrite 1 [hk2]
      rw [zpow_add₀ (by norm_num), zpow_natCast]
      push_cast
      ring
    rw [hdiv, round_half_even_int]
    conv_rhs => rw [hk2]
    rw [zpow_add₀ (by norm_num), zpow_natCast]
    push_cast
    ring
  · have heq : |n| = 2 ^ 53 := le_antisymm hn (not_lt.1 hlt)
    have hval : ((|n| : Int) : ℚ) * 2 ^ k = ((2 : ℕ) : ℚ) ^ (k + 53) := by
      rw [heq, zpow_add₀ (by norm_num)]
      norm_num
      ring
    rw [hval, Int.log_zpow (by norm_num)]
    have hmax : max (k + 53) (-1022) = k + 53 := max_eq_left (by omega)
    rw [hmax]
    obtain ⟨m, hm⟩ : ∃ m : Int, n = 2 * m := by
      rcases abs_eq (by norm_num : (0 : Int) ≤ 2 ^ 53) |>.1 heq with h | h
      · exact ⟨2 ^ 52, by rw [h]; norm_num⟩
      · exact ⟨-2 ^ 52, by rw [h]; norm_num⟩
    have hexp : k + 53 - 52 = k + 1 := by omega
    rw [hexp]
    have hdiv : (n : ℚ) * 2 ^ k / 2 ^ (k + 1) = ((m : Int) : ℚ) := by
      have hne : (2 : ℚ) ^ (k + 1) ≠ 0 := ne_of_gt (zpow_pos h2 _)
      rw [div_eq_iff hne, zpow_add₀ (by norm_num), hm]
      push_cast
      ring
    rw [hdiv, round_half_even_int, zpow_add₀ (by norm_num), hm]
    push_cast
    ring

/-- An integer of at most 53 bits is a `double`. -/
theorem double_round_int (m : Int) (hm : |m| ≤ 2 ^ 53) : double_round (m : ℚ) = m := by
  have h := double_round_grid m 0 (by norm_num) hm
  simpa using h

/-- Every result of the rounding is a multiple of a power of two not below
the smallest subnormal with a significand of at most 53 bits. -/
theorem double_round_on_grid (q : ℚ) :
    ∃ n k : Int, -1074 ≤ k ∧ |n| ≤ 2 ^ 53 ∧ double_round q = (n : ℚ) * 2 ^ k := by
  by_cases h0 : q = 0
  · exact ⟨0, 0, by norm_num, by norm_num, by simp [h0, double_round_zero]⟩
  have h2 : (0 : ℚ) < 2 := by norm_num
  have hapos : (0 : ℚ) < |q| := abs_pos.2 h0
  refine ⟨round_half_even (q / 2 ^ (max (Int.log 2 |q|) (-1022) - 52)),
    max (Int.log 2 |q|) (-1022) - 52, ?_, ?_, ?_⟩
  · have := le_max_right (Int.log 2 |q|) (-1022)
    omega
  · have hu : (0 : ℚ) < 2 ^ (max (Int.log 2 |q|) (-1022) - 52) := zpow_pos h2 _
    have hlt : |q| < 2 ^ (max (Int.log 2 |q|) (-1022) + 1) := by
      have h1 : |q| < ((2 : ℕ) : ℚ) ^ (Int.log 2 |q| + 1) :=
        Int.lt_zpow_succ_log_self (by norm_num) _
      have h3 : ((2 : ℕ) : ℚ) ^ (Int.log 2 |q| + 1) ≤
          (2 : ℚ) ^ (max (Int.log 2 |q|) (-1022) + 1) := by
        rw [Nat.cast_ofNat]
        exact zpow_le_zpow_right₀ (by norm_num) (by
          have := le_max_left (Int.log 2 |q|) (-1022)
          omega)
      exact lt_of_lt_of_le h1 h3
    have hx : |q / 2 ^ (max (Int.log 2 |q|) (-1022) - 52)| < 2 ^ 53 := by
      rw [abs_div, abs_of_pos hu, div_lt_iff₀ hu]
      have : (2 : ℚ) ^ 53 * 2 ^ (max (Int.log 2 |q|) (-1022) - 52) =
          2 ^ (max (Int.log 2 |q|) (-1022) + 1) := by
        rw [show max (Int.log 2 |q|) (-1022) + 1 =
          53 + (max (Int.log 2 |q|) (-1022) - 52) by omega, zpow_add₀ (by norm_num)]
        norm_num
      rw [this]
      exact hlt
    obtain ⟨hx1, hx2⟩ := abs_lt.1 hx
    rw [abs_le]
    constructor
    · exact le_round_half_even _ _ (by push_cast; exact le_of_lt hx1)
    · exact round_half_even_le _ _ (by push_cast; exact hx2)
  · unfold double_round
    rw [if_neg h0]

/-- Rounding a `double` leaves it as it is. -/
theorem double_round_idem (q : ℚ) : double_round (double_round q) = double_round q := by
  obtain ⟨n, k, hk, hn, h⟩ := double_round_on_grid q
  rw [h]
  exact double_round_grid n k hk hn

theorem double_sum_append (l : List ℚ) (x : ℚ) :
    double_sum (l ++ [x]) = double_add (double_sum l) x := by
  unfold double_sum
  rw [List.foldl_append]
  rfl

/-- The accumulated value is a `double`. -/
theorem double_round_double_sum (l : List ℚ) : double_round (double_sum l) = double_sum l := by
  rcases List.eq_nil_or_concat l with h | ⟨l1, x, h⟩
  · subst h
    exact double_round_zero
  · subst h
    rw [List.concat_eq_append, double_sum_append]
    exact double_round_idem _

/-- Adding `0` to a `double` leaves it as it is. -/
theorem double_add_zero (a : ℚ) (ha : double_round a = a) : double_add a 0 = a := by
  unfold double_add
  rw [add_zero, ha]

/-- The sum of two integers of at most 53 bits whose sum has at most 53 bits
is exact. -/
theorem double_add_int (a b : Int) (h : |a + b| ≤ 2 ^ 53) :
    double_add (a : ℚ) (b : ℚ) = ((a + b : Int) : ℚ) := by
  unfold double_add
  rw [← Int.cast_add]
  exact double_round_int _ h

/-- A value strictly within one half of an integer rounds to it. -/
theorem round_half_even_eq (x : ℚ) (n : Int) (h1 : (n : ℚ) - 1 / 2 < x)
    (h2 : x < (n : ℚ) + 1 / 2) : round_half_even x = n := by
  unfold round_half_even
  simp only []
  by_cases hx : (n : ℚ) ≤ x
  · have hf : ⌊x⌋ = n := Int.floor_eq_iff.2 ⟨hx, by linarith⟩
    rw [hf, if_pos (by linarith)]
  · have hx1 : x < n := not_le.1 hx
    have hf : ⌊x⌋ = n - 1 :=
      Int.floor_eq_iff.2 ⟨by push_cast; linarith, by push_cast; linarith⟩
    rw [hf]
    have h3 : ¬ (x - ((n - 1 : Int) : ℚ) < 1 / 2) := by push_cast; linarith
    have h4 : (1 : ℚ) / 2 < x - ((n - 1 : Int) : ℚ) := by push_cast; linarith
    rw [if_neg h3, if_pos h4]
    omega

/-- A value half way between two integers rounds to the even one. -/
theorem round_half_even_tie (x : ℚ) (f : Int) (hx : x = (f : ℚ) + 1 / 2) :
    round_half_even x = if f % 2 = 0 then f else f + 1 := by
  have hf : ⌊x⌋ = f := Int.floor_eq_iff.2 ⟨by rw [hx]; linarith, by rw [hx]; linarith⟩
  unfold round_half_even
  simp only []
  rw [hf]
  have hr : x - (f : ℚ) = 1 / 2 := by rw [hx]; ring
  rw [hr, if_neg (lt_irrefl _), if_neg (lt_irrefl _)]

/-- The rounding of a positive value with binary exponent `e`, not below the
normal range, whose quotient by `2 ^ (e - 52)` rounds to `n`. -/
theorem double_round_eval (q : ℚ) (e n : Int) (h0 : 0 < q) (he : -1022 ≤ e)
    (h1 : (2 : ℚ) ^ e ≤ q) (h2 : q < (2 : ℚ) ^ (e + 1))
    (hn : round_half_even (q / (2 : ℚ) ^ (e - 52)) = n) :
    double_round q = (n : ℚ) * (2 : ℚ) ^ (e - 52) := by
  have hlog : Int.log 2 |q| = e := by
    rw [abs_of_pos h0]
    apply le_antisymm
    · have : Int.log 2 q < e + 1 := by
        rw [← Int.lt_zpow_iff_log_lt (by norm_num) h0]
        exact_mod_cast h2
      omega
    · rw [← Int.zpow_le_iff_le_log (by norm_num) h0]
      exact_mod_cast h1
  unfold double_round
  rw [if_neg (ne_of_gt h0)]
  simp only [hlog, max_eq_left he, hn]

/-- The delta `dpi_1800_delta` is the rounding of `1000 / 1800`. The vertical
buildup of a device of 1800 dpi after units of relative motion, each added
with the rounding of a `double`: after nine units it is
`4.999999999999999`, one unit in the last place below `5`, where the exact sum
of the nine deltas is above `5`; after ten units it is `5.5555555555555545`;
after one to nine units it is below `5`. -/
theorem double_sum_dpi_1800 :
    double_round (1000 / 1800) = dpi_1800_delta ∧
    (5 : ℚ) < 9 * dpi_1800_delta ∧
    double_sum (List.replicate 9 dpi_1800_delta) = (5629499534213119 / 1125899906842624 : ℚ) ∧
    double_sum (List.replicate 10 dpi_1800_delta) = (6254999482459021 / 1125899906842624 : ℚ) ∧
    ∀ k, k ≤ 9 → fabs (double_sum (List.replicate k dpi_1800_delta)) < 5 := by
  have e1 : double_add 0 (2501999792983609 / 4503599627370496) =
      (2501999792983609 / 4503599627370496 : ℚ) := by
    have hq : (0 : ℚ) + (2501999792983609 / 4503599627370496) =
        (2501999792983609 / 4503599627370496) := by norm_num
    unfold double_add
    rw [hq, double_round_eval (2501999792983609 / 4503599627370496) (-1)
      5003999585967218 (by norm_num) (by norm_num) (by norm_num) (by norm_num)
      (round_half_even_eq _ 5003999585967218 (by norm_num) (by norm_num))]
    norm_num
  have e2 : double_add (2501999792983609 / 4503599627370496) (2501999792983609 / 4503599627370496) =
      (2501999792983609 / 2251799813685248 : ℚ) := by
    have hq : (2501999792983609 / 4503599627370496 : ℚ) + (2501999792983609 / 4503599627370496) =
        (2501999792983609 / 2251799813685248) := by norm_num
    unfold double_add
    rw [hq, double_round_eval (2501999792983609 / 2251799813685248) (0)
      5003999585967218 (by norm_num) (by norm_num) (by norm_num) (by norm_num)
      (round_half_even_eq _ 5003999585967218 (by norm_num) (by norm_num))]
    norm_num
  have e3 : double_add (2501999792983609 / 2251799813685248) (2501999792983609 / 4503599627370496) =
      (7505999378950827 / 4503599627370496 : ℚ) := by
    have hq : (2501999792983609 / 2251799813685248 : ℚ) + (2501999792983609 / 4503599627370496) =
        (7505999378950827 / 4503599627370496) := by norm_num
    unfold double_add
    rw [hq, double_round_eval (7505999378950827 / 4503599627370496) (0)
      7505999378950827 (by norm_num) (by norm_num) (by norm_num) (by norm_num)
      (round_half_even_eq _ 7505999378950827 (by norm_num) (by norm_num))]
    norm_num
  have e4 : double_add (7505999378950827 / 4503599627370496) (2501999792983609 / 4503599627370496) =
      (2501999792983609 / 1125899906842624 : ℚ) := by
    have hq : (7505999378950827 / 4503599627370496 : ℚ) + (2501999792983609 / 4503599627370496) =
        (2501999792983609 / 1125899906842624) := by norm_num
    unfold double_add
    rw [hq, double_round_eval (2501999792983609 / 1125899906842624) (1)
      5003999585967218 (by norm_num) (by norm_num) (by norm_num) (by norm_num)
      (round_half_even_eq _ 5003999585967218 (by norm_num) (by norm_num))]
    norm_num
  have e5 : double_add (2501999792983609 / 1125899906842624) (2501999792983609 / 4503599627370496) =
      (3127499741229511 / 1125899906842624 : ℚ) := by
    have hq : (2501999792983609 / 1125899906842624 : ℚ) + (2501999792983609 / 4503599627370496) =
        (12509998964918045 / 4503599627370496) := by norm_num
    unfold double_add
    rw [hq, double_round_eval (12509998964918045 / 4503599627370496) (1)
      6254999482459022 (by norm_num) (by norm_num) (by norm_num) (by norm_num)
      (by
        rw [round_half_even_tie _ 6254999482459022 (by norm_num)]
        decide)]
    norm_num
  have e6 : double_add (3127499741229511 / 1125899906842624) (2501999792983609 / 4503599627370496) =
      (3752999689475413 / 1125899906842624 : ℚ) := by
    have hq : (3127499741229511 / 1125899906842624 : ℚ) + (2501999792983609 / 4503599627370496) =
        (15011998757901653 / 4503599627370496) := by norm_num
    unfold double_add
    rw [hq, double_round_eval (15011998757901653 / 4503599627370496) (1)
      7505999378950826 (by norm_num) (by norm_num) (by norm_num) (by norm_num)
      (by
        rw [round_half_even_tie _ 7505999378950826 (by norm_num)]
        decide)]
    norm_num
  have e7 : double_add (3752999689475413 / 1125899906842624) (2501999792983609 / 4503599627370496) =
      (4378499637721315 / 1125899906842624 : ℚ) := by
    have hq : (3752999689475413 / 1125899906842624 : ℚ) + (2501999792983609 / 4503599627370496) =
        (17513998550885261 / 4503599627370496) := by norm_num
    unfold double_add
    rw [hq, double_round_eval (17513998550885261 / 4503599627370496) (1)
      8756999275442630 (by norm_num) (by norm_num) (by norm_num) (by norm_num)
      (by
        rw [round_half_even_tie _ 8756999275442630 (by norm_num)]
        decide)]
    norm_num
  have e8 : double_add (4378499637721315 / 1125899906842624) (2501999792983609 / 4503599627370496) =
      (5003999585967217 / 1125899906842624 : ℚ) := by
    have hq : (4378499637721315 / 1125899906842624 : ℚ) + (2501999792983609 / 4503599627370496) =
        (20015998343868869 / 4503599627370496) := by norm_num
    unfold double_add
    rw [hq, double_round_eval (20015998343868869 / 4503599627370496) (2)
      5003999585967217 (by norm_num) (by norm_num) (by norm_num) (by norm_num)
      (round_half_even_eq _ 5003999585967217 (by norm_num) (by norm_num))]
    norm_num
  have e9 : double_add (5003999585967217 / 1125899906842624) (2501999792983609 / 4503599627370496) =
      (5629499534213119 / 1125899906842624 : ℚ) := by
    have hq : (5003999585967217 / 1125899906842624 : ℚ) + (2501999792983609 / 4503599627370496) =
        (22517998136852477 / 4503599627370496) := by norm_num
    unfold double_add
    rw [hq, double_round_eval (22517998136852477 / 4503599627370496) (2)
      5629499534213119 (by norm_num) (by norm_num) (by norm_num) (by norm_num)
      (round_half_even_eq _ 5629499534213119 (by norm_num) (by norm_num))]
    norm_num
  have e10 : double_add (5629499534213119 / 1125899906842624)
      (2501999792983609 / 4503599627370496) =
      (6254999482459021 / 1125899906842624 : ℚ) := by
    have hq : (5629499534213119 / 1125899906842624 : ℚ) + (2501999792983609 / 4503599627370496) =
        (25019997929836085 / 4503599627370496) := by norm_num
    unfold double_add
    rw [hq, double_round_eval (25019997929836085 / 4503599627370496) (2)
      6254999482459021 (by norm_num) (by norm_num) (by norm_num) (by norm_num)
      (round_half_even_eq _ 6254999482459021 (by norm_num) (by norm_num))]
    norm_num
  have e0 : double_round (1000 / 1800) = dpi_1800_delta := by
    rw [double_round_eval (1000 / 1800) (-1) 5003999585967218 (by norm_num) (by norm_num)
      (by norm_num) (by norm_num)
      (round_half_even_eq _ 5003999585967218 (by norm_num) (by norm_num))]
    norm_num [dpi_1800_delta]
  refine ⟨e0, by norm_num [dpi_1800_delta], ?_, ?_, ?_⟩
  · simp only [dpi_1800_delta, double_sum, List.replicate, List.foldl_cons, List.foldl_nil,
      e1, e2, e3, e4, e5, e6, e7, e8, e9]
  · simp only [dpi_1800_delta, double_sum, List.replicate, List.foldl_cons, List.foldl_nil,
      e1, e2, e3, e4, e5, e6, e7, e8, e9, e10]
  · intro k hk
    interval_cases k <;>
      simp only [dpi_1800_delta, double_sum, List.replicate, List.foldl_cons, List.foldl_nil,
        e1, e2, e3, e4, e5, e6, e7, e8, e9, fabs] <;>
      norm_num [abs_lt]

/-! ## Key ledger -/

/-- C7: on a code of the ledger, `update_key_down_count` returns the old count
plus one on a press and, when the old count is positive, the old count minus
one on a release; the returned value is stored for that code, every other
entry of the ledger and every other field of the device is left as it was, and
no upper clamp is applied: a count above 32 is incremented and returned like
any other. -/
theorem update_key_down_count_spec (d : Device) (code : Nat) (hcode : code < KEY_CNT) :
    (∀ pressed : Int, pressed ≠ 0 →
      update_key_down_count d code pressed =
        some ({ d with key_count := Function.update d.key_count code (d.key_count code + 1) },
          d.key_count code + 1)) ∧
    (0 < d.key_count code →
      update_key_down_count d code 0 =
        some ({ d with key_count := Function.update d.key_count code (d.key_count code - 1) },
          d.key_count code - 1)) ∧
    (∀ (pressed : Int) (d1 : Device) (r : Int),
      update_key_down_count d code pressed = some (d1, r) →
        d1.key_count code = r ∧ (∀ c, c ≠ code → d1.key_count c = d.key_count c) ∧
        (pressed ≠ 0 → 32 < d.key_count code → r = d.key_count code + 1 ∧ 33 < r)) := by
  refine ⟨?_, ?_, ?_⟩
  · intro pressed hp
    simp [update_key_down_count, hcode, hp]
  · intro hpos
    simp [update_key_down_count, hcode, hpos]
  · intro pressed d1 r h
    unfold update_key_down_count at h
    simp only [hcode, if_true] at h
    split_ifs at h with hp hpos
    · simp only [Option.some.injEq, Prod.mk.injEq] at h
      obtain ⟨rfl, rfl⟩ := h
      refine ⟨by simp, fun c hc => by simp [Function.update, hc], fun _ h32 => ⟨rfl, by omega⟩⟩
    · simp only [Option.some.injEq, Prod.mk.injEq] at h
      obtain ⟨rfl, rfl⟩ := h
      refine ⟨by simp, fun c hc => by simp [Function.update, hc], fun hne => absurd hne hp⟩

theorem update_key_down_count_spec_witness :
    (update_key_down_count ledger_at_40 30 1).map (fun r => r.2) = some 41 ∧
    (update_key_down_count ledger_at_40 30 0).map (fun r => r.2) = some 39 := by
  have h := update_key_down_count_spec ledger_at_40 30 (by decide)
  refine ⟨?_, ?_⟩
  · rw [h.1 1 (by decide)]; rfl
  · rw [h.2.1 (by decide)]; rfl

/-- A press through `evdev_keyboard_notify_key` on a code of the ledger: the
count goes up by one and the press is notified when the count was `0`. -/
theorem keyboard_notify_key_press (s : State) (t code : Nat) (hcode : code < KEY_CNT) :
    ∃ s1, evdev_keyboard_notify_key s t code LIBINPUT_KEY_STATE_PRESSED = some s1 ∧
      s1.dev.key_count = Function.update s.dev.key_count code (s.dev.key_count code + 1) ∧
      s1.out = (if s.dev.key_count code = 0 then
        s.out ++ [Notification.keyboard_key (t % 2 ^ 32) code LIBINPUT_KEY_STATE_PRESSED] else s.out) := by
  by_cases h0 : s.dev.key_count code = 0
  · simp [evdev_keyboard_notify_key, update_key_down_count, hcode, libinput_key_state.toInt,
      State.post, h0]
  · simp [evdev_keyboard_notify_key, update_key_down_count, hcode, libinput_key_state.toInt,
      State.post, h0]

/-- A release through `evdev_keyboard_notify_key` at a positive count: the
count goes down by one and the release is notified when the count was `1`. -/
theorem keyboard_notify_key_release (s : State) (t code : Nat) (hcode : code < KEY_CNT)
    (hpos : 0 < s.dev.key_count code) :
    ∃ s1, evdev_keyboard_notify_key s t code LIBINPUT_KEY_STATE_RELEASED = some s1 ∧
      s1.dev.key_count = Function.update s.dev.key_count code (s.dev.key_count code - 1) ∧
      s1.out = (if s.dev.key_count code = 1 then
        s.out ++ [Notification.keyboard_key (t % 2 ^ 32) code LIBINPUT_KEY_STATE_RELEASED] else s.out) := by
  by_cases h1 : s.dev.key_count code = 1
  · simp [evdev_keyboard_notify_key, update_key_down_count, hcode, libinput_key_state.toInt,
      State.post, h1]
  · have h2 : s.dev.key_count code - 1 ≠ 0 := by omega
    simp [evdev_keyboard_notify_key, update_key_down_count, hcode, libinput_key_state.toInt,
      State.post, h1, hpos, h2]

theorem evdev_change_to_left_handed_key_count (d : Device) :
    (evdev_change_to_left_handed d).key_count = d.key_count := by
  unfold evdev_change_to_left_handed
  split_ifs <;> rfl

theorem evdev_change_scroll_method_key_count (d : Device) :
    (evdev_change_scroll_method d).key_count = d.key_count := by
  unfold evdev_change_scroll_method
  split_ifs <;> rfl

theorem left_handed_hook_key_count (s : State) (state : libinput_button_state) :
    (left_handed_hook s state).dev.key_count = s.dev.key_count := by
  unfold left_handed_hook
  split_ifs
  · exact evdev_change_to_left_handed_key_count _
  · rfl

theorem scroll_method_hook_key_count (s : State) (state : libinput_button_state) :
    (scroll_method_hook s state).dev.key_count = s.dev.key_count := by
  unfold scroll_method_hook
  split_ifs
  · exact evdev_change_scroll_method_key_count _
  · rfl

theorem left_handed_hook_out (s : State) (state : libinput_button_state) :
    (left_handed_hook s state).out = s.out := by
  unfold left_handed_hook
  split_ifs <;> rfl

theorem scroll_method_hook_out (s : State) (state : libinput_button_state) :
    (scroll_method_hook s state).out = s.out := by
  unfold scroll_method_hook
  split_ifs <;> rfl

/-- A press through `evdev_pointer_notify_button` on a code of the ledger. -/
theorem pointer_notify_button_press (s : State) (t code : Nat) (hcode : code < KEY_CNT) :
    ∃ s1, evdev_pointer_notify_button s t code LIBINPUT_BUTTON_STATE_PRESSED = some s1 ∧
      s1.dev.key_count = Function.update s.dev.key_count code (s.dev.key_count code + 1) ∧
      s1.out = (if s.dev.key_count code = 0 then
        s.out ++ [Notification.pointer_button (t % 2 ^ 32) code LIBINPUT_BUTTON_STATE_PRESSED]
        else s.out) := by
  by_cases h0 : s.dev.key_count code = 0
  · simp [evdev_pointer_notify_button, update_key_down_count, hcode,
      libinput_button_state.toInt, State.post, h0, scroll_method_hook_key_count,
      left_handed_hook_key_count, scroll_method_hook_out, left_handed_hook_out]
  · simp [evdev_pointer_notify_button, update_key_down_count, hcode,
      libinput_button_state.toInt, State.post, h0]

/-- A release through `evdev_pointer_notify_button` at a positive count. -/
theorem pointer_notify_button_release (s : State) (t code : Nat) (hcode : code < KEY_CNT)
    (hpos : 0 < s.dev.key_count code) :
    ∃ s1, evdev_pointer_notify_button s t code LIBINPUT_BUTTON_STATE_RELEASED = some s1 ∧
      s1.dev.key_count = Function.update s.dev.key_count code (s.dev.key_count code - 1) ∧
      s1.out = (if s.dev.key_count code = 1 then
        s.out ++ [Notification.pointer_button (t % 2 ^ 32) code LIBINPUT_BUTTON_STATE_RELEASED]
        else s.out) := by
  by_cases h1 : s.dev.key_count code = 1
  · simp only [evdev_pointer_notify_button, update_key_down_count, hcode,
      libinput_button_state.toInt, h1]
    simp only [if_true, ne_eq, not_true_eq_false, if_false, zero_lt_one, sub_self, and_true,
      and_self, or_true, true_and, reduceCtorEq, false_and, false_or]
    refine ⟨_, rfl, ?_, ?_⟩
    · rw [scroll_method_hook_key_count, left_handed_hook_key_count]
      rfl
    · rw [scroll_method_hook_out, left_handed_hook_out]
      rfl
  · have h2 : s.dev.key_count code - 1 ≠ 0 := by omega
    simp [evdev_pointer_notify_button, update_key_down_count, hcode,
      libinput_button_state.toInt, State.post, h1, hpos, h2]

/-- C6: on a code of the ledger with count 0, two presses followed by two
releases through `evdev_keyboard_notify_key` post exactly one pressed
notification, on the first press, and exactly one released notification, on
the last release, and leave the count at 0; the same holds through
`evdev_pointer_notify_button`. The notifications carry the time of their call
modulo `2 ^ 32`, the parameter `time` being a `uint32_t`. -/
theorem aliased_press_release_notified_once (s : State) (code t1 t2 t3 t4 : Nat)
    (hcode : code < KEY_CNT) (h0 : s.dev.key_count code = 0) :
    (∃ s1 s2 s3 s4 : State,
      evdev_keyboard_notify_key s t1 code LIBINPUT_KEY_STATE_PRESSED = some s1 ∧
      evdev_keyboard_notify_key s1 t2 code LIBINPUT_KEY_STATE_PRESSED = some s2 ∧
      evdev_keyboard_notify_key s2 t3 code LIBINPUT_KEY_STATE_RELEASED = some s3 ∧
      evdev_keyboard_notify_key s3 t4 code LIBINPUT_KEY_STATE_RELEASED = some s4 ∧
      s1.out = s.out ++
        [Notification.keyboard_key (t1 % 2 ^ 32) code LIBINPUT_KEY_STATE_PRESSED] ∧
      s2.out = s1.out ∧ s3.out = s1.out ∧
      s4.out = s.out ++
        [Notification.keyboard_key (t1 % 2 ^ 32) code LIBINPUT_KEY_STATE_PRESSED,
         Notification.keyboard_key (t4 % 2 ^ 32) code LIBINPUT_KEY_STATE_RELEASED] ∧
      s4.dev.key_count code = 0) ∧
    (∃ s1 s2 s3 s4 : State,
      evdev_pointer_notify_button s t1 code LIBINPUT_BUTTON_STATE_PRESSED = some s1 ∧
      evdev_pointer_notify_button s1 t2 code LIBINPUT_BUTTON_STATE_PRESSED = some s2 ∧
      evdev_pointer_notify_button s2 t3 code LIBINPUT_BUTTON_STATE_RELEASED = some s3 ∧
      evdev_pointer_notify_button s3 t4 code LIBINPUT_BUTTON_STATE_RELEASED = some s4 ∧
      s1.out = s.out ++
        [Notification.pointer_button (t1 % 2 ^ 32) code LIBINPUT_BUTTON_STATE_PRESSED] ∧
      s2.out = s1.out ∧ s3.out = s1.out ∧
      s4.out = s.out ++
        [Notification.pointer_button (t1 % 2 ^ 32) code LIBINPUT_BUTTON_STATE_PRESSED,
         Notification.pointer_button (t4 % 2 ^ 32) code LIBINPUT_BUTTON_STATE_RELEASED] ∧
      s4.dev.key_count code = 0) := by
  constructor
  · obtain ⟨s1, e1, k1, o1⟩ := keyboard_notify_key_press s t1 code hcode
    obtain ⟨s2, e2, k2, o2⟩ := keyboard_notify_key_press s1 t2 code hcode
    have c1 : s1.dev.key_count code = 1 := by simp [k1, h0]
    have c2 : s2.dev.key_count code = 2 := by simp [k2, c1]
    obtain ⟨s3, e3, k3, o3⟩ := keyboard_notify_key_release s2 t3 code hcode (by omega)
    have c3 : s3.dev.key_count code = 1 := by simp [k3, c2]
    obtain ⟨s4, e4, k4, o4⟩ := keyboard_notify_key_release s3 t4 code hcode (by omega)
    have c4 : s4.dev.key_count code = 0 := by simp [k4, c3]
    refine ⟨s1, s2, s3, s4, e1, e2, e3, e4, ?_, ?_, ?_, ?_, c4⟩
    · simp [o1, h0]
    · simp [o2, c1]
    · simp [o3, c2, o2, c1]
    · simp [o4, c3, o3, c2, o2, c1, o1, h0]
  · obtain ⟨s1, e1, k1, o1⟩ := pointer_notify_button_press s t1 code hcode
    obtain ⟨s2, e2, k2, o2⟩ := pointer_notify_button_press s1 t2 code hcode
    have c1 : s1.dev.key_count code = 1 := by simp [k1, h0]
    have c2 : s2.dev.key_count code = 2 := by simp [k2, c1]
    obtain ⟨s3, e3, k3, o3⟩ := pointer_notify_button_release s2 t3 code hcode (by omega)
    have c3 : s3.dev.key_count code = 1 := by simp [k3, c2]
    obtain ⟨s4, e4, k4, o4⟩ := pointer_notify_button_release s3 t4 code hcode (by omega)
    have c4 : s4.dev.key_count code = 0 := by simp [k4, c3]
    refine ⟨s1, s2, s3, s4, e1, e2, e3, e4, ?_, ?_, ?_, ?_, c4⟩
    · simp [o1, h0]
    · simp [o2, c1]
    · simp [o3, c2, o2, c1]
    · simp [o4, c3, o3, c2, o2, c1, o1, h0]

theorem aliased_press_release_notified_once_witness :
    (30 < KEY_CNT ∧ idle_state.dev.key_count 30 = 0) ∧
    ∃ s1 s2 s3 s4 : State,
      evdev_keyboard_notify_key idle_state 1 30 LIBINPUT_KEY_STATE_PRESSED = some s1 ∧
      evdev_keyboard_notify_key s1 2 30 LIBINPUT_KEY_STATE_PRESSED = some s2 ∧
      evdev_keyboard_notify_key s2 3 30 LIBINPUT_KEY_STATE_RELEASED = some s3 ∧
      evdev_keyboard_notify_key s3 4 30 LIBINPUT_KEY_STATE_RELEASED = some s4 ∧
      s4.out = [Notification.keyboard_key 1 30 LIBINPUT_KEY_STATE_PRESSED,
        Notification.keyboard_key 4 30 LIBINPUT_KEY_STATE_RELEASED] := by
  refine ⟨⟨by decide, rfl⟩, ?_⟩
  obtain ⟨s1, s2, s3, s4, e1, e2, e3, e4, -, -, -, o4, -⟩ :=
    (aliased_press_release_notified_once idle_state 30 1 2 3 4 (by decide) rfl).1
  exact ⟨s1, s2, s3, s4, e1, e2, e3, e4, by simpa [idle_state] using o4⟩

/-! ## Frame properties of the flush -/

theorem keys_untouched_refl (s : State) : keys_untouched s s :=
  ⟨rfl, rfl, [], by simp, by simp⟩

theorem keys_untouched_trans {a b c : State} (h1 : keys_untouched a b)
    (h2 : keys_untouched b c) : keys_untouched a c := by
  obtain ⟨k1, m1, x1, o1, n1⟩ := h1
  obtain ⟨k2, m2, x2, o2, n2⟩ := h2
  refine ⟨k2.trans k1, m2.trans m1, x1 ++ x2, by simp [o2, o1], ?_⟩
  intro n hn
  rcases List.mem_append.1 hn with h | h
  · exact n1 n h
  · exact n2 n h

theorem keys_untouched_clear_pending {a b : State} (h : keys_untouched a b) :
    keys_untouched a b.clear_pending := h

theorem keys_untouched_post (s : State) (n : Notification) (hn : n.is_key_or_button = false) :
    keys_untouched s (s.post n) :=
  ⟨rfl, rfl, [n], rfl, by simpa using hn⟩

theorem keys_untouched_notify_axis (s : State) (time axes : Nat)
    (source : libinput_pointer_axis_source) (x y xd yd : ℚ) :
    keys_untouched s (evdev_notify_axis s time axes source x y xd yd) := by
  unfold evdev_notify_axis
  split_ifs <;> exact keys_untouched_post _ _ rfl

theorem keys_untouched_of_dev {s s1 : State} (hk : s1.dev.key_count = s.dev.key_count)
    (hm : s1.dev.hw_key_mask = s.dev.hw_key_mask) (ho : s1.out = s.out) :
    keys_untouched s s1 :=
  ⟨hk, hm, [], by simp [ho], by simp⟩

theorem evdev_start_scrolling_key_count (d : Device) (a : Nat) :
    (evdev_start_scrolling d a).key_count = d.key_count := rfl

theorem evdev_start_scrolling_hw_key_mask (d : Device) (a : Nat) :
    (evdev_start_scrolling d a).hw_key_mask = d.hw_key_mask := rfl

/-- The first block of `evdev_post_scroll` writes the two buildup fields only. -/
theorem scroll_add_buildup_eq (d : Device) (dx dy : ℚ) :
    scroll_add_buildup d dx dy =
      { d with
        scroll_buildup_vertical := (scroll_add_buildup d dx dy).scroll_buildup_vertical,
        scroll_buildup_horizontal := (scroll_add_buildup d dx dy).scroll_buildup_horizontal } := by
  unfold scroll_add_buildup
  simp only []
  split_ifs <;> rfl

/-- The second block of `evdev_post_scroll` writes the direction mask only. -/
theorem scroll_trigger_eq (d : Device) (dx dy : ℚ) :
    scroll_trigger d dx dy =
      { d with scroll_direction := (scroll_trigger d dx dy).scroll_direction } := by
  unfold scroll_trigger
  simp only []
  split_ifs <;> rfl

theorem keys_untouched_scroll_emit (s : State) (time : Nat)
    (source : libinput_pointer_axis_source) (dx dy : ℚ) :
    keys_untouched s (scroll_emit s time source dx dy) := by
  unfold scroll_emit
  simp only []
  split_ifs <;>
    first
    | exact keys_untouched_notify_axis _ _ _ _ _ _ _ _
    | exact keys_untouched_refl _

theorem keys_untouched_post_scroll (s : State) (time : Nat)
    (source : libinput_pointer_axis_source) (dx dy : ℚ) :
    keys_untouched s (evdev_post_scroll s time source dx dy) := by
  have hk : (scroll_trigger (scroll_add_buildup s.dev dx dy) dx dy).key_count =
      s.dev.key_count := by
    rw [scroll_trigger_eq, scroll_add_buildup_eq]
  have hm : (scroll_trigger (scroll_add_buildup s.dev dx dy) dx dy).hw_key_mask =
      s.dev.hw_key_mask := by
    rw [scroll_trigger_eq, scroll_add_buildup_eq]
  have h1 : keys_untouched s
      { s with dev := scroll_trigger (scroll_add_buildup s.dev dx dy) dx dy } :=
    keys_untouched_of_dev hk hm rfl
  unfold evdev_post_scroll
  exact keys_untouched_trans h1 (keys_untouched_scroll_emit _ _ _ _ _)

theorem keys_untouched_flush_extra_aux_data {s s1 : State} {time : Nat} {slot seat_slot : Int}
    (h : evdev_flush_extra_aux_data s time slot seat_slot = some s1) :
    keys_untouched s s1 := by
  unfold evdev_flush_extra_aux_data at h
  split at h
  · exact absurd h (by simp)
  · simp only [Option.some.injEq] at h
    subst h
    refine ⟨rfl, rfl, _, rfl, ?_⟩
    intro n hn
    simp only [List.mem_map] at hn
    obtain ⟨a, -, rfl⟩ := hn
    rfl

theorem apply_filter_key_count (d : Device) (dx dy : ℚ) (time : Nat) :
    (apply_filter d dx dy time).1.key_count = d.key_count := by
  unfold apply_filter
  split <;> rfl

theorem apply_filter_hw_key_mask (d : Device) (dx dy : ℚ) (time : Nat) :
    (apply_filter d dx dy time).1.hw_key_mask = d.hw_key_mask := by
  unfold apply_filter
  split <;> rfl

theorem keys_untouched_aux_post {s s2 s3 : State} {time : Nat} {slot seat_slot : Int}
    (h : evdev_flush_extra_aux_data s2 time slot seat_slot = some s3)
    (h0 : keys_untouched s s2) (n : Notification) (hn : n.is_key_or_button = false) :
    keys_untouched s (s3.post n).clear_pending :=
  keys_untouched_trans h0
    (keys_untouched_trans (keys_untouched_flush_extra_aux_data h) (keys_untouched_post _ _ hn))

/-- The flush leaves the key tracker alone: ledger and hardware key bitmap are
unchanged and no key or button notification is posted. -/
theorem keys_untouched_flush {s s1 : State} {time : Nat}
    (h : evdev_flush_pending_event s time = some s1) : keys_untouched s s1 := by
  unfold evdev_flush_pending_event at h
  split at h
  all_goals
    try simp only [flush_case_relative_motion, flush_case_mt_down, flush_case_mt_motion,
      flush_case_mt_up, flush_case_touch_down, flush_case_absolute_motion,
      flush_case_touch_up] at h
  · simp only [Option.some.injEq] at h
    subst h
    exact keys_untouched_refl _
  · -- relative motion
    have h0 : keys_untouched s { s with dev := { s.dev with rel_dx := 0, rel_dy := 0 } } :=
      keys_untouched_of_dev rfl rfl rfl
    split_ifs at h <;> simp only [Option.some.injEq] at h <;> subst h
    · exact keys_untouched_trans h0 (keys_untouched_post_scroll _ _ _ _ _)
    · exact keys_untouched_of_dev rfl rfl rfl
    · exact keys_untouched_of_dev (apply_filter_key_count _ _ _ _)
        (apply_filter_hw_key_mask _ _ _ _) rfl
    · refine ⟨apply_filter_key_count _ _ _ _, apply_filter_hw_key_mask _ _ _ _, [_], rfl, ?_⟩
      intro n hn
      simp only [List.mem_singleton] at hn
      subst hn
      rfl
  all_goals
    repeat' split at h
  all_goals try contradiction
  all_goals
    simp only [Option.some.injEq] at h
    subst h
  all_goals first
    | exact keys_untouched_of_dev rfl rfl rfl
    | exact keys_untouched_post _ _ rfl
    | (refine keys_untouched_aux_post ‹_› ?_ _ rfl
       exact keys_untouched_of_dev rfl rfl rfl)

/-- C8: in `evdev_process_key` a key event with value 2 (kernel auto-repeat)
changes nothing at all, and a release (value 0) of a key- or button-type code
whose hardware-state bit is not set does what the flush of the pending event
does and nothing more: the ledger and the hardware key bitmap are unchanged
and no key or button notification is posted. -/
theorem process_key_repeat_and_stray_release_ignored (s : State) (e : input_event)
    (time : Nat) :
    (e.value = 2 → evdev_process_key s e time = some s) ∧
    (e.value = 0 → get_key_type e.code ≠ EVDEV_KEY_TYPE_NONE →
      hw_is_key_down s.dev e.code = false →
      evdev_process_key s e time = evdev_flush_pending_event s time ∧
      ∀ s1, evdev_process_key s e time = some s1 →
        s1.dev.key_count = s.dev.key_count ∧ s1.dev.hw_key_mask = s.dev.hw_key_mask ∧
        ∃ extra : List Notification, s1.out = s.out ++ extra ∧
          ∀ n ∈ extra, n.is_key_or_button = false) := by
  constructor
  · intro h2
    simp [evdev_process_key, h2]
  · intro h0 hty hup
    have hne : e.code ≠ BTN_TOUCH := by
      intro hc
      apply hty
      simp [get_key_type, hc]
    have heq : evdev_process_key s e time = evdev_flush_pending_event s time := by
      unfold evdev_process_key
      simp only [h0, hne, if_false]
      cases hf : evdev_flush_pending_event s time with
      | none => simp
      | some s1 =>
        have hm := (keys_untouched_flush hf).2.1
        have hup1 : hw_is_key_down s1.dev e.code = false := by
          unfold hw_is_key_down at hup ⊢
          rw [hm]
          exact hup
        simp [hty, hup1]
    refine ⟨heq, ?_⟩
    intro s1 h1
    rw [heq] at h1
    exact keys_untouched_flush h1

theorem process_key_repeat_and_stray_release_ignored_witness :
    release_key_30.value = 0 ∧ get_key_type release_key_30.code ≠ EVDEV_KEY_TYPE_NONE ∧
    hw_is_key_down moving_mouse.dev release_key_30.code = false ∧
    evdev_process_key moving_mouse release_key_30 7 =
      evdev_flush_pending_event moving_mouse 7 :=
  ⟨rfl, by decide, rfl,
    ((process_key_repeat_and_stray_release_ignored moving_mouse release_key_30 7).2
      rfl (by decide) rfl).1⟩

/-! ## Scroll state machine -/

theorem and_AS_MASK_ne_zero (x axis : Nat) : (x &&& AS_MASK axis != 0) = x.testBit axis := by
  unfold AS_MASK
  rw [Nat.one_shiftLeft, Nat.and_two_pow]
  cases h : x.testBit axis <;> simp

/-- An axis is scrolling when its bit of the direction mask is set. -/
theorem evdev_is_scrolling_eq (d : Device) (axis : Nat) :
    evdev_is_scrolling d axis = d.scroll_direction.testBit axis :=
  and_AS_MASK_ne_zero _ _

theorem evdev_start_scrolling_is_scrolling (d : Device) (a b : Nat) :
    evdev_is_scrolling (evdev_start_scrolling d a) b =
      (evdev_is_scrolling d b || decide (a = b)) := by
  simp only [evdev_is_scrolling_eq, evdev_start_scrolling, AS_MASK, Nat.one_shiftLeft,
    Nat.testBit_or, Nat.testBit_two_pow]

theorem scroll_add_buildup_is_scrolling (d : Device) (dx dy : ℚ) (a : Nat) :
    evdev_is_scrolling (scroll_add_buildup d dx dy) a = evdev_is_scrolling d a := by
  rw [scroll_add_buildup_eq]
  rfl

theorem scroll_add_buildup_threshold (d : Device) (dx dy : ℚ) :
    (scroll_add_buildup d dx dy).scroll_threshold = d.scroll_threshold := by
  rw [scroll_add_buildup_eq]

/-- The device after `evdev_post_scroll`: the first two blocks applied. -/
theorem evdev_post_scroll_dev (s : State) (time : Nat) (source : libinput_pointer_axis_source)
    (dx dy : ℚ) :
    (evdev_post_scroll s time source dx dy).dev =
      scroll_trigger (scroll_add_buildup s.dev dx dy) dx dy := by
  unfold evdev_post_scroll scroll_emit evdev_notify_axis
  simp only []
  split_ifs <;> rfl

/-- C10: when exactly one scroll axis is latched, a call of `evdev_post_scroll`
latches the other axis exactly when the absolute value of the delta of this
call on that axis is at least the threshold; the accumulated buildup of the
unlatched axis plays no part, so it never latches the axis by itself. -/
theorem post_scroll_other_axis_needs_own_delta (s : State) (time : Nat)
    (source : libinput_pointer_axis_source) (dx dy : ℚ) :
    (evdev_is_scrolling s.dev LIBINPUT_POINTER_AXIS_SCROLL_VERTICAL = true →
      evdev_is_scrolling s.dev LIBINPUT_POINTER_AXIS_SCROLL_HORIZONTAL = false →
      (evdev_is_scrolling (evdev_post_scroll s time source dx dy).dev
          LIBINPUT_POINTER_AXIS_SCROLL_HORIZONTAL = true ↔
        fabs dx ≥ s.dev.scroll_threshold)) ∧
    (evdev_is_scrolling s.dev LIBINPUT_POINTER_AXIS_SCROLL_HORIZONTAL = true →
      evdev_is_scrolling s.dev LIBINPUT_POINTER_AXIS_SCROLL_VERTICAL = false →
      (evdev_is_scrolling (evdev_post_scroll s time source dx dy).dev
          LIBINPUT_POINTER_AXIS_SCROLL_VERTICAL = true ↔
        fabs dy ≥ s.dev.scroll_threshold)) := by
  constructor
  · intro hv hh
    rw [evdev_post_scroll_dev]
    unfold scroll_trigger
    simp only [scroll_add_buildup_is_scrolling, scroll_add_buildup_threshold, hv, hh,
      Bool.not_true, Bool.not_false, Bool.and_false, Bool.false_eq_true, if_false, if_true]
    split_ifs with hd
    · simp [evdev_start_scrolling_is_scrolling, hd]
    · simp [scroll_add_buildup_is_scrolling, hh, hd]
  · intro hh hv
    rw [evdev_post_scroll_dev]
    unfold scroll_trigger
    simp only [scroll_add_buildup_is_scrolling, scroll_add_buildup_threshold, hv, hh,
      Bool.not_true, Bool.not_false, Bool.false_and, Bool.false_eq_true, if_false, if_true]
    split_ifs with hd
    · simp [evdev_start_scrolling_is_scrolling, hd]
    · simp [scroll_add_buildup_is_scrolling, hv, hd]

theorem post_scroll_other_axis_needs_own_delta_witness :
    evdev_is_scrolling vertical_latched.dev LIBINPUT_POINTER_AXIS_SCROLL_VERTICAL = true ∧
    evdev_is_scrolling vertical_latched.dev LIBINPUT_POINTER_AXIS_SCROLL_HORIZONTAL = false ∧
    (evdev_is_scrolling
        (evdev_post_scroll vertical_latched 0 LIBINPUT_POINTER_AXIS_SOURCE_CONTINUOUS 1 0).dev
        LIBINPUT_POINTER_AXIS_SCROLL_HORIZONTAL = true ↔
      fabs 1 ≥ vertical_latched.dev.scroll_threshold) :=
  ⟨by decide, by decide,
    (post_scroll_other_axis_needs_own_delta vertical_latched 0
      LIBINPUT_POINTER_AXIS_SOURCE_CONTINUOUS 1 0).1 (by decide) (by decide)⟩

theorem fabs_nonneg (x : ℚ) : 0 ≤ fabs x := abs_nonneg x

/-- A call with `dx = 0` that keeps the vertical buildup below the threshold:
nothing is posted, nothing is latched, and the buildup has taken the delta. -/
theorem post_scroll_below_threshold (s : State) (time : Nat)
    (source : libinput_pointer_axis_source) (dy : ℚ)
    (hv : evdev_is_scrolling s.dev LIBINPUT_POINTER_AXIS_SCROLL_VERTICAL = false)
    (hh : evdev_is_scrolling s.dev LIBINPUT_POINTER_AXIS_SCROLL_HORIZONTAL = false)
    (hbh : s.dev.scroll_buildup_horizontal = 0)
    (hlt : fabs (double_add s.dev.scroll_buildup_vertical dy) < s.dev.scroll_threshold) :
    (evdev_post_scroll s time source 0 dy).out = s.out ∧
    (evdev_post_scroll s time source 0 dy).dev =
      { s.dev with scroll_buildup_vertical := double_add s.dev.scroll_buildup_vertical dy } := by
  have hthr : 0 < s.dev.scroll_threshold := lt_of_le_of_lt (fabs_nonneg _) hlt
  have hzero : double_add s.dev.scroll_buildup_horizontal 0 =
      s.dev.scroll_buildup_horizontal := by
    rw [hbh]
    exact double_add_zero 0 double_round_zero
  have hadd : scroll_add_buildup s.dev 0 dy =
      { s.dev with scroll_buildup_vertical := double_add s.dev.scroll_buildup_vertical dy } := by
    unfold scroll_add_buildup
    have hh1 : evdev_is_scrolling
        { s.dev with scroll_buildup_vertical := double_add s.dev.scroll_buildup_vertical dy }
        LIBINPUT_POINTER_AXIS_SCROLL_HORIZONTAL = false := hh
    simp only [hv, hh1, Bool.not_false, if_true]
    simp only [hzero]
  have hv1 : evdev_is_scrolling
      { s.dev with scroll_buildup_vertical := double_add s.dev.scroll_buildup_vertical dy }
      LIBINPUT_POINTER_AXIS_SCROLL_VERTICAL = false := hv
  have hh1 : evdev_is_scrolling
      { s.dev with scroll_buildup_vertical := double_add s.dev.scroll_buildup_vertical dy }
      LIBINPUT_POINTER_AXIS_SCROLL_HORIZONTAL = false := hh
  have htrig : scroll_trigger
      { s.dev with scroll_buildup_vertical := double_add s.dev.scroll_buildup_vertical dy }
      0 dy =
      { s.dev with
        scroll_buildup_vertical := double_add s.dev.scroll_buildup_vertical dy } := by
    unfold scroll_trigger
    simp only [hv1, hh1, Bool.not_false, Bool.and_self, if_true]
    have h1 : ¬ (fabs (double_add s.dev.scroll_buildup_vertical dy) ≥
        s.dev.scroll_threshold) := not_le.2 hlt
    have h2 : ¬ (fabs s.dev.scroll_buildup_horizontal ≥ s.dev.scroll_threshold) := by
      rw [hbh]
      simpa [fabs] using hthr
    simp only [h1, h2, if_false]
  constructor
  · unfold evdev_post_scroll scroll_emit
    rw [hadd, htrig]
    simp [hv1, hh1]
  · rw [evdev_post_scroll_dev, hadd, htrig]

/-- A call with `dx = 0` and a non-zero `dy` on which the vertical buildup
reaches a positive threshold: the vertical axis, and only it, is latched, and
one axis notification is posted; it carries the `dy` of the call, with the
sign flipped by `evdev_notify_axis` when natural scrolling is enabled. -/
theorem post_scroll_reaches_threshold (s : State) (time : Nat)
    (source : libinput_pointer_axis_source) (dy : ℚ)
    (hv : evdev_is_scrolling s.dev LIBINPUT_POINTER_AXIS_SCROLL_VERTICAL = false)
    (hh : evdev_is_scrolling s.dev LIBINPUT_POINTER_AXIS_SCROLL_HORIZONTAL = false)
    (hbh : s.dev.scroll_buildup_horizontal = 0)
    (hthr : 0 < s.dev.scroll_threshold)
    (hge : fabs (double_add s.dev.scroll_buildup_vertical dy) ≥ s.dev.scroll_threshold)
    (hne : dy ≠ 0) :
    evdev_is_scrolling (evdev_post_scroll s time source 0 dy).dev
      LIBINPUT_POINTER_AXIS_SCROLL_VERTICAL = true ∧
    evdev_is_scrolling (evdev_post_scroll s time source 0 dy).dev
      LIBINPUT_POINTER_AXIS_SCROLL_HORIZONTAL = false ∧
    (evdev_post_scroll s time source 0 dy).out =
      s.out ++ [Notification.pointer_axis time
        (evdev_post_scroll s time source 0 dy).dev.scroll_direction source 0
        (if s.dev.scroll_natural_scrolling_enabled then -dy else dy) 0 0] := by
  have hzero : double_add s.dev.scroll_buildup_horizontal 0 =
      s.dev.scroll_buildup_horizontal := by
    rw [hbh]
    exact double_add_zero 0 double_round_zero
  generalize hb : double_add s.dev.scroll_buildup_vertical dy = b at hge
  have hv1 : evdev_is_scrolling { s.dev with scroll_buildup_vertical := b }
      LIBINPUT_POINTER_AXIS_SCROLL_VERTICAL = false := hv
  have hh1 : evdev_is_scrolling { s.dev with scroll_buildup_vertical := b }
      LIBINPUT_POINTER_AXIS_SCROLL_HORIZONTAL = false := hh
  have hadd : scroll_add_buildup s.dev 0 dy =
      { s.dev with scroll_buildup_vertical := b } := by
    unfold scroll_add_buildup
    rw [hb]
    simp only [hv, hh1, Bool.not_false, if_true]
    simp only [hzero]
  have htrig : scroll_trigger { s.dev with scroll_buildup_vertical := b } 0 dy =
      evdev_start_scrolling { s.dev with scroll_buildup_vertical := b }
        LIBINPUT_POINTER_AXIS_SCROLL_VERTICAL := by
    unfold scroll_trigger
    simp only [hv1, hh1, Bool.not_false, Bool.and_self, if_true]
    have h1 : fabs b ≥ s.dev.scroll_threshold := hge
    have h2 : ¬ (fabs s.dev.scroll_buildup_horizontal ≥ s.dev.scroll_threshold) := by
      rw [hbh]
      simpa [fabs] using hthr
    simp only [h1, if_true]
    have h3 : (evdev_start_scrolling { s.dev with scroll_buildup_vertical := b }
        LIBINPUT_POINTER_AXIS_SCROLL_VERTICAL).scroll_threshold = s.dev.scroll_threshold := rfl
    simp only [h3]
    rw [if_neg h2]
  have hV : evdev_is_scrolling (evdev_start_scrolling
      { s.dev with scroll_buildup_vertical := b }
      LIBINPUT_POINTER_AXIS_SCROLL_VERTICAL) LIBINPUT_POINTER_AXIS_SCROLL_VERTICAL = true := by
    rw [evdev_start_scrolling_is_scrolling]
    simp
  have hH : evdev_is_scrolling (evdev_start_scrolling
      { s.dev with scroll_buildup_vertical := b }
      LIBINPUT_POINTER_AXIS_SCROLL_VERTICAL) LIBINPUT_POINTER_AXIS_SCROLL_HORIZONTAL = false := by
    rw [evdev_start_scrolling_is_scrolling, hh1]
    decide
  refine ⟨?_, ?_, ?_⟩
  · rw [evdev_post_scroll_dev, hadd, htrig]
    exact hV
  · rw [evdev_post_scroll_dev, hadd, htrig]
    exact hH
  · rw [evdev_post_scroll_dev, hadd, htrig]
    unfold evdev_post_scroll scroll_emit
    rw [hadd, htrig]
    simp only [hV, hH, Bool.not_true, Bool.not_false, Bool.false_eq_true, if_false, if_true]
    have hc : ((0 : ℚ) ≠ 0 ∨ dy ≠ 0) := Or.inr hne
    rw [if_pos hc]
    unfold evdev_notify_axis
    have hnat : (evdev_start_scrolling { s.dev with scroll_buildup_vertical := b }
        LIBINPUT_POINTER_AXIS_SCROLL_VERTICAL).scroll_natural_scrolling_enabled =
        s.dev.scroll_natural_scrolling_enabled := rfl
    simp only [hnat]
    split_ifs <;> simp [State.post]

/-- Calls with `dx = 0` after each of which the vertical buildup, accumulated
as a `double`, is below the threshold: nothing is posted, nothing is latched,
and the buildup is the accumulated value. -/
theorem post_scroll_calls_below_threshold (source : libinput_pointer_axis_source)
    (pre : List (Nat × ℚ)) :
    ∀ s : State,
      evdev_is_scrolling s.dev LIBINPUT_POINTER_AXIS_SCROLL_VERTICAL = false →
      evdev_is_scrolling s.dev LIBINPUT_POINTER_AXIS_SCROLL_HORIZONTAL = false →
      s.dev.scroll_buildup_horizontal = 0 →
      (∀ k, 0 < k → k ≤ pre.length →
        fabs (((pre.take k).map Prod.snd).foldl double_add s.dev.scroll_buildup_vertical) <
          s.dev.scroll_threshold) →
      (post_scroll_calls s source (vertical_calls pre)).out = s.out ∧
      (post_scroll_calls s source (vertical_calls pre)).dev =
        { s.dev with scroll_buildup_vertical :=
            (pre.map Prod.snd).foldl double_add s.dev.scroll_buildup_vertical } := by
  induction pre with
  | nil =>
    intro s _ _ _ _
    simp [vertical_calls, post_scroll_calls]
  | cons c rest ih =>
    intro s hv hh hbh hbelow
    have h1 := hbelow 1 (by omega) (by simp)
    simp only [List.take_succ_cons, List.take_zero, List.map_cons, List.map_nil,
      List.foldl_cons, List.foldl_nil] at h1
    obtain ⟨ho, hd⟩ := post_scroll_below_threshold s c.1 source c.2 hv hh hbh h1
    have ih1 := ih (evdev_post_scroll s c.1 source 0 c.2)
      (by rw [hd]; exact hv) (by rw [hd]; exact hh) (by rw [hd]; exact hbh)
      (by
        intro k hk hkl
        have := hbelow (k + 1) (by omega) (by simp; omega)
        rw [hd]
        simpa using this)
    simp only [vertical_calls, List.map_cons, post_scroll_calls] at ih1 ⊢
    rw [ih1.1, ih1.2, ho, hd]
    simp

theorem post_scroll_calls_append (source : libinput_pointer_axis_source)
    (a b : List (Nat × ℚ × ℚ)) :
    ∀ s : State, post_scroll_calls s source (a ++ b) =
      post_scroll_calls (post_scroll_calls s source a) source b := by
  induction a with
  | nil => intro s; rfl
  | cons c rest ih => intro s; exact ih _

/-- C9, amended: scroll hysteresis for a positive threshold. Starting with no
axis latched and zero buildup, calls of `evdev_post_scroll` with `dx = 0`
after each of which the accumulated vertical delta is still below the
threshold in absolute value post nothing and latch nothing; the first call on
which the accumulated vertical delta reaches the threshold latches the
vertical axis and posts one axis notification whose vertical delta is the
`dy` of that call, not the accumulated buildup, with its sign flipped when
natural scrolling is enabled. The accumulated vertical delta is the one the
program holds: `double_sum`, the deltas added one after the other with the
rounding of a `double`. -/
theorem scroll_hysteresis_triggering_delta (s : State)
    (source : libinput_pointer_axis_source) (pre : List (Nat × ℚ)) (time : Nat) (dy : ℚ)
    (hv : evdev_is_scrolling s.dev LIBINPUT_POINTER_AXIS_SCROLL_VERTICAL = false)
    (hh : evdev_is_scrolling s.dev LIBINPUT_POINTER_AXIS_SCROLL_HORIZONTAL = false)
    (hbv : s.dev.scroll_buildup_vertical = 0)
    (hbh : s.dev.scroll_buildup_horizontal = 0)
    (hthr : 0 < s.dev.scroll_threshold)
    (hbelow : ∀ k, 0 < k → k ≤ pre.length →
      fabs (double_sum ((pre.take k).map Prod.snd)) < s.dev.scroll_threshold)
    (hreach : fabs (double_sum (pre.map Prod.snd ++ [dy])) ≥ s.dev.scroll_threshold) :
    (∀ k, k ≤ pre.length →
      (post_scroll_calls s source (vertical_calls (pre.take k))).out = s.out ∧
      evdev_is_scrolling (post_scroll_calls s source (vertical_calls (pre.take k))).dev
        LIBINPUT_POINTER_AXIS_SCROLL_VERTICAL = false) ∧
    evdev_is_scrolling (post_scroll_calls s source (vertical_calls (pre ++ [(time, dy)]))).dev
      LIBINPUT_POINTER_AXIS_SCROLL_VERTICAL = true ∧
    (post_scroll_calls s source (vertical_calls (pre ++ [(time, dy)]))).out =
      s.out ++ [Notification.pointer_axis time
        (post_scroll_calls s source (vertical_calls (pre ++ [(time, dy)]))).dev.scroll_direction
        source 0 (if s.dev.scroll_natural_scrolling_enabled then -dy else dy) 0 0] := by
  have hprefix : ∀ k, k ≤ pre.length →
      (post_scroll_calls s source (vertical_calls (pre.take k))).out = s.out ∧
      (post_scroll_calls s source (vertical_calls (pre.take k))).dev =
        { s.dev with scroll_buildup_vertical := double_sum ((pre.take k).map Prod.snd) } := by
    intro k hk
    have h := post_scroll_calls_below_threshold source (pre.take k) s hv hh hbh (by
      intro j hj hjl
      have hjk : j ≤ k := by
        have := List.length_take_le k pre
        omega
      rw [List.take_take, min_eq_left hjk, hbv]
      exact hbelow j hj (by omega))
    rw [hbv] at h
    exact h
  have hall := hprefix pre.length le_rfl
  rw [List.take_length] at hall
  obtain ⟨hout, hdev⟩ := hall
  have hsumlt : fabs (double_sum (pre.map Prod.snd)) < s.dev.scroll_threshold := by
    cases pre with
    | nil => simpa [fabs, double_sum] using hthr
    | cons c rest =>
      have := hbelow (c :: rest).length (by simp) le_rfl
      rwa [List.take_length] at this
  rw [double_sum_append] at hreach
  have hne : dy ≠ 0 := by
    intro h0
    rw [h0, double_add_zero _ (double_round_double_sum _)] at hreach
    exact absurd hreach (not_le.2 hsumlt)
  refine ⟨?_, ?_⟩
  · intro k hk
    obtain ⟨h1, h2⟩ := hprefix k hk
    exact ⟨h1, by rw [h2]; exact hv⟩
  · have happ : post_scroll_calls s source (vertical_calls (pre ++ [(time, dy)])) =
        evdev_post_scroll (post_scroll_calls s source (vertical_calls pre)) time source 0 dy := by
      unfold vertical_calls
      rw [List.map_append, post_scroll_calls_append]
      rfl
    rw [happ]
    obtain ⟨hV, -, hO⟩ := post_scroll_reaches_threshold
      (post_scroll_calls s source (vertical_calls pre)) time source dy
      (by rw [hdev]; exact hv) (by rw [hdev]; exact hh) (by rw [hdev]; exact hbh)
      (by rw [hdev]; exact hthr)
      (by rw [hdev]; exact hreach) hne
    refine ⟨hV, ?_⟩
    rw [hO, hout, hdev]

theorem scroll_hysteresis_triggering_delta_witness :
    natural_scroll_idle.dev.scroll_threshold < 9 * dpi_1800_delta ∧
    fabs (double_sum (dpi_1800_calls.map Prod.snd)) <
      natural_scroll_idle.dev.scroll_threshold ∧
    fabs (double_sum (dpi_1800_calls.map Prod.snd ++ [dpi_1800_delta])) ≥
      natural_scroll_idle.dev.scroll_threshold ∧
    (post_scroll_calls natural_scroll_idle LIBINPUT_POINTER_AXIS_SOURCE_CONTINUOUS
        (vertical_calls dpi_1800_calls)).out = [] ∧
    evdev_is_scrolling
      (post_scroll_calls natural_scroll_idle LIBINPUT_POINTER_AXIS_SOURCE_CONTINUOUS
        (vertical_calls dpi_1800_calls)).dev LIBINPUT_POINTER_AXIS_SCROLL_VERTICAL = false ∧
    (post_scroll_calls natural_scroll_idle LIBINPUT_POINTER_AXIS_SOURCE_CONTINUOUS
        (vertical_calls (dpi_1800_calls ++ [(10, dpi_1800_delta)]))).out =
      [Notification.pointer_axis 10
        (post_scroll_calls natural_scroll_idle LIBINPUT_POINTER_AXIS_SOURCE_CONTINUOUS
          (vertical_calls (dpi_1800_calls ++ [(10, dpi_1800_delta)]))).dev.scroll_direction
        LIBINPUT_POINTER_AXIS_SOURCE_CONTINUOUS 0 (-dpi_1800_delta) 0 0] := by
  obtain ⟨-, hexact, -, h10, hlt⟩ := double_sum_dpi_1800
  have hthr : natural_scroll_idle.dev.scroll_threshold = 5 := rfl
  have hmap : ∀ k, k ≤ 9 →
      (dpi_1800_calls.take k).map Prod.snd = List.replicate k dpi_1800_delta := by
    intro k hk
    interval_cases k <;> rfl
  have hall : dpi_1800_calls.map Prod.snd = List.replicate 9 dpi_1800_delta := rfl
  have happ : dpi_1800_calls.map Prod.snd ++ [dpi_1800_delta] =
      List.replicate 10 dpi_1800_delta := rfl
  have hreach : fabs (double_sum (dpi_1800_calls.map Prod.snd ++ [dpi_1800_delta])) ≥
      natural_scroll_idle.dev.scroll_threshold := by
    rw [happ, h10, hthr]
    norm_num [fabs, le_abs]
  have h := scroll_hysteresis_triggering_delta natural_scroll_idle
    LIBINPUT_POINTER_AXIS_SOURCE_CONTINUOUS dpi_1800_calls 10 dpi_1800_delta
    (by decide) (by decide) rfl rfl (by rw [hthr]; norm_num)
    (by
      intro k _ hk
      rw [hmap k hk, hthr]
      exact hlt k hk)
    hreach
  obtain ⟨hpre, -, hout⟩ := h
  have h9out := hpre 9 (le_refl 9)
  rw [show dpi_1800_calls.take 9 = dpi_1800_calls from rfl] at h9out
  refine ⟨by rw [hthr]; exact hexact, ?_, hreach, h9out.1, h9out.2, ?_⟩
  · rw [hall, hthr]
    exact hlt 9 (le_refl 9)
  · have hn : natural_scroll_idle.dev.scroll_natural_scrolling_enabled = true := rfl
    have ho : natural_scroll_idle.out = [] := rfl
    rw [hn, ho] at hout
    simpa only [if_true, List.nil_append] using hout

/-- C9 as stated fails at two inputs. With natural scrolling enabled the
notification of the triggering call carries `-5` as vertical delta where the
`dy` of the call is `5`. With a threshold of `0` a first call with `dy = 0`
reaches the threshold and latches the vertical axis, and nothing is posted. -/
theorem scroll_hysteresis_counterexample :
    (evdev_is_scrolling natural_scroll_idle.dev LIBINPUT_POINTER_AXIS_SCROLL_VERTICAL = false ∧
      evdev_is_scrolling natural_scroll_idle.dev LIBINPUT_POINTER_AXIS_SCROLL_HORIZONTAL = false ∧
      natural_scroll_idle.dev.scroll_buildup_vertical = 0 ∧
      natural_scroll_idle.dev.scroll_buildup_horizontal = 0 ∧
      fabs (double_sum [5]) ≥ natural_scroll_idle.dev.scroll_threshold ∧
      (evdev_post_scroll natural_scroll_idle 0 LIBINPUT_POINTER_AXIS_SOURCE_CONTINUOUS 0 5).out =
        [Notification.pointer_axis 0 1 LIBINPUT_POINTER_AXIS_SOURCE_CONTINUOUS 0 (-5) 0 0] ∧
      (-5 : ℚ) ≠ 5) ∧
    (evdev_is_scrolling zero_threshold_idle.dev LIBINPUT_POINTER_AXIS_SCROLL_VERTICAL = false ∧
      evdev_is_scrolling zero_threshold_idle.dev LIBINPUT_POINTER_AXIS_SCROLL_HORIZONTAL = false ∧
      zero_threshold_idle.dev.scroll_buildup_vertical = 0 ∧
      zero_threshold_idle.dev.scroll_buildup_horizontal = 0 ∧
      fabs (double_sum [0]) ≥ zero_threshold_idle.dev.scroll_threshold ∧
      evdev_is_scrolling
        (evdev_post_scroll zero_threshold_idle 0 LIBINPUT_POINTER_AXIS_SOURCE_CONTINUOUS 0 0).dev
        LIBINPUT_POINTER_AXIS_SCROLL_VERTICAL = true ∧
      (evdev_post_scroll zero_threshold_idle 0 LIBINPUT_POINTER_AXIS_SOURCE_CONTINUOUS 0 0).out =
        []) := by
  have e0 : double_add 0 0 = 0 := double_add_zero 0 double_round_zero
  have e5 : double_add 0 5 = 5 := by simpa using double_add_int 0 5 (by norm_num)
  refine ⟨⟨by decide, by decide, rfl, rfl, ?_, ?_, by norm_num⟩,
    ⟨by decide, by decide, rfl, rfl, ?_, ?_, ?_⟩⟩
  · simp only [natural_scroll_idle, fabs, double_sum, List.foldl_cons, List.foldl_nil, e5]
    norm_num
  · norm_num [evdev_post_scroll, scroll_emit, scroll_trigger, scroll_add_buildup,
      evdev_is_scrolling, evdev_start_scrolling, evdev_notify_axis, State.post,
      natural_scroll_idle, fabs, AS_MASK, LIBINPUT_POINTER_AXIS_SCROLL_VERTICAL,
      LIBINPUT_POINTER_AXIS_SCROLL_HORIZONTAL, e0, e5]
  · simp only [zero_threshold_idle, fabs, double_sum, List.foldl_cons, List.foldl_nil, e0]
    norm_num
  · norm_num [evdev_post_scroll, scroll_emit, scroll_trigger, scroll_add_buildup,
      evdev_is_scrolling, evdev_start_scrolling, evdev_notify_axis, State.post,
      zero_threshold_idle, fabs, AS_MASK, LIBINPUT_POINTER_AXIS_SCROLL_VERTICAL,
      LIBINPUT_POINTER_AXIS_SCROLL_HORIZONTAL, e0]
  · norm_num [evdev_post_scroll, scroll_emit, scroll_trigger, scroll_add_buildup,
      evdev_is_scrolling, evdev_start_scrolling, evdev_notify_axis, State.post,
      zero_threshold_idle, fabs, AS_MASK, LIBINPUT_POINTER_AXIS_SCROLL_VERTICAL,
      LIBINPUT_POINTER_AXIS_SCROLL_HORIZONTAL, e0]

/-! ## Seat slot bitmap -/

theorem lowest_set_some (x : Nat) :
    ∀ (n i k : Nat), lowest_set x n i = some k →
      i ≤ k ∧ k < i + n ∧ x.testBit k = true ∧ ∀ j, i ≤ j → j < k → x.testBit j = false := by
  intro n
  induction n with
  | zero => intro i k h; simp [lowest_set] at h
  | succ n ih =>
    intro i k h
    unfold lowest_set at h
    split_ifs at h with hb
    · simp only [Option.some.injEq] at h
      subst h
      exact ⟨le_rfl, by omega, hb, fun j h1 h2 => by omega⟩
    · obtain ⟨h1, h2, h3, h4⟩ := ih (i + 1) k h
      refine ⟨by omega, by omega, h3, ?_⟩
      intro j hj hjk
      by_cases hji : j = i
      · subst hji
        simpa using hb
      · exact h4 j (by omega) hjk

theorem lowest_set_none (x : Nat) :
    ∀ (n i : Nat), lowest_set x n i = none → ∀ j, i ≤ j → j < i + n → x.testBit j = false := by
  intro n
  induction n with
  | zero => intro i _ j h1 h2; omega
  | succ n ih =>
    intro i h j h1 h2
    unfold lowest_set at h
    split_ifs at h with hb
    by_cases hji : j = i
    · subst hji
      simpa using hb
    · exact ih (i + 1) h j (by omega) (by omega)

theorem bnot32_testBit (x i : Nat) :
    (bnot32 x).testBit i = (decide (i < 32) && !x.testBit i) := by
  unfold bnot32
  rw [Nat.testBit_xor, Nat.testBit_two_pow_sub_one, Nat.testBit_mod_two_pow]
  by_cases h : i < 32 <;> simp [h]

/-- With all 32 bits of the bitmap set, `ffs(~slot_map) - 1` is `-1`. -/
theorem ffs_bnot32_full (m : Nat) (hfull : ∀ i, i < 32 → m.testBit i = true) :
    ((ffs (bnot32 m) : Nat) : Int) - 1 = -1 := by
  unfold ffs
  cases h : lowest_set (bnot32 m) 32 0 with
  | none => simp
  | some k =>
    obtain ⟨-, hk, hb, -⟩ := lowest_set_some _ _ _ _ h
    rw [bnot32_testBit, hfull k (by omega)] at hb
    simp at hb

/-- With a clear bit among the 32, `ffs(~slot_map) - 1` is the index of the
lowest clear bit. -/
theorem ffs_bnot32_free (m : Nat) (hfree : ∃ i, i < 32 ∧ m.testBit i = false) :
    ∃ k : Nat, ((ffs (bnot32 m) : Nat) : Int) - 1 = (k : Int) ∧ k < 32 ∧
      m.testBit k = false ∧ ∀ j, j < k → m.testBit j = true := by
  unfold ffs
  cases h : lowest_set (bnot32 m) 32 0 with
  | none =>
    obtain ⟨i, hi, hb⟩ := hfree
    have := lowest_set_none _ _ _ h i (Nat.zero_le _) (by omega)
    rw [bnot32_testBit, hb] at this
    simp [hi] at this
  | some k =>
    obtain ⟨-, hk, hb, hlow⟩ := lowest_set_some _ _ _ _ h
    have hk32 : k < 32 := by omega
    rw [bnot32_testBit] at hb
    simp only [hk32, decide_True, Bool.true_and, Bool.not_eq_true'] at hb
    refine ⟨k, by simp, hk32, hb, ?_⟩
    intro j hj
    have := hlow j (Nat.zero_le _) hj
    rw [bnot32_testBit] at this
    have hj32 : j < 32 := by omega
    simpa [hj32] using this

theorem slot_map_set_testBit (m k i : Nat) (hm : m < 2 ^ 32) (hk : k < 32) :
    (slot_map_set m (k : Int)).testBit i = (m.testBit i || decide (i = k)) := by
  unfold slot_map_set
  rw [Nat.testBit_mod_two_pow, Nat.testBit_or, Int.toNat_ofNat, Nat.one_shiftLeft,
    Nat.testBit_two_pow]
  by_cases hi : i < 32
  · simp [hi, eq_comm]
  · have h1 : m.testBit i = false :=
      Nat.testBit_lt_two_pow (lt_of_lt_of_le hm (Nat.pow_le_pow_right (by omega) (by omega)))
    have h2 : i ≠ k := by omega
    simp [hi, h1, h2]

theorem slot_map_set_lt (m : Nat) (k : Int) : slot_map_set m k < 2 ^ 32 :=
  Nat.mod_lt _ (by norm_num)

theorem list_set_getElem?_self {α : Type} (l : List α) (i : Nat) (a : α)
    (h : l[i]? = some a) : l.set i a = l := by
  apply List.ext_getElem?
  intro j
  rw [List.getElem?_set]
  by_cases hij : i = j
  · subst hij
    have hlt : i < l.length := by
      by_contra hge
      rw [List.getElem?_eq_none (by omega)] at h
      simp at h
    simp [hlt, h]
  · simp [hij]

/-- Storing back what the active slot holds changes nothing. -/
theorem mt_slot_store_self (d : Device) (sd : mt_slot) (h : mt_slot_data d = some sd) :
    mt_slot_store d sd = d := by
  unfold mt_slot_data at h
  split_ifs at h
  unfold mt_slot_store
  rw [list_set_getElem?_self _ _ _ h]

/-- The active slot reads back what was stored into it. -/
theorem mt_slot_data_store (d : Device) (sd v : mt_slot) (h : mt_slot_data d = some sd) :
    mt_slot_data (mt_slot_store d v) = some v := by
  unfold mt_slot_data at h ⊢
  split_ifs at h with h0
  have hlt : d.mt_slot.toNat < d.mt_slots.length := by
    by_contra hge
    rw [List.getElem?_eq_none (by omega)] at h
    simp at h
  have hms : (mt_slot_store d v).mt_slot = d.mt_slot := rfl
  simp only [hms, h0, if_true]
  unfold mt_slot_store
  simp [List.getElem?_set, hlt]

/-- C3: with all 32 bits of the seat slot bitmap set, the flush of a pending
touch-down on an unassigned slot (multitouch `EVDEV_ABSOLUTE_MT_DOWN` on the
active slot, or legacy `EVDEV_ABSOLUTE_TOUCH_DOWN` on the single-touch stream)
only resets the pending kind: no notification is posted, the bitmap is
unchanged and the seat-slot id stays `-1`. -/
theorem full_bitmap_drops_touch_down (s : State) (time : Nat)
    (hfull : ∀ i, i < 32 → s.slot_map.testBit i = true) :
    (s.dev.pending_event = EVDEV_ABSOLUTE_MT_DOWN →
      (∃ sd, mt_slot_data s.dev = some sd ∧ sd.seat_slot = -1) →
      evdev_flush_pending_event s time = some s.clear_pending ∧
      s.clear_pending.out = s.out ∧ s.clear_pending.slot_map = s.slot_map ∧
      (mt_slot_data s.clear_pending.dev).map (fun sd => sd.seat_slot) = some (-1)) ∧
    (s.dev.pending_event = EVDEV_ABSOLUTE_TOUCH_DOWN →
      s.dev.abs_seat_slot = -1 →
      evdev_flush_pending_event s time = some s.clear_pending ∧
      s.clear_pending.out = s.out ∧ s.clear_pending.slot_map = s.slot_map ∧
      s.clear_pending.dev.abs_seat_slot = -1) := by
  have hffs := ffs_bnot32_full s.slot_map hfull
  constructor
  · rintro hp ⟨sd, hsd, hun⟩
    refine ⟨?_, rfl, rfl, ?_⟩
    · unfold evdev_flush_pending_event
      simp only [hp, flush_case_mt_down, hsd, hun, hffs, ne_eq, not_true_eq_false, if_false,
        if_true]
      have hsd1 : ({ sd with seat_slot := -1 } : mt_slot) = sd := by
        cases sd
        simp only [mt_slot.mk.injEq, and_true] at hun ⊢
        exact hun.symm
      rw [hsd1, mt_slot_store_self _ _ hsd]
      split_ifs <;> rfl
    · have : mt_slot_data s.clear_pending.dev = mt_slot_data s.dev := rfl
      rw [this, hsd]
      simp [hun]
  · intro hp hun
    refine ⟨?_, rfl, rfl, hun⟩
    obtain ⟨d, m, o⟩ := s
    cases d
    simp only at hp hun hffs
    subst hp hun
    simp [evdev_flush_pending_event, flush_case_touch_down, hffs, State.clear_pending]

theorem mt_slot_data_congr (d d1 : Device) (h1 : d1.mt_slot = d.mt_slot)
    (h2 : d1.mt_slots = d.mt_slots) : mt_slot_data d1 = mt_slot_data d := by
  unfold mt_slot_data
  rw [h1, h2]

/-- The flush of a pending `EVDEV_ABSOLUTE_MT_DOWN` that is given a seat slot. -/
theorem flush_mt_down_assigned (s : State) (time k : Nat) (sd : mt_slot)
    (al : List mt_aux_data)
    (hp : s.dev.pending_event = EVDEV_ABSOLUTE_MT_DOWN)
    (hcap : s.dev.seat_caps &&& EVDEV_DEVICE_TOUCH ≠ 0)
    (hsd : mt_slot_data s.dev = some sd) (hun : sd.seat_slot = -1)
    (hal : mt_aux_list s.dev s.dev.mt_slot = some al)
    (hk : ((ffs (bnot32 s.slot_map) : Nat) : Int) - 1 = (k : Int)) :
    ∃ s1, evdev_flush_pending_event s time = some s1 ∧
      mt_slot_data s1.dev = some { sd with seat_slot := (k : Int) } ∧
      s1.slot_map = slot_map_set s.slot_map (k : Int) ∧
      s1.out = s.out ++
        (al.filter (fun a => a.changed)).map
          (fun a => Notification.touch_aux_data time s.dev.mt_slot (k : Int) a.code a.value) ++
        [Notification.touch_down time s.dev.mt_slot (k : Int)
          (transform_absolute s.dev sd.x sd.y).1 (transform_absolute s.dev sd.x sd.y).2
          sd.area sd.pressure] := by
  have hk1 : ¬ ((k : Int) = -1) := by omega
  have hal1 : mt_aux_list (mt_slot_store s.dev { sd with seat_slot := (k : Int) }) s.dev.mt_slot =
      some al := hal
  have hdata := mt_slot_data_store s.dev sd { sd with seat_slot := (k : Int) } hsd
  unfold evdev_flush_pending_event
  simp only [hp, flush_case_mt_down]
  rw [if_neg hcap]
  simp only [hsd, hun, ne_eq, not_true_eq_false, if_false, hk, hk1]
  unfold evdev_flush_extra_aux_data
  simp only [hal1]
  refine ⟨_, rfl, ?_, rfl, ?_⟩
  · rw [← hdata]
    exact mt_slot_data_congr _ _ rfl rfl
  · simp [State.post, State.clear_pending, transform_absolute, mt_slot_store]

/-- The flush of a pending `EVDEV_ABSOLUTE_TOUCH_DOWN` that is given a seat slot. -/
theorem flush_touch_down_assigned (s : State) (time k : Nat)
    (hp : s.dev.pending_event = EVDEV_ABSOLUTE_TOUCH_DOWN)
    (hcap : s.dev.seat_caps &&& EVDEV_DEVICE_TOUCH ≠ 0)
    (hun : s.dev.abs_seat_slot = -1)
    (hk : ((ffs (bnot32 s.slot_map) : Nat) : Int) - 1 = (k : Int)) :
    ∃ s1, evdev_flush_pending_event s time = some s1 ∧
      s1.dev.abs_seat_slot = (k : Int) ∧
      s1.dev.mt_slots = s.dev.mt_slots ∧
      s1.slot_map = slot_map_set s.slot_map (k : Int) ∧
      s1.out = s.out ++
        [Notification.touch_down time (-1) (k : Int)
          (transform_absolute s.dev s.dev.abs_x s.dev.abs_y).1
          (transform_absolute s.dev s.dev.abs_x s.dev.abs_y).2
          { major := DEFAULT_TOUCH_MAJOR, minor := DEFAULT_TOUCH_MINOR,
            orientation := DEFAULT_TOUCH_ORIENTATION } DEFAULT_TOUCH_PRESSURE] := by
  have hk1 : ¬ ((k : Int) = -1) := by omega
  unfold evdev_flush_pending_event
  simp only [hp, flush_case_touch_down]
  rw [if_neg hcap]
  simp only [hun, ne_eq, not_true_eq_false, if_false, hk, hk1]
  refine ⟨_, rfl, rfl, rfl, rfl, ?_⟩
  simp [State.post, State.clear_pending, transform_absolute]

/-- C4: for a seat bitmap with at least one clear bit, the flush of a
touch-down on an unassigned slot of a touch-capable device assigns the index
`k` of the lowest clear bit as seat-slot id, sets exactly bit `k` and leaves
every other bit unchanged, and posts a `touch_down` carrying `k`: for a
multitouch `EVDEV_ABSOLUTE_MT_DOWN` on the active slot, after the changed
auxiliary axes of the slot; for a legacy `EVDEV_ABSOLUTE_TOUCH_DOWN` on the
single-touch stream. -/
theorem touch_down_takes_lowest_free_bit (s : State) (time : Nat)
    (hlt : s.slot_map < 2 ^ 32)
    (hfree : ∃ i, i < 32 ∧ s.slot_map.testBit i = false)
    (hcap : s.dev.seat_caps &&& EVDEV_DEVICE_TOUCH ≠ 0) :
    ∃ k : Nat, k < 32 ∧ s.slot_map.testBit k = false ∧
      (∀ j, j < k → s.slot_map.testBit j = true) ∧
      (s.dev.pending_event = EVDEV_ABSOLUTE_MT_DOWN →
        ∀ (sd : mt_slot) (al : List mt_aux_data),
          mt_slot_data s.dev = some sd → sd.seat_slot = -1 →
          mt_aux_list s.dev s.dev.mt_slot = some al →
          ∃ s1, evdev_flush_pending_event s time = some s1 ∧
            mt_slot_data s1.dev = some { sd with seat_slot := (k : Int) } ∧
            (∀ i, s1.slot_map.testBit i = (s.slot_map.testBit i || decide (i = k))) ∧
            s1.out = s.out ++
              (al.filter (fun a => a.changed)).map
                (fun a => Notification.touch_aux_data time s.dev.mt_slot (k : Int)
                  a.code a.value) ++
              [Notification.touch_down time s.dev.mt_slot (k : Int)
                (transform_absolute s.dev sd.x sd.y).1 (transform_absolute s.dev sd.x sd.y).2
                sd.area sd.pressure]) ∧
      (s.dev.pending_event = EVDEV_ABSOLUTE_TOUCH_DOWN →
        s.dev.abs_seat_slot = -1 →
        ∃ s1, evdev_flush_pending_event s time = some s1 ∧
          s1.dev.abs_seat_slot = (k : Int) ∧
          (∀ i, s1.slot_map.testBit i = (s.slot_map.testBit i || decide (i = k))) ∧
          s1.out = s.out ++
            [Notification.touch_down time (-1) (k : Int)
              (transform_absolute s.dev s.dev.abs_x s.dev.abs_y).1
              (transform_absolute s.dev s.dev.abs_x s.dev.abs_y).2
              { major := DEFAULT_TOUCH_MAJOR, minor := DEFAULT_TOUCH_MINOR,
                orientation := DEFAULT_TOUCH_ORIENTATION } DEFAULT_TOUCH_PRESSURE]) := by
  obtain ⟨k, hk, hk32, hkclear, hklow⟩ := ffs_bnot32_free s.slot_map hfree
  refine ⟨k, hk32, hkclear, hklow, ?_, ?_⟩
  · intro hp sd al hsd hun hal
    obtain ⟨s1, h1, h2, h3, h4⟩ := flush_mt_down_assigned s time k sd al hp hcap hsd hun hal hk
    refine ⟨s1, h1, h2, ?_, h4⟩
    intro i
    rw [h3, slot_map_set_testBit _ _ _ hlt hk32]
  · intro hp hun
    obtain ⟨s1, h1, h2, -, h3, h4⟩ := flush_touch_down_assigned s time k hp hcap hun hk
    refine ⟨s1, h1, h2, ?_, h4⟩
    intro i
    rw [h3, slot_map_set_testBit _ _ _ hlt hk32]

theorem full_bitmap_drops_touch_down_witness :
    (∀ i, i < 32 → seat_full_state.slot_map.testBit i = true) ∧
    seat_full_state.dev.pending_event = EVDEV_ABSOLUTE_MT_DOWN ∧
    (∃ sd, mt_slot_data seat_full_state.dev = some sd ∧ sd.seat_slot = -1) ∧
    evdev_flush_pending_event seat_full_state 5 = some seat_full_state.clear_pending := by
  have hfull : ∀ i, i < 32 → seat_full_state.slot_map.testBit i = true := by
    intro i hi
    show (2 ^ 32 - 1).testBit i = true
    rw [Nat.testBit_two_pow_sub_one]
    simpa using hi
  have hsd : ∃ sd, mt_slot_data seat_full_state.dev = some sd ∧ sd.seat_slot = -1 :=
    ⟨{ x := 10, y := 20 }, rfl, rfl⟩
  exact ⟨hfull, rfl, hsd, ((full_bitmap_drops_touch_down seat_full_state 5 hfull).1 rfl hsd).1⟩

theorem touch_down_takes_lowest_free_bit_witness :
    seat_three_taken_state.slot_map < 2 ^ 32 ∧
    (∃ i, i < 32 ∧ seat_three_taken_state.slot_map.testBit i = false) ∧
    seat_three_taken_state.dev.seat_caps &&& EVDEV_DEVICE_TOUCH ≠ 0 ∧
    ∃ (k : Nat) (s1 : State), k < 32 ∧
      evdev_flush_pending_event seat_three_taken_state 5 = some s1 ∧
      mt_slot_data s1.dev = some { seat_slot := (k : Int), x := 10, y := 20 } ∧
      s1.out = [Notification.touch_down 5 1 (k : Int) 10 20 {} 0] := by
  have hlt : seat_three_taken_state.slot_map < 2 ^ 32 := by decide
  have hfree : ∃ i, i < 32 ∧ seat_three_taken_state.slot_map.testBit i = false :=
    ⟨3, by decide, by decide⟩
  have hcap : seat_three_taken_state.dev.seat_caps &&& EVDEV_DEVICE_TOUCH ≠ 0 := by decide
  obtain ⟨k, hk, -, -, hmt, -⟩ :=
    touch_down_takes_lowest_free_bit seat_three_taken_state 5 hlt hfree hcap
  obtain ⟨s1, h1, h2, -, h4⟩ := hmt rfl { x := 10, y := 20 } [] rfl rfl rfl
  exact ⟨hlt, hfree, hcap, k, s1, hk, h1, h2, by simpa using h4⟩

/-! ## Relative motion -/

theorem process_events_append (a b : List input_event) :
    ∀ s : State, process_events s (a ++ b) =
      (process_events s a).bind (fun s1 => process_events s1 b) := by
  induction a with
  | nil => intro s; rfl
  | cons e rest ih =>
    intro s
    simp only [List.cons_append, process_events]
    cases evdev_process_event s e with
    | none => rfl
    | some s1 => exact ih s1

theorem touch_step_refl (s : State) : touch_step s s :=
  touch_step.quiet [] (by simp) rfl rfl rfl

/-- A step that changes neither the seat-slot ids nor the bitmap and posts no
touch notification. -/
theorem touch_step_of_quiet {s s1 : State} (extra : List Notification)
    (hout : s1.out = s.out ++ extra) (he : ∀ n ∈ extra, n.is_touch = false)
    (ha : s1.dev.assign = s.dev.assign) (hm : s1.slot_map = s.slot_map) : touch_step s s1 := by
  refine touch_step.quiet extra hout ?_ ha hm
  rw [List.filter_eq_nil_iff]
  intro n hn
  simp [he n hn]

/-- A quiet step before a step. -/
theorem touch_step_quiet_then {s s1 s2 : State} (extra : List Notification)
    (hout : s1.out = s.out ++ extra)
    (he : extra.filter Notification.is_touch = [])
    (ha : s1.dev.assign = s.dev.assign) (hm : s1.slot_map = s.slot_map)
    (h : touch_step s1 s2) : touch_step s s2 := by
  cases h with
  | quiet e2 hout2 he2 ha2 hm2 =>
    exact touch_step.quiet (extra ++ e2) (by rw [hout2, hout, List.append_assoc])
      (by rw [List.filter_append, he, he2]; rfl) (ha2.trans ha) (hm2.trans hm)
  | motion e2 hout2 t j k x y a p he2 hj hk hne ha2 hm2 =>
    exact touch_step.motion (extra ++ e2) (by rw [hout2, hout, List.append_assoc]) t j k x y a p
      (by rw [List.filter_append, he, he2]; rfl) hj (by rw [← ha]; exact hk) hne
      (ha2.trans ha) (hm2.trans hm)
  | down e2 hout2 t j k x y a p he2 hj hfree hk hclear ha2 hm2 =>
    exact touch_step.down (extra ++ e2) (by rw [hout2, hout, List.append_assoc]) t j k x y a p
      (by rw [List.filter_append, he, he2]; rfl) hj (by rw [← ha]; exact hfree) hk
      (by rw [← hm]; exact hclear) (by rw [ha2, ha]) (by rw [hm2, hm])
  | up e2 hout2 t j k he2 hj hheld hk ha2 hm2 =>
    exact touch_step.up (extra ++ e2) (by rw [hout2, hout, List.append_assoc]) t j k
      (by rw [List.filter_append, he, he2]; rfl) hj (by rw [← ha]; exact hheld) hk
      (by rw [ha2, ha]) (by rw [hm2, hm])

/-- A quiet step after a step. -/
theorem touch_step_then_quiet {s s1 s2 : State} (h : touch_step s s1)
    (extra : List Notification) (hout : s2.out = s1.out ++ extra)
    (he : extra.filter Notification.is_touch = [])
    (ha : s2.dev.assign = s1.dev.assign) (hm : s2.slot_map = s1.slot_map) : touch_step s s2 := by
  cases h with
  | quiet e1 hout1 he1 ha1 hm1 =>
    exact touch_step.quiet (e1 ++ extra) (by rw [hout, hout1, List.append_assoc])
      (by rw [List.filter_append, he, he1]; rfl) (ha.trans ha1) (hm.trans hm1)
  | motion e1 hout1 t j k x y a p he1 hj hk hne ha1 hm1 =>
    exact touch_step.motion (e1 ++ extra) (by rw [hout, hout1, List.append_assoc]) t j k x y a p
      (by rw [List.filter_append, he, he1]; rfl) hj hk hne (ha.trans ha1) (hm.trans hm1)
  | down e1 hout1 t j k x y a p he1 hj hfree hk hclear ha1 hm1 =>
    exact touch_step.down (e1 ++ extra) (by rw [hout, hout1, List.append_assoc]) t j k x y a p
      (by rw [List.filter_append, he, he1]; rfl) hj hfree hk hclear (ha.trans ha1)
      (hm.trans hm1)
  | up e1 hout1 t j k he1 hj hheld hk ha1 hm1 =>
    exact touch_step.up (e1 ++ extra) (by rw [hout, hout1, List.append_assoc]) t j k
      (by rw [List.filter_append, he, he1]; rfl) hj hheld hk (ha.trans ha1) (hm.trans hm1)

/-- A change of the device that leaves the seat-slot ids alone, after a step. -/
theorem touch_step_then_dev {s s1 : State} (h : touch_step s s1) (d : Device)
    (ha : d.assign = s1.dev.assign) : touch_step s { s1 with dev := d } :=
  touch_step_then_quiet h [] (by simp) rfl ha rfl

/-- Posting a notification that is no touch notification, after a step. -/
theorem touch_step_then_post {s s1 : State} (h : touch_step s s1) (n : Notification)
    (hn : n.is_touch = false) : touch_step s (s1.post n) :=
  touch_step_then_quiet h [n] rfl (by simp [hn]) rfl rfl

theorem assign_slot_index_mt (d : Device) (sd : mt_slot) (h : mt_slot_data d = some sd) :
    -1 ≤ d.mt_slot ∧ d.assign[slot_index d.mt_slot]? = some sd.seat_slot := by
  unfold mt_slot_data at h
  split_ifs at h with h0
  refine ⟨by omega, ?_⟩
  have hidx : slot_index d.mt_slot = d.mt_slot.toNat + 1 := by
    unfold slot_index
    omega
  rw [hidx]
  simp [Device.assign, List.getElem?_map, h]

theorem assign_mt_slot_store (d : Device) (v : mt_slot) (h0 : 0 ≤ d.mt_slot) :
    (mt_slot_store d v).assign = d.assign.set (slot_index d.mt_slot) v.seat_slot := by
  have hidx : slot_index d.mt_slot = d.mt_slot.toNat + 1 := by
    unfold slot_index
    omega
  rw [hidx]
  simp [Device.assign, mt_slot_store, List.map_set]

theorem mt_slot_data_nonneg (d : Device) (sd : mt_slot) (h : mt_slot_data d = some sd) :
    0 ≤ d.mt_slot := by
  unfold mt_slot_data at h
  split_ifs at h with h0
  exact h0

/-- Storing a slot with the seat-slot id it had leaves the ids as they were. -/
theorem assign_mt_slot_store_same (d : Device) (sd v : mt_slot) (h : mt_slot_data d = some sd)
    (hv : v.seat_slot = sd.seat_slot) : (mt_slot_store d v).assign = d.assign := by
  rw [assign_mt_slot_store d v (mt_slot_data_nonneg d sd h), hv]
  exact list_set_getElem?_self _ _ _ (assign_slot_index_mt d sd h).2

theorem assign_abs (d : Device) : -1 ≤ (-1 : Int) ∧
    d.assign[slot_index (-1)]? = some d.abs_seat_slot := by
  refine ⟨le_rfl, ?_⟩
  simp [Device.assign, slot_index]

theorem assign_abs_store (d : Device) (v : Int) :
    ({ d with abs_seat_slot := v } : Device).assign = d.assign.set (slot_index (-1)) v := by
  simp [Device.assign, slot_index]

/-- The auxiliary axis flush posts no touch notification and leaves the
seat-slot ids and the bitmap alone. -/
theorem flush_extra_aux_data_quiet {s s1 : State} {time : Nat} {slot seat_slot : Int}
    (h : evdev_flush_extra_aux_data s time slot seat_slot = some s1) :
    ∃ extra, s1.out = s.out ++ extra ∧ extra.filter Notification.is_touch = [] ∧
      s1.dev.assign = s.dev.assign ∧ s1.slot_map = s.slot_map := by
  unfold evdev_flush_extra_aux_data at h
  split at h
  · exact absurd h (by simp)
  · simp only [Option.some.injEq] at h
    subst h
    refine ⟨_, rfl, ?_, rfl, rfl⟩
    rw [List.filter_eq_nil_iff]
    intro n hn
    simp only [List.mem_map] at hn
    obtain ⟨a, -, rfl⟩ := hn
    simp [Notification.is_touch]

theorem quiet_step_refl (s : State) : quiet_step s s :=
  ⟨[], by simp, rfl, rfl, rfl⟩

theorem quiet_step_trans {a b c : State} (h1 : quiet_step a b) (h2 : quiet_step b c) :
    quiet_step a c := by
  obtain ⟨e1, o1, f1, a1, m1⟩ := h1
  obtain ⟨e2, o2, f2, a2, m2⟩ := h2
  exact ⟨e1 ++ e2, by rw [o2, o1, List.append_assoc],
    by rw [List.filter_append, f1, f2]; rfl, a2.trans a1, m2.trans m1⟩

theorem quiet_step_post (s : State) (n : Notification) (hn : n.is_touch = false) :
    quiet_step s (s.post n) :=
  ⟨[n], rfl, by simp [hn], rfl, rfl⟩

theorem quiet_step_dev (s : State) (d : Device) (ha : d.assign = s.dev.assign) :
    quiet_step s { s with dev := d } :=
  ⟨[], by simp, rfl, ha, rfl⟩

theorem quiet_step_clear_pending (s : State) : quiet_step s s.clear_pending :=
  ⟨[], by simp [State.clear_pending], rfl, rfl, rfl⟩

theorem touch_step_of_quiet_step {s s1 : State} (h : quiet_step s s1) : touch_step s s1 := by
  obtain ⟨e, o, f, a, m⟩ := h
  exact touch_step.quiet e o f a m

theorem touch_step_after_quiet {s s1 s2 : State} (h : quiet_step s s1) (h2 : touch_step s1 s2) :
    touch_step s s2 := by
  obtain ⟨e, o, f, a, m⟩ := h
  exact touch_step_quiet_then e o f a m h2

theorem touch_step_before_quiet {s s1 s2 : State} (h : touch_step s s1) (h2 : quiet_step s1 s2) :
    touch_step s s2 := by
  obtain ⟨e, o, f, a, m⟩ := h2
  exact touch_step_then_quiet h e o f a m

theorem quiet_step_flush_extra_aux_data {s s1 : State} {time : Nat} {slot seat_slot : Int}
    (h : evdev_flush_extra_aux_data s time slot seat_slot = some s1) : quiet_step s s1 :=
  flush_extra_aux_data_quiet h

theorem quiet_step_notify_axis (s : State) (time axes : Nat)
    (source : libinput_pointer_axis_source) (x y xd yd : ℚ) :
    quiet_step s (evdev_notify_axis s time axes source x y xd yd) := by
  unfold evdev_notify_axis
  split_ifs <;> exact quiet_step_post _ _ rfl

theorem quiet_step_scroll_emit (s : State) (time : Nat)
    (source : libinput_pointer_axis_source) (dx dy : ℚ) :
    quiet_step s (scroll_emit s time source dx dy) := by
  unfold scroll_emit
  simp only []
  split_ifs <;>
    first
    | exact quiet_step_notify_axis _ _ _ _ _ _ _ _
    | exact quiet_step_refl _

theorem quiet_step_post_scroll (s : State) (time : Nat)
    (source : libinput_pointer_axis_source) (dx dy : ℚ) :
    quiet_step s (evdev_post_scroll s time source dx dy) := by
  have ha : (scroll_trigger (scroll_add_buildup s.dev dx dy) dx dy).assign = s.dev.assign := by
    rw [scroll_trigger_eq, scroll_add_buildup_eq]
    rfl
  unfold evdev_post_scroll
  exact quiet_step_trans (quiet_step_dev s _ ha) (quiet_step_scroll_emit _ _ _ _ _)

theorem quiet_step_stop_scroll (s : State) (time : Nat)
    (source : libinput_pointer_axis_source) :
    quiet_step s (evdev_stop_scroll s time source) := by
  unfold evdev_stop_scroll
  simp only []
  split_ifs
  · have h1 : quiet_step s
        (s.post (Notification.pointer_axis time s.dev.scroll_direction source 0 0 0 0)) :=
      quiet_step_post _ _ rfl
    exact quiet_step_trans h1 (quiet_step_dev _ _ rfl)
  · exact quiet_step_dev _ _ rfl

theorem apply_filter_assign (d : Device) (dx dy : ℚ) (time : Nat) :
    (apply_filter d dx dy time).1.assign = d.assign := by
  unfold apply_filter
  split <;> rfl

/-- Either no seat slot is free, or `ffs(~slot_map) - 1` is a free one. -/
theorem ffs_bnot32_cases (m : Nat) :
    ((ffs (bnot32 m) : Nat) : Int) - 1 = -1 ∨
    ∃ k : Nat, ((ffs (bnot32 m) : Nat) : Int) - 1 = (k : Int) ∧ k < 32 ∧ m.testBit k = false := by
  by_cases hfree : ∃ i, i < 32 ∧ m.testBit i = false
  · obtain ⟨k, h1, h2, h3, -⟩ := ffs_bnot32_free m hfree
    exact Or.inr ⟨k, h1, h2, h3⟩
  · left
    apply ffs_bnot32_full
    intro i hi
    by_contra hb
    exact hfree ⟨i, hi, by simpa using hb⟩

theorem slot_map_clear_some (m : Nat) (seat_slot : Int) (m1 : Nat)
    (h : slot_map_clear m seat_slot = some m1) :
    ∃ k : Nat, seat_slot = (k : Int) ∧ k < 32 ∧ m1 = m &&& bnot32 (1 <<< k) := by
  unfold slot_map_clear at h
  split_ifs at h with hr
  simp only [Option.some.injEq] at h
  refine ⟨seat_slot.toNat, by omega, by omega, h.symm⟩

/-- After the auxiliary axis flush, posting one touch notification and
resetting the pending kind: the touch notification is the only one posted. -/
theorem aux_post_clear {s2 s3 : State} {time : Nat} {slot seat_slot : Int}
    (h : evdev_flush_extra_aux_data s2 time slot seat_slot = some s3) (n : Notification)
    (hn : n.is_touch = true) :
    ∃ extra, (s3.post n).clear_pending.out = s2.out ++ extra ∧
      extra.filter Notification.is_touch = [n] ∧
      (s3.post n).clear_pending.dev.assign = s2.dev.assign ∧
      (s3.post n).clear_pending.slot_map = s2.slot_map := by
  obtain ⟨e, o, f, a, m⟩ := flush_extra_aux_data_quiet h
  refine ⟨e ++ [n], ?_, ?_, a, m⟩
  · simp [State.post, State.clear_pending, o]
  · rw [List.filter_append, f]
    simp [hn]

theorem touch_step_flush_case_relative_motion {s s1 : State} {time : Nat}
    (h : flush_case_relative_motion s time = some s1) : touch_step s s1 := by
  have h0 : quiet_step s { s with dev := { s.dev with rel_dx := 0, rel_dy := 0 } } :=
    quiet_step_dev _ _ rfl
  unfold flush_case_relative_motion at h
  simp only [] at h
  split_ifs at h <;> simp only [Option.some.injEq] at h <;> subst h
  · exact touch_step_of_quiet_step (quiet_step_trans h0
      (quiet_step_trans (quiet_step_post_scroll _ _ _ _ _) (quiet_step_clear_pending _)))
  · exact touch_step_of_quiet_step (quiet_step_dev _ _ rfl)
  · exact touch_step_of_quiet_step (quiet_step_dev _ _ (apply_filter_assign _ _ _ _))
  · exact touch_step_of_quiet
      [Notification.pointer_motion _ _ _ _ _] rfl (by simp [Notification.is_touch])
      (apply_filter_assign _ _ _ _) rfl

theorem touch_step_flush_case_mt_down {s s1 : State} {time : Nat}
    (h : flush_case_mt_down s time = some s1) : touch_step s s1 := by
  unfold flush_case_mt_down at h
  simp only [] at h
  by_cases hcap : s.dev.seat_caps &&& EVDEV_DEVICE_TOUCH = 0
  · rw [if_pos hcap] at h
    simp only [Option.some.injEq] at h
    subst h
    exact touch_step_of_quiet_step (quiet_step_clear_pending _)
  · rw [if_neg hcap] at h
    cases hsd : mt_slot_data s.dev with
    | none => simp [hsd] at h
    | some sd =>
      obtain ⟨hj, hget⟩ := assign_slot_index_mt s.dev sd hsd
      have h0 := mt_slot_data_nonneg s.dev sd hsd
      simp only [hsd] at h
      by_cases hassigned : sd.seat_slot ≠ -1
      · rw [if_pos hassigned] at h
        simp only [Option.some.injEq] at h
        subst h
        exact touch_step_of_quiet_step (quiet_step_clear_pending _)
      · rw [if_neg hassigned] at h
        have hun : sd.seat_slot = -1 := by simpa using hassigned
        rcases ffs_bnot32_cases s.slot_map with hk | ⟨k, hk, hk32, hclear⟩
        · rw [if_pos hk] at h
          simp only [Option.some.injEq] at h
          subst h
          exact touch_step_of_quiet_step (quiet_step_dev _ _
            (assign_mt_slot_store_same s.dev sd _ hsd (by rw [hun]; exact hk)))
        · have hk1 : ¬ (((ffs (bnot32 s.slot_map) : Nat) : Int) - 1 = -1) := by omega
          rw [if_neg hk1] at h
          split at h
          · exact absurd h (by simp)
          · rename_i s3 haux
            simp only [Option.some.injEq] at h
            subst h
            obtain ⟨extra, ho, hf, ha, hm⟩ := aux_post_clear haux
              (Notification.touch_down time s.dev.mt_slot
                (((ffs (bnot32 s.slot_map) : Nat) : Int) - 1)
                _ _ sd.area sd.pressure) rfl
            rw [hk] at hf
            refine touch_step.down extra ho time s.dev.mt_slot k _ _ sd.area sd.pressure
              hf hj (by rw [hget, hun]) hk32 hclear ?_ ?_
            · rw [ha]
              simp only []
              rw [assign_mt_slot_store s.dev _ h0, hk]
            · rw [hm]
              simp only [hk]

theorem touch_step_flush_case_mt_motion {s s1 : State} {time : Nat}
    (h : flush_case_mt_motion s time = some s1) : touch_step s s1 := by
  unfold flush_case_mt_motion at h
  simp only [] at h
  by_cases hcap : s.dev.seat_caps &&& EVDEV_DEVICE_TOUCH = 0
  · rw [if_pos hcap] at h
    simp only [Option.some.injEq] at h
    subst h
    exact touch_step_of_quiet_step (quiet_step_clear_pending _)
  · rw [if_neg hcap] at h
    cases hsd : mt_slot_data s.dev with
    | none => simp [hsd] at h
    | some sd =>
      obtain ⟨hj, hget⟩ := assign_slot_index_mt s.dev sd hsd
      simp only [hsd] at h
      by_cases hun : sd.seat_slot = -1
      · rw [if_pos hun] at h
        simp only [Option.some.injEq] at h
        subst h
        exact touch_step_of_quiet_step (quiet_step_clear_pending _)
      · rw [if_neg hun] at h
        split at h
        · exact absurd h (by simp)
        · rename_i s3 haux
          simp only [Option.some.injEq] at h
          subst h
          obtain ⟨extra, ho, hf, ha, hm⟩ := aux_post_clear haux
            (Notification.touch_motion time s.dev.mt_slot sd.seat_slot
              _ _ sd.area sd.pressure) rfl
          exact touch_step.motion extra ho time s.dev.mt_slot sd.seat_slot _ _ sd.area
            sd.pressure hf hj hget hun ha hm

theorem touch_step_flush_case_mt_up {s s1 : State} {time : Nat}
    (h : flush_case_mt_up s time = some s1) : touch_step s s1 := by
  unfold flush_case_mt_up at h
  simp only [] at h
  by_cases hcap : s.dev.seat_caps &&& EVDEV_DEVICE_TOUCH = 0
  · rw [if_pos hcap] at h
    simp only [Option.some.injEq] at h
    subst h
    exact touch_step_of_quiet_step (quiet_step_clear_pending _)
  · rw [if_neg hcap] at h
    cases hsd : mt_slot_data s.dev with
    | none => simp [hsd] at h
    | some sd =>
      obtain ⟨hj, hget⟩ := assign_slot_index_mt s.dev sd hsd
      have h0 := mt_slot_data_nonneg s.dev sd hsd
      simp only [hsd] at h
      by_cases hun : sd.seat_slot = -1
      · rw [if_pos hun] at h
        simp only [Option.some.injEq] at h
        subst h
        exact touch_step_of_quiet_step (quiet_step_dev _ _
          (assign_mt_slot_store_same s.dev sd _ hsd hun.symm))
      · rw [if_neg hun] at h
        cases hclr : slot_map_clear s.slot_map sd.seat_slot with
        | none => simp [hclr] at h
        | some m =>
          obtain ⟨k, hk, hk32, hm1⟩ := slot_map_clear_some _ _ _ hclr
          simp only [hclr] at h
          split at h
          · exact absurd h (by simp)
          · rename_i s3 haux
            simp only [Option.some.injEq] at h
            subst h
            obtain ⟨extra, ho, hf, ha, hm⟩ := aux_post_clear haux
              (Notification.touch_up time s.dev.mt_slot sd.seat_slot) rfl
            rw [hk] at hf
            refine touch_step.up extra ho time s.dev.mt_slot k hf hj
              (by rw [hget, hk]) hk32 ?_ ?_
            · rw [ha]
              simp only []
              rw [assign_mt_slot_store s.dev _ h0]
            · rw [hm]
              exact hm1

theorem assign_abs_store_same (d : Device) (v : Int) (hv : v = d.abs_seat_slot) :
    ({ d with abs_seat_slot := v } : Device).assign = d.assign := by
  subst hv
  rfl

theorem touch_step_flush_case_touch_down {s s1 : State} {time : Nat}
    (h : flush_case_touch_down s time = some s1) : touch_step s s1 := by
  obtain ⟨hj, hget⟩ := assign_abs s.dev
  unfold flush_case_touch_down at h
  simp only [] at h
  by_cases hcap : s.dev.seat_caps &&& EVDEV_DEVICE_TOUCH = 0
  · rw [if_pos hcap] at h
    simp only [Option.some.injEq] at h
    subst h
    exact touch_step_of_quiet_step (quiet_step_clear_pending _)
  · rw [if_neg hcap] at h
    by_cases hassigned : s.dev.abs_seat_slot ≠ -1
    · rw [if_pos hassigned] at h
      simp only [Option.some.injEq] at h
      subst h
      exact touch_step_of_quiet_step (quiet_step_clear_pending _)
    · rw [if_neg hassigned] at h
      have hun : s.dev.abs_seat_slot = -1 := by simpa using hassigned
      rcases ffs_bnot32_cases s.slot_map with hk | ⟨k, hk, hk32, hclear⟩
      · rw [if_pos hk] at h
        simp only [Option.some.injEq] at h
        subst h
        exact touch_step_of_quiet_step (quiet_step_dev _ _
          (assign_abs_store_same s.dev _ (by rw [hk, hun])))
      · have hk1 : ¬ (((ffs (bnot32 s.slot_map) : Nat) : Int) - 1 = -1) := by omega
        rw [if_neg hk1] at h
        simp only [Option.some.injEq] at h
        subst h
        refine touch_step.down [_] rfl time (-1) k
          (transform_absolute { s.dev with abs_seat_slot :=
            ((ffs (bnot32 s.slot_map) : Nat) : Int) - 1 } s.dev.abs_x s.dev.abs_y).1
          (transform_absolute { s.dev with abs_seat_slot :=
            ((ffs (bnot32 s.slot_map) : Nat) : Int) - 1 } s.dev.abs_x s.dev.abs_y).2
          { major := DEFAULT_TOUCH_MAJOR, minor := DEFAULT_TOUCH_MINOR,
            orientation := DEFAULT_TOUCH_ORIENTATION } DEFAULT_TOUCH_PRESSURE
          ?_ hj (by rw [hget, hun]) hk32 hclear ?_ ?_
        · simp [Notification.is_touch, hk]
        · simp only [State.clear_pending, State.post]
          rw [← hk]
          exact assign_abs_store s.dev _
        · simp only [State.clear_pending, State.post, hk]

theorem touch_step_flush_case_absolute_motion {s s1 : State} {time : Nat}
    (h : flush_case_absolute_motion s time = some s1) : touch_step s s1 := by
  obtain ⟨hj, hget⟩ := assign_abs s.dev
  unfold flush_case_absolute_motion at h
  simp only [] at h
  by_cases hcap : s.dev.seat_caps &&& EVDEV_DEVICE_TOUCH ≠ 0
  · rw [if_pos hcap] at h
    by_cases hun : s.dev.abs_seat_slot = -1
    · rw [if_pos hun] at h
      simp only [Option.some.injEq] at h
      subst h
      exact touch_step_of_quiet_step (quiet_step_clear_pending _)
    · rw [if_neg hun] at h
      simp only [Option.some.injEq] at h
      subst h
      exact touch_step.motion [_] rfl time (-1) s.dev.abs_seat_slot
        (transform_absolute s.dev s.dev.abs_x s.dev.abs_y).1
        (transform_absolute s.dev s.dev.abs_x s.dev.abs_y).2
        { major := DEFAULT_TOUCH_MAJOR, minor := DEFAULT_TOUCH_MINOR,
          orientation := DEFAULT_TOUCH_ORIENTATION } DEFAULT_TOUCH_PRESSURE
        (by simp [Notification.is_touch]) hj hget hun rfl rfl
  · rw [if_neg hcap] at h
    split_ifs at h <;> simp only [Option.some.injEq] at h <;> subst h
    · exact touch_step_of_quiet [_] rfl (by simp [Notification.is_touch]) rfl rfl
    · exact touch_step_of_quiet_step (quiet_step_clear_pending _)

theorem touch_step_flush_case_touch_up {s s1 : State} {time : Nat}
    (h : flush_case_touch_up s time = some s1) : touch_step s s1 := by
  obtain ⟨hj, hget⟩ := assign_abs s.dev
  unfold flush_case_touch_up at h
  simp only [] at h
  by_cases hcap : s.dev.seat_caps &&& EVDEV_DEVICE_TOUCH = 0
  · rw [if_pos hcap] at h
    simp only [Option.some.injEq] at h
    subst h
    exact touch_step_of_quiet_step (quiet_step_clear_pending _)
  · rw [if_neg hcap] at h
    by_cases hun : s.dev.abs_seat_slot = -1
    · rw [if_pos hun] at h
      simp only [Option.some.injEq] at h
      subst h
      exact touch_step_of_quiet_step (quiet_step_dev _ _
        (assign_abs_store_same s.dev _ hun.symm))
    · rw [if_neg hun] at h
      cases hclr : slot_map_clear s.slot_map s.dev.abs_seat_slot with
      | none => simp [hclr] at h
      | some m =>
        obtain ⟨k, hk, hk32, hm1⟩ := slot_map_clear_some _ _ _ hclr
        simp only [hclr, Option.some.injEq] at h
        subst h
        refine touch_step.up [_] rfl time (-1) k ?_ hj (by rw [hget, hk]) hk32 ?_ ?_
        · simp [Notification.is_touch, hk]
        · simp only [State.clear_pending, State.post]
          exact assign_abs_store s.dev _
        · simp only [State.clear_pending, State.post]
          exact hm1

/-- The flush of the pending event as a step on the seat slots. -/
theorem touch_step_flush {s s1 : State} {time : Nat}
    (h : evdev_flush_pending_event s time = some s1) : touch_step s s1 := by
  unfold evdev_flush_pending_event at h
  split at h
  · simp only [Option.some.injEq] at h
    subst h
    exact touch_step_refl _
  · exact touch_step_flush_case_relative_motion h
  · exact touch_step_flush_case_mt_down h
  · exact touch_step_flush_case_mt_motion h
  · exact touch_step_flush_case_mt_up h
  · exact touch_step_flush_case_touch_down h
  · exact touch_step_flush_case_absolute_motion h
  · exact touch_step_flush_case_touch_up h

theorem update_key_down_count_assign {d d1 : Device} {code : Nat} {pressed r : Int}
    (h : update_key_down_count d code pressed = some (d1, r)) : d1.assign = d.assign := by
  unfold update_key_down_count at h
  split_ifs at h <;> simp only [Option.some.injEq, Prod.mk.injEq] at h <;>
    obtain ⟨rfl, -⟩ := h <;> rfl

theorem quiet_step_keyboard_notify_key {s s1 : State} {time key : Nat}
    {state : libinput_key_state}
    (h : evdev_keyboard_notify_key s time key state = some s1) : quiet_step s s1 := by
  unfold evdev_keyboard_notify_key at h
  split at h
  · exact absurd h (by simp)
  · rename_i d c hupd
    have ha := update_key_down_count_assign hupd
    split_ifs at h <;> simp only [Option.some.injEq] at h <;> subst h
    · exact quiet_step_trans (quiet_step_dev s d ha) (quiet_step_post _ _ rfl)
    · exact quiet_step_dev s d ha

theorem evdev_change_to_left_handed_assign (d : Device) :
    (evdev_change_to_left_handed d).assign = d.assign := by
  unfold evdev_change_to_left_handed
  split_ifs <;> rfl

theorem evdev_change_scroll_method_assign (d : Device) :
    (evdev_change_scroll_method d).assign = d.assign := by
  unfold evdev_change_scroll_method
  split_ifs <;> rfl

theorem quiet_step_left_handed_hook (s : State) (state : libinput_button_state) :
    quiet_step s (left_handed_hook s state) := by
  unfold left_handed_hook
  split_ifs
  · exact quiet_step_dev _ _ (evdev_change_to_left_handed_assign _)
  · exact quiet_step_refl _

theorem quiet_step_scroll_method_hook (s : State) (state : libinput_button_state) :
    quiet_step s (scroll_method_hook s state) := by
  unfold scroll_method_hook
  split_ifs
  · exact quiet_step_dev _ _ (evdev_change_scroll_method_assign _)
  · exact quiet_step_refl _

theorem quiet_step_pointer_notify_button {s s1 : State} {time button : Nat}
    {state : libinput_button_state}
    (h : evdev_pointer_notify_button s time button state = some s1) : quiet_step s s1 := by
  unfold evdev_pointer_notify_button at h
  split at h
  · exact absurd h (by simp)
  · rename_i d c hupd
    have ha := update_key_down_count_assign hupd
    have h1 : quiet_step s
        ({ s with dev := d }.post (Notification.pointer_button (time % 2 ^ 32) button state)) :=
      quiet_step_trans (quiet_step_dev s d ha) (quiet_step_post _ _ rfl)
    split_ifs at h <;> simp only [Option.some.injEq] at h <;> subst h
    · exact quiet_step_trans h1 (quiet_step_trans (quiet_step_left_handed_hook _ _)
        (quiet_step_scroll_method_hook _ _))
    · exact quiet_step_dev s d ha

theorem quiet_step_button_scroll_button {s s1 : State} {time : Nat} {is_press : Int}
    (h : evdev_button_scroll_button s time is_press = some s1) : quiet_step s s1 := by
  unfold evdev_button_scroll_button at h
  simp only [] at h
  by_cases hp : is_press ≠ 0
  · rw [if_pos hp] at h
    simp only [Option.some.injEq] at h
    subst h
    exact quiet_step_dev _ _ rfl
  · rw [if_neg hp] at h
    have h0 : quiet_step s { s with dev := { s.dev with scroll_timer := none } } :=
      quiet_step_dev _ _ rfl
    by_cases hact : s.dev.scroll_button_scroll_active = true
    · rw [if_pos hact] at h
      simp only [Option.some.injEq] at h
      subst h
      exact quiet_step_trans h0 (quiet_step_trans (quiet_step_stop_scroll _ _ _)
        (quiet_step_dev _ _ rfl))
    · rw [if_neg hact] at h
      split at h
      · exact absurd h (by simp)
      · rename_i s2 hpress
        exact quiet_step_trans h0 (quiet_step_trans
          (quiet_step_pointer_notify_button hpress) (quiet_step_pointer_notify_button h))

/-- An optional flush (the `if (...) evdev_flush_pending_event(...)` of the
event handlers) is a step on the seat slots. -/
theorem touch_step_flush_if {s s1 : State} {time : Nat} (c : Prop) [Decidable c]
    (h : (if c then evdev_flush_pending_event s time else some s) = some s1) :
    touch_step s s1 := by
  split_ifs at h
  · exact touch_step_flush h
  · simp only [Option.some.injEq] at h
    subst h
    exact touch_step_refl _

theorem touch_step_process_touch_button {s s1 : State} {time : Nat} {value : Int}
    (h : evdev_process_touch_button s time value = some s1) : touch_step s s1 := by
  unfold evdev_process_touch_button at h
  simp only [] at h
  split at h
  · exact absurd h (by simp)
  · rename_i s2 hfl
    simp only [Option.some.injEq] at h
    subst h
    exact touch_step_then_dev (touch_step_flush_if _ hfl) _ rfl

theorem hw_set_key_down_assign (d : Device) (code : Nat) (pressed : Int) :
    (hw_set_key_down d code pressed).assign = d.assign := rfl

theorem touch_step_process_key {s s1 : State} {e : input_event} {time : Nat}
    (h : evdev_process_key s e time = some s1) : touch_step s s1 := by
  unfold evdev_process_key at h
  by_cases h2 : e.value = 2
  · rw [if_pos h2] at h
    simp only [Option.some.injEq] at h
    subst h
    exact touch_step_refl _
  · rw [if_neg h2] at h
    by_cases hbt : e.code = BTN_TOUCH
    · rw [if_pos hbt] at h
      split_ifs at h
      · exact touch_step_process_touch_button h
      · simp only [Option.some.injEq] at h
        subst h
        exact touch_step_refl _
    · rw [if_neg hbt] at h
      split at h
      · exact absurd h (by simp)
      · rename_i s2 hfl
        have hstep := touch_step_flush hfl
        simp only [] at h
        by_cases hrel : e.value = 0 ∧ get_key_type e.code ≠ EVDEV_KEY_TYPE_NONE ∧
            (!hw_is_key_down s2.dev e.code) = true
        · rw [if_pos hrel] at h
          simp only [Option.some.injEq] at h
          subst h
          exact hstep
        · rw [if_neg hrel] at h
          have hset : quiet_step s2 { s2 with dev := hw_set_key_down s2.dev e.code e.value } :=
            quiet_step_dev _ _ rfl
          split at h
          · simp only [Option.some.injEq] at h
            subst h
            exact touch_step_before_quiet hstep hset
          · exact touch_step_before_quiet hstep
              (quiet_step_trans hset (quiet_step_keyboard_notify_key h))
          · split_ifs at h <;>
              first
              | exact touch_step_before_quiet hstep
                  (quiet_step_trans hset (quiet_step_button_scroll_button h))
              | exact touch_step_before_quiet hstep
                  (quiet_step_trans hset (quiet_step_pointer_notify_button h))

theorem list_set_map_same {α β : Type} (f : α → β) (l : List α) (i : Nat) (a v : α)
    (h : l[i]? = some a) (hv : f v = f a) : (l.set i v).map f = l.map f := by
  rw [List.map_set, hv]
  apply list_set_getElem?_self
  rw [List.getElem?_map, h]
  rfl

theorem mt_slot_modify_assign {d d1 : Device} {f : mt_slot → mt_slot}
    (h : mt_slot_modify d f = some d1) (hf : ∀ c, (f c).seat_slot = c.seat_slot) :
    d1.assign = d.assign := by
  unfold mt_slot_modify at h
  split at h
  · exact absurd h (by simp)
  · rename_i sd hsd
    simp only [Option.some.injEq] at h
    subst h
    exact assign_mt_slot_store_same d sd _ hsd (hf sd)

theorem process_touch_extra_aux_data_assign {d d1 : Device} {e : input_event} {b : Bool}
    (h : evdev_process_touch_extra_aux_data d e = some (d1, b)) : d1.assign = d.assign := by
  unfold evdev_process_touch_extra_aux_data at h
  split at h
  · simp only [Option.some.injEq, Prod.mk.injEq] at h
    obtain ⟨rfl, -⟩ := h
    rfl
  · split at h
    · exact absurd h (by simp)
    · split_ifs at h <;> simp only [Option.some.injEq, Prod.mk.injEq] at h <;>
        obtain ⟨rfl, -⟩ := h <;> rfl

theorem wake_mt_motion_assign (d : Device) (b : Bool) : (wake_mt_motion d b).assign = d.assign := by
  unfold wake_mt_motion
  split_ifs <;> rfl

theorem map_pair_assign {d : Device} {o : Option Device} {d1 : Device} {b : Bool}
    (ho : ∀ d2, o = some d2 → d2.assign = d.assign)
    (h : o.map (fun d2 => (d2, true)) = some (d1, b)) : d1.assign = d.assign := by
  cases o with
  | none => simp at h
  | some d2 =>
    simp only [Option.map_some', Option.some.injEq, Prod.mk.injEq] at h
    obtain ⟨rfl, -⟩ := h
    exact ho _ rfl

theorem touch_step_process_touch {s s1 : State} {e : input_event} {time : Nat}
    (h : evdev_process_touch s e time = some s1) : touch_step s s1 := by
  unfold evdev_process_touch at h
  by_cases hslot : e.code = ABS_MT_SLOT
  · rw [if_pos hslot] at h
    split at h
    · exact absurd h (by simp)
    · rename_i s2 hfl
      simp only [Option.some.injEq] at h
      subst h
      exact touch_step_then_dev (touch_step_flush hfl) _ rfl
  · rw [if_neg hslot] at h
    by_cases htid : e.code = ABS_MT_TRACKING_ID
    · rw [if_pos htid] at h
      simp only [] at h
      split at h
      · exact absurd h (by simp)
      · rename_i s2 hfl
        simp only [Option.some.injEq] at h
        subst h
        exact touch_step_then_dev (touch_step_flush_if _ hfl) _ rfl
    · rw [if_neg htid] at h
      simp only [] at h
      split at h
      · exact absurd h (by simp)
      · rename_i d b hr
        simp only [Option.some.injEq] at h
        subst h
        refine touch_step_of_quiet_step (quiet_step_dev _ _ ?_)
        rw [wake_mt_motion_assign]
        split_ifs at hr
        · refine map_pair_assign ?_ hr
          intro d2 h2
          exact mt_slot_modify_assign h2 (fun _ => rfl)
        · refine map_pair_assign ?_ hr
          intro d2 h2
          exact mt_slot_modify_assign h2 (fun _ => rfl)
        · refine map_pair_assign ?_ hr
          intro d2 h2
          exact mt_slot_modify_assign h2 (fun _ => rfl)
        · refine map_pair_assign ?_ hr
          intro d2 h2
          exact mt_slot_modify_assign h2 (fun _ => rfl)
        · refine map_pair_assign ?_ hr
          intro d2 h2
          exact mt_slot_modify_assign h2 (fun _ => rfl)
        · exact process_touch_extra_aux_data_assign hr

theorem evdev_process_absolute_motion_assign (d : Device) (e : input_event) :
    (evdev_process_absolute_motion d e).assign = d.assign := by
  unfold evdev_process_absolute_motion
  simp only []
  split_ifs <;> rfl

theorem touch_step_process_absolute {s s1 : State} {e : input_event} {time : Nat}
    (h : evdev_process_absolute s e time = some s1) : touch_step s s1 := by
  unfold evdev_process_absolute at h
  split_ifs at h
  · exact touch_step_process_touch h
  · simp only [Option.some.injEq] at h
    subst h
    exact touch_step_of_quiet_step
      (quiet_step_dev _ _ (evdev_process_absolute_motion_assign _ _))

theorem touch_step_process_relative {s s1 : State} {e : input_event} {time : Nat}
    (h : evdev_process_relative s e time = some s1) : touch_step s s1 := by
  unfold evdev_process_relative at h
  by_cases hx : e.code = REL_X
  · rw [if_pos hx] at h
    simp only [] at h
    split at h
    · exact absurd h (by simp)
    · rename_i s2 hfl
      simp only [Option.some.injEq] at h
      subst h
      exact touch_step_then_dev (touch_step_flush_if _ hfl) _ rfl
  · rw [if_neg hx] at h
    by_cases hy : e.code = REL_Y
    · rw [if_pos hy] at h
      simp only [] at h
      split at h
      · exact absurd h (by simp)
      · rename_i s2 hfl
        simp only [Option.some.injEq] at h
        subst h
        exact touch_step_then_dev (touch_step_flush_if _ hfl) _ rfl
    · rw [if_neg hy] at h
      by_cases hw : e.code = REL_WHEEL
      · rw [if_pos hw] at h
        split at h
        · exact absurd h (by simp)
        · rename_i s2 hfl
          simp only [Option.some.injEq] at h
          subst h
          exact touch_step_before_quiet (touch_step_flush hfl)
            (quiet_step_notify_axis _ _ _ _ _ _ _ _)
      · rw [if_neg hw] at h
        by_cases hhw : e.code = REL_HWHEEL
        · rw [if_pos hhw] at h
          split at h
          · exact absurd h (by simp)
          · rename_i s2 hfl
            simp only [Option.some.injEq] at h
            subst h
            exact touch_step_before_quiet (touch_step_flush hfl)
              (quiet_step_notify_axis _ _ _ _ _ _ _ _)
        · rw [if_neg hhw] at h
          simp only [Option.some.injEq] at h
          subst h
          exact touch_step_refl _

/-- One raw event through `fallback_process` is one step on the seat slots. -/
theorem touch_step_fallback_process {s s1 : State} {e : input_event} {time : Nat}
    (h : fallback_process s e time = some s1) : touch_step s s1 := by
  unfold fallback_process at h
  by_cases hrel : e.type = EV_REL
  · rw [if_pos hrel] at h
    exact touch_step_process_relative h
  · rw [if_neg hrel] at h
    by_cases habs : e.type = EV_ABS
    · rw [if_pos habs] at h
      exact touch_step_process_absolute h
    · rw [if_neg habs] at h
      by_cases hkey : e.type = EV_KEY
      · rw [if_pos hkey] at h
        exact touch_step_process_key h
      · rw [if_neg hkey] at h
        by_cases hsyn : e.type = EV_SYN
        · rw [if_pos hsyn] at h
          simp only [] at h
          split at h
          · exact absurd h (by simp)
          · rename_i s2 hfl
            simp only [Option.some.injEq] at h
            subst h
            split_ifs
            · exact touch_step_then_post (touch_step_flush hfl) _ rfl
            · exact touch_step_flush hfl
        · rw [if_neg hsyn] at h
          simp only [Option.some.injEq] at h
          subst h
          exact touch_step_refl _

/-! ## Seat slots: the seat bitmap invariant -/

theorem seat_process_some {seat seat1 : Seat} {n : Nat} {e : input_event}
    (h : seat_process seat n e = some seat1) :
    ∃ d s1, seat.devices[n]? = some d ∧
      evdev_process_event { dev := d, slot_map := seat.slot_map, out := [] } e = some s1 ∧
      seat1 = { slot_map := s1.slot_map, devices := seat.devices.set n s1.dev,
                out := seat.out ++ s1.out.map (fun x => (n, x)) } := by
  unfold seat_process at h
  split at h
  · exact absurd h (by simp)
  · rename_i d hd
    split at h
    · exact absurd h (by simp)
    · rename_i s1 hs1
      simp only [Option.some.injEq] at h
      exact ⟨d, s1, hd, hs1, h.symm⟩

theorem sum_map_set {α : Type} (f : α → Nat) (l : List α) :
    ∀ (n : Nat) (a v : α), l[n]? = some a →
      ((l.set n v).map f).sum + f a = (l.map f).sum + f v := by
  induction l with
  | nil => intro n a v h; simp at h
  | cons x rest ih =>
    intro n a v h
    cases n with
    | zero =>
      simp only [List.getElem?_cons_zero, Option.some.injEq] at h
      subst h
      simp only [List.set_cons_zero, List.map_cons, List.sum_cons]
      omega
    | succ m =>
      simp only [List.getElem?_cons_succ] at h
      have := ih m a v h
      simp only [List.set_cons_succ, List.map_cons, List.sum_cons]
      omega

theorem count_set_of_getElem? (l : List Int) :
    ∀ (i : Nat) (a v b : Int), l[i]? = some a →
      (l.set i v).count b + (if a = b then 1 else 0) =
        l.count b + (if v = b then 1 else 0) := by
  induction l with
  | nil => intro i a v b h; simp at h
  | cons x rest ih =>
    intro i a v b h
    cases i with
    | zero =>
      simp only [List.getElem?_cons_zero, Option.some.injEq] at h
      subst h
      simp only [List.set_cons_zero, List.count_cons, beq_iff_eq]
      omega
    | succ m =>
      simp only [List.getElem?_cons_succ] at h
      have := ih m a v b h
      simp only [List.set_cons_succ, List.count_cons, beq_iff_eq]
      omega

theorem bit_after_clear (m k i : Nat) (hm : m < 2 ^ 32) :
    (m &&& bnot32 (1 <<< k)).testBit i = (m.testBit i && !decide (i = k)) := by
  rw [Nat.testBit_and, bnot32_testBit, Nat.one_shiftLeft, Nat.testBit_two_pow]
  by_cases hi : i < 32
  · simp [hi, eq_comm]
  · have h1 : m.testBit i = false :=
      Nat.testBit_lt_two_pow (lt_of_lt_of_le hm (Nat.pow_le_pow_right (by omega) (by omega)))
    simp [h1]

/-- One step of one device keeps the seat consistent. -/
theorem consistent_touch_step (seat : Seat) (n : Nat) (d : Device) (s1 : State)
    (out1 : List (Nat × Notification))
    (hd : seat.devices[n]? = some d)
    (hstep : touch_step { dev := d, slot_map := seat.slot_map, out := [] } s1)
    (hc : seat.consistent) :
    Seat.consistent
      { slot_map := s1.slot_map, devices := seat.devices.set n s1.dev, out := out1 } := by
  obtain ⟨hlt, hown⟩ := hc
  have hsum : ∀ i, ((seat.devices.set n s1.dev).map (fun d => d.owners i)).sum +
      d.owners i = seat.owners i + s1.dev.owners i := by
    intro i
    exact sum_map_set (fun d => d.owners i) seat.devices n d s1.dev hd
  have hsame : s1.dev.assign = d.assign → s1.slot_map = seat.slot_map →
      Seat.consistent
        { slot_map := s1.slot_map, devices := seat.devices.set n s1.dev, out := out1 } := by
    intro ha hm
    refine ⟨by simpa [hm] using hlt, ?_⟩
    intro i
    have h1 := hsum i
    have h2 : s1.dev.owners i = d.owners i := by
      unfold Device.owners
      rw [ha]
    show ((seat.devices.set n s1.dev).map (fun d => d.owners i)).sum =
      (s1.slot_map.testBit i).toNat
    rw [hm, ← hown i]
    omega
  cases hstep with
  | quiet extra hout he ha hm => exact hsame ha hm
  | motion extra hout t j k x y a p he hj hk hne ha hm => exact hsame ha hm
  | down extra hout t j k x y a p he hj hfree hk hclear ha hm =>
    simp only [] at hfree hclear ha hm
    refine ⟨by rw [hm]; exact slot_map_set_lt _ _, ?_⟩
    intro i
    have h1 := hsum i
    have h2 := count_set_of_getElem? d.assign (slot_index j) (-1) (k : Int) (i : Int) hfree
    have h3 : s1.dev.owners i = (s1.dev.assign).count (i : Int) := rfl
    have h4 : d.owners i = d.assign.count (i : Int) := rfl
    rw [ha] at h3
    have h5 : ¬ ((-1 : Int) = (i : Int)) := by omega
    rw [if_neg h5] at h2
    have h6 := hown i
    show ((seat.devices.set n s1.dev).map (fun d => d.owners i)).sum =
      (s1.slot_map.testBit i).toNat
    rw [hm, slot_map_set_testBit _ _ _ hlt hk]
    by_cases hik : i = k
    · subst hik
      rw [hclear] at h6
      simp only [if_true, Bool.toNat_false] at h2 h6
      simp only [decide_True, Bool.or_true, Bool.toNat_true]
      omega
    · have h7 : ¬ ((k : Int) = (i : Int)) := by omega
      rw [if_neg h7] at h2
      simp only [hik, decide_False, Bool.or_false]
      omega
  | up extra hout t j k he hj hheld hk ha hm =>
    simp only [] at hheld ha hm
    refine ⟨by rw [hm]; exact lt_of_le_of_lt Nat.and_le_left hlt, ?_⟩
    intro i
    have h1 := hsum i
    have h2 := count_set_of_getElem? d.assign (slot_index j) (k : Int) (-1) (i : Int) hheld
    have h3 : s1.dev.owners i = (s1.dev.assign).count (i : Int) := rfl
    have h4 : d.owners i = d.assign.count (i : Int) := rfl
    rw [ha] at h3
    have h5 : ¬ ((-1 : Int) = (i : Int)) := by omega
    rw [if_neg h5] at h2
    have h6 := hown i
    show ((seat.devices.set n s1.dev).map (fun d => d.owners i)).sum =
      (s1.slot_map.testBit i).toNat
    rw [hm, bit_after_clear _ _ _ hlt]
    by_cases hik : i = k
    · subst hik
      simp only [if_true] at h2
      have h8 : (seat.slot_map.testBit i).toNat ≤ 1 := Bool.toNat_le _
      simp only [decide_True, Bool.not_true, Bool.and_false, Bool.toNat_false]
      omega
    · have h7 : ¬ ((k : Int) = (i : Int)) := by omega
      rw [if_neg h7] at h2
      simp only [hik, decide_False, Bool.not_false, Bool.and_true]
      omega

theorem consistent_seat_process {seat seat1 : Seat} {n : Nat} {e : input_event}
    (h : seat_process seat n e = some seat1) (hc : seat.consistent) : seat1.consistent := by
  obtain ⟨d, s1, hd, hs1, rfl⟩ := seat_process_some h
  exact consistent_touch_step seat n d s1 _ hd (touch_step_fallback_process hs1) hc

theorem consistent_seat_process_events (evs : List (Nat × input_event)) :
    ∀ seat seat1 : Seat, seat_process_events seat evs = some seat1 → seat.consistent →
      seat1.consistent := by
  induction evs with
  | nil =>
    intro seat seat1 h hc
    simp only [seat_process_events, Option.some.injEq] at h
    subst h
    exact hc
  | cons ne rest ih =>
    intro seat seat1 h hc
    obtain ⟨n, e⟩ := ne
    simp only [seat_process_events] at h
    split at h
    · exact absurd h (by simp)
    · rename_i seat2 h2
      exact ih seat2 seat1 h (consistent_seat_process h2 hc)

/-- A seat with an empty bitmap and every slot and stream unassigned is
consistent. -/
theorem consistent_of_fresh (seat : Seat) (h0 : seat.slot_map = 0)
    (hun : ∀ d ∈ seat.devices, d.abs_seat_slot = -1 ∧ ∀ sl ∈ d.mt_slots, sl.seat_slot = -1) :
    seat.consistent := by
  refine ⟨by rw [h0]; norm_num, ?_⟩
  intro i
  rw [h0]
  simp only [Nat.zero_testBit, Bool.toNat_false]
  unfold Seat.owners
  apply List.sum_eq_zero
  intro x hx
  simp only [List.mem_map] at hx
  obtain ⟨d, hd, rfl⟩ := hx
  obtain ⟨h1, h2⟩ := hun d hd
  unfold Device.owners Device.assign
  rw [List.count_eq_zero]
  intro hmem
  simp only [List.mem_cons, List.mem_map] at hmem
  rcases hmem with h | ⟨sl, hsl, h⟩
  · omega
  · have := h2 sl hsl
    omega

/-- C5: seat bitmap invariant. Starting from an empty bitmap with every
multitouch slot and single-touch stream unassigned (`-1`), after any sequence
of raw events processed through `fallback_process` on any devices of the seat,
bit `i` of the bitmap is set if and only if exactly one multitouch slot or
single-touch stream of the devices of the seat has seat-slot id `i`; when the
bit is clear no slot or stream has it. A slot-select value outside the slot
table leads to an access outside the table, which has no result in the
embedding. -/
theorem seat_bitmap_invariant (seat seat1 : Seat) (evs : List (Nat × input_event))
    (h0 : seat.slot_map = 0)
    (hun : ∀ d ∈ seat.devices, d.abs_seat_slot = -1 ∧ ∀ sl ∈ d.mt_slots, sl.seat_slot = -1)
    (hrun : seat_process_events seat evs = some seat1) :
    ∀ i : Nat, (seat1.slot_map.testBit i = true ↔ seat1.owners i = 1) ∧
      (seat1.slot_map.testBit i = false ↔ seat1.owners i = 0) := by
  have hc := consistent_seat_process_events evs seat seat1 hrun (consistent_of_fresh seat h0 hun)
  intro i
  have := hc.2 i
  cases hb : seat1.slot_map.testBit i <;> simp [hb] at this <;> simp [this]

theorem seat_bitmap_invariant_witness :
    fresh_seat.slot_map = 0 ∧
    ∃ seat1 : Seat, seat_process_events fresh_seat two_screens_events = some seat1 ∧
      seat1.slot_map = 2 ∧
      (seat1.slot_map.testBit 1 = true ↔ seat1.owners 1 = 1) ∧
      (seat1.slot_map.testBit 0 = false ↔ seat1.owners 0 = 0) := by
  refine ⟨rfl, ?_⟩
  have hun : ∀ d ∈ fresh_seat.devices,
      d.abs_seat_slot = -1 ∧ ∀ sl ∈ d.mt_slots, sl.seat_slot = -1 := by
    intro d hd
    simp only [fresh_seat, List.mem_cons, List.mem_singleton, List.not_mem_nil, or_false] at hd
    rcases hd with rfl | rfl
    · refine ⟨rfl, ?_⟩
      intro sl hsl
      simp only [touchscreen_idle, List.mem_cons, List.mem_singleton, List.not_mem_nil,
        or_false] at hsl
      rcases hsl with rfl | rfl <;> rfl
    · refine ⟨rfl, ?_⟩
      intro sl hsl
      simp [single_touch_idle] at hsl
  have hrun : ∃ seat1 : Seat, seat_process_events fresh_seat two_screens_events = some seat1 ∧
      seat1.slot_map = 2 := ⟨_, rfl, rfl⟩
  obtain ⟨seat1, h1, h2⟩ := hrun
  exact ⟨seat1, h1, h2,
    (seat_bitmap_invariant fresh_seat seat1 two_screens_events rfl hun h1 1).1,
    (seat_bitmap_invariant fresh_seat seat1 two_screens_events rfl hun h1 0).2⟩

/-! ## Seat slots: one touch from down to up -/

theorem posted_since_seat_process {seat seat1 : Seat} {n : Nat} {e : input_event}
    (h : seat_process seat n e = some seat1) :
    ∃ d s1, seat.devices[n]? = some d ∧
      touch_step { dev := d, slot_map := seat.slot_map, out := [] } s1 ∧
      seat1.slot_map = s1.slot_map ∧ seat1.devices = seat.devices.set n s1.dev ∧
      seat1.out = seat.out ++ s1.out.map (fun x => (n, x)) ∧
      seat1.posted_since seat = s1.out.map (fun x => (n, x)) := by
  obtain ⟨d, s1, hd, hs1, rfl⟩ := seat_process_some h
  refine ⟨d, s1, hd, touch_step_fallback_process hs1, rfl, rfl, rfl, ?_⟩
  simp [Seat.posted_since]

theorem holder_after_step (seat seat1 : Seat) (n : Nat) (d d1 : Device) (m idx : Nat)
    (hd : seat.devices[n]? = some d) (hdev : seat1.devices = seat.devices.set n d1) :
    seat1.holder m idx = if m = n then d1.assign[idx]? else seat.holder m idx := by
  have hlt : n < seat.devices.length := by
    by_contra hge
    rw [List.getElem?_eq_none (by omega)] at hd
    simp at hd
  unfold Seat.holder
  rw [hdev]
  simp only [List.getElem?_set]
  by_cases hmn : m = n
  · subst hmn
    simp [hlt]
  · have : ¬ (n = m) := fun h => hmn h.symm
    simp [hmn, this]

theorem slot_index_inj {j j1 : Int} (hj : -1 ≤ j) (hj1 : -1 ≤ j1)
    (h : slot_index j = slot_index j1) : j = j1 := by
  unfold slot_index at h
  omega

theorem mem_of_filter_eq_singleton {l : List Notification} {x : Notification}
    (h : l.filter Notification.is_touch = [x]) : x ∈ l ∧ x.is_touch = true := by
  have : x ∈ l.filter Notification.is_touch := by rw [h]; simp
  simpa [List.mem_filter] using this

theorem eq_of_mem_of_filter_eq_singleton {l : List Notification} {x y : Notification}
    (h : l.filter Notification.is_touch = [x]) (hy : y ∈ l) (hyt : y.is_touch = true) :
    y = x := by
  have : y ∈ l.filter Notification.is_touch := List.mem_filter.2 ⟨hy, hyt⟩
  rw [h] at this
  simpa using this

theorem not_mem_of_filter_eq_nil {l : List Notification} {y : Notification}
    (h : l.filter Notification.is_touch = []) (hyt : y.is_touch = true) : y ∉ l := by
  intro hy
  have : y ∈ l.filter Notification.is_touch := List.mem_filter.2 ⟨hy, hyt⟩
  rw [h] at this
  simp at this

theorem mem_map_tag {n m : Nat} {x : Notification} {l : List Notification}
    (h : (m, x) ∈ l.map (fun y => (n, y))) : m = n ∧ x ∈ l := by
  simp only [List.mem_map, Prod.mk.injEq] at h
  obtain ⟨y, hy, rfl, rfl⟩ := h
  exact ⟨rfl, hy⟩

theorem getElem?_set_ne' {l : List Int} {i idx : Nat} {v : Int} (h : idx ≠ i) :
    (l.set i v)[idx]? = l[idx]? := by
  exact List.getElem?_set_ne (fun h1 => h h1.symm)

theorem getElem?_set_self_of_some {l : List Int} {i : Nat} {a v : Int} (h : l[i]? = some a) :
    (l.set i v)[i]? = some v := by
  have hlt : i < l.length := by
    by_contra hge
    rw [List.getElem?_eq_none (by omega)] at h
    simp at h
  rw [List.getElem?_set]
  simp [hlt]

theorem bit_after_clear_other (m k i : Nat) (hi : i < 32) (hik : i ≠ k) :
    (m &&& bnot32 (1 <<< k)).testBit i = m.testBit i := by
  rw [Nat.testBit_and, bnot32_testBit, Nat.one_shiftLeft, Nat.testBit_two_pow]
  have : ¬ (k = i) := fun h => hik h.symm
  simp [hi, this]

theorem bit_after_clear_self (m k : Nat) :
    (m &&& bnot32 (1 <<< k)).testBit k = false := by
  rw [Nat.testBit_and, bnot32_testBit, Nat.one_shiftLeft, Nat.testBit_two_pow]
  simp

/-- On a consistent seat an id whose bit is clear is held by nobody. -/
theorem holder_ne_of_clear (seat : Seat) (hc : seat.consistent) (k : Nat)
    (hclear : seat.slot_map.testBit k = false) (m idx : Nat) :
    seat.holder m idx ≠ some (k : Int) := by
  intro hh
  have h0 : seat.owners k = 0 := by
    rw [hc.2 k, hclear]
    rfl
  unfold Seat.holder at hh
  cases hd : seat.devices[m]? with
  | none => simp [hd] at hh
  | some d =>
    simp only [hd, Option.some_bind] at hh
    have hmem : d ∈ seat.devices := List.getElem?_mem hd
    have hk : (k : Int) ∈ d.assign := List.getElem?_mem hh
    have hpos : 0 < d.owners k := List.count_pos_iff.2 hk
    have hle : d.owners k ≤ seat.owners k := by
      unfold Seat.owners
      exact List.single_le_sum (by intro x _; exact Nat.zero_le x) _
        (List.mem_map.2 ⟨d, hmem, rfl⟩)
    omega

/-- The step that posts a touch down for slot `j` of device `n` with seat slot
`k` leaves the seat with that slot holding `k`, bit `k` set, and nobody else
holding `k`. -/
theorem holds_after_touch_down {seat0 seat1 : Seat} {n : Nat} {e : input_event}
    {t : Nat} {j k x y : Int} {a : ellipse} {p : Int}
    (hc : seat0.consistent) (hdown : seat_process seat0 n e = some seat1)
    (hdn : (n, Notification.touch_down t j k x y a p) ∈ seat1.posted_since seat0) :
    ∃ k0 : Nat, k = (k0 : Int) ∧ k0 < 32 ∧ -1 ≤ j ∧ seat1.holds n j k0 := by
  obtain ⟨d, s1, hd, hstep, hsm, hdev, hout, hpost⟩ := posted_since_seat_process hdown
  rw [hpost] at hdn
  have hmem := (mem_map_tag hdn).2
  cases hstep with
  | quiet extra ho he ha hm =>
    simp only [List.nil_append] at ho
    rw [ho] at hmem
    exact absurd hmem (not_mem_of_filter_eq_nil he rfl)
  | motion extra ho t0 j0 k0 x0 y0 a0 p0 he hj hk hne ha hm =>
    simp only [List.nil_append] at ho
    rw [ho] at hmem
    have := eq_of_mem_of_filter_eq_singleton he hmem rfl
    simp at this
  | up extra ho t0 j0 k0 he hj hheld hk ha hm =>
    simp only [List.nil_append] at ho
    rw [ho] at hmem
    have := eq_of_mem_of_filter_eq_singleton he hmem rfl
    simp at this
  | down extra ho t0 j0 k0 x0 y0 a0 p0 he hj hfree hk hclear ha hm =>
    simp only [List.nil_append] at ho
    simp only [] at hfree hclear ha hm
    rw [ho] at hmem
    have heq := eq_of_mem_of_filter_eq_singleton he hmem rfl
    simp only [Notification.touch_down.injEq] at heq
    obtain ⟨-, rfl, rfl, -, -, -, -⟩ := heq
    refine ⟨k0, rfl, hk, hj, ?_, ?_, ?_⟩
    · rw [holder_after_step seat0 seat1 n d s1.dev n _ hd hdev, if_pos rfl, ha]
      exact getElem?_set_self_of_some hfree
    · rw [hsm, hm, slot_map_set_testBit _ _ _ hc.1 hk]
      simp
    · intro m idx hh
      rw [holder_after_step seat0 seat1 n d s1.dev m idx hd hdev] at hh
      by_cases hmn : m = n
      · rw [if_pos hmn, ha] at hh
        refine ⟨hmn, ?_⟩
        by_contra hidx
        rw [getElem?_set_ne' hidx] at hh
        have hh0 : seat0.holder n idx = some (k0 : Int) := by
          unfold Seat.holder
          rw [hd]
          exact hh
        exact holder_ne_of_clear seat0 hc k0 hclear n idx hh0
      · rw [if_neg hmn] at hh
        exact absurd hh (holder_ne_of_clear seat0 hc k0 hclear m idx)

/-- One raw event on some device of the seat while the touch on slot `j` of
device `n` is held and no touch up for that slot is posted: the slot keeps its
seat slot, every touch motion of the slot carries it, and no touch down is
given it. -/
theorem holds_step {seat seat1 : Seat} {n m : Nat} {e : input_event} {j : Int} {k0 : Nat}
    (hj : -1 ≤ j) (hk : k0 < 32) (hH : seat.holds n j k0)
    (hstep : seat_process seat m e = some seat1)
    (hno : ∀ t1 k1, (n, Notification.touch_up t1 j k1) ∉ seat1.posted_since seat) :
    seat1.holds n j k0 ∧
    (∀ t1 k1 x1 y1 a1 p1,
      (n, Notification.touch_motion t1 j k1 x1 y1 a1 p1) ∈ seat1.posted_since seat →
        k1 = (k0 : Int)) ∧
    (∀ m1 t1 j1 x1 y1 a1 p1,
      (m1, Notification.touch_down t1 j1 (k0 : Int) x1 y1 a1 p1) ∉
        seat1.posted_since seat) := by
  obtain ⟨hhold, hbit, huniq⟩ := hH
  obtain ⟨d, s1, hd, hst, hsm, hdev, hout, hpost⟩ := posted_since_seat_process hstep
  rw [hpost] at hno ⊢
  have hdh : ∀ idx, d.assign[idx]? = seat.holder m idx := by
    intro idx
    unfold Seat.holder
    rw [hd]
    rfl
  -- when the assignment and the bitmap are unchanged
  have hsame : s1.dev.assign = d.assign → s1.slot_map = seat.slot_map → seat1.holds n j k0 := by
    intro ha hm
    have hholder : ∀ m1 idx, seat1.holder m1 idx = seat.holder m1 idx := by
      intro m1 idx
      rw [holder_after_step seat seat1 m d s1.dev m1 idx hd hdev]
      split_ifs with h1
      · rw [ha, hdh, h1]
      · rfl
    refine ⟨by rw [hholder]; exact hhold, by rw [hsm, hm]; exact hbit, ?_⟩
    intro m1 idx hh
    rw [hholder] at hh
    exact huniq m1 idx hh
  cases hst with
  | quiet extra ho he ha hm =>
    simp only [List.nil_append] at ho
    refine ⟨hsame ha hm, ?_, ?_⟩
    · intro t1 k1 x1 y1 a1 p1 hmem
      rw [ho] at hmem
      exact absurd (mem_map_tag hmem).2 (not_mem_of_filter_eq_nil he rfl)
    · intro m1 t1 j1 x1 y1 a1 p1 hmem
      rw [ho] at hmem
      exact absurd (mem_map_tag hmem).2 (not_mem_of_filter_eq_nil he rfl)
  | motion extra ho t0 j0 k1 x0 y0 a0 p0 he hj0 hk1 hne ha hm =>
    simp only [List.nil_append] at ho
    simp only [] at hk1
    refine ⟨hsame ha hm, ?_, ?_⟩
    · intro t1 k2 x1 y1 a1 p1 hmem
      rw [ho] at hmem
      obtain ⟨hmn, hmem1⟩ := mem_map_tag hmem
      have heq := eq_of_mem_of_filter_eq_singleton he hmem1 rfl
      simp only [Notification.touch_motion.injEq] at heq
      obtain ⟨-, rfl, rfl, -, -, -, -⟩ := heq
      rw [hdh, ← hmn, hhold] at hk1
      simpa using hk1.symm
    · intro m1 t1 j1 x1 y1 a1 p1 hmem
      rw [ho] at hmem
      have := eq_of_mem_of_filter_eq_singleton he (mem_map_tag hmem).2 rfl
      simp at this
  | down extra ho t0 j0 k1 x0 y0 a0 p0 he hj0 hfree hk1 hclear ha hm =>
    simp only [List.nil_append] at ho
    simp only [] at hfree hclear ha hm
    have hkne : k1 ≠ k0 := by
      intro h
      rw [h, hbit] at hclear
      simp at hclear
    have hholder : ∀ m1 idx, seat1.holder m1 idx = some (k0 : Int) ↔
        seat.holder m1 idx = some (k0 : Int) := by
      intro m1 idx
      rw [holder_after_step seat seat1 m d s1.dev m1 idx hd hdev]
      split_ifs with h1
      · rw [ha, h1]
        by_cases hidx : idx = slot_index j0
        · subst hidx
          rw [getElem?_set_self_of_some hfree, ← hdh, hfree]
          constructor
          · intro h
            simp only [Option.some.injEq] at h
            omega
          · intro h
            simp only [Option.some.injEq] at h
            omega
        · rw [getElem?_set_ne' hidx, hdh]
      · rfl
    refine ⟨⟨(hholder _ _).2 hhold, ?_, fun m1 idx hh => huniq m1 idx ((hholder _ _).1 hh)⟩,
      ?_, ?_⟩
    · rw [hsm, hm]
      unfold slot_map_set
      rw [Nat.testBit_mod_two_pow, Nat.testBit_or, hbit]
      simp [hk]
    · intro t1 k2 x1 y1 a1 p1 hmem
      rw [ho] at hmem
      have := eq_of_mem_of_filter_eq_singleton he (mem_map_tag hmem).2 rfl
      simp at this
    · intro m1 t1 j1 x1 y1 a1 p1 hmem
      rw [ho] at hmem
      have heq := eq_of_mem_of_filter_eq_singleton he (mem_map_tag hmem).2 rfl
      simp only [Notification.touch_down.injEq] at heq
      obtain ⟨-, -, h3, -⟩ := heq
      omega
  | up extra ho t0 j0 k1 he hj0 hheld hk1 ha hm =>
    simp only [List.nil_append] at ho
    simp only [] at hheld ha hm
    have hup : (m, Notification.touch_up t0 j0 (k1 : Int)) ∈
        s1.out.map (fun x => (m, x)) := by
      rw [ho]
      exact List.mem_map.2 ⟨_, (mem_of_filter_eq_singleton he).1, rfl⟩
    have hkne : k1 ≠ k0 := by
      intro h
      subst h
      have := huniq m (slot_index j0) (by rw [← hdh]; exact hheld)
      obtain ⟨rfl, hidx⟩ := this
      have hjj := slot_index_inj hj0 hj hidx
      subst hjj
      exact hno t0 _ hup
    have hholder : ∀ m1 idx, seat1.holder m1 idx = some (k0 : Int) ↔
        seat.holder m1 idx = some (k0 : Int) := by
      intro m1 idx
      rw [holder_after_step seat seat1 m d s1.dev m1 idx hd hdev]
      split_ifs with h1
      · rw [ha, h1]
        by_cases hidx : idx = slot_index j0
        · subst hidx
          rw [getElem?_set_self_of_some hheld, ← hdh, hheld]
          constructor
          · intro h
            simp only [Option.some.injEq] at h
            omega
          · intro h
            simp only [Option.some.injEq] at h
            omega
        · rw [getElem?_set_ne' hidx, hdh]
      · rfl
    refine ⟨⟨(hholder _ _).2 hhold, ?_, fun m1 idx hh => huniq m1 idx ((hholder _ _).1 hh)⟩,
      ?_, ?_⟩
    · rw [hsm, hm, bit_after_clear_other _ _ _ hk (fun h => hkne h.symm)]
      exact hbit
    · intro t1 k2 x1 y1 a1 p1 hmem
      rw [ho] at hmem
      have := eq_of_mem_of_filter_eq_singleton he (mem_map_tag hmem).2 rfl
      simp at this
    · intro m1 t1 j1 x1 y1 a1 p1 hmem
      rw [ho] at hmem
      have := eq_of_mem_of_filter_eq_singleton he (mem_map_tag hmem).2 rfl
      simp at this

/-- The step that posts the touch up of the held slot: it carries the seat
slot of the touch and clears its bit. -/
theorem holds_touch_up {seat seat1 : Seat} {n m : Nat} {e : input_event} {j : Int} {k0 : Nat}
    (hH : seat.holds n j k0) (hstep : seat_process seat m e = some seat1)
    {t1 : Nat} {k1 : Int}
    (hup : (n, Notification.touch_up t1 j k1) ∈ seat1.posted_since seat) :
    k1 = (k0 : Int) ∧ seat1.slot_map.testBit k0 = false := by
  obtain ⟨hhold, hbit, huniq⟩ := hH
  obtain ⟨d, s1, hd, hst, hsm, hdev, hout, hpost⟩ := posted_since_seat_process hstep
  rw [hpost] at hup
  obtain ⟨hnm, hmem⟩ := mem_map_tag hup
  subst hnm
  have hdh : ∀ idx, d.assign[idx]? = seat.holder n idx := by
    intro idx
    unfold Seat.holder
    rw [hd]
    rfl
  cases hst with
  | quiet extra ho he ha hm =>
    simp only [List.nil_append] at ho
    rw [ho] at hmem
    exact absurd hmem (not_mem_of_filter_eq_nil he rfl)
  | motion extra ho t0 j0 k2 x0 y0 a0 p0 he hj0 hk1 hne ha hm =>
    simp only [List.nil_append] at ho
    rw [ho] at hmem
    have := eq_of_mem_of_filter_eq_singleton he hmem rfl
    simp at this
  | down extra ho t0 j0 k2 x0 y0 a0 p0 he hj0 hfree hk1 hclear ha hm =>
    simp only [List.nil_append] at ho
    rw [ho] at hmem
    have := eq_of_mem_of_filter_eq_singleton he hmem rfl
    simp at this
  | up extra ho t0 j0 k2 he hj0 hheld hk2 ha hm =>
    simp only [List.nil_append] at ho
    simp only [] at hheld ha hm
    rw [ho] at hmem
    have heq := eq_of_mem_of_filter_eq_singleton he hmem rfl
    simp only [Notification.touch_up.injEq] at heq
    obtain ⟨-, rfl, rfl⟩ := heq
    rw [hdh, hhold] at hheld
    simp only [Option.some.injEq, Nat.cast_inj] at hheld
    subst hheld
    refine ⟨rfl, ?_⟩
    rw [hsm, hm]
    exact bit_after_clear_self _ _

theorem seat_process_out {seat seat1 : Seat} {n : Nat} {e : input_event}
    (h : seat_process seat n e = some seat1) : ∃ X, seat1.out = seat.out ++ X := by
  obtain ⟨d, s1, -, -, rfl⟩ := seat_process_some h
  exact ⟨_, rfl⟩

theorem seat_process_events_out (evs : List (Nat × input_event)) :
    ∀ seat seat1 : Seat, seat_process_events seat evs = some seat1 →
      ∃ X, seat1.out = seat.out ++ X := by
  induction evs with
  | nil =>
    intro seat seat1 h
    simp only [seat_process_events, Option.some.injEq] at h
    subst h
    exact ⟨[], by simp⟩
  | cons ne rest ih =>
    intro seat seat1 h
    simp only [seat_process_events] at h
    split at h
    · exact absurd h (by simp)
    · rename_i seat2 h2
      obtain ⟨X1, hX1⟩ := seat_process_out h2
      obtain ⟨X2, hX2⟩ := ih seat2 seat1 h
      exact ⟨X1 ++ X2, by rw [hX2, hX1, List.append_assoc]⟩

theorem posted_since_append {a b c : Seat} {X1 X2 : List (Nat × Notification)}
    (h1 : b.out = a.out ++ X1) (h2 : c.out = b.out ++ X2) :
    c.posted_since a = b.posted_since a ++ c.posted_since b := by
  unfold Seat.posted_since
  rw [h2, h1, List.append_assoc]
  simp

/-- Any run of raw events during which no touch up for slot `j` of device `n`
is posted keeps the touch held. -/
theorem holds_run (n : Nat) (j : Int) (k0 : Nat) (hj : -1 ≤ j) (hk : k0 < 32)
    (evs : List (Nat × input_event)) :
    ∀ seat seat2 : Seat, seat.holds n j k0 → seat_process_events seat evs = some seat2 →
      (∀ t1 k1, (n, Notification.touch_up t1 j k1) ∉ seat2.posted_since seat) →
      seat2.holds n j k0 ∧
      (∀ t1 k1 x1 y1 a1 p1,
        (n, Notification.touch_motion t1 j k1 x1 y1 a1 p1) ∈ seat2.posted_since seat →
          k1 = (k0 : Int)) ∧
      (∀ m1 t1 j1 x1 y1 a1 p1,
        (m1, Notification.touch_down t1 j1 (k0 : Int) x1 y1 a1 p1) ∉
          seat2.posted_since seat) := by
  induction evs with
  | nil =>
    intro seat seat2 hH h _
    simp only [seat_process_events, Option.some.injEq] at h
    subst h
    refine ⟨hH, ?_, ?_⟩ <;> simp [Seat.posted_since]
  | cons ne rest ih =>
    intro seat seat2 hH h hno
    simp only [seat_process_events] at h
    split at h
    · exact absurd h (by simp)
    · rename_i seat1 h1
      obtain ⟨X1, hX1⟩ := seat_process_out h1
      obtain ⟨X2, hX2⟩ := seat_process_events_out rest seat1 seat2 h
      have happ := posted_since_append hX1 hX2
      rw [happ] at hno ⊢
      obtain ⟨hH1, hm1, hd1⟩ := holds_step hj hk hH h1
        (fun t1 k1 hmem => hno t1 k1 (List.mem_append_left _ hmem))
      obtain ⟨hH2, hm2, hd2⟩ := ih seat1 seat2 hH1 h
        (fun t1 k1 hmem => hno t1 k1 (List.mem_append_right _ hmem))
      refine ⟨hH2, ?_, ?_⟩
      · intro t1 k1 x1 y1 a1 p1 hmem
        rcases List.mem_append.1 hmem with hl | hr
        · exact hm1 _ _ _ _ _ _ hl
        · exact hm2 _ _ _ _ _ _ hr
      · intro m1 t1 j1 x1 y1 a1 p1 hmem
        rcases List.mem_append.1 hmem with hl | hr
        · exact hd1 _ _ _ _ _ _ _ hl
        · exact hd2 _ _ _ _ _ _ _ hr

/-- C2: one touch from down to up, on any run from a fresh seat. When a raw
event of device `n` posts a touch down for hardware slot `j` with seat slot
`k`, then for every run of raw events on any devices of the seat that follows
and posts no touch up for that slot: `k` is a bit index of the bitmap, its bit
is set right after the down and after the run, every touch motion of the slot
posted in the run carries `k`, no touch down posted in the run, for any slot
of any device, carries `k`, and the touch up of the slot, once an event posts
it, carries `k` and leaves bit `k` clear. -/
theorem touch_sequence_one_seat_slot (fresh seat0 seat1 seat2 : Seat)
    (evs0 evs : List (Nat × input_event)) (n : Nat) (e_down : input_event)
    (t : Nat) (j k x y : Int) (a : ellipse) (p : Int)
    (h0 : fresh.slot_map = 0)
    (hun : ∀ d ∈ fresh.devices, d.abs_seat_slot = -1 ∧ ∀ sl ∈ d.mt_slots, sl.seat_slot = -1)
    (hpre : seat_process_events fresh evs0 = some seat0)
    (hdown : seat_process seat0 n e_down = some seat1)
    (hdn : (n, Notification.touch_down t j k x y a p) ∈ seat1.posted_since seat0)
    (hrun : seat_process_events seat1 evs = some seat2)
    (hheld : ∀ t1 k1, (n, Notification.touch_up t1 j k1) ∉ seat2.posted_since seat1) :
    (0 ≤ k ∧ k < 32) ∧
    seat1.slot_map.testBit k.toNat = true ∧
    seat2.slot_map.testBit k.toNat = true ∧
    (∀ t1 k1 x1 y1 a1 p1,
      (n, Notification.touch_motion t1 j k1 x1 y1 a1 p1) ∈ seat2.posted_since seat1 →
        k1 = k) ∧
    (∀ m1 t1 j1 x1 y1 a1 p1,
      (m1, Notification.touch_down t1 j1 k x1 y1 a1 p1) ∉ seat2.posted_since seat1) ∧
    (∀ (m : Nat) (e_up : input_event) (seat3 : Seat),
      seat_process seat2 m e_up = some seat3 →
      ∀ t1 k1, (n, Notification.touch_up t1 j k1) ∈ seat3.posted_since seat2 →
        k1 = k ∧ seat3.slot_map.testBit k.toNat = false) := by
  have hc0 := consistent_seat_process_events evs0 fresh seat0 hpre
    (consistent_of_fresh fresh h0 hun)
  obtain ⟨k0, rfl, hk, hj, hH1⟩ := holds_after_touch_down hc0 hdown hdn
  obtain ⟨hH2, hmot, hdwn⟩ := holds_run n j k0 hj hk evs seat1 seat2 hH1 hrun hheld
  refine ⟨⟨by omega, by omega⟩, ?_, ?_, hmot, hdwn, ?_⟩
  · simpa using hH1.2.1
  · simpa using hH2.2.1
  · intro m e_up seat3 hup t1 k1 hmem
    simpa using holds_touch_up hH2 hup hmem

theorem touch_sequence_one_seat_slot_witness :
    fresh_seat.slot_map = 0 ∧
    ∃ seat0 seat1 seat2 seat3 : Seat,
      seat_process_events fresh_seat finger_down_events = some seat0 ∧
      seat_process seat0 0 syn_event = some seat1 ∧
      (0, Notification.touch_down 0 0 0 0 0 {} 0) ∈ seat1.posted_since seat0 ∧
      seat_process_events seat1 finger_held_events = some seat2 ∧
      seat_process seat2 0 syn_event = some seat3 ∧
      (0, Notification.touch_up 0 0 0) ∈ seat3.posted_since seat2 ∧
      seat2.slot_map.testBit 0 = true ∧ seat3.slot_map.testBit 0 = false := by
  refine ⟨rfl, ?_⟩
  have hun : ∀ d ∈ fresh_seat.devices,
      d.abs_seat_slot = -1 ∧ ∀ sl ∈ d.mt_slots, sl.seat_slot = -1 := by
    intro d hd
    simp only [fresh_seat, List.mem_cons, List.mem_singleton, List.not_mem_nil, or_false] at hd
    rcases hd with rfl | rfl
    · refine ⟨rfl, ?_⟩
      intro sl hsl
      simp only [touchscreen_idle, List.mem_cons, List.mem_singleton, List.not_mem_nil,
        or_false] at hsl
      rcases hsl with rfl | rfl <;> rfl
    · refine ⟨rfl, ?_⟩
      intro sl hsl
      simp [single_touch_idle] at hsl
  have hruns : ∃ seat0 seat1 seat2 seat3 : Seat,
      seat_process_events fresh_seat finger_down_events = some seat0 ∧
      seat_process seat0 0 syn_event = some seat1 ∧
      seat1.posted_since seat0 =
        [(0, Notification.touch_down 0 0 0 0 0 {} 0), (0, Notification.touch_frame 0)] ∧
      seat_process_events seat1 finger_held_events = some seat2 ∧
      seat2.posted_since seat1 =
        [(0, Notification.touch_motion 0 0 0 40 0 {} 0), (0, Notification.touch_frame 0),
         (1, Notification.touch_down 0 (-1) 1 0 0 {} 1), (1, Notification.touch_frame 0)] ∧
      seat_process seat2 0 syn_event = some seat3 ∧
      seat3.posted_since seat2 =
        [(0, Notification.touch_up 0 0 0), (0, Notification.touch_frame 0)] :=
    ⟨_, _, _, _, rfl, rfl, rfl, rfl, rfl, rfl, rfl⟩
  obtain ⟨seat0, seat1, seat2, seat3, h1, h2, p1, h3, p2, h4, p3⟩ := hruns
  have hdn : (0, Notification.touch_down 0 0 0 0 0 {} 0) ∈ seat1.posted_since seat0 := by
    rw [p1]
    simp
  have hup : (0, Notification.touch_up 0 0 0) ∈ seat3.posted_since seat2 := by
    rw [p3]
    simp
  have hheld : ∀ t1 k1, (0, Notification.touch_up t1 0 k1) ∉ seat2.posted_since seat1 := by
    intro t1 k1
    rw [p2]
    simp
  have h := touch_sequence_one_seat_slot fresh_seat seat0 seat1 seat2 finger_down_events
    finger_held_events 0 syn_event 0 0 0 0 0 {} 0 rfl hun h1 h2 hdn h3 hheld
  exact ⟨seat0, seat1, seat2, seat3, h1, h2, hdn, h3, h4, hup, h.2.2.1,
    (h.2.2.2.2.2 0 syn_event seat3 h4 0 0 hup).2⟩

/-! ## Scroll notifications and the terminal stop -/

/-- C11: `evdev_post_scroll` posts at most one notification. With each delta
of the call replaced by zero on an axis that is not latched after the call,
nothing is posted when both are zero; otherwise one axis notification is
posted whose mask is the latch mask after the call and whose deltas are these
(negated under natural scrolling), so the delta of an unlatched axis is zero. -/
theorem post_scroll_notifies_latched_axes_only (s : State) (time : Nat)
    (source : libinput_pointer_axis_source) (dx dy : ℚ) :
    ∃ x y : ℚ,
      (evdev_is_scrolling (evdev_post_scroll s time source dx dy).dev
          LIBINPUT_POINTER_AXIS_SCROLL_HORIZONTAL = false → x = 0) ∧
      (evdev_is_scrolling (evdev_post_scroll s time source dx dy).dev
          LIBINPUT_POINTER_AXIS_SCROLL_VERTICAL = false → y = 0) ∧
      (evdev_is_scrolling (evdev_post_scroll s time source dx dy).dev
          LIBINPUT_POINTER_AXIS_SCROLL_HORIZONTAL = true → x = dx) ∧
      (evdev_is_scrolling (evdev_post_scroll s time source dx dy).dev
          LIBINPUT_POINTER_AXIS_SCROLL_VERTICAL = true → y = dy) ∧
      (evdev_post_scroll s time source dx dy).out =
        s.out ++
          (if x = 0 ∧ y = 0 then []
           else [Notification.pointer_axis time
             (evdev_post_scroll s time source dx dy).dev.scroll_direction source
             (if s.dev.scroll_natural_scrolling_enabled then -x else x)
             (if s.dev.scroll_natural_scrolling_enabled then -y else y) 0 0]) := by
  have hdev := evdev_post_scroll_dev s time source dx dy
  have hnat : (scroll_trigger (scroll_add_buildup s.dev dx dy) dx dy).scroll_natural_scrolling_enabled
      = s.dev.scroll_natural_scrolling_enabled := by
    rw [scroll_trigger_eq, scroll_add_buildup_eq]
  rw [hdev]
  generalize hd : scroll_trigger (scroll_add_buildup s.dev dx dy) dx dy = d3 at hnat
  refine ⟨if evdev_is_scrolling d3 LIBINPUT_POINTER_AXIS_SCROLL_HORIZONTAL then dx else 0,
    if evdev_is_scrolling d3 LIBINPUT_POINTER_AXIS_SCROLL_VERTICAL then dy else 0, ?_, ?_, ?_, ?_, ?_⟩
  · intro h; simp [h]
  · intro h; simp [h]
  · intro h; simp [h]
  · intro h; simp [h]
  · unfold evdev_post_scroll scroll_emit evdev_notify_axis State.post
    rw [hd]
    simp only [hnat]
    cases evdev_is_scrolling d3 LIBINPUT_POINTER_AXIS_SCROLL_HORIZONTAL <;>
      cases evdev_is_scrolling d3 LIBINPUT_POINTER_AXIS_SCROLL_VERTICAL <;>
      cases s.dev.scroll_natural_scrolling_enabled <;>
      by_cases hx : dx = 0 <;> by_cases hy : dy = 0 <;> simp [hx, hy]

/-- C12: `evdev_stop_scroll` posts exactly one axis notification, with all
four deltas zero and the latch mask as its mask, when the latch mask is not
zero, and nothing otherwise; in both cases both buildup accumulators and the
latch mask are zero afterwards, and a second stop right after posts nothing. -/
theorem stop_scroll_posts_one_terminal_and_resets (s : State) (time time2 : Nat)
    (source source2 : libinput_pointer_axis_source) :
    (evdev_stop_scroll s time source).out =
      s.out ++
        (if s.dev.scroll_direction ≠ 0 then
          [Notification.pointer_axis time s.dev.scroll_direction source 0 0 0 0]
         else []) ∧
    (evdev_stop_scroll s time source).dev.scroll_buildup_horizontal = 0 ∧
    (evdev_stop_scroll s time source).dev.scroll_buildup_vertical = 0 ∧
    (evdev_stop_scroll s time source).dev.scroll_direction = 0 ∧
    (evdev_stop_scroll (evdev_stop_scroll s time source) time2 source2).out =
      (evdev_stop_scroll s time source).out := by
  have hout : ∀ (u : State) (t : Nat) (src : libinput_pointer_axis_source),
      (evdev_stop_scroll u t src).out =
        u.out ++
          (if u.dev.scroll_direction ≠ 0 then
            [Notification.pointer_axis t u.dev.scroll_direction src 0 0 0 0]
           else []) := by
    intro u t src
    unfold evdev_stop_scroll State.post
    by_cases h : u.dev.scroll_direction = 0 <;> simp [h]
  have hdir : (evdev_stop_scroll s time source).dev.scroll_direction = 0 := rfl
  refine ⟨hout s time source, rfl, rfl, hdir, ?_⟩
  rw [hout (evdev_stop_scroll s time source) time2 source2, hdir]
  simp

/-! ## Button scrolling -/

theorem get_key_type_button (b : Nat) (h : get_key_type b = EVDEV_KEY_TYPE_BUTTON) :
    b < KEY_CNT ∧ b ≠ BTN_TOUCH := by
  unfold get_key_type at h
  split_ifs at h with h1 h2 h3 h4 h5
  · exact ⟨by unfold KEY_CNT BTN_GEAR_UP at *; omega, h1⟩
  · exact ⟨by unfold KEY_CNT BTN_TRIGGER_HAPPY40 at *; omega, h1⟩

/-- The press of the scroll button of a button-scrolling device with nothing
pending: the hardware bit is set and the timer is armed; nothing is posted. -/
theorem process_key_scroll_button_press (s : State) (b t : Nat)
    (hm : s.dev.scroll_method = LIBINPUT_CONFIG_SCROLL_ON_BUTTON_DOWN)
    (hb : s.dev.scroll_button = b) (hty : get_key_type b = EVDEV_KEY_TYPE_BUTTON)
    (hp : s.dev.pending_event = EVDEV_NONE) :
    fallback_process s (key_event b 1) t =
      some { s with dev := { hw_set_key_down s.dev b 1 with
        scroll_timer := some (t + DEFAULT_MIDDLE_BUTTON_SCROLL_TIMEOUT) } } := by
  have hne := (get_key_type_button b hty).2
  have hm1 : (hw_set_key_down s.dev b 1).scroll_method = LIBINPUT_CONFIG_SCROLL_ON_BUTTON_DOWN := hm
  have hb1 : (hw_set_key_down s.dev b 1).scroll_button = b := hb
  simp [fallback_process, key_event, EV_KEY, EV_REL, EV_ABS, evdev_process_key, hne,
    evdev_flush_pending_event, hp, hty, hm1, hb1, evdev_button_scroll_button]

/-- The release of the scroll button of a button-scrolling device with nothing
pending while its hardware bit is set: the bit is cleared and the release is
handed to `evdev_button_scroll_button`. -/
theorem process_key_scroll_button_release (s : State) (b t : Nat)
    (hm : s.dev.scroll_method = LIBINPUT_CONFIG_SCROLL_ON_BUTTON_DOWN)
    (hb : s.dev.scroll_button = b) (hty : get_key_type b = EVDEV_KEY_TYPE_BUTTON)
    (hp : s.dev.pending_event = EVDEV_NONE) (hdown : hw_is_key_down s.dev b = true) :
    fallback_process s (key_event b 0) t =
      evdev_button_scroll_button { s with dev := hw_set_key_down s.dev b 0 } t 0 := by
  have hne := (get_key_type_button b hty).2
  have hm1 : (hw_set_key_down s.dev b 0).scroll_method = LIBINPUT_CONFIG_SCROLL_ON_BUTTON_DOWN := hm
  have hb1 : (hw_set_key_down s.dev b 0).scroll_button = b := hb
  simp [fallback_process, key_event, EV_KEY, EV_REL, EV_ABS, evdev_process_key, hne,
    evdev_flush_pending_event, hp, hty, hm1, hb1, hdown]

theorem hw_set_key_down_is_down (d : Device) (b : Nat) (v : Int) :
    hw_is_key_down (hw_set_key_down d b v) b = decide (v ≠ 0) := by
  simp [hw_is_key_down, hw_set_key_down]

/-- The release of the scroll button before the timer has fired, at a ledger
count of `0`: the press and the release of the button are notified, in this
order. -/
theorem button_scroll_button_release_inactive (s : State) (b t : Nat)
    (hb : s.dev.scroll_button = b) (hcode : b < KEY_CNT)
    (hact : s.dev.scroll_button_scroll_active = false) (hk : s.dev.key_count b = 0) :
    ∃ s2 : State,
      evdev_button_scroll_button s t 0 = some s2 ∧
      s2.out = s.out ++
        [Notification.pointer_button (t % 2 ^ 32) b LIBINPUT_BUTTON_STATE_PRESSED,
         Notification.pointer_button (t % 2 ^ 32) b LIBINPUT_BUTTON_STATE_RELEASED] ∧
      s2.dev.key_count b = 0 := by
  subst hb
  have hpress : evdev_pointer_notify_button { s with dev := { s.dev with scroll_timer := none } }
      t s.dev.scroll_button LIBINPUT_BUTTON_STATE_PRESSED =
      some { s with
        dev := { s.dev with scroll_timer := none,
                            key_count := Function.update s.dev.key_count s.dev.scroll_button 1 },
        out := s.out ++
          [Notification.pointer_button (t % 2 ^ 32) s.dev.scroll_button LIBINPUT_BUTTON_STATE_PRESSED] } := by
    simp [evdev_pointer_notify_button, update_key_down_count, hcode,
      libinput_button_state.toInt, State.post, hk, scroll_method_hook, left_handed_hook]
  obtain ⟨s2, h2, hk2, ho2⟩ := pointer_notify_button_release
    { s with
      dev := { s.dev with scroll_timer := none,
                          key_count := Function.update s.dev.key_count s.dev.scroll_button 1 },
      out := s.out ++
        [Notification.pointer_button (t % 2 ^ 32) s.dev.scroll_button LIBINPUT_BUTTON_STATE_PRESSED] }
    t s.dev.scroll_button hcode (by simp)
  refine ⟨s2, ?_, ?_, ?_⟩
  · unfold evdev_button_scroll_button
    simp only [ne_eq, not_true_eq_false, if_false]
    split_ifs with h1
    · exact absurd (hact.symm.trans h1) (by decide)
    · generalize hq : evdev_pointer_notify_button _ _ _ LIBINPUT_BUTTON_STATE_PRESSED = q
      have hq1 : q = some _ := hq.symm.trans hpress
      subst hq1
      exact h2
  · simpa using ho2
  · simp [hk2]

/-- C14, amended: on a device with the button-scroll method, nothing pending,
button scrolling not active and the scroll button (a code of the button type)
at ledger count `0`: the press of the scroll button posts nothing, and its
release before the timer has fired posts exactly the pressed and then the
released notification of the scroll button, both with the time of the release
modulo `2 ^ 32`, and no axis notification; the ledger count is `0` again. -/
theorem button_scroll_quick_tap (s : State) (b t1 t2 : Nat)
    (hm : s.dev.scroll_method = LIBINPUT_CONFIG_SCROLL_ON_BUTTON_DOWN)
    (hb : s.dev.scroll_button = b) (hty : get_key_type b = EVDEV_KEY_TYPE_BUTTON)
    (hp : s.dev.pending_event = EVDEV_NONE)
    (hact : s.dev.scroll_button_scroll_active = false) (hk : s.dev.key_count b = 0) :
    ∃ s1 s2 : State,
      fallback_process s (key_event b 1) t1 = some s1 ∧
      s1.out = s.out ∧
      fallback_process s1 (key_event b 0) t2 = some s2 ∧
      s2.out = s.out ++
        [Notification.pointer_button (t2 % 2 ^ 32) b LIBINPUT_BUTTON_STATE_PRESSED,
         Notification.pointer_button (t2 % 2 ^ 32) b LIBINPUT_BUTTON_STATE_RELEASED] ∧
      s2.dev.key_count b = 0 := by
  have h1 := process_key_scroll_button_press s b t1 hm hb hty hp
  have hrel := process_key_scroll_button_release
    { s with dev := { hw_set_key_down s.dev b 1 with
        scroll_timer := some (t1 + DEFAULT_MIDDLE_BUTTON_SCROLL_TIMEOUT) } } b t2 hm hb hty hp
    (hw_set_key_down_is_down _ _ _)
  obtain ⟨s2, h2, ho, hk2⟩ := button_scroll_button_release_inactive
    { s with dev := hw_set_key_down ({ hw_set_key_down s.dev b 1 with
        scroll_timer := some (t1 + DEFAULT_MIDDLE_BUTTON_SCROLL_TIMEOUT) }) b 0 } b t2 hb
    (get_key_type_button b hty).1 hact hk
  exact ⟨_, s2, h1, rfl, hrel.trans h2, ho, hk2⟩

theorem button_scroll_quick_tap_witness :
    ∃ s1 s2 : State,
      fallback_process button_scroll_idle (key_event BTN_MIDDLE 1) 0 = some s1 ∧
      s1.out = [] ∧
      fallback_process s1 (key_event BTN_MIDDLE 0) 100 = some s2 ∧
      s2.out =
        [Notification.pointer_button 100 BTN_MIDDLE LIBINPUT_BUTTON_STATE_PRESSED,
         Notification.pointer_button 100 BTN_MIDDLE LIBINPUT_BUTTON_STATE_RELEASED] := by
  obtain ⟨s1, s2, h1, ho1, h2, ho2, -⟩ :=
    button_scroll_quick_tap button_scroll_idle BTN_MIDDLE 0 100 rfl rfl (by decide) rfl rfl rfl
  exact ⟨s1, s2, h1, ho1, h2, by simpa [button_scroll_idle] using ho2⟩

/-! ## Wheel clicks -/

/-- C15, amended: a wheel event with click count `v` flushes what is pending
and then posts one axis notification of source wheel at once. For `REL_HWHEEL`
the mask is the horizontal axis, the horizontal delta is `v` times the wheel
click angle and the discrete value is `v`; for `REL_WHEEL` the mask is the
vertical axis, the vertical delta is minus `v` times the wheel click angle and
the discrete value is `-v`; with natural scrolling enabled all of them are
negated. Whatever state the wheel event ends in, its device is the one the
flush of the pending event left; with nothing pending the device, and so the
latch mask and the buildup accumulators, are those from before the event. -/
theorem wheel_click_posts_axis_at_once (s s1 : State) (time : Nat) (v : Int)
    (hflush : evdev_flush_pending_event s time = some s1) :
    fallback_process s (rel_event REL_WHEEL v) time =
      some (s1.post (Notification.pointer_axis time
        (AS_MASK LIBINPUT_POINTER_AXIS_SCROLL_VERTICAL) LIBINPUT_POINTER_AXIS_SOURCE_WHEEL
        0
        (if s1.dev.scroll_natural_scrolling_enabled then
          ((v * s1.dev.scroll_wheel_click_angle : Int) : ℚ)
         else -((v * s1.dev.scroll_wheel_click_angle : Int) : ℚ))
        0
        (if s1.dev.scroll_natural_scrolling_enabled then (v : ℚ) else -(v : ℚ)))) ∧
    fallback_process s (rel_event REL_HWHEEL v) time =
      some (s1.post (Notification.pointer_axis time
        (AS_MASK LIBINPUT_POINTER_AXIS_SCROLL_HORIZONTAL) LIBINPUT_POINTER_AXIS_SOURCE_WHEEL
        (if s1.dev.scroll_natural_scrolling_enabled then
          -((v * s1.dev.scroll_wheel_click_angle : Int) : ℚ)
         else ((v * s1.dev.scroll_wheel_click_angle : Int) : ℚ))
        0
        (if s1.dev.scroll_natural_scrolling_enabled then -(v : ℚ) else (v : ℚ))
        0)) ∧
    (∀ s2 : State,
      fallback_process s (rel_event REL_WHEEL v) time = some s2 ∨
        fallback_process s (rel_event REL_HWHEEL v) time = some s2 →
      s2.dev = s1.dev ∧
      (s.dev.pending_event = EVDEV_NONE →
        s2.dev = s.dev ∧
        s2.dev.scroll_direction = s.dev.scroll_direction ∧
        s2.dev.scroll_buildup_vertical = s.dev.scroll_buildup_vertical ∧
        s2.dev.scroll_buildup_horizontal = s.dev.scroll_buildup_horizontal)) := by
  have hv : fallback_process s (rel_event REL_WHEEL v) time =
      some (s1.post (Notification.pointer_axis time
        (AS_MASK LIBINPUT_POINTER_AXIS_SCROLL_VERTICAL) LIBINPUT_POINTER_AXIS_SOURCE_WHEEL
        0
        (if s1.dev.scroll_natural_scrolling_enabled then
          ((v * s1.dev.scroll_wheel_click_angle : Int) : ℚ)
         else -((v * s1.dev.scroll_wheel_click_angle : Int) : ℚ))
        0
        (if s1.dev.scroll_natural_scrolling_enabled then (v : ℚ) else -(v : ℚ)))) := by
    simp only [fallback_process, rel_event, evdev_process_relative, hflush, evdev_notify_axis,
      EV_REL, REL_X, REL_Y, REL_WHEEL, REL_HWHEEL]
    cases s1.dev.scroll_natural_scrolling_enabled <;> simp
  have hh : fallback_process s (rel_event REL_HWHEEL v) time =
      some (s1.post (Notification.pointer_axis time
        (AS_MASK LIBINPUT_POINTER_AXIS_SCROLL_HORIZONTAL) LIBINPUT_POINTER_AXIS_SOURCE_WHEEL
        (if s1.dev.scroll_natural_scrolling_enabled then
          -((v * s1.dev.scroll_wheel_click_angle : Int) : ℚ)
         else ((v * s1.dev.scroll_wheel_click_angle : Int) : ℚ))
        0
        (if s1.dev.scroll_natural_scrolling_enabled then -(v : ℚ) else (v : ℚ))
        0)) := by
    simp only [fallback_process, rel_event, evdev_process_relative, hflush, evdev_notify_axis,
      EV_REL, REL_X, REL_Y, REL_WHEEL, REL_HWHEEL]
    cases s1.dev.scroll_natural_scrolling_enabled <;> simp
  refine ⟨hv, hh, ?_⟩
  intro s2 h2
  have hdev : s2.dev = s1.dev := by
    rcases h2 with h2 | h2
    · rw [hv, Option.some.injEq] at h2
      rw [← h2]
      rfl
    · rw [hh, Option.some.injEq] at h2
      rw [← h2]
      rfl
  refine ⟨hdev, fun hp => ?_⟩
  have hs : s1 = s := by
    have h3 := hflush
    unfold evdev_flush_pending_event at h3
    rw [hp] at h3
    exact (Option.some.inj h3).symm
  rw [hdev, hs]
  exact ⟨rfl, rfl, rfl, rfl⟩

theorem wheel_click_posts_axis_at_once_witness :
    evdev_flush_pending_event vertical_latched 7 = some vertical_latched ∧
    fallback_process vertical_latched (rel_event REL_HWHEEL 2) 7 =
      some (vertical_latched.post (Notification.pointer_axis 7 2
        LIBINPUT_POINTER_AXIS_SOURCE_WHEEL 30 0 2 0)) := by
  refine ⟨rfl, ?_⟩
  have h := (wheel_click_posts_axis_at_once vertical_latched vertical_latched 7 2 rfl).2.1
  rw [h]
  norm_num [vertical_latched, AS_MASK, LIBINPUT_POINTER_AXIS_SCROLL_HORIZONTAL, Nat.one_shiftLeft]

/-- C15 as stated fails at three inputs. On a device fresh from
`evdev_device_create` (wheel click angle 15) one click of `REL_WHEEL` posts
the vertical delta `-15` and the discrete value `-1`, where the claim has `15`
and `1`. With natural scrolling enabled one click of `REL_HWHEEL` posts the
horizontal delta `-15` and the discrete value `-1`. On a button-scrolling
device with the scroll button held and a relative motion of `7` pending, no
axis latched and no buildup, one click of `REL_WHEEL` flushes the motion
first: afterwards the vertical axis is latched (mask `1`) and the vertical
buildup is `7`. -/
theorem wheel_click_counterexample :
    (idle_state.dev.scroll_wheel_click_angle = 15 ∧
      (fallback_process idle_state (rel_event REL_WHEEL 1) 0).map (fun s => s.out) =
        some [Notification.pointer_axis 0 1 LIBINPUT_POINTER_AXIS_SOURCE_WHEEL 0 (-15) 0 (-1)] ∧
      (-15 : ℚ) ≠ 1 * 15) ∧
    (natural_scroll_idle.dev.scroll_wheel_click_angle = 15 ∧
      (fallback_process natural_scroll_idle (rel_event REL_HWHEEL 1) 0).map (fun s => s.out) =
        some [Notification.pointer_axis 0 2 LIBINPUT_POINTER_AXIS_SOURCE_WHEEL (-15) 0 (-1) 0] ∧
      (-15 : ℚ) ≠ 1 * 15) ∧
    (button_scroll_moving.dev.scroll_direction = 0 ∧
      button_scroll_moving.dev.scroll_buildup_vertical = 0 ∧
      (fallback_process button_scroll_moving (rel_event REL_WHEEL 1) 5).map
        (fun s => (s.dev.scroll_direction, s.dev.scroll_buildup_vertical)) = some (1, 7)) := by
  have e0 : double_add 0 0 = 0 := double_add_zero 0 double_round_zero
  have e7 : double_add 0 7 = 7 := by simpa using double_add_int 0 7 (by norm_num)
  have hfl : evdev_flush_pending_event button_scroll_moving 5 =
      some (evdev_post_scroll
        { button_scroll_moving with
          dev := { button_scroll_moving.dev with rel_dx := 0, rel_dy := 0 } } 5
        LIBINPUT_POINTER_AXIS_SOURCE_CONTINUOUS
        (button_scroll_moving.dev.rel_dx /
          ((button_scroll_moving.dev.dpi : ℚ) / (DEFAULT_MOUSE_DPI : ℚ)))
        (button_scroll_moving.dev.rel_dy /
          ((button_scroll_moving.dev.dpi : ℚ) / (DEFAULT_MOUSE_DPI : ℚ)))).clear_pending := by
    have hflush : evdev_flush_pending_event button_scroll_moving 5 =
        flush_case_relative_motion button_scroll_moving 5 := rfl
    rw [hflush]
    unfold flush_case_relative_motion
    simp only []
    have hact : button_scroll_moving.dev.scroll_button_scroll_active = true := rfl
    rw [if_pos ⟨rfl, by decide⟩, if_pos hact]
  refine ⟨⟨rfl, ?_, by norm_num⟩, ⟨rfl, ?_, by norm_num⟩, ⟨rfl, rfl, ?_⟩⟩
  rotate_left 2
  · simp only [fallback_process, rel_event, evdev_process_relative, hfl, evdev_notify_axis,
      EV_REL, REL_X, REL_Y, REL_WHEEL, REL_HWHEEL]
    norm_num [evdev_post_scroll, scroll_emit, scroll_trigger, scroll_add_buildup,
      evdev_is_scrolling, evdev_start_scrolling, evdev_notify_axis, State.post,
      State.clear_pending, button_scroll_moving, button_scroll_idle, fabs, AS_MASK,
      LIBINPUT_POINTER_AXIS_SCROLL_VERTICAL, LIBINPUT_POINTER_AXIS_SCROLL_HORIZONTAL,
      DEFAULT_MOUSE_DPI, Nat.one_shiftLeft, e0, e7]
  · norm_num [fallback_process, rel_event, evdev_process_relative, evdev_flush_pending_event,
      evdev_notify_axis, State.post, idle_state, EV_REL, REL_X, REL_Y, REL_WHEEL, REL_HWHEEL,
      AS_MASK, LIBINPUT_POINTER_AXIS_SCROLL_VERTICAL]
  · norm_num [fallback_process, rel_event, evdev_process_relative, evdev_flush_pending_event,
      evdev_notify_axis, State.post, natural_scroll_idle, EV_REL, REL_X, REL_Y, REL_WHEEL,
      REL_HWHEEL, AS_MASK, LIBINPUT_POINTER_AXIS_SCROLL_HORIZONTAL, Nat.one_shiftLeft]

/-! ## Relative motion while the scroll button is held -/

theorem matrix_is_identity_from_farray6 (m : farray6) :
    matrix_is_identity (matrix_from_farray6 m) = decide (m = identity6) := by
  obtain ⟨a, b, c, d, e, f⟩ := m
  simp [matrix_is_identity, matrix_from_farray6, matrix_init_identity, identity6]

theorem matrix_to_farray6_from_farray6 (m : farray6) :
    matrix_to_farray6 (matrix_from_farray6 m) = m := rfl

/-- C17: a call of `evdev_device_calibrate` with the identity `(1,0,0,0,1,0)`
returns on every device, whatever its calibration was, and afterwards
`transform_absolute` leaves every coordinate pair as it is. -/
theorem calibrate_identity_makes_transform_noop (d : Device) :
    ∃ d1 : Device,
      evdev_device_calibrate d identity6 = some d1 ∧
      d1.abs_apply_calibration = false ∧
      ∀ x y : Int, transform_absolute d1 x y = (x, y) := by
  have hid : matrix_is_identity (matrix_from_farray6 identity6) = true := by
    rw [matrix_is_identity_from_farray6]
    simp
  refine ⟨{ d with abs_apply_calibration := false, abs_calibration := matrix_init_identity },
    ?_, rfl, fun x y => rfl⟩
  unfold evdev_device_calibrate
  simp [hid]

/-- The result of `evdev_device_calibrate` for a matrix that is not the
identity on a device with both axis ranges. -/
theorem evdev_device_calibrate_non_identity (d : Device) (m : farray6)
    (ax ay : input_absinfo) (hm : m ≠ identity6)
    (hx : d.abs_absinfo_x = some ax) (hy : d.abs_absinfo_y = some ay) :
    evdev_device_calibrate d m =
      some { d with
        abs_apply_calibration := true,
        abs_usermatrix := matrix_from_farray6 m,
        abs_calibration :=
          matrix_mult
            (matrix_mult
              (matrix_mult (matrix_init_translate (ax.minimum : ℚ) (ay.minimum : ℚ))
                (matrix_init_scale ((ax.maximum - ax.minimum + 1 : Int) : ℚ)
                  ((ay.maximum - ay.minimum + 1 : Int) : ℚ)))
              (matrix_from_farray6 m))
            (matrix_mult
              (matrix_init_translate
                (((-ax.minimum : Int) : ℚ) / ((ax.maximum - ax.minimum + 1 : Int) : ℚ))
                (((-ay.minimum : Int) : ℚ) / ((ay.maximum - ay.minimum + 1 : Int) : ℚ)))
              (matrix_init_scale (1 / ((ax.maximum - ax.minimum + 1 : Int) : ℚ))
                (1 / ((ay.maximum - ay.minimum + 1 : Int) : ℚ)))) } := by
  have hid : matrix_is_identity (matrix_from_farray6 m) = false := by
    rw [matrix_is_identity_from_farray6]
    simpa using hm
  unfold evdev_device_calibrate
  simp only [hid, Bool.not_false, Bool.not_true, Bool.false_eq_true, if_false, hx, hy]

/-- C18: on a device with both axis ranges, `evdev_calibration_set_matrix`
with six values that are not the identity returns, and
`evdev_calibration_get_matrix` right after gives back exactly these six values
and returns `1`, that is non-identity. -/
theorem calibration_set_get_round_trip (d : Device) (m : farray6)
    (hm : m ≠ identity6) (hhas : evdev_calibration_has_matrix d = true) :
    ∃ d1 : Device,
      evdev_calibration_set_matrix d m = some d1 ∧
      evdev_calibration_get_matrix d1 = (m, 1) := by
  unfold evdev_calibration_has_matrix at hhas
  rw [Bool.and_eq_true, Option.isSome_iff_exists, Option.isSome_iff_exists] at hhas
  obtain ⟨⟨ax, hx⟩, ⟨ay, hy⟩⟩ := hhas
  refine ⟨_, evdev_device_calibrate_non_identity d m ax ay hm hx hy, ?_⟩
  have hid : matrix_is_identity (matrix_from_farray6 m) = false := by
    rw [matrix_is_identity_from_farray6]
    simpa using hm
  simp [evdev_calibration_get_matrix, hid, matrix_to_farray6_from_farray6]

theorem calibration_set_get_round_trip_witness :
    ∃ d1 : Device,
      evdev_calibration_set_matrix screen_100 double_x6 = some d1 ∧
      evdev_calibration_get_matrix d1 = (double_x6, 1) :=
  calibration_set_get_round_trip screen_100 double_x6 (by decide) rfl

/-- The result of `evdev_device_calibrate` for the identity: the apply flag is
cleared and the composite matrix is the identity; the early return leaves
`abs.usermatrix` as it was. -/
theorem evdev_device_calibrate_identity (d : Device) :
    evdev_device_calibrate d identity6 =
      some { d with abs_apply_calibration := false, abs_calibration := matrix_init_identity } := by
  have hid : matrix_is_identity (matrix_from_farray6 identity6) = true := by
    rw [matrix_is_identity_from_farray6]
    simp
  unfold evdev_device_calibrate
  simp [hid]

/-- C19 fails on the code: on a screen with both axes ranging over `0 .. 99`,
`evdev_calibration_set_matrix` with `(2,0,0,0,1,0)` followed by
`evdev_calibration_set_matrix` with the identity `(1,0,0,0,1,0)` returns, and
`evdev_calibration_get_matrix` then gives back `(2,0,0,0,1,0)` and returns
`1`, not the identity set last and `0`; the apply flag is cleared all the
same. -/
theorem calibration_get_after_identity_returns_older_matrix :
    ∃ d2 : Device,
      calibration_set_all screen_100 [double_x6, identity6] = some d2 ∧
      evdev_calibration_get_matrix d2 = (double_x6, 1) ∧
      evdev_calibration_get_matrix d2 ≠ (identity6, 0) ∧
      d2.abs_apply_calibration = false := by
  obtain ⟨d1, h1, hu⟩ : ∃ d1 : Device,
      evdev_device_calibrate screen_100 double_x6 = some d1 ∧
      d1.abs_usermatrix = matrix_from_farray6 double_x6 :=
    ⟨_, evdev_device_calibrate_non_identity screen_100 double_x6
      { minimum := 0, maximum := 99 } { minimum := 0, maximum := 99 } (by decide) rfl rfl, rfl⟩
  have hrun : calibration_set_all screen_100 [double_x6, identity6] =
      some { d1 with abs_apply_calibration := false, abs_calibration := matrix_init_identity } := by
    simp only [calibration_set_all, evdev_calibration_set_matrix, h1,
      evdev_device_calibrate_identity]
  have hget : evdev_calibration_get_matrix
      { d1 with abs_apply_calibration := false, abs_calibration := matrix_init_identity } =
      (double_x6, 1) := by
    have hid : matrix_is_identity (matrix_from_farray6 double_x6) = false := by
      rw [matrix_is_identity_from_farray6]
      decide
    simp [evdev_calibration_get_matrix, hu, hid, matrix_to_farray6_from_farray6]
  refine ⟨_, hrun, hget, ?_, rfl⟩
  rw [hget]
  intro h
  exact absurd (congrArg Prod.snd h) (by decide)

/-- The composite matrix computed by `evdev_device_calibrate`, applied to a
coordinate pair: it normalizes, applies the user values, and scales back. -/
theorem calibration_composite_rows (u : farray6) (mx my : Int) (sx sy : ℚ)
    (hsx : sx ≠ 0) (hsy : sy ≠ 0) (m : matrix)
    (hm : m = matrix_mult
      (matrix_mult
        (matrix_mult (matrix_init_translate (mx : ℚ) (my : ℚ)) (matrix_init_scale sx sy))
        (matrix_from_farray6 u))
      (matrix_mult
        (matrix_init_translate (((-mx : Int) : ℚ) / sx) (((-my : Int) : ℚ) / sy))
        (matrix_init_scale (1 / sx) (1 / sy)))) :
    m.v20 = 0 ∧ m.v21 = 0 ∧ m.v22 = 1 ∧
    ∀ x y : ℚ,
      m.v00 * x + m.v01 * y + m.v02 =
        sx * (u.v0 * (x - mx) / sx + u.v1 * (y - my) / sy + u.v2) + mx ∧
      m.v10 * x + m.v11 * y + m.v12 =
        sy * (u.v3 * (x - mx) / sx + u.v4 * (y - my) / sy + u.v5) + my := by
  subst hm
  refine ⟨?_, ?_, ?_, ?_⟩
  · simp [matrix_mult, matrix_init_translate, matrix_init_scale, matrix_init_identity,
      matrix_from_farray6]
  · simp [matrix_mult, matrix_init_translate, matrix_init_scale, matrix_init_identity,
      matrix_from_farray6]
  · simp [matrix_mult, matrix_init_translate, matrix_init_scale, matrix_init_identity,
      matrix_from_farray6]
  · intro x y
    simp only [matrix_mult, matrix_init_translate, matrix_init_scale, matrix_init_identity,
      matrix_from_farray6]
    push_cast
    constructor <;> field_simp <;> ring

/-- C20: on a device with both axis ranges, for six user values
`[a b c; d e f]` that are not the identity and ranges with
`sx = max_x - min_x + 1` and `sy = max_y - min_y + 1` not zero,
`evdev_device_calibrate` returns, sets the apply flag, keeps the user values,
and stores the matrix with last row `(0, 0, 1)` that maps `(x, y)` to
`(sx * (a * (x - min_x) / sx + b * (y - min_y) / sy + c) + min_x,
  sy * (d * (x - min_x) / sx + e * (y - min_y) / sy + f) + min_y)`,
that is Un-Normalize * User * Normalize, over exact arithmetic;
`transform_absolute` then yields these two values truncated to integers. -/
theorem calibrate_stores_unnormalize_user_normalize (d : Device) (u : farray6)
    (ax ay : input_absinfo) (hu : u ≠ identity6)
    (hx : d.abs_absinfo_x = some ax) (hy : d.abs_absinfo_y = some ay)
    (hsx : ax.maximum - ax.minimum + 1 ≠ 0) (hsy : ay.maximum - ay.minimum + 1 ≠ 0) :
    ∃ d1 : Device,
      evdev_device_calibrate d u = some d1 ∧
      d1.abs_apply_calibration = true ∧
      d1.abs_usermatrix = matrix_from_farray6 u ∧
      d1.abs_calibration.v20 = 0 ∧ d1.abs_calibration.v21 = 0 ∧ d1.abs_calibration.v22 = 1 ∧
      (∀ x y : ℚ,
        d1.abs_calibration.v00 * x + d1.abs_calibration.v01 * y + d1.abs_calibration.v02 =
          ((ax.maximum - ax.minimum + 1 : Int) : ℚ) *
            (u.v0 * (x - ax.minimum) / ((ax.maximum - ax.minimum + 1 : Int) : ℚ) +
              u.v1 * (y - ay.minimum) / ((ay.maximum - ay.minimum + 1 : Int) : ℚ) + u.v2) +
            ax.minimum ∧
        d1.abs_calibration.v10 * x + d1.abs_calibration.v11 * y + d1.abs_calibration.v12 =
          ((ay.maximum - ay.minimum + 1 : Int) : ℚ) *
            (u.v3 * (x - ax.minimum) / ((ax.maximum - ax.minimum + 1 : Int) : ℚ) +
              u.v4 * (y - ay.minimum) / ((ay.maximum - ay.minimum + 1 : Int) : ℚ) + u.v5) +
            ay.minimum) ∧
      (∀ x y : Int,
        transform_absolute d1 x y =
          (trunc (((ax.maximum - ax.minimum + 1 : Int) : ℚ) *
              (u.v0 * ((x : ℚ) - ax.minimum) / ((ax.maximum - ax.minimum + 1 : Int) : ℚ) +
                u.v1 * ((y : ℚ) - ay.minimum) / ((ay.maximum - ay.minimum + 1 : Int) : ℚ) +
                u.v2) +
              ax.minimum),
           trunc (((ay.maximum - ay.minimum + 1 : Int) : ℚ) *
              (u.v3 * ((x : ℚ) - ax.minimum) / ((ax.maximum - ax.minimum + 1 : Int) : ℚ) +
                u.v4 * ((y : ℚ) - ay.minimum) / ((ay.maximum - ay.minimum + 1 : Int) : ℚ) +
                u.v5) +
              ay.minimum))) := by
  have hqx : ((ax.maximum - ax.minimum + 1 : Int) : ℚ) ≠ 0 := by exact_mod_cast hsx
  have hqy : ((ay.maximum - ay.minimum + 1 : Int) : ℚ) ≠ 0 := by exact_mod_cast hsy
  have hrun := evdev_device_calibrate_non_identity d u ax ay hu hx hy
  obtain ⟨h20, h21, h22, hrows⟩ := calibration_composite_rows u ax.minimum ay.minimum
    ((ax.maximum - ax.minimum + 1 : Int) : ℚ) ((ay.maximum - ay.minimum + 1 : Int) : ℚ)
    hqx hqy _ rfl
  refine ⟨_, hrun, rfl, rfl, h20, h21, h22, hrows, ?_⟩
  intro x y
  obtain ⟨h0, h1⟩ := hrows x y
  simp only [transform_absolute, matrix_mult_vec, Bool.not_true, Bool.false_eq_true, if_false]
  rw [← h0, ← h1]
  simp only [mul_comm]

theorem calibrate_stores_unnormalize_user_normalize_witness :
    ∃ d1 : Device,
      evdev_device_calibrate screen_100 double_x6 = some d1 ∧
      d1.abs_apply_calibration = true ∧
      transform_absolute d1 30 40 = (60, 40) := by
  obtain ⟨d1, hrun, happly, -, -, -, -, -, hint⟩ :=
    calibrate_stores_unnormalize_user_normalize screen_100 double_x6
      { minimum := 0, maximum := 99 } { minimum := 0, maximum := 99 }
      (by decide) rfl rfl (by decide) (by decide)
  refine ⟨d1, hrun, happly, ?_⟩
  rw [hint 30 40]
  norm_num [double_x6, trunc]

/-! ## The flush: one primary notification, pending kind reset -/

theorem flushed_clear {s s1 : State} (h : s1.out = s.out) : flushed s s1.clear_pending :=
  ⟨rfl, [], by simp [State.clear_pending, h], by simp, by simp⟩

theorem flushed_post {s s1 : State} (h : s1.out = s.out) (n : Notification)
    (hn : n.is_primary = true) : flushed s (s1.post n).clear_pending :=
  ⟨rfl, [n], by simp [State.clear_pending, State.post, h], by simp [hn], by simp [hn]⟩

theorem flushed_aux_post {s s3 : State} {d2 : Device} {m2 : Nat} {time : Nat}
    {slot seat_slot : Int}
    (h : evdev_flush_extra_aux_data { dev := d2, slot_map := m2, out := s.out } time slot
      seat_slot = some s3)
    (n : Notification) (hn : n.is_primary = true) :
    flushed s (s3.post n).clear_pending := by
  unfold evdev_flush_extra_aux_data at h
  split at h
  · exact absurd h (by simp)
  · rename_i x l heq
    simp only [Option.some.injEq] at h
    subst h
    refine ⟨rfl, (l.filter (fun a => a.changed)).map
      (fun a => Notification.touch_aux_data time slot seat_slot a.code a.value) ++ [n],
      ?_, ?_, ?_⟩
    · simp only [State.clear_pending, State.post, List.append_assoc]
    · rw [List.filter_append]
      have : List.filter Notification.is_primary
          (List.map (fun a => Notification.touch_aux_data time slot seat_slot a.code a.value)
            (List.filter (fun a => a.changed) l)) = [] := by
        rw [List.filter_eq_nil_iff]
        intro m hm
        simp only [List.mem_map] at hm
        obtain ⟨a, -, rfl⟩ := hm
        simp [Notification.is_primary]
      simp [this, hn]
    · intro m hm
      rw [List.mem_append] at hm
      rcases hm with hm | hm
      · simp only [List.mem_map] at hm
        obtain ⟨a, -, rfl⟩ := hm
        exact Or.inr rfl
      · rw [List.mem_singleton] at hm
        subst hm
        exact Or.inl hn

/-- What `evdev_post_scroll` posts is at most one notification, an axis
notification, and the pending kind is left alone. -/
theorem evdev_post_scroll_flushed (s : State) (time : Nat)
    (source : libinput_pointer_axis_source) (dx dy : ℚ) :
    flushed s (evdev_post_scroll s time source dx dy).clear_pending := by
  refine ⟨rfl, ?_⟩
  unfold evdev_post_scroll scroll_emit evdev_notify_axis State.post State.clear_pending
  simp only []
  split_ifs
  all_goals first
    | exact ⟨[_], rfl, by simp [Notification.is_primary], by simp [Notification.is_primary]⟩
    | exact ⟨[], by simp, by simp, by simp⟩

theorem flushed_of_out {s s0 s1 : State} (h : flushed s0 s1) (h0 : s0.out = s.out) :
    flushed s s1 := by
  obtain ⟨hp, l, hl, hlen, hmem⟩ := h
  exact ⟨hp, l, by rw [hl, h0], hlen, hmem⟩

/-- Every flush that returns has the shape `flushed`. -/
theorem flushed_flush {s s1 : State} {time : Nat}
    (h : evdev_flush_pending_event s time = some s1) : flushed s s1 := by
  unfold evdev_flush_pending_event at h
  split at h
  all_goals
    try simp only [flush_case_relative_motion, flush_case_mt_down, flush_case_mt_motion,
      flush_case_mt_up, flush_case_touch_down, flush_case_absolute_motion,
      flush_case_touch_up] at h
  · rename_i hp
    simp only [Option.some.injEq] at h
    subst h
    exact ⟨hp, [], by simp, by simp, by simp⟩
  · split_ifs at h <;> simp only [Option.some.injEq] at h <;> subst h
    · exact flushed_of_out (evdev_post_scroll_flushed _ _ _ _ _) rfl
    · exact flushed_clear rfl
    · exact flushed_clear rfl
    · exact flushed_post rfl _ rfl
  all_goals
    repeat' split at h
  all_goals try contradiction
  all_goals
    simp only [Option.some.injEq] at h
    subst h
  all_goals first
    | exact flushed_clear rfl
    | exact flushed_post rfl _ rfl
    | exact flushed_aux_post ‹_› _ rfl

/-- C26: `evdev_flush_pending_event` with pending kind `EVDEV_NONE` returns
the state as it is. For every pending kind, a flush that returns leaves the
pending kind `EVDEV_NONE`, keeps what was posted before, and posts at most one
primary notification (pointer motion, absolute motion, scroll axis, touch
down, motion or up); whatever else it posts is an auxiliary axis notification
of the touch. The flush returns for the kinds that read no slot table:
relative motion, single-touch down and absolute motion. -/
theorem flush_posts_at_most_one_primary (s : State) (time : Nat) :
    (s.dev.pending_event = EVDEV_NONE → evdev_flush_pending_event s time = some s) ∧
    (∀ s1 : State, evdev_flush_pending_event s time = some s1 →
      s1.dev.pending_event = EVDEV_NONE ∧
      ∃ l : List Notification, s1.out = s.out ++ l ∧
        (l.filter Notification.is_primary).length ≤ 1 ∧
        ∀ n ∈ l, n.is_primary = true ∨ n.is_aux_data = true) ∧
    (s.dev.pending_event = EVDEV_RELATIVE_MOTION ∨
      s.dev.pending_event = EVDEV_ABSOLUTE_TOUCH_DOWN ∨
      s.dev.pending_event = EVDEV_ABSOLUTE_MOTION →
      ∃ s1 : State, evdev_flush_pending_event s time = some s1) := by
  refine ⟨?_, fun s1 h => flushed_flush h, ?_⟩
  · intro hp
    unfold evdev_flush_pending_event
    rw [hp]
  · intro hp
    unfold evdev_flush_pending_event
    rcases hp with hp | hp | hp <;> rw [hp] <;> simp only []
    · unfold flush_case_relative_motion
      simp only []
      split_ifs <;> exact ⟨_, rfl⟩
    · unfold flush_case_touch_down
      simp only []
      split_ifs <;> exact ⟨_, rfl⟩
    · unfold flush_case_absolute_motion
      simp only []
      split_ifs <;> exact ⟨_, rfl⟩

theorem flush_posts_at_most_one_primary_witness :
    ∃ s1 : State,
      evdev_flush_pending_event button_scroll_moving 5 = some s1 ∧
      s1.dev.pending_event = EVDEV_NONE ∧
      ∃ l : List Notification, s1.out = button_scroll_moving.out ++ l ∧
        (l.filter Notification.is_primary).length ≤ 1 := by
  obtain ⟨s1, h⟩ := (flush_posts_at_most_one_primary button_scroll_moving 5).2.2 (Or.inl rfl)
  obtain ⟨hp, l, hl, hlen, -⟩ := (flush_posts_at_most_one_primary button_scroll_moving 5).2.1 s1 h
  exact ⟨s1, h, hp, l, hl, hlen⟩

theorem evdev_need_touch_frame_eq (d : Device) :
    evdev_need_touch_frame d =
      (decide (d.seat_caps &&& EVDEV_DEVICE_TOUCH ≠ 0) && touch_domain_kind d.pending_event) := by
  unfold evdev_need_touch_frame
  by_cases h : d.seat_caps &&& EVDEV_DEVICE_TOUCH = 0
  · simp [h]
  · cases hp : d.pending_event <;> simp [h, touch_domain_kind]

/-- C25: on a frame terminator (`EV_SYN`) whose flush returns,
`fallback_process` returns the flushed state with one touch frame notification
posted after everything the flush posted when the device has the touch
capability and the pending kind before the flush was a touch-domain kind, and
the flushed state as it is otherwise; the flush itself posts no touch frame. -/
theorem frame_terminator_touch_frame (s s1 : State) (e : input_event) (time : Nat)
    (he : e.type = EV_SYN) (hflush : evdev_flush_pending_event s time = some s1) :
    fallback_process s e time =
      some (if s.dev.seat_caps &&& EVDEV_DEVICE_TOUCH ≠ 0 ∧
          touch_domain_kind s.dev.pending_event = true then
        s1.post (Notification.touch_frame time) else s1) ∧
    ∃ l : List Notification, s1.out = s.out ++ l ∧
      ∀ t : Nat, Notification.touch_frame t ∉ l := by
  constructor
  · unfold fallback_process
    rw [he, if_neg (by decide), if_neg (by decide), if_neg (by decide), if_pos rfl]
    simp only [hflush, evdev_need_touch_frame_eq, Bool.and_eq_true, decide_eq_true_eq]
  · obtain ⟨-, l, hl, -, hmem⟩ := flushed_flush hflush
    refine ⟨l, hl, fun t ht => ?_⟩
    rcases hmem _ ht with h | h <;> simp [Notification.is_primary, Notification.is_aux_data] at h

theorem frame_terminator_touch_frame_witness :
    fallback_process touchscreen_moving syn_event 9 =
      some (({ touchscreen_moving with
          dev := { touchscreen_moving.dev with pending_event := EVDEV_NONE },
          out := [Notification.touch_motion 9 (-1) 0 10 20
            { major := DEFAULT_TOUCH_MAJOR, minor := DEFAULT_TOUCH_MINOR,
              orientation := DEFAULT_TOUCH_ORIENTATION } DEFAULT_TOUCH_PRESSURE] } : State).post
        (Notification.touch_frame 9)) :=
  (frame_terminator_touch_frame touchscreen_moving _ syn_event 9 rfl rfl).1

/-! ## Duplicate touch-down and touch-up -/

/-- C27: the flush of a pending touch-down on a slot that already holds a
seat-slot id, that is an id that is not negative (multitouch
`EVDEV_ABSOLUTE_MT_DOWN` on the active slot, or legacy
`EVDEV_ABSOLUTE_TOUCH_DOWN` on the single-touch stream), only resets the
pending kind: nothing is posted, the seat bitmap, the slot and the
single-touch id are as before. -/
theorem duplicate_touch_down_discarded (s : State) (time : Nat) :
    (∀ sd : mt_slot, s.dev.pending_event = EVDEV_ABSOLUTE_MT_DOWN →
      mt_slot_data s.dev = some sd → 0 ≤ sd.seat_slot →
      evdev_flush_pending_event s time = some s.clear_pending) ∧
    (s.dev.pending_event = EVDEV_ABSOLUTE_TOUCH_DOWN → 0 ≤ s.dev.abs_seat_slot →
      evdev_flush_pending_event s time = some s.clear_pending) ∧
    s.clear_pending.out = s.out ∧
    s.clear_pending.slot_map = s.slot_map ∧
    mt_slot_data s.clear_pending.dev = mt_slot_data s.dev ∧
    s.clear_pending.dev.abs_seat_slot = s.dev.abs_seat_slot ∧
    s.clear_pending.dev.pending_event = EVDEV_NONE := by
  refine ⟨?_, ?_, rfl, rfl, rfl, rfl, rfl⟩
  · intro sd hp hsd h0
    have hne : sd.seat_slot ≠ -1 := by omega
    unfold evdev_flush_pending_event
    simp only [hp, flush_case_mt_down]
    by_cases hcap : s.dev.seat_caps &&& EVDEV_DEVICE_TOUCH = 0
    · rw [if_pos hcap]
    · rw [if_neg hcap]
      simp only [hsd, hne, ne_eq, not_false_eq_true, if_true]
  · intro hp h0
    have hne : s.dev.abs_seat_slot ≠ -1 := by omega
    unfold evdev_flush_pending_event
    simp only [hp, flush_case_touch_down]
    by_cases hcap : s.dev.seat_caps &&& EVDEV_DEVICE_TOUCH = 0
    · rw [if_pos hcap]
    · rw [if_neg hcap, if_pos hne]

theorem duplicate_touch_down_discarded_witness :
    evdev_flush_pending_event
        { touchscreen_moving with
          dev := { touchscreen_moving.dev with pending_event := EVDEV_ABSOLUTE_TOUCH_DOWN } } 3 =
      some { touchscreen_moving with
        dev := { touchscreen_moving.dev with pending_event := EVDEV_NONE } } :=
  (duplicate_touch_down_discarded
    { touchscreen_moving with
      dev := { touchscreen_moving.dev with pending_event := EVDEV_ABSOLUTE_TOUCH_DOWN } } 3).2.1
    rfl (by decide)

/-- The flush of a pending `EVDEV_ABSOLUTE_MT_UP` on a slot that holds id `k`. -/
theorem flush_mt_up_assigned (s : State) (time k : Nat) (sd : mt_slot)
    (al : List mt_aux_data)
    (hp : s.dev.pending_event = EVDEV_ABSOLUTE_MT_UP)
    (hcap : s.dev.seat_caps &&& EVDEV_DEVICE_TOUCH ≠ 0)
    (hsd : mt_slot_data s.dev = some sd) (hk : sd.seat_slot = (k : Int)) (hk32 : k < 32)
    (hal : mt_aux_list s.dev s.dev.mt_slot = some al) :
    ∃ s1, evdev_flush_pending_event s time = some s1 ∧
      mt_slot_data s1.dev = some { sd with seat_slot := -1 } ∧
      s1.dev.mt_slot = s.dev.mt_slot ∧
      s1.dev.seat_caps = s.dev.seat_caps ∧
      s1.dev.pending_event = EVDEV_NONE ∧
      s1.slot_map = s.slot_map &&& bnot32 (1 <<< k) ∧
      s1.out = s.out ++
        (al.filter (fun a => a.changed)).map
          (fun a => Notification.touch_aux_data time s.dev.mt_slot (k : Int) a.code a.value) ++
        [Notification.touch_up time s.dev.mt_slot (k : Int)] := by
  have hk1 : ¬ ((k : Int) = -1) := by omega
  have hal1 : mt_aux_list (mt_slot_store s.dev { sd with seat_slot := -1 }) s.dev.mt_slot =
      some al := hal
  have hdata := mt_slot_data_store s.dev sd { sd with seat_slot := -1 } hsd
  have hclr : slot_map_clear s.slot_map (k : Int) = some (s.slot_map &&& bnot32 (1 <<< k)) := by
    unfold slot_map_clear
    rw [if_pos ⟨by omega, by omega⟩]
    rfl
  unfold evdev_flush_pending_event
  simp only [hp, flush_case_mt_up]
  rw [if_neg hcap]
  simp only [hsd, hk, hk1, if_false, hclr]
  unfold evdev_flush_extra_aux_data
  simp only [hal1]
  refine ⟨_, rfl, ?_, rfl, rfl, rfl, rfl, ?_⟩
  · rw [← hdata]
    exact mt_slot_data_congr _ _ rfl rfl
  · simp [State.post, State.clear_pending]

/-- The flush of a pending `EVDEV_ABSOLUTE_MT_UP` on a slot without an id. -/
theorem flush_mt_up_unassigned (s : State) (time : Nat) (sd : mt_slot)
    (hp : s.dev.pending_event = EVDEV_ABSOLUTE_MT_UP)
    (hsd : mt_slot_data s.dev = some sd) (hun : sd.seat_slot = -1) :
    evdev_flush_pending_event s time = some s.clear_pending := by
  have hstore : mt_slot_store s.dev { sd with seat_slot := -1 } = s.dev := by
    have : ({ sd with seat_slot := -1 } : mt_slot) = sd := by
      cases sd
      simp only at hun
      subst hun
      rfl
    rw [this]
    exact mt_slot_store_self s.dev sd hsd
  unfold evdev_flush_pending_event
  simp only [hp, flush_case_mt_up]
  by_cases hcap : s.dev.seat_caps &&& EVDEV_DEVICE_TOUCH = 0
  · rw [if_pos hcap]
  · rw [if_neg hcap]
    simp only [hsd, hun, if_true, hstore]

/-- The flush of a pending `EVDEV_ABSOLUTE_TOUCH_UP` while the single-touch
stream holds id `k`. -/
theorem flush_touch_up_assigned (s : State) (time k : Nat)
    (hp : s.dev.pending_event = EVDEV_ABSOLUTE_TOUCH_UP)
    (hcap : s.dev.seat_caps &&& EVDEV_DEVICE_TOUCH ≠ 0)
    (hk : s.dev.abs_seat_slot = (k : Int)) (hk32 : k < 32) :
    evdev_flush_pending_event s time =
      some { s with
        dev := { s.dev with abs_seat_slot := -1, pending_event := EVDEV_NONE },
        slot_map := s.slot_map &&& bnot32 (1 <<< k),
        out := s.out ++ [Notification.touch_up time (-1) (k : Int)] } := by
  have hk1 : ¬ ((k : Int) = -1) := by omega
  have hclr : slot_map_clear s.slot_map (k : Int) = some (s.slot_map &&& bnot32 (1 <<< k)) := by
    unfold slot_map_clear
    rw [if_pos ⟨by omega, by omega⟩]
    rfl
  unfold evdev_flush_pending_event
  simp only [hp, flush_case_touch_up]
  rw [if_neg hcap]
  simp only [hk, hk1, if_false, hclr]
  rfl

/-- The flush of a pending `EVDEV_ABSOLUTE_TOUCH_UP` while the single-touch
stream holds no id. -/
theorem flush_touch_up_unassigned (s : State) (time : Nat)
    (hp : s.dev.pending_event = EVDEV_ABSOLUTE_TOUCH_UP) (hun : s.dev.abs_seat_slot = -1) :
    evdev_flush_pending_event s time = some s.clear_pending := by
  obtain ⟨d, m, o⟩ := s
  cases d
  simp only at hp hun
  subst hp hun
  unfold evdev_flush_pending_event
  simp only [flush_case_touch_up, State.clear_pending, if_true]
  split_ifs <;> rfl

/-- C28: the flush of a pending touch-up on a touch-capable device.
For the active multitouch slot holding id `k < 32` (and, likewise, for the
single-touch stream): the flush returns, bit `k` of the seat bitmap is cleared
and no other bit changes, the assignment is `-1`, and one touch up carrying
`k` is posted, after the notifications of the changed auxiliary axes of the
slot; a second touch-up flushed right after posts nothing and leaves the
bitmap as it is. With no id assigned the flush only resets the pending
kind. -/
theorem touch_up_frees_id_once (s : State) (time time2 : Nat) :
    (∀ (k : Nat) (sd : mt_slot) (al : List mt_aux_data),
      s.dev.pending_event = EVDEV_ABSOLUTE_MT_UP →
      s.dev.seat_caps &&& EVDEV_DEVICE_TOUCH ≠ 0 →
      mt_slot_data s.dev = some sd → sd.seat_slot = (k : Int) → k < 32 →
      mt_aux_list s.dev s.dev.mt_slot = some al →
      ∃ s1 : State, evdev_flush_pending_event s time = some s1 ∧
        s1.slot_map = s.slot_map &&& bnot32 (1 <<< k) ∧
        s1.slot_map.testBit k = false ∧
        (∀ i, i < 32 → i ≠ k → s1.slot_map.testBit i = s.slot_map.testBit i) ∧
        mt_slot_data s1.dev = some { sd with seat_slot := -1 } ∧
        s1.out = s.out ++
          (al.filter (fun a => a.changed)).map
            (fun a => Notification.touch_aux_data time s.dev.mt_slot (k : Int) a.code a.value) ++
          [Notification.touch_up time s.dev.mt_slot (k : Int)] ∧
        ∃ s2 : State,
          evdev_flush_pending_event
            { s1 with dev := { s1.dev with pending_event := EVDEV_ABSOLUTE_MT_UP } } time2 =
            some s2 ∧
          s2.out = s1.out ∧ s2.slot_map = s1.slot_map) ∧
    (∀ k : Nat,
      s.dev.pending_event = EVDEV_ABSOLUTE_TOUCH_UP →
      s.dev.seat_caps &&& EVDEV_DEVICE_TOUCH ≠ 0 →
      s.dev.abs_seat_slot = (k : Int) → k < 32 →
      ∃ s1 : State, evdev_flush_pending_event s time = some s1 ∧
        s1.slot_map = s.slot_map &&& bnot32 (1 <<< k) ∧
        s1.slot_map.testBit k = false ∧
        (∀ i, i < 32 → i ≠ k → s1.slot_map.testBit i = s.slot_map.testBit i) ∧
        s1.dev.abs_seat_slot = -1 ∧
        s1.out = s.out ++ [Notification.touch_up time (-1) (k : Int)] ∧
        ∃ s2 : State,
          evdev_flush_pending_event
            { s1 with dev := { s1.dev with pending_event := EVDEV_ABSOLUTE_TOUCH_UP } } time2 =
            some s2 ∧
          s2.out = s1.out ∧ s2.slot_map = s1.slot_map) ∧
    (∀ sd : mt_slot, s.dev.pending_event = EVDEV_ABSOLUTE_MT_UP →
      mt_slot_data s.dev = some sd → sd.seat_slot = -1 →
      evdev_flush_pending_event s time = some s.clear_pending) ∧
    (s.dev.pending_event = EVDEV_ABSOLUTE_TOUCH_UP → s.dev.abs_seat_slot = -1 →
      evdev_flush_pending_event s time = some s.clear_pending) := by
  refine ⟨?_, ?_, fun sd hp hsd hun => flush_mt_up_unassigned s time sd hp hsd hun,
    fun hp hun => flush_touch_up_unassigned s time hp hun⟩
  · intro k sd al hp hcap hsd hk hk32 hal
    obtain ⟨s1, h1, hd1, -, -, -, hm1, ho1⟩ :=
      flush_mt_up_assigned s time k sd al hp hcap hsd hk hk32 hal
    refine ⟨s1, h1, hm1, ?_, ?_, hd1, ho1, ?_⟩
    · rw [hm1]
      exact bit_after_clear_self _ _
    · intro i hi hik
      rw [hm1]
      exact bit_after_clear_other _ _ _ hi hik
    · exact ⟨_, flush_mt_up_unassigned
        { s1 with dev := { s1.dev with pending_event := EVDEV_ABSOLUTE_MT_UP } } time2
        { sd with seat_slot := -1 } rfl ((mt_slot_data_congr _ _ rfl rfl).trans hd1) rfl,
        rfl, rfl⟩
  · intro k hp hcap hk hk32
    refine ⟨_, flush_touch_up_assigned s time k hp hcap hk hk32, rfl, ?_, ?_, rfl, rfl, ?_⟩
    · exact bit_after_clear_self _ _
    · intro i hi hik
      exact bit_after_clear_other _ _ _ hi hik
    · exact ⟨_, flush_touch_up_unassigned _ time2 rfl rfl, rfl, rfl⟩

theorem touch_up_frees_id_once_witness :
    ∃ s1 s2 : State,
      evdev_flush_pending_event
        { touchscreen_moving with
          dev := { touchscreen_moving.dev with pending_event := EVDEV_ABSOLUTE_TOUCH_UP } } 4 =
        some s1 ∧
      s1.slot_map.testBit 0 = false ∧
      s1.out = [Notification.touch_up 4 (-1) 0] ∧
      evdev_flush_pending_event
        { s1 with dev := { s1.dev with pending_event := EVDEV_ABSOLUTE_TOUCH_UP } } 5 =
        some s2 ∧
      s2.out = s1.out ∧ s2.slot_map = s1.slot_map := by
  obtain ⟨s1, h1, -, hb, -, -, ho, s2, h2, ho2, hm2⟩ :=
    (touch_up_frees_id_once
      { touchscreen_moving with
        dev := { touchscreen_moving.dev with pending_event := EVDEV_ABSOLUTE_TOUCH_UP } }
      4 5).2.1 0 rfl (by decide) rfl (by decide)
  exact ⟨s1, s2, h1, hb, ho, h2, ho2, hm2⟩

/-! ## Tracking id and `BTN_TOUCH` -/

/-- C29: a tracking-id event on a multitouch device. With pending kind
`EVDEV_NONE` or `EVDEV_ABSOLUTE_MT_MOTION` nothing is flushed: the state is
kept and only the pending kind is set. With any other pending kind the
pending event is flushed first, and the pending kind is set on the flushed
state. The pending kind set is `EVDEV_ABSOLUTE_MT_DOWN` for a value that is
not negative and `EVDEV_ABSOLUTE_MT_UP` for a negative value. -/
theorem tracking_id_sets_pending (s : State) (v : Int) (time : Nat)
    (hmt : s.dev.is_mt = true) :
    (s.dev.pending_event = EVDEV_NONE ∨ s.dev.pending_event = EVDEV_ABSOLUTE_MT_MOTION →
      fallback_process s (abs_event ABS_MT_TRACKING_ID v) time =
        some { s with dev := { s.dev with pending_event :=
          if v ≥ 0 then EVDEV_ABSOLUTE_MT_DOWN else EVDEV_ABSOLUTE_MT_UP } }) ∧
    (s.dev.pending_event ≠ EVDEV_NONE → s.dev.pending_event ≠ EVDEV_ABSOLUTE_MT_MOTION →
      ∀ s1 : State, evdev_flush_pending_event s time = some s1 →
        fallback_process s (abs_event ABS_MT_TRACKING_ID v) time =
          some { s1 with dev := { s1.dev with pending_event :=
            if v ≥ 0 then EVDEV_ABSOLUTE_MT_DOWN else EVDEV_ABSOLUTE_MT_UP } }) := by
  have hrun : fallback_process s (abs_event ABS_MT_TRACKING_ID v) time =
      (if s.dev.pending_event ≠ EVDEV_NONE ∧
          s.dev.pending_event ≠ EVDEV_ABSOLUTE_MT_MOTION then
        evdev_flush_pending_event s time else some s).map
        (fun s1 => { s1 with dev := { s1.dev with pending_event :=
          if v ≥ 0 then EVDEV_ABSOLUTE_MT_DOWN else EVDEV_ABSOLUTE_MT_UP } }) := by
    unfold fallback_process evdev_process_absolute evdev_process_touch
    simp only [abs_event, hmt, if_true, if_false, (by decide : ¬ (EV_ABS = EV_REL)),
      (by decide : ¬ (ABS_MT_TRACKING_ID = ABS_MT_SLOT))]
    generalize (if s.dev.pending_event ≠ EVDEV_NONE ∧
        s.dev.pending_event ≠ EVDEV_ABSOLUTE_MT_MOTION then
      evdev_flush_pending_event s time else some s) = q
    cases q <;> rfl
  constructor
  · intro hp
    have hc : ¬ (s.dev.pending_event ≠ EVDEV_NONE ∧
        s.dev.pending_event ≠ EVDEV_ABSOLUTE_MT_MOTION) := by
      rcases hp with hp | hp <;> simp [hp]
    rw [hrun, if_neg hc]
    rfl
  · intro h1 h2 s1 hflush
    have hc : s.dev.pending_event ≠ EVDEV_NONE ∧
        s.dev.pending_event ≠ EVDEV_ABSOLUTE_MT_MOTION := ⟨h1, h2⟩
    rw [hrun, if_pos hc, hflush]
    rfl

theorem tracking_id_sets_pending_witness :
    fallback_process touchscreen_mt_motion (abs_event ABS_MT_TRACKING_ID (-1)) 2 =
      some { touchscreen_mt_motion with
        dev := { touchscreen_mt_motion.dev with pending_event := EVDEV_ABSOLUTE_MT_UP } } :=
  (tracking_id_sets_pending touchscreen_mt_motion (-1) 2 rfl).1 (Or.inr rfl)

/-- C30: a `BTN_TOUCH` event with value `0` or `1`. On a device that is not
multitouch: with pending kind `EVDEV_NONE` or `EVDEV_ABSOLUTE_MOTION` nothing
is flushed and only the pending kind is set; with any other pending kind the
pending event is flushed first; the pending kind set is
`EVDEV_ABSOLUTE_TOUCH_DOWN` for value `1` and `EVDEV_ABSOLUTE_TOUCH_UP` for
value `0`. On a multitouch device the event changes nothing. -/
theorem btn_touch_sets_pending (s : State) (v : Int) (time : Nat) (hv : v = 0 ∨ v = 1) :
    (s.dev.is_mt = false →
      (s.dev.pending_event = EVDEV_NONE ∨ s.dev.pending_event = EVDEV_ABSOLUTE_MOTION →
        fallback_process s (key_event BTN_TOUCH v) time =
          some { s with dev := { s.dev with pending_event :=
            if v ≠ 0 then EVDEV_ABSOLUTE_TOUCH_DOWN else EVDEV_ABSOLUTE_TOUCH_UP } }) ∧
      (s.dev.pending_event ≠ EVDEV_NONE → s.dev.pending_event ≠ EVDEV_ABSOLUTE_MOTION →
        ∀ s1 : State, evdev_flush_pending_event s time = some s1 →
          fallback_process s (key_event BTN_TOUCH v) time =
            some { s1 with dev := { s1.dev with pending_event :=
              if v ≠ 0 then EVDEV_ABSOLUTE_TOUCH_DOWN else EVDEV_ABSOLUTE_TOUCH_UP } })) ∧
    (s.dev.is_mt = true → fallback_process s (key_event BTN_TOUCH v) time = some s) := by
  have hv2 : v ≠ 2 := by omega
  have hkey : fallback_process s (key_event BTN_TOUCH v) time =
      if !s.dev.is_mt then evdev_process_touch_button s time v else some s := by
    unfold fallback_process evdev_process_key
    simp only [key_event, if_true, if_false, (by decide : ¬ (EV_KEY = EV_REL)),
      (by decide : ¬ (EV_KEY = EV_ABS)), hv2]
  constructor
  · intro hmt
    have hrun : fallback_process s (key_event BTN_TOUCH v) time =
        (if s.dev.pending_event ≠ EVDEV_NONE ∧
            s.dev.pending_event ≠ EVDEV_ABSOLUTE_MOTION then
          evdev_flush_pending_event s time else some s).map
          (fun s1 => { s1 with dev := { s1.dev with pending_event :=
            if v ≠ 0 then EVDEV_ABSOLUTE_TOUCH_DOWN else EVDEV_ABSOLUTE_TOUCH_UP } }) := by
      rw [hkey, hmt]
      unfold evdev_process_touch_button
      simp only [Bool.not_false, if_true]
      generalize (if s.dev.pending_event ≠ EVDEV_NONE ∧
          s.dev.pending_event ≠ EVDEV_ABSOLUTE_MOTION then
        evdev_flush_pending_event s time else some s) = q
      cases q <;> rfl
    constructor
    · intro hp
      have hc : ¬ (s.dev.pending_event ≠ EVDEV_NONE ∧
          s.dev.pending_event ≠ EVDEV_ABSOLUTE_MOTION) := by
        rcases hp with hp | hp <;> simp [hp]
      rw [hrun, if_neg hc]
      rfl
    · intro h1 h2 s1 hflush
      have hc : s.dev.pending_event ≠ EVDEV_NONE ∧
          s.dev.pending_event ≠ EVDEV_ABSOLUTE_MOTION := ⟨h1, h2⟩
      rw [hrun, if_pos hc, hflush]
      rfl
  · intro hmt
    rw [hkey, hmt]
    rfl

theorem btn_touch_sets_pending_witness :
    ∃ s1 : State,
      evdev_flush_pending_event single_touch_up_pending 6 = some s1 ∧
      fallback_process single_touch_up_pending (key_event BTN_TOUCH 1) 6 =
        some { s1 with dev := { s1.dev with pending_event := EVDEV_ABSOLUTE_TOUCH_DOWN } } :=
  ⟨_, rfl,
    ((btn_touch_sets_pending single_touch_up_pending 1 6 (Or.inr rfl)).1 rfl).2
      (by decide) (by decide) _ rfl⟩

/-! ## Suspend: release of the pressed keys -/

/-- A code whose ledger count is not positive is skipped. -/
theorem release_code_idle (time code fuel : Nat) (s : State)
    (h : ¬ (0 < s.dev.key_count code)) : release_code time code fuel s = some s := by
  cases fuel <;> simp [release_code, get_key_down_count, h]

/-- One release through `evdev_keyboard_notify_key` at count `n + 1`. -/
theorem keyboard_notify_key_release_eq (s : State) (time code n : Nat)
    (hcode : code < KEY_CNT) (hn : s.dev.key_count code = ((n + 1 : Nat) : Int)) :
    evdev_keyboard_notify_key s time code LIBINPUT_KEY_STATE_RELEASED =
      some (if n = 0 then released_key s time code
        else { s with dev := { s.dev with
          key_count := Function.update s.dev.key_count code (n : Int) } }) := by
  have hpos : 0 < s.dev.key_count code := by rw [hn]; omega
  have hsub : s.dev.key_count code - 1 = (n : Int) := by rw [hn]; omega
  unfold evdev_keyboard_notify_key update_key_down_count
  simp only [hcode, if_true, libinput_key_state.toInt, ne_eq, not_true_eq_false, if_false, hpos,
    hsub]
  by_cases h0 : n = 0
  · subst h0
    simp [released_key, State.post]
  · have : ¬ ((n : Int) = 0) := by omega
    simp [h0, this]

/-- The loop for a key-type code with a positive count within the fuel: the
count goes down to `0` and the release is notified once, by the last
iteration. -/
theorem release_code_key (time code : Nat) (hty : get_key_type code = EVDEV_KEY_TYPE_KEY)
    (hcode : code < KEY_CNT) :
    ∀ (n fuel : Nat) (s : State), s.dev.key_count code = ((n + 1 : Nat) : Int) → n + 1 ≤ fuel →
      release_code time code fuel s = some (released_key s time code) := by
  intro n
  induction n with
  | zero =>
    intro fuel s hn hf
    obtain ⟨f, rfl⟩ : ∃ f, fuel = f + 1 := ⟨fuel - 1, by omega⟩
    have hpos : 0 < s.dev.key_count code := by rw [hn]; omega
    have h1 := keyboard_notify_key_release_eq s time code 0 hcode hn
    simp only [if_true] at h1
    have hz : ¬ (0 < (released_key s time code).dev.key_count code) := by
      simp [released_key]
    simp only [release_code, get_key_down_count, hpos, if_true, hty, h1]
    exact release_code_idle time code f _ hz
  | succ n ih =>
    intro fuel s hn hf
    obtain ⟨f, rfl⟩ : ∃ f, fuel = f + 1 := ⟨fuel - 1, by omega⟩
    have hpos : 0 < s.dev.key_count code := by rw [hn]; omega
    have h1 := keyboard_notify_key_release_eq s time code (n + 1) hcode hn
    rw [if_neg (by omega)] at h1
    simp only [release_code, get_key_down_count, hpos, if_true, hty, h1]
    rw [ih f _ (by simp) (by omega)]
    simp [released_key]

/-- The loop over a list of distinct codes on which every positive count
belongs to a key-type code and is within the fuel: one release per code with
a positive count, in the order of the list; these counts end at `0`, and
nothing else changes. -/
theorem release_codes_keys (time fuel : Nat) :
    ∀ (L : List Nat), L.Nodup → ∀ s : State,
      (∀ c ∈ L, 0 < s.dev.key_count c →
        get_key_type c = EVDEV_KEY_TYPE_KEY ∧ c < KEY_CNT ∧ s.dev.key_count c ≤ (fuel : Int)) →
      ∃ s1 : State, release_codes time fuel L s = some s1 ∧
        s1.out = s.out ++
          (L.filter (fun c => decide (0 < s.dev.key_count c))).map
            (fun c => Notification.keyboard_key (time % 2 ^ 32) c LIBINPUT_KEY_STATE_RELEASED) ∧
        (∀ c, s1.dev.key_count c =
          if c ∈ L ∧ 0 < s.dev.key_count c then 0 else s.dev.key_count c) ∧
        { s1.dev with key_count := s.dev.key_count } = s.dev ∧
        s1.slot_map = s.slot_map := by
  intro L
  induction L with
  | nil =>
    intro _ s _
    exact ⟨s, rfl, by simp, by simp, rfl, rfl⟩
  | cons a rest ih =>
    intro hnd s hs
    have ha : a ∉ rest := (List.nodup_cons.1 hnd).1
    have hrest : rest.Nodup := (List.nodup_cons.1 hnd).2
    by_cases hpos : 0 < s.dev.key_count a
    · obtain ⟨hty, hcode, hfuel⟩ := hs a (List.mem_cons_self _ _) hpos
      obtain ⟨n, hn⟩ : ∃ n : Nat, s.dev.key_count a = ((n + 1 : Nat) : Int) :=
        ⟨(s.dev.key_count a).toNat - 1, by omega⟩
      have h1 := release_code_key time a hty hcode n fuel s hn (by omega)
      have hkc : ∀ c ∈ rest, (released_key s time a).dev.key_count c = s.dev.key_count c := by
        intro c hc
        have : c ≠ a := fun h => ha (h ▸ hc)
        simp [released_key, Function.update, this]
      obtain ⟨s1, hrun, hout, hcnt, hdev, hmap⟩ := ih hrest (released_key s time a) (by
        intro c hc hp
        rw [hkc c hc] at hp ⊢
        exact hs c (List.mem_cons_of_mem _ hc) hp)
      refine ⟨s1, ?_, ?_, ?_, ?_, hmap⟩
      · simp only [release_codes, h1]
        exact hrun
      · rw [hout, List.filter_cons_of_pos (by simpa using hpos)]
        have hf : rest.filter (fun c => decide (0 < (released_key s time a).dev.key_count c)) =
            rest.filter (fun c => decide (0 < s.dev.key_count c)) :=
          List.filter_congr (fun c hc => by rw [hkc c hc])
        rw [hf]
        simp [released_key]
      · intro c
        rw [hcnt c]
        by_cases hca : c = a
        · subst hca
          simp [released_key, ha, hpos]
        · have hk : (released_key s time a).dev.key_count c = s.dev.key_count c := by
            simp [released_key, Function.update, hca]
          simp [hk, hca]
      · exact congrArg (fun d : Device => { d with key_count := s.dev.key_count }) hdev
    · have h1 := release_code_idle time a fuel s hpos
      obtain ⟨s1, hrun, hout, hcnt, hdev, hmap⟩ := ih hrest s
        (fun c hc hp => hs c (List.mem_cons_of_mem _ hc) hp)
      refine ⟨s1, ?_, ?_, ?_, hdev, hmap⟩
      · simp only [release_codes, h1]
        exact hrun
      · rw [hout, List.filter_cons_of_neg (by simpa using hpos)]
      · intro c
        rw [hcnt c]
        by_cases hca : c = a
        · subst hca
          simp [hpos]
        · simp [hca]

/-- The codes below `N` with a positive count, in ascending order, when these
are exactly `c1 < c2`. -/
theorem filter_range_two (kc : Nat → Int) (N c1 c2 : Nat) (h12 : c1 < c2) (hc2 : c2 < N)
    (hp1 : 0 < kc c1) (hp2 : 0 < kc c2) (hz : ∀ c, c ≠ c1 → c ≠ c2 → ¬ (0 < kc c)) :
    (List.range N).filter (fun c => decide (0 < kc c)) = [c1, c2] := by
  have hs1 : ((List.range N).filter (fun c => decide (0 < kc c))).Sorted (· < ·) :=
    List.Pairwise.filter _ (List.sorted_lt_range N)
  have hs2 : [c1, c2].Sorted (· < ·) := by simp [List.Sorted, h12]
  have hperm : ((List.range N).filter (fun c => decide (0 < kc c))).Perm [c1, c2] := by
    rw [List.perm_ext_iff_of_nodup ((List.nodup_range N).filter _) (by simp [h12.ne])]
    intro c
    simp only [List.mem_filter, List.mem_range, decide_eq_true_eq, List.mem_cons,
      List.mem_singleton, List.not_mem_nil, or_false]
    constructor
    · rintro ⟨-, hc⟩
      by_contra hne
      push_neg at hne
      exact hz c hne.1 hne.2 hc
    · rintro (rfl | rfl)
      · exact ⟨by omega, hp1⟩
      · exact ⟨hc2, hp2⟩
  exact List.eq_of_perm_of_sorted hperm hs1 hs2

/-- C21: suspending a device on which exactly two codes `c1 < c2`, both of the
key type, have a positive ledger count, while the clock can be read (`now` is
not `0`) and the fuel covers both counts. `release_pressed_keys` returns,
having posted exactly the release of `c1` and then the release of `c2`, each
with the time `now` modulo `2 ^ 32` (the `uint32_t` parameter of
`evdev_keyboard_notify_key`), with both counts at `0`; it runs while the
handle is as it was, and `evdev_device_suspend` then closes the handle,
leaving that state. -/
theorem suspend_releases_two_keys (m : Managed) (now fuel c1 c2 : Nat)
    (hnow : now ≠ 0) (h12 : c1 < c2) (hc2 : c2 < KEY_CNT)
    (ht1 : get_key_type c1 = EVDEV_KEY_TYPE_KEY) (ht2 : get_key_type c2 = EVDEV_KEY_TYPE_KEY)
    (hp1 : 0 < m.st.dev.key_count c1) (hp2 : 0 < m.st.dev.key_count c2)
    (hf1 : m.st.dev.key_count c1 ≤ (fuel : Int)) (hf2 : m.st.dev.key_count c2 ≤ (fuel : Int))
    (hz : ∀ c, c ≠ c1 → c ≠ c2 → ¬ (0 < m.st.dev.key_count c)) :
    ∃ st3 : State,
      release_pressed_keys (suspend_detach m).st now fuel = some st3 ∧
      st3.out = m.st.out ++
        [Notification.keyboard_key (now % 2 ^ 32) c1 LIBINPUT_KEY_STATE_RELEASED,
         Notification.keyboard_key (now % 2 ^ 32) c2 LIBINPUT_KEY_STATE_RELEASED] ∧
      st3.dev.key_count c1 = 0 ∧ st3.dev.key_count c2 = 0 ∧
      (suspend_detach m).life.fd = m.life.fd ∧
      evdev_device_suspend m now fuel =
        some (suspend_close { suspend_detach m with st := st3 }) ∧
      (suspend_close { suspend_detach m with st := st3 }).st = st3 ∧
      (suspend_close { suspend_detach m with st := st3 }).life.fd = -1 := by
  have hst : (suspend_detach m).st = m.st := by
    unfold suspend_detach evdev_notify_suspended_device
    simp only []
    split_ifs <;> rfl
  have hfd : (suspend_detach m).life.fd = m.life.fd := by
    unfold suspend_detach evdev_notify_suspended_device
    simp only []
    split_ifs <;> rfl
  obtain ⟨st3, hrun, hout, hcnt, -, -⟩ := release_codes_keys now fuel (List.range KEY_CNT)
    (List.nodup_range _) m.st (by
      intro c hc hp
      by_cases h1 : c = c1
      · subst h1
        exact ⟨ht1, by omega, hf1⟩
      · by_cases h2 : c = c2
        · subst h2
          exact ⟨ht2, hc2, hf2⟩
        · exact absurd hp (hz c h1 h2))
  rw [filter_range_two _ _ c1 c2 h12 hc2 hp1 hp2 hz] at hout
  have hrel : release_pressed_keys (suspend_detach m).st now fuel = some st3 := by
    unfold release_pressed_keys
    rw [if_neg hnow, hst]
    exact hrun
  refine ⟨st3, hrel, by simpa using hout, ?_, ?_, hfd, ?_, ?_, ?_⟩
  · rw [hcnt c1, if_pos ⟨List.mem_range.2 (by omega), hp1⟩]
  · rw [hcnt c2, if_pos ⟨List.mem_range.2 hc2, hp2⟩]
  · unfold evdev_device_suspend
    simp only [hrel]
  · unfold suspend_close
    simp only []
    split_ifs <;> rfl
  · unfold suspend_close
    simp only []
    split_ifs with h1 h2 h3 <;> first | rfl | (simp only [ne_eq, not_not] at *; assumption)

theorem suspend_releases_two_keys_witness :
    ∃ st3 : State,
      release_pressed_keys (suspend_detach keyboard_two_down).st 4294968296 2 = some st3 ∧
      st3.out =
        [Notification.keyboard_key 1000 30 LIBINPUT_KEY_STATE_RELEASED,
         Notification.keyboard_key 1000 48 LIBINPUT_KEY_STATE_RELEASED] ∧
      st3.dev.key_count 30 = 0 ∧ st3.dev.key_count 48 = 0 ∧
      (suspend_detach keyboard_two_down).life.fd = 7 ∧
      evdev_device_suspend keyboard_two_down 4294968296 2 =
        some (suspend_close { suspend_detach keyboard_two_down with st := st3 }) ∧
      (suspend_close { suspend_detach keyboard_two_down with st := st3 }).life.fd = -1 := by
  obtain ⟨st3, h1, h2, h3, h4, h5, h6, -, h8⟩ :=
    suspend_releases_two_keys keyboard_two_down 4294968296 2 30 48 (by decide) (by decide)
      (by decide) (by decide) (by decide) (by decide) (by decide) (by decide) (by decide)
      (by
        intro c hc1 hc2
        simp [keyboard_two_down, hc1, hc2])
  exact ⟨st3, h1, by simpa [keyboard_two_down] using h2, h3, h4, h5, h6, h8⟩

/-- The loop over the codes `a, a + 1, ...` stops for good at the first code
whose loop does not return, when every code before it has no positive count. -/
theorem release_codes_stuck (time fuel code : Nat) (s : State)
    (hstuck : release_code time code fuel s = none) :
    ∀ (n a : Nat), a ≤ code → code < a + n →
      (∀ c, a ≤ c → c < code → ¬ (0 < s.dev.key_count c)) →
      release_codes time fuel (List.range' a n) s = none := by
  intro n
  induction n with
  | zero => intro a h1 h2; omega
  | succ n ih =>
    intro a h1 h2 hidle
    rw [List.range'_succ]
    by_cases hac : a = code
    · subst hac
      simp [release_codes, hstuck]
    · have h0 := release_code_idle time a fuel s (hidle a (le_refl _) (by omega))
      simp only [release_codes, h0]
      exact ih (a + 1) (by omega) (by omega) (fun c hc1 hc2 => hidle c (by omega) hc2)

/-- The loop for a button-type code with a positive count whose left-handed
image is another code with count `0`: the release of the image hits the
`assert` of the ledger, whatever the fuel. -/
theorem release_code_button_mismatch (time code fuel : Nat) (s : State)
    (hty : get_key_type code = EVDEV_KEY_TYPE_BUTTON) (hpos : 0 < s.dev.key_count code)
    (hzero : s.dev.key_count (evdev_to_left_handed s.dev code) = 0) :
    release_code time code fuel s = none := by
  cases fuel with
  | zero => simp [release_code, get_key_down_count, hpos]
  | succ f =>
    have hq : evdev_pointer_notify_button s time (evdev_to_left_handed s.dev code)
        LIBINPUT_BUTTON_STATE_RELEASED = none := by
      unfold evdev_pointer_notify_button update_key_down_count
      simp [libinput_button_state.toInt, hzero]
    simp only [release_code, get_key_down_count, hpos, if_true, hty, hq]

/-- C22 fails on the code: on a mouse with left-handed mode enabled the raw
press of `BTN_LEFT` is notified as `BTN_RIGHT` and counted in the ledger of
`BTN_RIGHT`. Suspending the device in this state with the clock readable does
not return, whatever the fuel: at code `BTN_RIGHT` `release_pressed_keys`
releases the left-handed image `BTN_LEFT`, whose count is `0`, and hits the
`assert` of `update_key_down_count`; the release of `BTN_RIGHT` is never
posted and its count stays `1`. -/
theorem suspend_left_handed_button_held_fails :
    fallback_process left_handed_mouse (key_event BTN_LEFT 1) 5 =
      some left_handed_mouse_held ∧
    left_handed_mouse_held.dev.key_count BTN_RIGHT = 1 ∧
    ∀ now fuel : Nat, now ≠ 0 →
      evdev_device_suspend
        { st := left_handed_mouse_held, life := { fd := 7, source := true } } now fuel =
        none := by
  refine ⟨?_, rfl, ?_⟩
  · simp [fallback_process, key_event, evdev_process_key, evdev_flush_pending_event,
      left_handed_mouse, left_handed_mouse_held, get_key_type, hw_is_key_down, hw_set_key_down,
      evdev_pointer_notify_button, update_key_down_count, evdev_to_left_handed,
      libinput_button_state.toInt, State.post, left_handed_hook, scroll_method_hook,
      EV_KEY, EV_REL, EV_ABS, BTN_LEFT, BTN_RIGHT, BTN_TOUCH, KEY_ESC, KEY_MICMUTE, BTN_MISC,
      BTN_GEAR_UP, KEY_CNT]
  · intro now fuel hnow
    have hstuck : release_code now BTN_RIGHT fuel left_handed_mouse_held = none :=
      release_code_button_mismatch now BTN_RIGHT fuel left_handed_mouse_held (by decide)
        (by decide) (by decide)
    have hcodes : release_codes now fuel (List.range KEY_CNT) left_handed_mouse_held = none := by
      rw [List.range_eq_range']
      refine release_codes_stuck now fuel BTN_RIGHT _ hstuck KEY_CNT 0 (by decide) (by decide) ?_
      intro c _ hc
      have hne : c ≠ BTN_RIGHT := by omega
      simp [left_handed_mouse_held, Function.update, hne]
    unfold evdev_device_suspend release_pressed_keys
    simp only [suspend_detach, evdev_notify_suspended_device, if_neg hnow]
    simp [hcodes]

/-! ## Suspend: what is left alone -/

theorem suspend_frame_refl (s : State) : suspend_frame s s :=
  ⟨rfl, rfl, rfl, rfl, rfl, rfl, [], by simp, by simp⟩

theorem suspend_frame_trans {s s1 s2 : State} (h1 : suspend_frame s s1)
    (h2 : suspend_frame s1 s2) : suspend_frame s s2 := by
  obtain ⟨a1, b1, c1, d1, e1, f1, l1, o1, k1⟩ := h1
  obtain ⟨a2, b2, c2, d2, e2, f2, l2, o2, k2⟩ := h2
  refine ⟨a2.trans a1, b2.trans b1, c2.trans c1, d2.trans d1, e2.trans e1, f2.trans f1,
    l1 ++ l2, by rw [o2, o1, List.append_assoc], ?_⟩
  intro n hn
  rcases List.mem_append.1 hn with h | h
  · exact k1 n h
  · exact k2 n h

theorem suspend_frame_keyboard_notify_key {s s1 : State} {time code : Nat}
    {state : libinput_key_state}
    (h : evdev_keyboard_notify_key s time code state = some s1) : suspend_frame s s1 := by
  unfold evdev_keyboard_notify_key update_key_down_count at h
  split at h
  · exact absurd h (by simp)
  · rename_i d cnt hupd
    have hd : d.pending_event = s.dev.pending_event ∧ d.scroll_timer = s.dev.scroll_timer ∧
        d.scroll_button_scroll_active = s.dev.scroll_button_scroll_active ∧
        d.rel_dx = s.dev.rel_dx ∧ d.rel_dy = s.dev.rel_dy := by
      split_ifs at hupd <;> simp only [Option.some.injEq, Prod.mk.injEq] at hupd <;>
        obtain ⟨rfl, -⟩ := hupd <;> exact ⟨rfl, rfl, rfl, rfl, rfl⟩
    obtain ⟨a, b, c, e, f⟩ := hd
    split_ifs at h <;> simp only [Option.some.injEq] at h <;> subst h
    · exact ⟨a, b, c, e, f, rfl, [_], rfl, by simp [Notification.is_key_or_button]⟩
    · exact ⟨a, b, c, e, f, rfl, [], by simp, by simp⟩

theorem suspend_frame_hooks (s : State) (state : libinput_button_state) :
    suspend_frame s (scroll_method_hook (left_handed_hook s state) state) := by
  unfold scroll_method_hook left_handed_hook evdev_change_scroll_method
    evdev_change_to_left_handed
  split_ifs <;> exact ⟨rfl, rfl, rfl, rfl, rfl, rfl, [], by simp, by simp⟩

theorem suspend_frame_pointer_notify_button {s s1 : State} {time code : Nat}
    {state : libinput_button_state}
    (h : evdev_pointer_notify_button s time code state = some s1) : suspend_frame s s1 := by
  unfold evdev_pointer_notify_button update_key_down_count at h
  split at h
  · exact absurd h (by simp)
  · rename_i d cnt hupd
    have hd : d.pending_event = s.dev.pending_event ∧ d.scroll_timer = s.dev.scroll_timer ∧
        d.scroll_button_scroll_active = s.dev.scroll_button_scroll_active ∧
        d.rel_dx = s.dev.rel_dx ∧ d.rel_dy = s.dev.rel_dy := by
      split_ifs at hupd <;> simp only [Option.some.injEq, Prod.mk.injEq] at hupd <;>
        obtain ⟨rfl, -⟩ := hupd <;> exact ⟨rfl, rfl, rfl, rfl, rfl⟩
    obtain ⟨a, b, c, e, f⟩ := hd
    split_ifs at h <;> simp only [Option.some.injEq] at h <;> subst h
    · refine suspend_frame_trans ?_ (suspend_frame_hooks _ _)
      exact ⟨a, b, c, e, f, rfl, [_], rfl, by simp [Notification.is_key_or_button]⟩
    · exact ⟨a, b, c, e, f, rfl, [], by simp, by simp⟩

theorem suspend_frame_release_code (time code : Nat) :
    ∀ (fuel : Nat) (s s1 : State), release_code time code fuel s = some s1 →
      suspend_frame s s1 := by
  intro fuel
  induction fuel with
  | zero =>
    intro s s1 h
    unfold release_code at h
    split_ifs at h
    simp only [Option.some.injEq] at h
    subst h
    exact suspend_frame_refl _
  | succ f ih =>
    intro s s1 h
    unfold release_code at h
    split_ifs at h
    · split at h
      · exact ih _ _ h
      · split at h
        · exact absurd h (by simp)
        · exact suspend_frame_trans (suspend_frame_keyboard_notify_key ‹_›) (ih _ _ h)
      · split at h
        · exact absurd h (by simp)
        · exact suspend_frame_trans (suspend_frame_pointer_notify_button ‹_›) (ih _ _ h)
    · simp only [Option.some.injEq] at h
      subst h
      exact suspend_frame_refl _

theorem suspend_frame_release_codes (time fuel : Nat) :
    ∀ (L : List Nat) (s s1 : State), release_codes time fuel L s = some s1 →
      suspend_frame s s1 := by
  intro L
  induction L with
  | nil =>
    intro s s1 h
    simp only [release_codes, Option.some.injEq] at h
    subst h
    exact suspend_frame_refl _
  | cons a rest ih =>
    intro s s1 h
    unfold release_codes at h
    split at h
    · exact absurd h (by simp)
    · exact suspend_frame_trans (suspend_frame_release_code time a fuel _ _ ‹_›) (ih _ _ h)

theorem suspend_frame_release_pressed_keys {s s1 : State} {now fuel : Nat}
    (h : release_pressed_keys s now fuel = some s1) : suspend_frame s s1 := by
  unfold release_pressed_keys at h
  split_ifs at h
  · simp only [Option.some.injEq] at h
    subst h
    exact suspend_frame_refl _
  · exact suspend_frame_release_codes now fuel _ _ _ h

/-- With no positive count on any code of the list the loop changes nothing. -/
theorem release_codes_idle (time fuel : Nat) (s : State) :
    ∀ L : List Nat, (∀ c ∈ L, ¬ (0 < s.dev.key_count c)) →
      release_codes time fuel L s = some s := by
  intro L
  induction L with
  | nil => intro _; rfl
  | cons a rest ih =>
    intro h
    have h1 := release_code_idle time a fuel s (h a (List.mem_cons_self _ _))
    simp only [release_codes, h1]
    exact ih (fun c hc => h c (List.mem_cons_of_mem _ hc))

theorem suspend_detach_st (m : Managed) : (suspend_detach m).st = m.st := by
  unfold suspend_detach evdev_notify_suspended_device
  simp only []
  split_ifs <;> rfl

theorem suspend_close_st (m : Managed) : (suspend_close m).st = m.st := by
  unfold suspend_close
  simp only []
  split_ifs <;> rfl

/-- C23, amended: `evdev_device_suspend` neither flushes the pending event nor
cancels the button-scroll timer. Whenever it returns, the pending kind, the
relative accumulators, the button-scroll timer and flag and the seat bitmap
are as before, and everything it has posted is a key or button notification:
no motion, touch or axis notification. It returns whenever every code with a
positive ledger count is of the key type with a count within the fuel. -/
theorem suspend_keeps_pending_and_timer (m : Managed) (now fuel : Nat) :
    (∀ m1 : Managed, evdev_device_suspend m now fuel = some m1 →
      m1.st.dev.pending_event = m.st.dev.pending_event ∧
      m1.st.dev.rel_dx = m.st.dev.rel_dx ∧ m1.st.dev.rel_dy = m.st.dev.rel_dy ∧
      m1.st.dev.scroll_timer = m.st.dev.scroll_timer ∧
      m1.st.dev.scroll_button_scroll_active = m.st.dev.scroll_button_scroll_active ∧
      m1.st.slot_map = m.st.slot_map ∧
      ∃ l : List Notification, m1.st.out = m.st.out ++ l ∧
        ∀ n ∈ l, n.is_key_or_button = true) ∧
    ((∀ c, c < KEY_CNT → 0 < m.st.dev.key_count c →
        get_key_type c = EVDEV_KEY_TYPE_KEY ∧ m.st.dev.key_count c ≤ (fuel : Int)) →
      ∃ m1 : Managed, evdev_device_suspend m now fuel = some m1) := by
  constructor
  · intro m1 h
    unfold evdev_device_suspend at h
    simp only [] at h
    split at h
    · exact absurd h (by simp)
    · rename_i st3 hrel
      simp only [Option.some.injEq] at h
      subst h
      rw [suspend_detach_st] at hrel
      obtain ⟨a, b, c, d, e, f, l, hl, hk⟩ := suspend_frame_release_pressed_keys hrel
      rw [suspend_close_st]
      exact ⟨a, d, e, b, c, f, l, hl, hk⟩
  · intro hkeys
    unfold evdev_device_suspend release_pressed_keys
    simp only [suspend_detach_st]
    by_cases hnow : now = 0
    · rw [if_pos hnow]
      exact ⟨_, rfl⟩
    · rw [if_neg hnow]
      obtain ⟨s1, hrun, -⟩ := release_codes_keys now fuel (List.range KEY_CNT)
        (List.nodup_range _) m.st (fun c hc hp =>
          ⟨(hkeys c (List.mem_range.1 hc) hp).1, List.mem_range.1 hc,
            (hkeys c (List.mem_range.1 hc) hp).2⟩)
      rw [hrun]
      exact ⟨_, rfl⟩

theorem suspend_keeps_pending_and_timer_witness :
    ∃ m1 : Managed, evdev_device_suspend keyboard_two_down 1000 2 = some m1 ∧
      m1.st.dev.pending_event = keyboard_two_down.st.dev.pending_event ∧
      m1.st.dev.scroll_timer = keyboard_two_down.st.dev.scroll_timer := by
  obtain ⟨m1, h⟩ := (suspend_keeps_pending_and_timer keyboard_two_down 1000 2).2 (by
    intro c _ hp
    by_cases h1 : c = 30
    · subst h1
      exact ⟨by decide, by decide⟩
    · by_cases h2 : c = 48
      · subst h2
        exact ⟨by decide, by decide⟩
      · simp [keyboard_two_down, h1, h2] at hp)
  obtain ⟨hp, -, -, ht, -⟩ := (suspend_keeps_pending_and_timer keyboard_two_down 1000 2).1 m1 h
  exact ⟨m1, h, hp, ht⟩

/-- C23 as stated fails on a mouse whose button-scroll timer is armed while a
relative motion is pending: `evdev_device_suspend` returns with the pending
kind still `EVDEV_RELATIVE_MOTION`, not `EVDEV_NONE`, and with the timer still
armed, so that its expiry sets `button_scroll_active`. -/
theorem suspend_pending_and_timer_counterexample :
    ∃ m1 : Managed, evdev_device_suspend button_scroll_armed 1000 0 = some m1 ∧
      m1.st.dev.pending_event = EVDEV_RELATIVE_MOTION ∧
      m1.st.dev.pending_event ≠ EVDEV_NONE ∧
      m1.st.dev.scroll_timer = some 200 ∧
      m1.st.dev.scroll_button_scroll_active = false ∧
      (evdev_button_scroll_timeout m1.st.dev).scroll_button_scroll_active = true := by
  have hrun : release_pressed_keys (suspend_detach button_scroll_armed).st 1000 0 =
      some button_scroll_armed.st := by
    rw [suspend_detach_st]
    unfold release_pressed_keys
    rw [if_neg (by decide)]
    exact release_codes_idle 1000 0 _ _ (fun c _ => by simp [button_scroll_armed, button_scroll_idle])
  refine ⟨suspend_close { suspend_detach button_scroll_armed with st := button_scroll_armed.st },
    ?_, ?_, ?_, ?_, ?_, ?_⟩
  · unfold evdev_device_suspend
    simp only [hrun]
  all_goals rw [suspend_close_st]
  · rfl
  · exact fun h => by cases h
  · rfl
  · rfl
  · rfl

/-! ## Resume -/

/-- C39: for every call of `evdev_notify_axis`, on a state after
`evdev_scroll_config_natural_set` with `0` the notification posted carries the
arguments of the call, and on the same state after
`evdev_scroll_config_natural_set` with a value that is not `0` it carries the
same time, axis mask and source and the negation of each of the deltas and
discrete values; in both cases exactly one notification is posted and the
device is left as it is. -/
theorem natural_scrolling_negates_axis (s : State) (enabled : Int) (time axes : Nat)
    (source : libinput_pointer_axis_source) (x y x_discrete y_discrete : ℚ) :
    (evdev_notify_axis { s with dev := evdev_scroll_config_natural_set s.dev 0 }
        time axes source x y x_discrete y_discrete).out =
      s.out ++ [Notification.pointer_axis time axes source x y x_discrete y_discrete] ∧
    (enabled ≠ 0 →
      (evdev_notify_axis { s with dev := evdev_scroll_config_natural_set s.dev enabled }
          time axes source x y x_discrete y_discrete).out =
        s.out ++
          [Notification.pointer_axis time axes source (-x) (-y) (-x_discrete) (-y_discrete)]) ∧
    (evdev_notify_axis s time axes source x y x_discrete y_discrete).dev = s.dev ∧
    (evdev_notify_axis s time axes source x y x_discrete y_discrete).out =
      s.out ++
        [if s.dev.scroll_natural_scrolling_enabled then
          Notification.pointer_axis time axes source (-x) (-y) (-x_discrete) (-y_discrete)
         else Notification.pointer_axis time axes source x y x_discrete y_discrete] := by
  refine ⟨?_, ?_, ?_, ?_⟩
  · simp [evdev_notify_axis, evdev_scroll_config_natural_set, State.post]
  · intro h
    simp [evdev_notify_axis, evdev_scroll_config_natural_set, State.post, h]
  · unfold evdev_notify_axis State.post
    split_ifs <;> rfl
  · unfold evdev_notify_axis State.post
    split_ifs <;> simp

theorem natural_scrolling_negates_axis_witness :
    (evdev_notify_axis { idle_state with dev := evdev_scroll_config_natural_set idle_state.dev 1 }
        3 1 LIBINPUT_POINTER_AXIS_SOURCE_WHEEL 0 15 0 1).out =
      idle_state.out ++
        [Notification.pointer_axis 3 1 LIBINPUT_POINTER_AXIS_SOURCE_WHEEL (-0) (-15) (-0) (-1)] :=
  (natural_scrolling_negates_axis idle_state 1 3 1 LIBINPUT_POINTER_AXIS_SOURCE_WHEEL
    0 15 0 1).2.1 (by decide)

/-! ## Key events: what `evdev_process_key` does after the flush -/

theorem get_key_type_key (c : Nat) (h : get_key_type c = EVDEV_KEY_TYPE_KEY) :
    c < KEY_CNT ∧ c ≠ BTN_TOUCH := by
  unfold get_key_type at h
  split_ifs at h with h1 h2 h3 h4 h5
  · exact ⟨by unfold KEY_CNT KEY_MICMUTE at *; omega, h1⟩
  · exact ⟨by unfold KEY_CNT KEY_LIGHTS_TOGGLE at *; omega, h1⟩

/-- A key-type code that is not ignored goes to `evdev_keyboard_notify_key`
after the flush, with its hardware bit updated. -/
theorem process_key_key {s s1 : State} {e : input_event} {time : Nat}
    (hv : e.value ≠ 2) (hty : get_key_type e.code = EVDEV_KEY_TYPE_KEY)
    (hf : evdev_flush_pending_event s time = some s1)
    (hgo : e.value ≠ 0 ∨ hw_is_key_down s1.dev e.code = true) :
    evdev_process_key s e time =
      evdev_keyboard_notify_key { s1 with dev := hw_set_key_down s1.dev e.code e.value } time
        e.code (if e.value ≠ 0 then LIBINPUT_KEY_STATE_PRESSED
          else LIBINPUT_KEY_STATE_RELEASED) := by
  have hne := (get_key_type_key e.code hty).2
  have hc : ¬ (e.value = 0 ∧ get_key_type e.code ≠ EVDEV_KEY_TYPE_NONE ∧
      (!hw_is_key_down s1.dev e.code) = true) := by
    rintro ⟨h0, -, hb⟩
    rcases hgo with h | h
    · exact h h0
    · rw [h] at hb
      exact absurd hb (by decide)
  unfold evdev_process_key
  rw [if_neg hv, if_neg hne, hf]
  simp only []
  rw [if_neg hc, hty]

/-- The release of a key- or button-type code whose hardware bit is clear
after the flush ends with the flush. -/
theorem process_key_release_ignored {s s1 : State} {e : input_event} {time : Nat}
    (hv : e.value = 0) (hty : get_key_type e.code ≠ EVDEV_KEY_TYPE_NONE)
    (hf : evdev_flush_pending_event s time = some s1)
    (hup : hw_is_key_down s1.dev e.code = false) :
    evdev_process_key s e time = some s1 := by
  have hne : e.code ≠ BTN_TOUCH := by
    intro hc
    apply hty
    simp [get_key_type, hc]
  have hv2 : e.value ≠ 2 := by rw [hv]; decide
  have hc : e.value = 0 ∧ get_key_type e.code ≠ EVDEV_KEY_TYPE_NONE ∧
      (!hw_is_key_down s1.dev e.code) = true := ⟨hv, hty, by rw [hup]; rfl⟩
  unfold evdev_process_key
  rw [if_neg hv2, if_neg hne, hf]
  simp only []
  rw [if_pos hc]

theorem flush_none {s : State} (time : Nat) (hp : s.dev.pending_event = EVDEV_NONE) :
    evdev_flush_pending_event s time = some s := by
  unfold evdev_flush_pending_event
  rw [hp]

/-- The press of a key-type code on a device with nothing pending. -/
theorem process_key_key_press (s : State) (c t : Nat)
    (hty : get_key_type c = EVDEV_KEY_TYPE_KEY) (hp : s.dev.pending_event = EVDEV_NONE) :
    evdev_process_key s (key_event c 1) t = some
      { dev := { s.dev with
          hw_key_mask := Function.update s.dev.hw_key_mask c true,
          key_count := Function.update s.dev.key_count c (s.dev.key_count c + 1) },
        slot_map := s.slot_map,
        out := if s.dev.key_count c = 0 then
            s.out ++ [Notification.keyboard_key (t % 2 ^ 32) c LIBINPUT_KEY_STATE_PRESSED]
          else s.out } := by
  have hcode := (get_key_type_key c hty).1
  have hty1 : get_key_type (key_event c 1).code = EVDEV_KEY_TYPE_KEY := hty
  have hv1 : (key_event c 1).value ≠ 2 := by norm_num [key_event]
  have hg1 : (key_event c 1).value ≠ 0 ∨
      hw_is_key_down s.dev (key_event c 1).code = true := Or.inl (by norm_num [key_event])
  rw [process_key_key hv1 hty1 (flush_none t hp) hg1]
  by_cases h0 : s.dev.key_count c = 0
  · simp [evdev_keyboard_notify_key, update_key_down_count, hcode, key_event, hw_set_key_down,
      h0, libinput_key_state.toInt, State.post]
  · simp [evdev_keyboard_notify_key, update_key_down_count, hcode, key_event, hw_set_key_down,
      h0, libinput_key_state.toInt, State.post]

/-- The release of a key-type code whose hardware bit is set and whose count
is positive, on a device with nothing pending. -/
theorem process_key_key_release (s : State) (c t : Nat)
    (hty : get_key_type c = EVDEV_KEY_TYPE_KEY) (hp : s.dev.pending_event = EVDEV_NONE)
    (hdown : hw_is_key_down s.dev c = true) (hpos : 0 < s.dev.key_count c) :
    evdev_process_key s (key_event c 0) t = some
      { dev := { s.dev with
          hw_key_mask := Function.update s.dev.hw_key_mask c false,
          key_count := Function.update s.dev.key_count c (s.dev.key_count c - 1) },
        slot_map := s.slot_map,
        out := if s.dev.key_count c = 1 then
            s.out ++ [Notification.keyboard_key (t % 2 ^ 32) c LIBINPUT_KEY_STATE_RELEASED]
          else s.out } := by
  have hcode := (get_key_type_key c hty).1
  have hty1 : get_key_type (key_event c 0).code = EVDEV_KEY_TYPE_KEY := hty
  have hv1 : (key_event c 0).value ≠ 2 := by norm_num [key_event]
  have hg1 : (key_event c 0).value ≠ 0 ∨
      hw_is_key_down s.dev (key_event c 0).code = true := Or.inr hdown
  rw [process_key_key hv1 hty1 (flush_none t hp) hg1]
  by_cases h1 : s.dev.key_count c = 1
  · simp [evdev_keyboard_notify_key, update_key_down_count, hcode, key_event, hw_set_key_down,
      h1, libinput_key_state.toInt, State.post]
  · have h2 : s.dev.key_count c - 1 ≠ 0 := by omega
    simp [evdev_keyboard_notify_key, update_key_down_count, hcode, key_event, hw_set_key_down,
      h1, h2, hpos, libinput_key_state.toInt, State.post]

/-- C34: on a device with nothing pending where a key-type code `c` has ledger
count `0` (as on a fresh device), `evdev_process_key` on press, press,
release, release of `c` returns each time; the first press posts the one
pressed notification, with the time of the event modulo `2 ^ 32` (the
`uint32_t` parameter of `evdev_keyboard_notify_key`), the second press and the
first release post nothing and leave the count at `2` and then at `1`, and the
second release finds the hardware bit clear and changes nothing: after the
four events exactly one notification was added, the pressed one, and the count
of `c` is `1`. -/
theorem duplicate_press_leaves_count_one (s : State) (c t1 t2 t3 t4 : Nat)
    (hty : get_key_type c = EVDEV_KEY_TYPE_KEY)
    (hp : s.dev.pending_event = EVDEV_NONE)
    (h0 : s.dev.key_count c = 0) :
    ∃ s1 s2 s3 : State,
      evdev_process_key s (key_event c 1) t1 = some s1 ∧
      evdev_process_key s1 (key_event c 1) t2 = some s2 ∧
      evdev_process_key s2 (key_event c 0) t3 = some s3 ∧
      evdev_process_key s3 (key_event c 0) t4 = some s3 ∧
      s1.out = s.out ++ [Notification.keyboard_key (t1 % 2 ^ 32) c LIBINPUT_KEY_STATE_PRESSED] ∧
      s2.out = s1.out ∧ s3.out = s1.out ∧
      s1.dev.key_count c = 1 ∧ s2.dev.key_count c = 2 ∧ s3.dev.key_count c = 1 ∧
      hw_is_key_down s2.dev c = true ∧ hw_is_key_down s3.dev c = false ∧
      (∀ c1, c1 ≠ c → s3.dev.key_count c1 = s.dev.key_count c1) := by
  obtain ⟨s1, e1, hp1, hk1, hm1, ho1, hr1⟩ : ∃ s1 : State,
      evdev_process_key s (key_event c 1) t1 = some s1 ∧
      s1.dev.pending_event = EVDEV_NONE ∧ s1.dev.key_count c = 1 ∧
      hw_is_key_down s1.dev c = true ∧
      s1.out = s.out ++ [Notification.keyboard_key (t1 % 2 ^ 32) c LIBINPUT_KEY_STATE_PRESSED] ∧
      ∀ c1, c1 ≠ c → s1.dev.key_count c1 = s.dev.key_count c1 :=
    ⟨_, process_key_key_press s c t1 hty hp, hp, by simp [h0], by simp [hw_is_key_down],
      by simp [h0], fun c1 h => by simp [h]⟩
  obtain ⟨s2, e2, hp2, hk2, hm2, ho2, hr2⟩ : ∃ s2 : State,
      evdev_process_key s1 (key_event c 1) t2 = some s2 ∧
      s2.dev.pending_event = EVDEV_NONE ∧ s2.dev.key_count c = 2 ∧
      hw_is_key_down s2.dev c = true ∧ s2.out = s1.out ∧
      ∀ c1, c1 ≠ c → s2.dev.key_count c1 = s1.dev.key_count c1 :=
    ⟨_, process_key_key_press s1 c t2 hty hp1, hp1, by simp [hk1], by simp [hw_is_key_down],
      by simp [hk1], fun c1 h => by simp [h]⟩
  obtain ⟨s3, e3, hp3, hk3, hm3, ho3, hr3⟩ : ∃ s3 : State,
      evdev_process_key s2 (key_event c 0) t3 = some s3 ∧
      s3.dev.pending_event = EVDEV_NONE ∧ s3.dev.key_count c = 1 ∧
      hw_is_key_down s3.dev c = false ∧ s3.out = s2.out ∧
      ∀ c1, c1 ≠ c → s3.dev.key_count c1 = s2.dev.key_count c1 :=
    ⟨_, process_key_key_release s2 c t3 hty hp2 hm2 (by rw [hk2]; decide), hp2,
      by simp [hk2], by simp [hw_is_key_down], by simp [hk2], fun c1 h => by simp [h]⟩
  have e4 : evdev_process_key s3 (key_event c 0) t4 = some s3 :=
    process_key_release_ignored (e := key_event c 0) rfl
      (by rw [show (key_event c 0).code = c from rfl, hty]; decide) (flush_none t4 hp3) hm3
  exact ⟨s1, s2, s3, e1, e2, e3, e4, ho1, ho2, ho3.trans ho2, hk1, hk2, hk3, hm2, hm3,
    fun c1 h => ((hr3 c1 h).trans (hr2 c1 h)).trans (hr1 c1 h)⟩

theorem duplicate_press_leaves_count_one_witness :
    ∃ s1 s2 s3 : State,
      evdev_process_key idle_state (key_event 30 1) 4294967297 = some s1 ∧
      evdev_process_key s1 (key_event 30 1) 2 = some s2 ∧
      evdev_process_key s2 (key_event 30 0) 3 = some s3 ∧
      evdev_process_key s3 (key_event 30 0) 4 = some s3 ∧
      s1.out = idle_state.out ++ [Notification.keyboard_key 1 30 LIBINPUT_KEY_STATE_PRESSED] ∧
      s2.out = s1.out ∧ s3.out = s1.out ∧
      s1.dev.key_count 30 = 1 ∧ s2.dev.key_count 30 = 2 ∧ s3.dev.key_count 30 = 1 ∧
      hw_is_key_down s2.dev 30 = true ∧ hw_is_key_down s3.dev 30 = false ∧
      (∀ c1, c1 ≠ 30 → s3.dev.key_count c1 = idle_state.dev.key_count c1) :=
  duplicate_press_leaves_count_one idle_state 30 4294967297 2 3 4 (by decide) rfl rfl

/-! ## A dropped touch-down still ends its frame -/

/-- The flush of a pending multitouch touch-down that is dropped, because the
active slot already holds an id or because all 32 seat slots are taken, only
resets the pending kind. -/
theorem flush_mt_down_dropped (s : State) (time : Nat) (sd : mt_slot)
    (hp : s.dev.pending_event = EVDEV_ABSOLUTE_MT_DOWN)
    (hsd : mt_slot_data s.dev = some sd)
    (hdrop : sd.seat_slot ≠ -1 ∨ ∀ i, i < 32 → s.slot_map.testBit i = true) :
    evdev_flush_pending_event s time = some s.clear_pending := by
  unfold evdev_flush_pending_event
  simp only [hp, flush_case_mt_down]
  by_cases hcap : s.dev.seat_caps &&& EVDEV_DEVICE_TOUCH = 0
  · rw [if_pos hcap]
  · rw [if_neg hcap]
    by_cases hne : sd.seat_slot ≠ -1
    · simp only [hsd, hne, ne_eq, not_false_eq_true, if_true]
    · rcases hdrop with h | hfull
      · exact absurd h hne
      · have hun : sd.seat_slot = -1 := not_not.1 hne
        have hffs := ffs_bnot32_full s.slot_map hfull
        simp only [hsd, hun, hffs, ne_eq, not_true_eq_false, if_false, if_true]
        have hsd1 : ({ sd with seat_slot := -1 } : mt_slot) = sd := by
          cases sd
          simp only [mt_slot.mk.injEq, and_true] at hun ⊢
          exact hun.symm
        rw [hsd1, mt_slot_store_self _ _ hsd]

/-- C37: on a touch-capable device with a multitouch touch-down pending on the
active slot, where the touch-down is dropped by the flush (the slot already
holds a seat-slot id, or it holds none and all 32 bits of the seat bitmap are
set), a frame terminator returns with exactly one notification posted, the
touch frame; the flush posts nothing, the pending kind is reset, and the
bitmap and the slot table are as before. -/
theorem dropped_touch_down_posts_frame (s : State) (e : input_event) (time : Nat)
    (sd : mt_slot) (he : e.type = EV_SYN)
    (hcap : s.dev.seat_caps &&& EVDEV_DEVICE_TOUCH ≠ 0)
    (hp : s.dev.pending_event = EVDEV_ABSOLUTE_MT_DOWN)
    (hsd : mt_slot_data s.dev = some sd)
    (hdrop : sd.seat_slot ≠ -1 ∨ ∀ i, i < 32 → s.slot_map.testBit i = true) :
    evdev_flush_pending_event s time = some s.clear_pending ∧
    s.clear_pending.out = s.out ∧
    fallback_process s e time = some (s.clear_pending.post (Notification.touch_frame time)) ∧
    (s.clear_pending.post (Notification.touch_frame time)).out =
      s.out ++ [Notification.touch_frame time] ∧
    (s.clear_pending.post (Notification.touch_frame time)).dev.pending_event = EVDEV_NONE ∧
    (s.clear_pending.post (Notification.touch_frame time)).slot_map = s.slot_map ∧
    (s.clear_pending.post (Notification.touch_frame time)).dev.mt_slots = s.dev.mt_slots := by
  have hf := flush_mt_down_dropped s time sd hp hsd hdrop
  refine ⟨hf, rfl, ?_, rfl, rfl, rfl, rfl⟩
  unfold fallback_process
  rw [he, if_neg (by decide), if_neg (by decide), if_neg (by decide), if_pos rfl]
  simp only [hf, evdev_need_touch_frame_eq, hp, touch_domain_kind, hcap, ne_eq,
    not_false_eq_true, decide_True, Bool.and_self, if_true]

theorem dropped_touch_down_posts_frame_witness :
    fallback_process seat_full_state syn_event 9 =
      some (seat_full_state.clear_pending.post (Notification.touch_frame 9)) :=
  (dropped_touch_down_posts_frame seat_full_state syn_event 9 { x := 10, y := 20 } rfl
    (by decide) rfl rfl (Or.inr (by
      intro i hi
      have h : ∀ j : Fin 32, (2 ^ 32 - 1 : Nat).testBit j.1 = true := by decide
      exact h ⟨i, hi⟩))).2.2.1

/-! ## Auxiliary axes: flushed before the primary notification -/

/-- What `evdev_flush_extra_aux_data` does when it returns: one notification
for each entry of the list of the slot that is marked changed, in the order of
the list, and the marks cleared. -/
theorem flush_extra_aux_data_spec {s s1 : State} {time : Nat} {slot seat_slot : Int}
    (h : evdev_flush_extra_aux_data s time slot seat_slot = some s1) :
    ∃ al, mt_aux_list s.dev slot = some al ∧
      s1.out = s.out ++ (al.filter (fun a => a.changed)).map
        (fun a => Notification.touch_aux_data time slot seat_slot a.code a.value) ∧
      mt_aux_list s1.dev slot = some (al.map (fun a => { a with changed := false })) ∧
      s1.slot_map = s.slot_map ∧ s1.dev.mt_slots = s.dev.mt_slots ∧
      s1.dev.mt_slot = s.dev.mt_slot := by
  unfold evdev_flush_extra_aux_data at h
  cases hal : mt_aux_list s.dev slot with
  | none => rw [hal] at h; exact absurd h (by simp)
  | some al =>
    rw [hal] at h
    simp only [Option.some.injEq] at h
    subst h
    refine ⟨al, rfl, rfl, ?_, rfl, rfl, rfl⟩
    have hmap : al.map (fun a => if a.changed then { a with changed := false } else a) =
        al.map (fun a => { a with changed := false }) := by
      apply List.map_congr_left
      intro a _
      by_cases hc : a.changed = true
      · rw [if_pos hc]
      · rw [if_neg hc]
        cases a
        simp only [Bool.not_eq_true] at hc
        simp only [mt_aux_data.mk.injEq, true_and, and_true]
        exact hc
    simp only [hmap]
    unfold mt_aux_list at hal ⊢
    unfold mt_aux_list_store
    cases hl : s.dev.mt_aux_data_list with
    | none => rw [hl] at hal; exact absurd hal (by simp)
    | some lists =>
      rw [hl] at hal
      simp only at hal
      split_ifs at hal with h0
      have hlt : slot.toNat < lists.length := by
        by_contra hge
        rw [List.getElem?_eq_none (by omega)] at hal
        simp at hal
      simp [h0, List.getElem?_set, hlt]
/-- A list that holds no entry with the code, or whose first entry with the
code holds the value already, is left as it is by the update loop. -/
theorem aux_data_update_same (al : List mt_aux_data) (code : Nat) (value : Int)
    (h : ∀ a, al.find? (fun a => decide (a.code = code)) = some a → a.value = value) :
    (aux_data_update al code value).1 = al := by
  induction al with
  | nil => rfl
  | cons a rest ih =>
    unfold aux_data_update
    by_cases hc : a.code = code
    · have hv : a.value = value := h a (by simp [List.find?, hc])
      simp [hc, hv]
    · have ih1 := ih (fun b hb => h b (by simp [List.find?, hc, hb]))
      simp [hc, ih1]

/-- An auxiliary axis event that repeats the stored value leaves the device as
it is. -/
theorem process_touch_extra_aux_data_same (d : Device) (e : input_event)
    (al : List mt_aux_data) (hal : mt_aux_list d d.mt_slot = some al)
    (h : ∀ a, al.find? (fun a => decide (a.code = e.code)) = some a → a.value = e.value) :
    ∃ b, evdev_process_touch_extra_aux_data d e = some (d, b) := by
  unfold evdev_process_touch_extra_aux_data
  have hal0 := hal
  unfold mt_aux_list at hal
  cases hl : d.mt_aux_data_list with
  | none => rw [hl] at hal; exact absurd hal (by simp)
  | some lists =>
    rw [hl] at hal
    simp only at hal
    split_ifs at hal with h0
    simp only [hal0]
    by_cases hem : al.isEmpty = true
    · exact ⟨false, by rw [if_pos hem]⟩
    · have hst : mt_aux_list_store d d.mt_slot al = d := by
        unfold mt_aux_list_store
        rw [hl]
        simp only [Option.map_some']
        rw [list_set_getElem?_self _ _ _ hal, ← hl]
      rw [if_neg hem, aux_data_update_same al e.code e.value h, hst]
      exact ⟨_, rfl⟩

/-- The update loop on a list whose first entry with the code holds another
value: that entry takes the value and is marked changed, every other entry is
left as it is, and the result is `true`. -/
theorem aux_data_update_store (pre post : List mt_aux_data) (a : mt_aux_data) (code : Nat)
    (value : Int) (hpre : ∀ b ∈ pre, b.code ≠ code) (hc : a.code = code)
    (hv : a.value ≠ value) :
    aux_data_update (pre ++ a :: post) code value =
      (pre ++ { a with changed := true, value := value } :: post, true) := by
  induction pre with
  | nil =>
    show aux_data_update (a :: post) code value = _
    unfold aux_data_update
    rw [if_pos hc, if_pos hv]
    rfl
  | cons b rest ih =>
    show aux_data_update (b :: (rest ++ a :: post)) code value = _
    unfold aux_data_update
    rw [if_neg (hpre b (List.mem_cons_self _ _))]
    simp only []
    rw [ih (fun x hx => hpre x (List.mem_cons_of_mem _ hx))]
    rfl

/-- An auxiliary axis event whose value differs from the one stored in the
first entry with its code: the value is stored in that entry of the list of
the active slot, the entry is marked changed, and the result is `true`. -/
theorem process_touch_extra_aux_data_store (d : Device) (e : input_event)
    (pre post : List mt_aux_data) (a : mt_aux_data)
    (hal : mt_aux_list d d.mt_slot = some (pre ++ a :: post))
    (hpre : ∀ b ∈ pre, b.code ≠ e.code) (hc : a.code = e.code) (hv : a.value ≠ e.value) :
    ∃ d1 : Device, evdev_process_touch_extra_aux_data d e = some (d1, true) ∧
      d1 = mt_aux_list_store d d.mt_slot
        (pre ++ { a with changed := true, value := e.value } :: post) ∧
      mt_aux_list d1 d1.mt_slot =
        some (pre ++ { a with changed := true, value := e.value } :: post) := by
  refine ⟨_, ?_, rfl, ?_⟩
  · unfold evdev_process_touch_extra_aux_data
    have hal0 := hal
    unfold mt_aux_list at hal
    cases hl : d.mt_aux_data_list with
    | none => rw [hl] at hal; exact absurd hal (by simp)
    | some lists =>
      simp only [hal0]
      rw [if_neg (by simp), aux_data_update_store pre post a e.code e.value hpre hc hv]
  · unfold mt_aux_list at hal ⊢
    unfold mt_aux_list_store
    cases hl : d.mt_aux_data_list with
    | none => rw [hl] at hal; exact absurd hal (by simp)
    | some lists =>
      rw [hl] at hal
      simp only [Option.map_some'] at hal ⊢
      by_cases h0 : 0 ≤ d.mt_slot
      · rw [if_pos h0] at hal ⊢
        have hlt : d.mt_slot.toNat < lists.length := by
          by_contra hge
          rw [List.getElem?_eq_none (by omega)] at hal
          simp at hal
        simp [List.getElem?_set, hlt]
      · rw [if_neg h0] at hal
        exact absurd hal (by simp)

/-- The tail of the three multitouch cases of the flush: the auxiliary axes
of the slot are flushed, then the primary notification is posted and the
pending kind reset. -/
theorem aux_post_result {s s2 s3 : State} {time : Nat} {slot k : Int}
    (hq : evdev_flush_extra_aux_data s2 time slot k = some s3) (n : Notification)
    (hn : n.is_touch = true) (hout2 : s2.out = s.out)
    (hal2 : mt_aux_list s2.dev slot = mt_aux_list s.dev slot) :
    ∃ (al : List mt_aux_data) (n1 : Notification) (k1 : Int),
      mt_aux_list s.dev slot = some al ∧ n1.is_touch = true ∧
      (s3.post n).clear_pending.out = s.out ++ (al.filter (fun a => a.changed)).map
        (fun a => Notification.touch_aux_data time slot k1 a.code a.value) ++ [n1] ∧
      mt_aux_list (s3.post n).clear_pending.dev slot =
        some (al.map (fun a => { a with changed := false })) ∧
      ∀ a ∈ al.map (fun a => ({ a with changed := false } : mt_aux_data)),
        a.changed = false := by
  obtain ⟨al, hal, hout, hal1, -, -, -⟩ := flush_extra_aux_data_spec hq
  refine ⟨al, n, k, hal2 ▸ hal, hn, ?_, hal1, ?_⟩
  · show s3.out ++ [n] = _
    rw [hout, hout2]
  · intro a ha
    obtain ⟨b, -, rfl⟩ := List.mem_map.1 ha
    rfl

/-- C31: when the flush of a pending multitouch kind (touch down, motion or up
on the active slot) returns, either it posted nothing, or it posted, after
what was there before, one auxiliary-axis notification for each entry of the
list of the active slot that was marked changed, in the order of the list and
with the code and value of the entry, and then one touch down, motion or up
notification as the last one; in the second case the list of the active slot
afterwards is the list before with no entry marked changed. An auxiliary axis
event whose value is the one stored in the first entry with its code (or
whose code has no entry) leaves the device and so every mark as it is. An
auxiliary axis event whose value differs from the one stored in the first
entry with its code returns `true` and stores the value in that entry of the
list of the active slot and marks it changed, every other entry being left as
it is: the value notified by the next flush is the latest one. -/
theorem aux_axes_flushed_before_primary (s s1 : State) (time : Nat)
    (hkind : s.dev.pending_event = EVDEV_ABSOLUTE_MT_DOWN ∨
      s.dev.pending_event = EVDEV_ABSOLUTE_MT_MOTION ∨
      s.dev.pending_event = EVDEV_ABSOLUTE_MT_UP)
    (hf : evdev_flush_pending_event s time = some s1) :
    (s1.out = s.out ∨
      ∃ (al : List mt_aux_data) (n : Notification) (k : Int),
        mt_aux_list s.dev s.dev.mt_slot = some al ∧ n.is_touch = true ∧
        s1.out = s.out ++ (al.filter (fun a => a.changed)).map
          (fun a => Notification.touch_aux_data time s.dev.mt_slot k a.code a.value) ++ [n] ∧
        mt_aux_list s1.dev s.dev.mt_slot =
          some (al.map (fun a => { a with changed := false })) ∧
        ∀ a ∈ al.map (fun a => ({ a with changed := false } : mt_aux_data)),
          a.changed = false) ∧
    (∀ (d : Device) (e : input_event) (al : List mt_aux_data),
      mt_aux_list d d.mt_slot = some al →
      (∀ a, al.find? (fun a => decide (a.code = e.code)) = some a → a.value = e.value) →
      ∃ b, evdev_process_touch_extra_aux_data d e = some (d, b)) ∧
    (∀ (d : Device) (e : input_event) (pre post : List mt_aux_data) (a : mt_aux_data),
      mt_aux_list d d.mt_slot = some (pre ++ a :: post) →
      (∀ b ∈ pre, b.code ≠ e.code) → a.code = e.code → a.value ≠ e.value →
      ∃ d1 : Device, evdev_process_touch_extra_aux_data d e = some (d1, true) ∧
        d1 = mt_aux_list_store d d.mt_slot
          (pre ++ { a with changed := true, value := e.value } :: post) ∧
        mt_aux_list d1 d1.mt_slot =
          some (pre ++ { a with changed := true, value := e.value } :: post)) := by
  refine ⟨?_, process_touch_extra_aux_data_same, process_touch_extra_aux_data_store⟩
  unfold evdev_flush_pending_event at hf
  rcases hkind with hp | hp | hp
  · rw [hp] at hf
    simp only [flush_case_mt_down] at hf
    by_cases hcap : s.dev.seat_caps &&& EVDEV_DEVICE_TOUCH = 0
    · rw [if_pos hcap, Option.some.injEq] at hf
      subst hf
      exact Or.inl rfl
    · rw [if_neg hcap] at hf
      cases hsd : mt_slot_data s.dev with
      | none => rw [hsd] at hf; exact absurd hf (by simp)
      | some sd =>
        rw [hsd] at hf
        simp only at hf
        by_cases h1 : sd.seat_slot ≠ -1
        · rw [if_pos h1, Option.some.injEq] at hf
          subst hf
          exact Or.inl rfl
        · rw [if_neg h1] at hf
          by_cases h2 : ((ffs (bnot32 s.slot_map) : Nat) : Int) - 1 = -1
          · rw [if_pos h2, Option.some.injEq] at hf
            subst hf
            exact Or.inl rfl
          · rw [if_neg h2] at hf
            generalize hq : evdev_flush_extra_aux_data _ time s.dev.mt_slot _ = q at hf
            cases q with
            | none => exact absurd hf (by simp)
            | some s3 =>
              simp only [Option.some.injEq] at hf
              subst hf
              exact Or.inr (aux_post_result hq _ rfl rfl rfl)
  · rw [hp] at hf
    simp only [flush_case_mt_motion] at hf
    by_cases hcap : s.dev.seat_caps &&& EVDEV_DEVICE_TOUCH = 0
    · rw [if_pos hcap, Option.some.injEq] at hf
      subst hf
      exact Or.inl rfl
    · rw [if_neg hcap] at hf
      cases hsd : mt_slot_data s.dev with
      | none => rw [hsd] at hf; exact absurd hf (by simp)
      | some sd =>
        rw [hsd] at hf
        simp only at hf
        by_cases h1 : sd.seat_slot = -1
        · rw [if_pos h1, Option.some.injEq] at hf
          subst hf
          exact Or.inl rfl
        · rw [if_neg h1] at hf
          generalize hq : evdev_flush_extra_aux_data _ time s.dev.mt_slot _ = q at hf
          cases q with
          | none => exact absurd hf (by simp)
          | some s3 =>
            simp only [Option.some.injEq] at hf
            subst hf
            exact Or.inr (aux_post_result hq _ rfl rfl rfl)
  · rw [hp] at hf
    simp only [flush_case_mt_up] at hf
    by_cases hcap : s.dev.seat_caps &&& EVDEV_DEVICE_TOUCH = 0
    · rw [if_pos hcap, Option.some.injEq] at hf
      subst hf
      exact Or.inl rfl
    · rw [if_neg hcap] at hf
      cases hsd : mt_slot_data s.dev with
      | none => rw [hsd] at hf; exact absurd hf (by simp)
      | some sd =>
        rw [hsd] at hf
        simp only at hf
        by_cases h1 : sd.seat_slot = -1
        · rw [if_pos h1, Option.some.injEq] at hf
          subst hf
          exact Or.inl rfl
        · rw [if_neg h1] at hf
          generalize hm : slot_map_clear _ _ = qm at hf
          cases qm with
          | none => exact absurd hf (by simp)
          | some m =>
            simp only at hf
            generalize hq : evdev_flush_extra_aux_data _ time s.dev.mt_slot _ = q at hf
            cases q with
            | none => exact absurd hf (by simp)
            | some s3 =>
              simp only [Option.some.injEq] at hf
              subst hf
              exact Or.inr (aux_post_result hq _ rfl rfl rfl)
theorem aux_axes_flushed_before_primary_witness :
    evdev_flush_pending_event touchscreen_aux_pending 5 = some touchscreen_aux_flushed ∧
    (touchscreen_aux_flushed.out = touchscreen_aux_pending.out ∨
      ∃ (al : List mt_aux_data) (n : Notification) (k : Int),
        mt_aux_list touchscreen_aux_pending.dev touchscreen_aux_pending.dev.mt_slot = some al ∧
        n.is_touch = true ∧
        touchscreen_aux_flushed.out = touchscreen_aux_pending.out ++
          (al.filter (fun a => a.changed)).map
            (fun a => Notification.touch_aux_data 5 touchscreen_aux_pending.dev.mt_slot k
              a.code a.value) ++ [n] ∧
        mt_aux_list touchscreen_aux_flushed.dev touchscreen_aux_pending.dev.mt_slot =
          some (al.map (fun a => { a with changed := false })) ∧
        ∀ a ∈ al.map (fun a => ({ a with changed := false } : mt_aux_data)),
          a.changed = false) ∧
    ∃ d1 : Device,
      evdev_process_touch_extra_aux_data touchscreen_aux_flushed.dev
        { type := EV_ABS, code := ABS_MT_PRESSURE, value := 60 } = some (d1, true) ∧
      mt_aux_list d1 d1.mt_slot =
        some [{ code := ABS_MT_PRESSURE, value := 60, changed := true },
          { code := 0x3b, value := 7 }] := by
  have h := aux_axes_flushed_before_primary touchscreen_aux_pending touchscreen_aux_flushed 5
    (Or.inr (Or.inl rfl)) rfl
  obtain ⟨d1, e1, -, l1⟩ := h.2.2 touchscreen_aux_flushed.dev
    { type := EV_ABS, code := ABS_MT_PRESSURE, value := 60 } []
    [{ code := 0x3b, value := 7 }] { code := ABS_MT_PRESSURE, value := 50 } rfl
    (fun b hb => absurd hb (List.not_mem_nil b)) rfl (by decide)
  exact ⟨rfl, h.1, d1, e1, l1⟩

/-! ## One frame with a tracking id and positions -/

theorem positions_written_seat_slot (sd : mt_slot) (ps : List input_event) :
    (positions_written sd ps).seat_slot = sd.seat_slot ∧
    (positions_written sd ps).area = sd.area ∧
    (positions_written sd ps).pressure = sd.pressure := by
  induction ps generalizing sd with
  | nil => exact ⟨rfl, rfl, rfl⟩
  | cons e rest ih =>
    unfold positions_written
    rw [List.foldl_cons]
    have h := ih (if e.code = ABS_MT_POSITION_X then { sd with x := e.value }
      else if e.code = ABS_MT_POSITION_Y then { sd with y := e.value } else sd)
    unfold positions_written at h
    refine ⟨h.1.trans ?_, h.2.1.trans ?_, h.2.2.trans ?_⟩ <;> split_ifs <;> rfl

/-- One position event on a multitouch device: the value is written into the
active slot and a motion is made pending when nothing was. -/
theorem position_step (s : State) (sd : mt_slot) (e : input_event)
    (hmt : s.dev.is_mt = true) (hsd : mt_slot_data s.dev = some sd)
    (hpos : is_position_event e = true) :
    evdev_process_event s e =
      some { s with dev := wake_mt_motion (mt_slot_store s.dev (positions_written sd [e])) true } := by
  unfold is_position_event at hpos
  simp only [Bool.and_eq_true, Bool.or_eq_true, decide_eq_true_eq] at hpos
  obtain ⟨ht, hc⟩ := hpos
  unfold evdev_process_event fallback_process
  rw [ht, if_neg (by decide), if_pos rfl]
  unfold evdev_process_absolute
  rw [if_pos hmt]
  unfold evdev_process_touch
  rcases hc with hc | hc
  · rw [hc, if_neg (by decide), if_neg (by decide)]
    simp only [if_true, mt_slot_modify, hsd, Option.map_some', positions_written,
      List.foldl_cons, List.foldl_nil, hc]
  · rw [hc, if_neg (by decide), if_neg (by decide)]
    simp only [(by decide : ¬ (ABS_MT_POSITION_Y = ABS_MT_POSITION_X)), if_false, if_true,
      mt_slot_modify, hsd, Option.map_some', positions_written, List.foldl_cons,
      List.foldl_nil, hc]

theorem slot_written_refl (s : State) (sd : mt_slot) (hsd : mt_slot_data s.dev = some sd) :
    slot_written s s sd := by
  refine ⟨?_, rfl, rfl⟩
  unfold mt_slot_data at hsd
  split_ifs at hsd
  rw [list_set_getElem?_self _ _ _ hsd]

/-- A run of position events on a multitouch device. -/
theorem positions_run (ps : List input_event) :
    ∀ (s : State) (sd : mt_slot), s.dev.is_mt = true → mt_slot_data s.dev = some sd →
      (∀ e ∈ ps, is_position_event e = true) →
      ∃ s1, process_events s ps = some s1 ∧ slot_written s s1 (positions_written sd ps) ∧
        s1.dev.pending_event =
          (if ps = [] then s.dev.pending_event
           else if s.dev.pending_event = EVDEV_NONE then EVDEV_ABSOLUTE_MT_MOTION
           else s.dev.pending_event) := by
  induction ps with
  | nil =>
    intro s sd _ hsd _
    exact ⟨s, rfl, slot_written_refl s sd hsd, rfl⟩
  | cons e rest ih =>
    intro s sd hmt hsd hps
    have hstep := position_step s sd e hmt hsd (hps e (List.mem_cons_self _ _))
    have hmt1 : (wake_mt_motion (mt_slot_store s.dev (positions_written sd [e])) true).is_mt =
        true := by
      unfold wake_mt_motion
      split_ifs <;> exact hmt
    have hsd1 : mt_slot_data (wake_mt_motion (mt_slot_store s.dev (positions_written sd [e]))
        true) = some (positions_written sd [e]) := by
      rw [← mt_slot_data_store s.dev sd (positions_written sd [e]) hsd]
      unfold wake_mt_motion
      split_ifs <;> rfl
    obtain ⟨s1, h1, hw, hp1⟩ := ih
      { s with dev := wake_mt_motion (mt_slot_store s.dev (positions_written sd [e])) true }
      (positions_written sd [e]) hmt1 hsd1 (fun e1 h => hps e1 (List.mem_cons_of_mem _ h))
    refine ⟨s1, ?_, ?_, ?_⟩
    · unfold process_events
      rw [hstep]
      exact h1
    · obtain ⟨hd, hm, ho⟩ := hw
      refine ⟨?_, hm, ho⟩
      rw [hd]
      have hfold : positions_written (positions_written sd [e]) rest =
          positions_written sd (e :: rest) := rfl
      rw [hfold]
      unfold wake_mt_motion
      split_ifs <;> simp [mt_slot_store, List.set_set]
    · rw [hp1, if_neg (List.cons_ne_nil _ _)]
      simp only [wake_mt_motion, mt_slot_store, true_and]
      by_cases h0 : s.dev.pending_event = EVDEV_NONE
      · rw [if_pos h0, if_pos h0]
        split_ifs <;> rfl
      · rw [if_neg h0, if_neg h0]
        split_ifs <;> rfl
/-- What a state with a slot written shares with the state it comes from. -/
theorem slot_written_facts {s s1 : State} {w sd : mt_slot} (h : slot_written s s1 w)
    (hsd : mt_slot_data s.dev = some sd) :
    s1.dev.is_mt = s.dev.is_mt ∧ s1.dev.seat_caps = s.dev.seat_caps ∧
    s1.dev.mt_slot = s.dev.mt_slot ∧
    mt_aux_list s1.dev s1.dev.mt_slot = mt_aux_list s.dev s.dev.mt_slot ∧
    (∀ x y, transform_absolute s1.dev x y = transform_absolute s.dev x y) ∧
    mt_slot_data s1.dev = some w := by
  obtain ⟨hd, -, -⟩ := h
  have hdata := mt_slot_data_store s.dev sd w hsd
  refine ⟨?_, ?_, ?_, ?_, ?_, ?_⟩
  · rw [hd]
  · rw [hd]
  · rw [hd]
  · rw [hd]
    rfl
  · intro x y
    rw [hd]
    rfl
  · rw [← hdata, hd]
    rfl

theorem slot_written_pending {s s1 : State} {w : mt_slot} (h : slot_written s s1 w)
    (p : evdev_event_type) :
    slot_written s { s1 with dev := { s1.dev with pending_event := p } } w := by
  obtain ⟨hd, hm, ho⟩ := h
  refine ⟨?_, hm, ho⟩
  show ({ s1.dev with pending_event := p } : Device) = _
  rw [hd]

theorem slot_written_trans {s s1 s2 : State} {w w2 : mt_slot} (h : slot_written s s1 w)
    (h2 : slot_written s1 s2 w2) : slot_written s s2 w2 := by
  obtain ⟨hd, hm, ho⟩ := h
  obtain ⟨hd2, hm2, ho2⟩ := h2
  refine ⟨?_, hm2.trans hm, ho2.trans ho⟩
  rw [hd2, hd]
  simp [List.set_set]

/-- A tracking id that is not negative, while nothing or a multitouch motion
is pending: the pending kind becomes `EVDEV_ABSOLUTE_MT_DOWN` without a flush. -/
theorem tracking_id_step (s : State) (e : input_event) (hmt : s.dev.is_mt = true)
    (hp : s.dev.pending_event = EVDEV_NONE ∨ s.dev.pending_event = EVDEV_ABSOLUTE_MT_MOTION)
    (ht : e.type = EV_ABS) (hc : e.code = ABS_MT_TRACKING_ID) (hv : 0 ≤ e.value) :
    evdev_process_event s e =
      some { s with dev := { s.dev with pending_event := EVDEV_ABSOLUTE_MT_DOWN } } := by
  have hcond : ¬ (s.dev.pending_event ≠ EVDEV_NONE ∧
      s.dev.pending_event ≠ EVDEV_ABSOLUTE_MT_MOTION) := by
    rintro ⟨h1, h2⟩
    rcases hp with h | h
    · exact h1 h
    · exact h2 h
  have hv1 : e.value ≥ 0 := hv
  unfold evdev_process_event fallback_process
  rw [ht, if_neg (by decide), if_pos rfl]
  unfold evdev_process_absolute
  rw [if_pos hmt]
  unfold evdev_process_touch
  rw [hc, if_neg (by decide), if_pos rfl, if_neg hcond]
  simp only [hv1, if_true]
/-- C36: on a multitouch touchscreen with nothing pending, whose active slot
holds no seat-slot id and whose seat has a free seat slot `k`, a frame made of
position events `ps1`, a tracking id that is not negative, position events
`ps2` and the frame terminator is processed to the end: after the tracking id
and any number of position events the pending kind is `EVDEV_ABSOLUTE_MT_DOWN`
and nothing was posted, and at the terminator the frame posts the changed
auxiliary axes, one touch down and the touch frame, and no touch motion. The
touch down carries the calibrated position of the slot after all position
events of the frame, those before the tracking id included, were written. -/
theorem frame_with_tracking_id_posts_one_touch_down (s : State) (sd : mt_slot)
    (al : List mt_aux_data) (k : Nat) (track syn_ev : input_event)
    (ps1 ps2 : List input_event)
    (hmt : s.dev.is_mt = true) (hcap : s.dev.seat_caps &&& EVDEV_DEVICE_TOUCH ≠ 0)
    (hp : s.dev.pending_event = EVDEV_NONE)
    (hsd : mt_slot_data s.dev = some sd) (hun : sd.seat_slot = -1)
    (hal : mt_aux_list s.dev s.dev.mt_slot = some al)
    (hk : ((ffs (bnot32 s.slot_map) : Nat) : Int) - 1 = (k : Int))
    (ht : track.type = EV_ABS) (hc : track.code = ABS_MT_TRACKING_ID) (hv : 0 ≤ track.value)
    (hsyn : syn_ev.type = EV_SYN)
    (hps1 : ∀ e ∈ ps1, is_position_event e = true)
    (hps2 : ∀ e ∈ ps2, is_position_event e = true) :
    ∃ s1 s2 : State,
      process_events s (ps1 ++ [track] ++ ps2) = some s1 ∧
      s1.dev.pending_event = EVDEV_ABSOLUTE_MT_DOWN ∧ s1.out = s.out ∧
      mt_slot_data s1.dev = some (positions_written sd (ps1 ++ ps2)) ∧
      process_events s (ps1 ++ [track] ++ ps2 ++ [syn_ev]) = some s2 ∧
      s2.out = s.out ++
        (al.filter (fun a => a.changed)).map
          (fun a => Notification.touch_aux_data (event_time syn_ev) s.dev.mt_slot (k : Int)
            a.code a.value) ++
        [Notification.touch_down (event_time syn_ev) s.dev.mt_slot (k : Int)
          (transform_absolute s.dev (positions_written sd (ps1 ++ ps2)).x
            (positions_written sd (ps1 ++ ps2)).y).1
          (transform_absolute s.dev (positions_written sd (ps1 ++ ps2)).x
            (positions_written sd (ps1 ++ ps2)).y).2
          sd.area sd.pressure,
         Notification.touch_frame (event_time syn_ev)] ∧
      s2.dev.pending_event = EVDEV_NONE := by
  obtain ⟨sa, ha, hwa, hpa⟩ := positions_run ps1 s sd hmt hsd hps1
  obtain ⟨hmta, hcapa, hsla, hala, htra, hsda⟩ := slot_written_facts hwa hsd
  have hpa1 : sa.dev.pending_event = EVDEV_NONE ∨
      sa.dev.pending_event = EVDEV_ABSOLUTE_MT_MOTION := by
    rw [hpa]
    by_cases h : ps1 = []
    · rw [if_pos h]
      exact Or.inl hp
    · rw [if_neg h, if_pos hp]
      exact Or.inr rfl
  have hb := tracking_id_step sa track (hmta.trans hmt) hpa1 ht hc hv
  have hwb := slot_written_pending hwa EVDEV_ABSOLUTE_MT_DOWN
  obtain ⟨hmtb, hcapb, hslb, halb, htrb, hsdb⟩ := slot_written_facts hwb hsd
  obtain ⟨sc, hc1, hwc0, hpc⟩ := positions_run ps2
    { sa with dev := { sa.dev with pending_event := EVDEV_ABSOLUTE_MT_DOWN } }
    (positions_written sd ps1) (hmtb.trans hmt) hsdb hps2
  have hfold : positions_written (positions_written sd ps1) ps2 =
      positions_written sd (ps1 ++ ps2) := by
    unfold positions_written
    rw [List.foldl_append]
  rw [hfold] at hwc0
  have hwc := slot_written_trans hwb hwc0
  obtain ⟨hmtc, hcapc, hslc, halc, htrc, hsdc⟩ := slot_written_facts hwc hsd
  have hpc1 : sc.dev.pending_event = EVDEV_ABSOLUTE_MT_DOWN := by
    rw [hpc]
    show (if ps2 = [] then EVDEV_ABSOLUTE_MT_DOWN
      else if EVDEV_ABSOLUTE_MT_DOWN = EVDEV_NONE then EVDEV_ABSOLUTE_MT_MOTION
      else EVDEV_ABSOLUTE_MT_DOWN) = EVDEV_ABSOLUTE_MT_DOWN
    simp
  have hrun : process_events s (ps1 ++ [track] ++ ps2) = some sc := by
    rw [process_events_append, process_events_append, ha]
    simp only [Option.some_bind, process_events]
    rw [hb]
    exact hc1
  obtain ⟨hun1, har1, hpr1⟩ := positions_written_seat_slot sd (ps1 ++ ps2)
  obtain ⟨sf, hf, -, -, hfo⟩ := flush_mt_down_assigned sc (event_time syn_ev) k
    (positions_written sd (ps1 ++ ps2)) al hpc1 (by rw [hcapc]; exact hcap) hsdc
    (hun1.trans hun) (halc.trans hal) (by rw [hwc.2.1]; exact hk)
  have hsynstep : evdev_process_event sc syn_ev =
      some (sf.post (Notification.touch_frame (event_time syn_ev))) := by
    unfold evdev_process_event fallback_process
    rw [hsyn, if_neg (by decide), if_neg (by decide), if_neg (by decide), if_pos rfl]
    have hcapc1 : sc.dev.seat_caps &&& EVDEV_DEVICE_TOUCH ≠ 0 := by rw [hcapc]; exact hcap
    have hfe : evdev_flush_pending_event sc (syn_ev.tv_sec * 1000 + syn_ev.tv_usec / 1000) =
        some sf := hf
    simp only [hfe, evdev_need_touch_frame_eq, hpc1, touch_domain_kind, hcapc1, ne_eq,
      not_false_eq_true, decide_True, Bool.and_self, if_true]
    rfl
  refine ⟨sc, sf.post (Notification.touch_frame (event_time syn_ev)), hrun, hpc1, hwc.2.2,
    hsdc, ?_, ?_, ?_⟩
  · rw [process_events_append, hrun]
    simp only [Option.some_bind, process_events]
    rw [hsynstep]
  · show sf.out ++ [_] = _
    rw [hfo, hwc.2.2, hslc, htrc, har1, hpr1]
    simp
  · exact (flushed_flush hf).1
theorem frame_with_tracking_id_posts_one_touch_down_witness :
    ∃ s1 s2 : State,
      process_events touchscreen_one_slot
        ([abs_event ABS_MT_POSITION_X 30] ++ [abs_event ABS_MT_TRACKING_ID 7] ++
          [abs_event ABS_MT_POSITION_Y 40, abs_event ABS_MT_POSITION_X 31]) = some s1 ∧
      s1.dev.pending_event = EVDEV_ABSOLUTE_MT_DOWN ∧ s1.out = touchscreen_one_slot.out ∧
      mt_slot_data s1.dev = some { x := 31, y := 40 } ∧
      process_events touchscreen_one_slot
        ([abs_event ABS_MT_POSITION_X 30] ++ [abs_event ABS_MT_TRACKING_ID 7] ++
          [abs_event ABS_MT_POSITION_Y 40, abs_event ABS_MT_POSITION_X 31] ++
          [syn_report]) = some s2 ∧
      s2.out = [Notification.touch_down 1005 0 1 31 40 {} 0, Notification.touch_frame 1005] ∧
      s2.dev.pending_event = EVDEV_NONE :=
  frame_with_tracking_id_posts_one_touch_down touchscreen_one_slot { x := 1, y := 2 } [] 1
    (abs_event ABS_MT_TRACKING_ID 7) syn_report [abs_event ABS_MT_POSITION_X 30]
    [abs_event ABS_MT_POSITION_Y 40, abs_event ABS_MT_POSITION_X 31]
    rfl (by decide) rfl rfl rfl rfl (by decide) rfl rfl (by decide) rfl (by decide) (by decide)

/-! ## What every step of the event processing keeps -/

theorem fixed_part_fields {d d1 : Device} (h : d1.fixed_part = d.fixed_part) :
    d1.seat_caps = d.seat_caps ∧ d1.is_mt = d.is_mt ∧ d1.pressures = d.pressures ∧
    d1.left_handed_want_enabled = d.left_handed_want_enabled ∧
    d1.left_handed_change_to_enabled = d.left_handed_change_to_enabled ∧
    d1.scroll_want_method = d.scroll_want_method ∧
    d1.scroll_want_button = d.scroll_want_button ∧
    d1.scroll_change_scroll_method = d.scroll_change_scroll_method := by
  simp only [Device.fixed_part, Prod.mk.injEq] at h
  exact h

theorem mode_part_fields {d d1 : Device} (h : d1.mode_part = d.mode_part) :
    d1.left_handed_enabled = d.left_handed_enabled ∧ d1.scroll_method = d.scroll_method ∧
    d1.scroll_button = d.scroll_button := by
  simp only [Device.mode_part, Prod.mk.injEq] at h
  exact h

theorem settled_congr {d d1 : Device} (hf : d1.fixed_part = d.fixed_part)
    (hm : d1.mode_part = d.mode_part) (h : d.settled) : d1.settled := by
  obtain ⟨-, -, -, a, -, b, c, -⟩ := fixed_part_fields hf
  obtain ⟨x, y, z⟩ := mode_part_fields hm
  obtain ⟨h1, h2, h3⟩ := h
  exact ⟨by rw [a, x]; exact h1, by rw [b, y]; exact h2, by rw [c, z]; exact h3⟩

theorem notified_ok_congr {d d1 : Device} (hf : d1.fixed_part = d.fixed_part)
    {n : Notification} (h : notified_ok d1 n) : notified_ok d n := by
  obtain ⟨hc, -, hp, -⟩ := fixed_part_fields hf
  obtain ⟨h1, h2⟩ := h
  refine ⟨fun h0 => h1 (by rw [hc]; exact h0), ?_⟩
  cases n <;> first | trivial | (simp only [reports_slot_pressure] at h2 ⊢; rw [← hp]; exact h2)

theorem stable_refl (s : State) : stable s s :=
  ⟨rfl, fun _ => rfl, fun h => h, [], by simp, by simp⟩

theorem stable_trans {a b c : State} (h1 : stable a b) (h2 : stable b c) : stable a c := by
  obtain ⟨f1, m1, k1, l1, o1, n1⟩ := h1
  obtain ⟨f2, m2, k2, l2, o2, n2⟩ := h2
  refine ⟨f2.trans f1, ?_, fun h => k2 (k1 h), l1 ++ l2, by rw [o2, o1, List.append_assoc], ?_⟩
  · intro hs
    exact (m2 (settled_congr f1 (m1 hs) hs)).trans (m1 hs)
  · intro n hn
    rcases List.mem_append.1 hn with h | h
    · exact n1 n h
    · exact notified_ok_congr f1 (n2 n h)

/-- A step that posts nothing and leaves the fixed part, the configuration in
effect and the ledger as they are. -/
theorem stable_silent {s s1 : State} (hf : s1.dev.fixed_part = s.dev.fixed_part)
    (hm : s1.dev.mode_part = s.dev.mode_part) (hk : s1.dev.key_count = s.dev.key_count)
    (ho : s1.out = s.out) : stable s s1 :=
  ⟨hf, fun _ => hm, fun h c hc => h c (by rw [← hk]; exact hc), [], by simp [ho], by simp⟩

theorem stable_post (s : State) (n : Notification) (hn : notified_ok s.dev n) :
    stable s (s.post n) :=
  ⟨rfl, fun _ => rfl, fun h => h, [n], rfl, by simpa using hn⟩

theorem stable_clear_pending (s : State) : stable s s.clear_pending :=
  stable_silent rfl rfl rfl rfl

theorem notified_ok_plain (d : Device) (n : Notification) (h1 : n.is_touch_any = false) :
    notified_ok d n := by
  refine ⟨fun _ => h1, ?_⟩
  cases n <;> trivial

theorem stable_notify_axis (s : State) (time axes : Nat)
    (source : libinput_pointer_axis_source) (x y xd yd : ℚ) :
    stable s (evdev_notify_axis s time axes source x y xd yd) := by
  unfold evdev_notify_axis
  split_ifs <;> exact stable_post _ _ (notified_ok_plain _ _ rfl)

theorem stable_scroll_emit (s : State) (time : Nat)
    (source : libinput_pointer_axis_source) (dx dy : ℚ) :
    stable s (scroll_emit s time source dx dy) := by
  unfold scroll_emit
  simp only []
  split_ifs <;>
    first
    | exact stable_notify_axis _ _ _ _ _ _ _ _
    | exact stable_refl _

theorem stable_post_scroll (s : State) (time : Nat)
    (source : libinput_pointer_axis_source) (dx dy : ℚ) :
    stable s (evdev_post_scroll s time source dx dy) := by
  have h1 : stable s { s with dev := scroll_trigger (scroll_add_buildup s.dev dx dy) dx dy } := by
    refine stable_silent ?_ ?_ ?_ rfl
    · show (scroll_trigger (scroll_add_buildup s.dev dx dy) dx dy).fixed_part = _
      rw [scroll_trigger_eq, scroll_add_buildup_eq]
      rfl
    · show (scroll_trigger (scroll_add_buildup s.dev dx dy) dx dy).mode_part = _
      rw [scroll_trigger_eq, scroll_add_buildup_eq]
      rfl
    · show (scroll_trigger (scroll_add_buildup s.dev dx dy) dx dy).key_count = _
      rw [scroll_trigger_eq, scroll_add_buildup_eq]
  unfold evdev_post_scroll
  exact stable_trans h1 (stable_scroll_emit _ _ _ _ _)

theorem stable_stop_scroll (s : State) (time : Nat)
    (source : libinput_pointer_axis_source) : stable s (evdev_stop_scroll s time source) := by
  unfold evdev_stop_scroll
  simp only []
  split_ifs
  · exact stable_trans
      (stable_post s (Notification.pointer_axis _ _ _ _ _ _ _) (notified_ok_plain _ _ rfl))
      (stable_silent rfl rfl rfl rfl)
  · exact stable_silent rfl rfl rfl rfl

theorem stable_apply_filter (s : State) (dx dy : ℚ) (time : Nat) :
    stable s { s with dev := (apply_filter s.dev dx dy time).1 } := by
  unfold apply_filter
  split <;> exact stable_silent rfl rfl rfl rfl

theorem stable_flush_extra_aux_data {s s1 : State} {time : Nat} {slot seat_slot : Int}
    (h : evdev_flush_extra_aux_data s time slot seat_slot = some s1)
    (hcap : s.dev.seat_caps &&& EVDEV_DEVICE_TOUCH ≠ 0) : stable s s1 := by
  unfold evdev_flush_extra_aux_data at h
  split at h
  · exact absurd h (by simp)
  · simp only [Option.some.injEq] at h
    subst h
    refine ⟨rfl, fun _ => rfl, fun h => h, _, rfl, ?_⟩
    intro n hn
    simp only [List.mem_map] at hn
    obtain ⟨a, -, rfl⟩ := hn
    exact ⟨fun h0 => absurd h0 hcap, trivial⟩
theorem stable_then_post {s u : State} (h : stable s u) (n : Notification)
    (hn : notified_ok s.dev n) : stable s (u.post n).clear_pending := by
  obtain ⟨f, m, k, l, o, hl⟩ := h
  refine ⟨f, m, k, l ++ [n], ?_, ?_⟩
  · show u.out ++ [n] = _
    rw [o, List.append_assoc]
  · intro x hx
    rcases List.mem_append.1 hx with h | h
    · exact hl x h
    · rw [List.mem_singleton.1 h]
      exact hn

theorem stable_then_clear {s s3 : State} (h : stable s s3) : stable s s3.clear_pending :=
  stable_trans h (stable_clear_pending _)

theorem pressure_of_slot (d : Device) (sd : mt_slot) (h : mt_slot_data d = some sd) :
    0 ≤ d.mt_slot ∧ d.pressures[d.mt_slot.toNat]? = some sd.pressure := by
  unfold mt_slot_data at h
  split_ifs at h with h0
  refine ⟨h0, ?_⟩
  unfold Device.pressures
  rw [List.getElem?_map, h]
  rfl

/-- A write to the active slot that keeps its pressure keeps the fixed part. -/
theorem mt_slot_store_fixed (d : Device) (sd v : mt_slot) (h : mt_slot_data d = some sd)
    (hp : v.pressure = sd.pressure) : (mt_slot_store d v).fixed_part = d.fixed_part := by
  unfold mt_slot_data at h
  split_ifs at h with h0
  have hm : (mt_slot_store d v).pressures = d.pressures := by
    unfold Device.pressures mt_slot_store
    exact list_set_map_same _ _ _ _ _ h hp
  unfold Device.fixed_part
  rw [hm]
  rfl

theorem stable_mt_slot_store (s : State) (m : Nat) (sd v : mt_slot)
    (h : mt_slot_data s.dev = some sd) (hp : v.pressure = sd.pressure) :
    stable s { s with dev := mt_slot_store s.dev v, slot_map := m } :=
  stable_silent (mt_slot_store_fixed s.dev sd v h hp) rfl rfl rfl

theorem stable_flush_case_relative_motion {s s1 : State} {time : Nat}
    (h : flush_case_relative_motion s time = some s1) : stable s s1 := by
  unfold flush_case_relative_motion at h
  simp only [] at h
  have h0 : stable s { s with dev := { s.dev with rel_dx := 0, rel_dy := 0 } } :=
    stable_silent rfl rfl rfl rfl
  split_ifs at h <;> simp only [Option.some.injEq] at h <;> subst h
  · exact stable_then_clear (stable_trans h0 (stable_post_scroll _ _ _ _ _))
  · exact stable_then_clear h0
  · exact stable_then_clear (stable_trans h0 (stable_apply_filter _ _ _ _))
  · exact stable_then_post (stable_trans h0 (stable_apply_filter _ _ _ _)) _
      (notified_ok_plain _ _ rfl)

theorem stable_flush_case_mt_down {s s1 : State} {time : Nat}
    (h : flush_case_mt_down s time = some s1) : stable s s1 := by
  unfold flush_case_mt_down at h
  simp only [] at h
  by_cases hcap : s.dev.seat_caps &&& EVDEV_DEVICE_TOUCH = 0
  · rw [if_pos hcap, Option.some.injEq] at h
    subst h
    exact stable_clear_pending _
  · rw [if_neg hcap] at h
    cases hsd : mt_slot_data s.dev with
    | none => rw [hsd] at h; exact absurd h (by simp)
    | some sd =>
      rw [hsd] at h
      simp only at h
      by_cases h1 : sd.seat_slot ≠ -1
      · rw [if_pos h1, Option.some.injEq] at h
        subst h
        exact stable_clear_pending _
      · rw [if_neg h1] at h
        have hst := fun m : Nat => stable_mt_slot_store s m sd
          { sd with seat_slot := ((ffs (bnot32 s.slot_map) : Nat) : Int) - 1 } hsd rfl
        by_cases h2 : ((ffs (bnot32 s.slot_map) : Nat) : Int) - 1 = -1
        · rw [if_pos h2, Option.some.injEq] at h
          subst h
          exact stable_then_clear (hst _)
        · rw [if_neg h2] at h
          generalize hq : evdev_flush_extra_aux_data _ time s.dev.mt_slot _ = q at h
          cases q with
          | none => exact absurd h (by simp)
          | some s3 =>
            simp only [Option.some.injEq] at h
            subst h
            exact stable_then_post
              (stable_trans (hst _) (stable_flush_extra_aux_data hq hcap)) _
              ⟨fun h0 => absurd h0 hcap, Or.inr (pressure_of_slot s.dev sd hsd)⟩

theorem stable_flush_case_mt_motion {s s1 : State} {time : Nat}
    (h : flush_case_mt_motion s time = some s1) : stable s s1 := by
  unfold flush_case_mt_motion at h
  simp only [] at h
  by_cases hcap : s.dev.seat_caps &&& EVDEV_DEVICE_TOUCH = 0
  · rw [if_pos hcap, Option.some.injEq] at h
    subst h
    exact stable_clear_pending _
  · rw [if_neg hcap] at h
    cases hsd : mt_slot_data s.dev with
    | none => rw [hsd] at h; exact absurd h (by simp)
    | some sd =>
      rw [hsd] at h
      simp only at h
      by_cases h1 : sd.seat_slot = -1
      · rw [if_pos h1, Option.some.injEq] at h
        subst h
        exact stable_clear_pending _
      · rw [if_neg h1] at h
        generalize hq : evdev_flush_extra_aux_data _ time s.dev.mt_slot _ = q at h
        cases q with
        | none => exact absurd h (by simp)
        | some s3 =>
          simp only [Option.some.injEq] at h
          subst h
          exact stable_then_post (stable_flush_extra_aux_data hq hcap) _
            ⟨fun h0 => absurd h0 hcap, Or.inr (pressure_of_slot s.dev sd hsd)⟩

theorem stable_flush_case_mt_up {s s1 : State} {time : Nat}
    (h : flush_case_mt_up s time = some s1) : stable s s1 := by
  unfold flush_case_mt_up at h
  simp only [] at h
  by_cases hcap : s.dev.seat_caps &&& EVDEV_DEVICE_TOUCH = 0
  · rw [if_pos hcap, Option.some.injEq] at h
    subst h
    exact stable_clear_pending _
  · rw [if_neg hcap] at h
    cases hsd : mt_slot_data s.dev with
    | none => rw [hsd] at h; exact absurd h (by simp)
    | some sd =>
      rw [hsd] at h
      simp only at h
      have hst := fun m : Nat => stable_mt_slot_store s m sd { sd with seat_slot := -1 } hsd rfl
      by_cases h1 : sd.seat_slot = -1
      · rw [if_pos h1, Option.some.injEq] at h
        subst h
        exact stable_then_clear (hst _)
      · rw [if_neg h1] at h
        generalize hm : slot_map_clear _ _ = qm at h
        cases qm with
        | none => exact absurd h (by simp)
        | some m =>
          simp only at h
          generalize hq : evdev_flush_extra_aux_data _ time s.dev.mt_slot _ = q at h
          cases q with
          | none => exact absurd h (by simp)
          | some s3 =>
            simp only [Option.some.injEq] at h
            subst h
            exact stable_then_post
              (stable_trans (hst m) (stable_flush_extra_aux_data hq hcap)) _
              ⟨fun h0 => absurd h0 hcap, trivial⟩

theorem stable_flush_case_touch_down {s s1 : State} {time : Nat}
    (h : flush_case_touch_down s time = some s1) : stable s s1 := by
  unfold flush_case_touch_down at h
  simp only [] at h
  by_cases hcap : s.dev.seat_caps &&& EVDEV_DEVICE_TOUCH = 0
  · rw [if_pos hcap, Option.some.injEq] at h
    subst h
    exact stable_clear_pending _
  · rw [if_neg hcap] at h
    split_ifs at h <;> simp only [Option.some.injEq] at h <;> subst h
    · exact stable_clear_pending _
    · exact stable_silent rfl rfl rfl rfl
    · exact stable_then_post (u := { s with
          dev := { s.dev with abs_seat_slot := ((ffs (bnot32 s.slot_map) : Nat) : Int) - 1 },
          slot_map := slot_map_set s.slot_map (((ffs (bnot32 s.slot_map) : Nat) : Int) - 1) })
        (stable_silent rfl rfl rfl rfl) _
        ⟨fun h0 => absurd h0 hcap, Or.inl ⟨rfl, rfl⟩⟩

theorem stable_flush_case_absolute_motion {s s1 : State} {time : Nat}
    (h : flush_case_absolute_motion s time = some s1) : stable s s1 := by
  unfold flush_case_absolute_motion at h
  simp only [] at h
  by_cases hcap : s.dev.seat_caps &&& EVDEV_DEVICE_TOUCH ≠ 0
  · rw [if_pos hcap] at h
    split_ifs at h <;> simp only [Option.some.injEq] at h <;> subst h
    · exact stable_clear_pending _
    · exact stable_then_post (stable_refl s) _
        ⟨fun h0 => absurd h0 hcap, Or.inl ⟨rfl, rfl⟩⟩
  · rw [if_neg hcap] at h
    split_ifs at h <;> simp only [Option.some.injEq] at h <;> subst h
    · exact stable_then_post (stable_refl s) _ (notified_ok_plain _ _ rfl)
    · exact stable_clear_pending _

theorem stable_flush_case_touch_up {s s1 : State} {time : Nat}
    (h : flush_case_touch_up s time = some s1) : stable s s1 := by
  unfold flush_case_touch_up at h
  simp only [] at h
  by_cases hcap : s.dev.seat_caps &&& EVDEV_DEVICE_TOUCH = 0
  · rw [if_pos hcap, Option.some.injEq] at h
    subst h
    exact stable_clear_pending _
  · rw [if_neg hcap] at h
    by_cases h1 : s.dev.abs_seat_slot = -1
    · rw [if_pos h1, Option.some.injEq] at h
      subst h
      exact stable_silent rfl rfl rfl rfl
    · rw [if_neg h1] at h
      generalize hm : slot_map_clear _ _ = qm at h
      cases qm with
      | none => exact absurd h (by simp)
      | some m =>
        simp only [Option.some.injEq] at h
        subst h
        exact stable_then_post (u := { s with
            dev := { s.dev with abs_seat_slot := -1 }, slot_map := m })
          (stable_silent rfl rfl rfl rfl) _ ⟨fun h0 => absurd h0 hcap, trivial⟩

theorem stable_flush {s s1 : State} {time : Nat}
    (h : evdev_flush_pending_event s time = some s1) : stable s s1 := by
  unfold evdev_flush_pending_event at h
  split at h
  · simp only [Option.some.injEq] at h
    subst h
    exact stable_refl _
  · exact stable_flush_case_relative_motion h
  · exact stable_flush_case_mt_down h
  · exact stable_flush_case_mt_motion h
  · exact stable_flush_case_mt_up h
  · exact stable_flush_case_touch_down h
  · exact stable_flush_case_absolute_motion h
  · exact stable_flush_case_touch_up h
theorem ledger_typed_update {d : Device} (h : ledger_typed d) (code : Nat) (v : Int)
    (hv : 0 < v → get_key_type code ≠ EVDEV_KEY_TYPE_NONE) :
    ledger_typed { d with key_count := Function.update d.key_count code v } := by
  intro c hc
  by_cases hcc : c = code
  · subst hcc
    simp only [Function.update_same] at hc
    exact hv hc
  · simp only [Function.update_noteq hcc] at hc
    exact h c hc

/-- The ledger update keeps the fixed part and the configuration in effect; a
press on a code of key or button type, and every release, keep every positive
count on a code of key or button type. -/
theorem update_key_down_count_stable {d d1 : Device} {code : Nat} {pressed cnt : Int}
    (h : update_key_down_count d code pressed = some (d1, cnt))
    (hty : pressed ≠ 0 → get_key_type code ≠ EVDEV_KEY_TYPE_NONE) :
    d1.fixed_part = d.fixed_part ∧ d1.mode_part = d.mode_part ∧
    (ledger_typed d → ledger_typed d1) := by
  unfold update_key_down_count at h
  by_cases hc : code < KEY_CNT
  · rw [if_pos hc] at h
    by_cases hp : pressed ≠ 0
    · rw [if_pos hp] at h
      simp only [Option.some.injEq, Prod.mk.injEq] at h
      obtain ⟨rfl, -⟩ := h
      exact ⟨rfl, rfl, fun hl => ledger_typed_update hl _ _ (fun _ => hty hp)⟩
    · rw [if_neg hp] at h
      by_cases hpos : 0 < d.key_count code
      · rw [if_pos hpos] at h
        simp only [Option.some.injEq, Prod.mk.injEq] at h
        obtain ⟨rfl, -⟩ := h
        exact ⟨rfl, rfl, fun hl => ledger_typed_update hl _ _ (fun _ => hl code hpos)⟩
      · rw [if_neg hpos] at h
        exact absurd h (by simp)
  · rw [if_neg hc] at h
    exact absurd h (by simp)

theorem stable_keyboard_notify_key {s s1 : State} {time key : Nat}
    {state : libinput_key_state}
    (h : evdev_keyboard_notify_key s time key state = some s1)
    (hty : state = LIBINPUT_KEY_STATE_PRESSED → get_key_type key ≠ EVDEV_KEY_TYPE_NONE) :
    stable s s1 := by
  unfold evdev_keyboard_notify_key at h
  split at h
  · exact absurd h (by simp)
  · rename_i d cnt hupd
    obtain ⟨hf, hm, hk⟩ := update_key_down_count_stable hupd (by
      intro hp
      apply hty
      cases state
      · exact absurd rfl hp
      · rfl)
    have h0 : stable s { s with dev := d } := ⟨hf, fun _ => hm, hk, [], by simp, by simp⟩
    split_ifs at h <;> simp only [Option.some.injEq] at h <;> subst h
    · exact stable_trans h0
        (stable_post _ (Notification.keyboard_key _ _ _) (notified_ok_plain _ _ rfl))
    · exact h0

theorem evdev_change_to_left_handed_settled (d : Device)
    (h : d.left_handed_want_enabled = d.left_handed_enabled) :
    evdev_change_to_left_handed d = d := by
  unfold evdev_change_to_left_handed
  rw [if_pos h]

theorem evdev_change_scroll_method_settled (d : Device)
    (h : d.scroll_want_method = d.scroll_method ∧ d.scroll_want_button = d.scroll_button) :
    evdev_change_scroll_method d = d := by
  unfold evdev_change_scroll_method
  rw [if_pos h]

/-- With nothing waiting to be applied the two callbacks change nothing. -/
theorem hooks_settled (s : State) (state : libinput_button_state) (h : s.dev.settled) :
    scroll_method_hook (left_handed_hook s state) state = s := by
  obtain ⟨h1, h2, h3⟩ := h
  have e1 : left_handed_hook s state = s := by
    unfold left_handed_hook
    rw [evdev_change_to_left_handed_settled s.dev h1]
    split_ifs <;> rfl
  have e2 : scroll_method_hook s state = s := by
    unfold scroll_method_hook
    rw [evdev_change_scroll_method_settled s.dev ⟨h2, h3⟩]
    split_ifs <;> rfl
  rw [e1, e2]

theorem stable_hooks (s : State) (state : libinput_button_state) :
    stable s (scroll_method_hook (left_handed_hook s state) state) := by
  refine ⟨?_, ?_, ?_, [], ?_, by simp⟩
  · unfold scroll_method_hook left_handed_hook evdev_change_scroll_method
      evdev_change_to_left_handed
    split_ifs <;> rfl
  · intro hs
    rw [hooks_settled s state hs]
  · intro hl c hc
    rw [scroll_method_hook_key_count, left_handed_hook_key_count] at hc
    exact hl c hc
  · rw [scroll_method_hook_out, left_handed_hook_out, List.append_nil]

theorem stable_pointer_notify_button {s s1 : State} {time button : Nat}
    {state : libinput_button_state}
    (h : evdev_pointer_notify_button s time button state = some s1)
    (hty : state = LIBINPUT_BUTTON_STATE_PRESSED →
      get_key_type button ≠ EVDEV_KEY_TYPE_NONE) :
    stable s s1 := by
  unfold evdev_pointer_notify_button at h
  split at h
  · exact absurd h (by simp)
  · rename_i d cnt hupd
    obtain ⟨hf, hm, hk⟩ := update_key_down_count_stable hupd (by
      intro hp
      apply hty
      cases state
      · exact absurd rfl hp
      · rfl)
    have h0 : stable s { s with dev := d } := ⟨hf, fun _ => hm, hk, [], by simp, by simp⟩
    split_ifs at h <;> simp only [Option.some.injEq] at h <;> subst h
    · exact stable_trans h0 (stable_trans
        (stable_post _ (Notification.pointer_button _ _ _) (notified_ok_plain _ _ rfl))
        (stable_hooks _ _))
    · exact h0
theorem stable_button_scroll_button {s s1 : State} {time : Nat} {is_press : Int}
    (h : evdev_button_scroll_button s time is_press = some s1)
    (hty : get_key_type s.dev.scroll_button ≠ EVDEV_KEY_TYPE_NONE) : stable s s1 := by
  unfold evdev_button_scroll_button at h
  simp only [] at h
  by_cases hp : is_press ≠ 0
  · rw [if_pos hp] at h
    simp only [Option.some.injEq] at h
    subst h
    exact stable_silent rfl rfl rfl rfl
  · rw [if_neg hp] at h
    have h0 : stable s { s with dev := { s.dev with scroll_timer := none } } :=
      stable_silent rfl rfl rfl rfl
    by_cases hact : s.dev.scroll_button_scroll_active = true
    · rw [if_pos hact] at h
      simp only [Option.some.injEq] at h
      subst h
      exact stable_trans h0 (stable_trans (stable_stop_scroll _ _ _)
        (stable_silent rfl rfl rfl rfl))
    · rw [if_neg hact] at h
      split at h
      · exact absurd h (by simp)
      · rename_i s2 hpress
        exact stable_trans h0 (stable_trans
          (stable_pointer_notify_button hpress (fun _ => hty))
          (stable_pointer_notify_button h (fun hc => absurd hc (by decide))))

theorem stable_flush_if {s s1 : State} {time : Nat} (c : Prop) [Decidable c]
    (h : (if c then evdev_flush_pending_event s time else some s) = some s1) :
    stable s s1 := by
  split_ifs at h
  · exact stable_flush h
  · simp only [Option.some.injEq] at h
    subst h
    exact stable_refl _

theorem stable_process_touch_button {s s1 : State} {time : Nat} {value : Int}
    (h : evdev_process_touch_button s time value = some s1) : stable s s1 := by
  unfold evdev_process_touch_button at h
  simp only [] at h
  split at h
  · exact absurd h (by simp)
  · rename_i s2 hfl
    simp only [Option.some.injEq] at h
    subst h
    exact stable_trans (stable_flush_if _ hfl) (stable_silent rfl rfl rfl rfl)

theorem evdev_to_left_handed_button (d : Device) (c : Nat)
    (h : get_key_type c = EVDEV_KEY_TYPE_BUTTON) :
    get_key_type (evdev_to_left_handed d c) = EVDEV_KEY_TYPE_BUTTON := by
  unfold evdev_to_left_handed
  split_ifs
  · decide
  · decide
  · exact h
  · exact h

theorem stable_process_key {s s1 : State} {e : input_event} {time : Nat}
    (h : evdev_process_key s e time = some s1) : stable s s1 := by
  unfold evdev_process_key at h
  by_cases h2 : e.value = 2
  · rw [if_pos h2] at h
    simp only [Option.some.injEq] at h
    subst h
    exact stable_refl _
  · rw [if_neg h2] at h
    by_cases hbt : e.code = BTN_TOUCH
    · rw [if_pos hbt] at h
      split_ifs at h
      · exact stable_process_touch_button h
      · simp only [Option.some.injEq] at h
        subst h
        exact stable_refl _
    · rw [if_neg hbt] at h
      split at h
      · exact absurd h (by simp)
      · rename_i s2 hfl
        have hstep := stable_flush hfl
        simp only [] at h
        by_cases hrel : e.value = 0 ∧ get_key_type e.code ≠ EVDEV_KEY_TYPE_NONE ∧
            (!hw_is_key_down s2.dev e.code) = true
        · rw [if_pos hrel] at h
          simp only [Option.some.injEq] at h
          subst h
          exact hstep
        · rw [if_neg hrel] at h
          have hset : stable s2 { s2 with dev := hw_set_key_down s2.dev e.code e.value } :=
            stable_silent rfl rfl rfl rfl
          cases hty : get_key_type e.code with
          | EVDEV_KEY_TYPE_NONE =>
            rw [hty] at h
            simp only [Option.some.injEq] at h
            subst h
            exact stable_trans hstep hset
          | EVDEV_KEY_TYPE_KEY =>
            rw [hty] at h
            exact stable_trans hstep (stable_trans hset
              (stable_keyboard_notify_key h (fun _ => by rw [hty]; decide)))
          | EVDEV_KEY_TYPE_BUTTON =>
            rw [hty] at h
            simp only [] at h
            by_cases hsb : (hw_set_key_down s2.dev e.code e.value).scroll_method =
                LIBINPUT_CONFIG_SCROLL_ON_BUTTON_DOWN ∧
                e.code = (hw_set_key_down s2.dev e.code e.value).scroll_button
            · rw [if_pos hsb] at h
              refine stable_trans hstep (stable_trans hset (stable_button_scroll_button h ?_))
              show get_key_type (hw_set_key_down s2.dev e.code e.value).scroll_button ≠ _
              rw [← hsb.2, hty]
              decide
            · rw [if_neg hsb] at h
              refine stable_trans hstep (stable_trans hset
                (stable_pointer_notify_button h (fun _ => ?_)))
              rw [evdev_to_left_handed_button _ _ hty]
              decide

theorem stable_process_touch_extra_aux_data {s : State} {d1 : Device} {e : input_event}
    {b : Bool} (h : evdev_process_touch_extra_aux_data s.dev e = some (d1, b)) :
    stable s { s with dev := wake_mt_motion d1 b } := by
  have hw : ∀ d : Device, (wake_mt_motion d b).fixed_part = d.fixed_part ∧
      (wake_mt_motion d b).mode_part = d.mode_part ∧
      (wake_mt_motion d b).key_count = d.key_count := by
    intro d
    unfold wake_mt_motion
    split_ifs <;> exact ⟨rfl, rfl, rfl⟩
  have hd : d1.fixed_part = s.dev.fixed_part ∧ d1.mode_part = s.dev.mode_part ∧
      d1.key_count = s.dev.key_count := by
    unfold evdev_process_touch_extra_aux_data at h
    split at h
    · simp only [Option.some.injEq, Prod.mk.injEq] at h
      obtain ⟨rfl, -⟩ := h
      exact ⟨rfl, rfl, rfl⟩
    · split at h
      · exact absurd h (by simp)
      · split_ifs at h <;> simp only [Option.some.injEq, Prod.mk.injEq] at h <;>
          obtain ⟨rfl, -⟩ := h <;> exact ⟨rfl, rfl, rfl⟩
  exact stable_silent ((hw d1).1.trans hd.1) ((hw d1).2.1.trans hd.2.1)
    ((hw d1).2.2.trans hd.2.2) rfl

theorem stable_mt_slot_modify {s : State} {d1 : Device} {f : mt_slot → mt_slot}
    (h : mt_slot_modify s.dev f = some d1) (b : Bool)
    (hf : ∀ c, (f c).pressure = c.pressure) :
    stable s { s with dev := wake_mt_motion d1 b } := by
  have hw : ∀ d : Device, (wake_mt_motion d b).fixed_part = d.fixed_part ∧
      (wake_mt_motion d b).mode_part = d.mode_part ∧
      (wake_mt_motion d b).key_count = d.key_count := by
    intro d
    unfold wake_mt_motion
    split_ifs <;> exact ⟨rfl, rfl, rfl⟩
  unfold mt_slot_modify at h
  cases hsd : mt_slot_data s.dev with
  | none => rw [hsd] at h; exact absurd h (by simp)
  | some sd =>
    rw [hsd] at h
    simp only [Option.some.injEq] at h
    subst h
    exact stable_silent ((hw _).1.trans (mt_slot_store_fixed s.dev sd (f sd) hsd (hf sd)))
      (hw _).2.1 (hw _).2.2 rfl

theorem stable_map_pair {s s1 : State} {o : Option Device}
    (h : (match o.map (fun d => (d, true)) with
      | none => none
      | some (d, needs_wake) => some { s with dev := wake_mt_motion d needs_wake }) = some s1)
    (hs : ∀ d1, o = some d1 → stable s { s with dev := wake_mt_motion d1 true }) :
    stable s s1 := by
  cases o with
  | none => exact absurd h (by simp)
  | some d1 =>
    simp only [Option.map_some', Option.some.injEq] at h
    subst h
    exact hs d1 rfl

theorem stable_process_touch {s s1 : State} {e : input_event} {time : Nat}
    (h : evdev_process_touch s e time = some s1) : stable s s1 := by
  unfold evdev_process_touch at h
  by_cases h1 : e.code = ABS_MT_SLOT
  · rw [if_pos h1] at h
    split at h
    · exact absurd h (by simp)
    · rename_i s2 hfl
      simp only [Option.some.injEq] at h
      subst h
      exact stable_trans (stable_flush hfl) (stable_silent rfl rfl rfl rfl)
  · rw [if_neg h1] at h
    by_cases h2 : e.code = ABS_MT_TRACKING_ID
    · rw [if_pos h2] at h
      simp only [] at h
      split at h
      · exact absurd h (by simp)
      · rename_i s2 hfl
        simp only [Option.some.injEq] at h
        subst h
        exact stable_trans (stable_flush_if _ hfl) (stable_silent rfl rfl rfl rfl)
    · rw [if_neg h2] at h
      simp only [] at h
      split_ifs at h
      · exact stable_map_pair h (fun d1 hd => stable_mt_slot_modify hd true (fun _ => rfl))
      · exact stable_map_pair h (fun d1 hd => stable_mt_slot_modify hd true (fun _ => rfl))
      · exact stable_map_pair h (fun d1 hd => stable_mt_slot_modify hd true (fun _ => rfl))
      · exact stable_map_pair h (fun d1 hd => stable_mt_slot_modify hd true (fun _ => rfl))
      · exact stable_map_pair h (fun d1 hd => stable_mt_slot_modify hd true (fun _ => rfl))
      · cases hq : evdev_process_touch_extra_aux_data s.dev e with
        | none => rw [hq] at h; exact absurd h (by simp)
        | some r =>
          obtain ⟨d1, b⟩ := r
          rw [hq] at h
          simp only [Option.some.injEq] at h
          subst h
          exact stable_process_touch_extra_aux_data hq

theorem stable_process_absolute {s s1 : State} {e : input_event} {time : Nat}
    (h : evdev_process_absolute s e time = some s1) : stable s s1 := by
  unfold evdev_process_absolute at h
  split_ifs at h
  · exact stable_process_touch h
  · simp only [Option.some.injEq] at h
    subst h
    refine stable_silent ?_ ?_ ?_ rfl <;>
      (unfold evdev_process_absolute_motion; simp only []; split_ifs <;> rfl)

theorem stable_process_relative {s s1 : State} {e : input_event} {time : Nat}
    (h : evdev_process_relative s e time = some s1) : stable s s1 := by
  unfold evdev_process_relative at h
  by_cases hx : e.code = REL_X
  · rw [if_pos hx] at h
    simp only [] at h
    split at h
    · exact absurd h (by simp)
    · rename_i s2 hfl
      simp only [Option.some.injEq] at h
      subst h
      exact stable_trans (stable_flush_if _ hfl) (stable_silent rfl rfl rfl rfl)
  · rw [if_neg hx] at h
    by_cases hy : e.code = REL_Y
    · rw [if_pos hy] at h
      simp only [] at h
      split at h
      · exact absurd h (by simp)
      · rename_i s2 hfl
        simp only [Option.some.injEq] at h
        subst h
        exact stable_trans (stable_flush_if _ hfl) (stable_silent rfl rfl rfl rfl)
    · rw [if_neg hy] at h
      by_cases hw : e.code = REL_WHEEL
      · rw [if_pos hw] at h
        split at h
        · exact absurd h (by simp)
        · rename_i s2 hfl
          simp only [Option.some.injEq] at h
          subst h
          exact stable_trans (stable_flush hfl) (stable_notify_axis _ _ _ _ _ _ _ _)
      · rw [if_neg hw] at h
        by_cases hhw : e.code = REL_HWHEEL
        · rw [if_pos hhw] at h
          split at h
          · exact absurd h (by simp)
          · rename_i s2 hfl
            simp only [Option.some.injEq] at h
            subst h
            exact stable_trans (stable_flush hfl) (stable_notify_axis _ _ _ _ _ _ _ _)
        · rw [if_neg hhw] at h
          simp only [Option.some.injEq] at h
          subst h
          exact stable_refl _

theorem stable_fallback_process {s s1 : State} {e : input_event} {time : Nat}
    (h : fallback_process s e time = some s1) : stable s s1 := by
  unfold fallback_process at h
  split_ifs at h
  · exact stable_process_relative h
  · exact stable_process_absolute h
  · exact stable_process_key h
  · simp only [] at h
    split at h
    · exact absurd h (by simp)
    · rename_i s2 hfl
      simp only [Option.some.injEq] at h
      subst h
      by_cases hn : evdev_need_touch_frame s.dev = true
      · rw [if_pos hn]
        have hcap : s.dev.seat_caps &&& EVDEV_DEVICE_TOUCH ≠ 0 := by
          intro h0
          unfold evdev_need_touch_frame at hn
          rw [if_pos h0] at hn
          exact absurd hn (by decide)
        obtain ⟨f, m, k, l, o, hl⟩ := stable_flush hfl
        refine ⟨f, m, k, l ++ [Notification.touch_frame time], ?_, ?_⟩
        · show s2.out ++ [_] = _
          rw [o, List.append_assoc]
        · intro x hx
          rcases List.mem_append.1 hx with h | h
          · exact hl x h
          · rw [List.mem_singleton.1 h]
            exact ⟨fun h0 => absurd h0 hcap, trivial⟩
      · rw [if_neg hn]
        exact stable_flush hfl
  · simp only [Option.some.injEq] at h
    subst h
    exact stable_refl _

theorem stable_process_events (evs : List input_event) :
    ∀ s s1 : State, process_events s evs = some s1 → stable s s1 := by
  induction evs with
  | nil =>
    intro s s1 h
    simp only [process_events, Option.some.injEq] at h
    subst h
    exact stable_refl _
  | cons e rest ih =>
    intro s s1 h
    unfold process_events at h
    split at h
    · exact absurd h (by simp)
    · rename_i s2 hstep
      exact stable_trans (stable_fallback_process hstep) (ih _ _ h)
/-! ## A device without the touch capability -/

/-- One step on a device without the touch capability posts nothing of the
touch interface and leaves the seat bitmap and the seat-slot ids alone. -/
theorem no_touch_step {s s1 : State} (ht : touch_step s s1) (hs : stable s s1)
    (hcap : s.dev.seat_caps &&& EVDEV_DEVICE_TOUCH = 0) :
    s1.dev.seat_caps &&& EVDEV_DEVICE_TOUCH = 0 ∧
    (∃ l : List Notification, s1.out = s.out ++ l ∧ ∀ n ∈ l, n.is_touch_any = false) ∧
    s1.slot_map = s.slot_map ∧ s1.dev.assign = s.dev.assign := by
  obtain ⟨hf, -, -, l, ho, hl⟩ := hs
  have hcap1 : s1.dev.seat_caps &&& EVDEV_DEVICE_TOUCH = 0 := by
    rw [(fixed_part_fields hf).1]
    exact hcap
  have hnone : ∀ n ∈ l, n.is_touch_any = false := fun n hn => (hl n hn).1 hcap
  have hno : ∀ (extra : List Notification) (x : Notification), s1.out = s.out ++ extra →
      extra.filter Notification.is_touch = [x] → False := by
    intro extra x hout he
    have hel : extra = l := List.append_cancel_left (hout.symm.trans ho)
    have hx : x ∈ extra.filter Notification.is_touch := by rw [he]; exact List.mem_singleton_self x
    obtain ⟨hxm, hxt⟩ := List.mem_filter.1 hx
    have hany := hnone x (hel ▸ hxm)
    cases x <;> simp [Notification.is_touch, Notification.is_touch_any] at hxt hany
  refine ⟨hcap1, ⟨l, ho, hnone⟩, ?_⟩
  cases ht with
  | quiet extra hout he ha hm => exact ⟨hm, ha⟩
  | motion extra hout t j k x y a p he hj hk hne ha hm => exact ⟨hm, ha⟩
  | down extra hout t j k x y a p he => exact (hno extra _ hout he).elim
  | up extra hout t j k he => exact (hno extra _ hout he).elim

/-- C35: on a device without the touch capability, whatever sequence of raw
events `fallback_process` has processed, every notification posted is none of
touch down, touch motion, touch up, touch frame and auxiliary axis
notification, and the seat slot bitmap, the seat-slot id of the single-touch
stream and the seat-slot id of every multitouch slot are as before; the device
still lacks the touch capability. -/
theorem no_touch_capability_no_touch_effect (evs : List input_event) (s s1 : State)
    (hcap : s.dev.seat_caps &&& EVDEV_DEVICE_TOUCH = 0)
    (h : process_events s evs = some s1) :
    (∃ l : List Notification, s1.out = s.out ++ l ∧ ∀ n ∈ l, n.is_touch_any = false) ∧
    s1.slot_map = s.slot_map ∧
    s1.dev.abs_seat_slot = s.dev.abs_seat_slot ∧
    s1.dev.mt_slots.map (fun sl => sl.seat_slot) = s.dev.mt_slots.map (fun sl => sl.seat_slot) ∧
    s1.dev.seat_caps &&& EVDEV_DEVICE_TOUCH = 0 := by
  induction evs generalizing s with
  | nil =>
    simp only [process_events, Option.some.injEq] at h
    subst h
    exact ⟨⟨[], by simp, by simp⟩, rfl, rfl, rfl, hcap⟩
  | cons e rest ih =>
    unfold process_events at h
    cases hstep : evdev_process_event s e with
    | none => rw [hstep] at h; exact absurd h (by simp)
    | some s2 =>
      rw [hstep] at h
      simp only at h
      obtain ⟨hcap2, ⟨l2, ho2, hl2⟩, hm2, ha2⟩ :=
        no_touch_step (touch_step_fallback_process hstep) (stable_fallback_process hstep) hcap
      obtain ⟨⟨l, ho, hl⟩, hm, ha, hs, hc⟩ := ih s2 hcap2 h
      unfold Device.assign at ha2
      simp only [List.cons.injEq] at ha2
      refine ⟨⟨l2 ++ l, by rw [ho, ho2, List.append_assoc], ?_⟩, hm.trans hm2,
        ha.trans ha2.1, hs.trans ha2.2, hc⟩
      intro n hn
      rcases List.mem_append.1 hn with h1 | h1
      · exact hl2 n h1
      · exact hl n h1

theorem no_touch_capability_no_touch_effect_witness :
    mouse_touch_pending.dev.seat_caps &&& EVDEV_DEVICE_TOUCH = 0 ∧
    process_events mouse_touch_pending [abs_event ABS_X 9, syn_event] =
      some { mouse_touch_pending with
        dev := { mouse_touch_pending.dev with pending_event := EVDEV_NONE, abs_x := 9 } } ∧
    ((∃ l : List Notification,
        mouse_touch_pending.out = mouse_touch_pending.out ++ l ∧
        ∀ n ∈ l, n.is_touch_any = false) ∧
      (5 : Nat) = mouse_touch_pending.slot_map ∧
      (-1 : Int) = mouse_touch_pending.dev.abs_seat_slot ∧
      ([] : List Int) = mouse_touch_pending.dev.mt_slots.map (fun sl => sl.seat_slot) ∧
      EVDEV_DEVICE_POINTER &&& EVDEV_DEVICE_TOUCH = 0) :=
  ⟨by decide, rfl,
    no_touch_capability_no_touch_effect [abs_event ABS_X 9, syn_event] mouse_touch_pending
      { mouse_touch_pending with
        dev := { mouse_touch_pending.dev with pending_event := EVDEV_NONE, abs_x := 9 } }
      (by decide) rfl⟩

/-! ## The pressure of a multitouch slot -/

/-- An event that goes down the auxiliary axis path of `evdev_process_touch`
on a multitouch device with no auxiliary axis registered for the active slot
changes nothing. -/
theorem process_touch_no_aux_axis (s : State) (e : input_event) (t : Nat)
    (hmt : s.dev.is_mt = true) (ht : e.type = EV_ABS)
    (hc : e.code ≠ ABS_MT_SLOT ∧ e.code ≠ ABS_MT_TRACKING_ID ∧ e.code ≠ ABS_MT_POSITION_X ∧
      e.code ≠ ABS_MT_POSITION_Y ∧ e.code ≠ ABS_MT_TOUCH_MAJOR ∧ e.code ≠ ABS_MT_TOUCH_MINOR ∧
      e.code ≠ ABS_MT_ORIENTATION)
    (haux : s.dev.mt_aux_data_list = none ∨ mt_aux_list s.dev s.dev.mt_slot = some []) :
    fallback_process s e t = some s := by
  obtain ⟨c1, c2, c3, c4, c5, c6, c7⟩ := hc
  have hq : evdev_process_touch_extra_aux_data s.dev e = some (s.dev, false) := by
    unfold evdev_process_touch_extra_aux_data
    cases hl : s.dev.mt_aux_data_list with
    | none => rfl
    | some lists =>
      rcases haux with h | h
      · rw [hl] at h
        exact absurd h (by simp)
      · simp only [h, List.isEmpty_nil, if_true]
  unfold fallback_process
  rw [ht, if_neg (by decide), if_pos rfl]
  unfold evdev_process_absolute
  rw [if_pos hmt]
  unfold evdev_process_touch
  rw [if_neg c1, if_neg c2]
  simp only [if_neg c3, if_neg c4, if_neg c5, if_neg c6, if_neg c7, hq]
  unfold wake_mt_motion
  simp

/-- C38: on a multitouch device with no auxiliary axis registered for the
active slot (the array of lists is absent or the list of the slot is empty),
an `ABS_MT_PRESSURE` event returns the state as it is, so neither the pressure
field of the active slot nor the pending kind changes. For every sequence of
raw events that is processed, the pressure field of every slot is afterwards
what it was before, and every touch down and touch motion posted for a
multitouch slot carries the pressure field of that slot (`j = -1` is the
single-touch stream, which carries `DEFAULT_TOUCH_PRESSURE`). -/
theorem pressure_event_leaves_slot_pressure (s : State) (v : Int) (t : Nat)
    (hmt : s.dev.is_mt = true)
    (haux : s.dev.mt_aux_data_list = none ∨ mt_aux_list s.dev s.dev.mt_slot = some []) :
    fallback_process s (abs_event ABS_MT_PRESSURE v) t = some s ∧
    ∀ (evs : List input_event) (s1 : State), process_events s evs = some s1 →
      s1.dev.mt_slots.map (fun sl => sl.pressure) = s.dev.mt_slots.map (fun sl => sl.pressure) ∧
      ∃ l : List Notification, s1.out = s.out ++ l ∧
        ∀ (time : Nat) (j k x y : Int) (a : ellipse) (p : Int),
          (Notification.touch_down time j k x y a p ∈ l ∨
            Notification.touch_motion time j k x y a p ∈ l) →
          (j = -1 ∧ p = DEFAULT_TOUCH_PRESSURE) ∨
          (0 ≤ j ∧ (s.dev.mt_slots.map (fun sl => sl.pressure))[j.toNat]? = some p) := by
  have hcodes : ABS_MT_PRESSURE ≠ ABS_MT_SLOT ∧ ABS_MT_PRESSURE ≠ ABS_MT_TRACKING_ID ∧
      ABS_MT_PRESSURE ≠ ABS_MT_POSITION_X ∧ ABS_MT_PRESSURE ≠ ABS_MT_POSITION_Y ∧
      ABS_MT_PRESSURE ≠ ABS_MT_TOUCH_MAJOR ∧ ABS_MT_PRESSURE ≠ ABS_MT_TOUCH_MINOR ∧
      ABS_MT_PRESSURE ≠ ABS_MT_ORIENTATION := by decide
  refine ⟨process_touch_no_aux_axis s (abs_event ABS_MT_PRESSURE v) t hmt rfl hcodes haux, ?_⟩
  intro evs s1 h
  obtain ⟨hf, -, -, l, ho, hl⟩ := stable_process_events evs s s1 h
  refine ⟨(fixed_part_fields hf).2.2.1, l, ho, ?_⟩
  intro time j k x y a p hn
  rcases hn with hn | hn
  · exact (hl _ hn).2
  · exact (hl _ hn).2

theorem pressure_event_leaves_slot_pressure_witness :
    fallback_process touchscreen_pressure_33 (abs_event ABS_MT_PRESSURE 77) 4 =
      some touchscreen_pressure_33 ∧
    process_events touchscreen_pressure_33
      [abs_event ABS_MT_PRESSURE 77, abs_event ABS_MT_TRACKING_ID 5, syn_report] =
      some touchscreen_pressure_33_down ∧
    (touchscreen_pressure_33_down.dev.mt_slots.map (fun sl => sl.pressure) =
        touchscreen_pressure_33.dev.mt_slots.map (fun sl => sl.pressure) ∧
      ∃ l : List Notification, touchscreen_pressure_33_down.out =
          touchscreen_pressure_33.out ++ l ∧
        ∀ (time : Nat) (j k x y : Int) (a : ellipse) (p : Int),
          (Notification.touch_down time j k x y a p ∈ l ∨
            Notification.touch_motion time j k x y a p ∈ l) →
          (j = -1 ∧ p = DEFAULT_TOUCH_PRESSURE) ∨
          (0 ≤ j ∧ (touchscreen_pressure_33.dev.mt_slots.map
            (fun sl => sl.pressure))[j.toNat]? = some p)) :=
  ⟨(pressure_event_leaves_slot_pressure touchscreen_pressure_33 77 4 rfl (Or.inr rfl)).1, rfl,
    (pressure_event_leaves_slot_pressure touchscreen_pressure_33 77 4 rfl (Or.inr rfl)).2
      [abs_event ABS_MT_PRESSURE 77, abs_event ABS_MT_TRACKING_ID 5, syn_report]
      touchscreen_pressure_33_down rfl⟩

/-! ## Release of the pressed keys: termination -/

theorem scroll_method_hook_left_handed (s : State) (state : libinput_button_state) :
    (scroll_method_hook s state).dev.left_handed_enabled = s.dev.left_handed_enabled ∧
    (scroll_method_hook s state).dev.left_handed_want_enabled =
      s.dev.left_handed_want_enabled := by
  unfold scroll_method_hook evdev_change_scroll_method
  split_ifs <;> exact ⟨rfl, rfl⟩

/-- With left-handed mode off, a call of `evdev_pointer_notify_button` leaves
it off. -/
theorem pointer_notify_button_left_handed_off {s s1 : State} {time button : Nat}
    {state : libinput_button_state}
    (h : evdev_pointer_notify_button s time button state = some s1)
    (hoff : left_handed_off s.dev) : left_handed_off s1.dev := by
  obtain ⟨h1, h2⟩ := hoff
  unfold evdev_pointer_notify_button at h
  split at h
  · exact absurd h (by simp)
  · rename_i d cnt hupd
    have hd : d.left_handed_enabled = false ∧ d.left_handed_want_enabled = false := by
      unfold update_key_down_count at hupd
      split_ifs at hupd <;> simp only [Option.some.injEq, Prod.mk.injEq] at hupd <;>
        obtain ⟨rfl, -⟩ := hupd <;> exact ⟨h1, h2⟩
    split_ifs at h <;> simp only [Option.some.injEq] at h <;> subst h
    · have e1 : left_handed_hook ({ s with dev := d }.post
          (Notification.pointer_button (time % 2 ^ 32) button state)) state =
          { s with dev := d }.post (Notification.pointer_button (time % 2 ^ 32) button state) := by
        unfold left_handed_hook
        rw [evdev_change_to_left_handed_settled _ (by
          show d.left_handed_want_enabled = d.left_handed_enabled
          rw [hd.1, hd.2])]
        split_ifs <;> rfl
      rw [e1]
      obtain ⟨a, b⟩ := scroll_method_hook_left_handed
        ({ s with dev := d }.post (Notification.pointer_button (time % 2 ^ 32) button state)) state
      exact ⟨a.trans hd.1, b.trans hd.2⟩
    · exact hd

/-- The loop for a code of key or button type with a positive count within the
fuel, left-handed mode off: the loop returns, the count of the code is `0`,
the other counts are as before, and left-handed mode is still off. -/
theorem release_code_typed (time code : Nat)
    (hty : get_key_type code ≠ EVDEV_KEY_TYPE_NONE) :
    ∀ (n fuel : Nat) (s : State), left_handed_off s.dev →
      s.dev.key_count code = ((n + 1 : Nat) : Int) → n + 1 ≤ fuel →
      ∃ s1, release_code time code fuel s = some s1 ∧
        s1.dev.key_count = Function.update s.dev.key_count code 0 ∧
        left_handed_off s1.dev := by
  cases hk : get_key_type code with
  | EVDEV_KEY_TYPE_NONE => exact absurd hk hty
  | EVDEV_KEY_TYPE_KEY =>
    intro n fuel s hoff hn hf
    refine ⟨_, release_code_key time code hk (get_key_type_key code hk).1 n fuel s hn hf,
      rfl, hoff⟩
  | EVDEV_KEY_TYPE_BUTTON =>
    have hcode := (get_key_type_button code hk).1
    intro n
    induction n with
    | zero =>
      intro fuel s hoff hn hf
      obtain ⟨f, rfl⟩ : ∃ f, fuel = f + 1 := ⟨fuel - 1, by omega⟩
      have hpos : 0 < s.dev.key_count code := by rw [hn]; omega
      have hmap : evdev_to_left_handed s.dev code = code := by
        unfold evdev_to_left_handed
        rw [hoff.1]
        rfl
      obtain ⟨s1, h1, hk1, -⟩ := pointer_notify_button_release s time code hcode hpos
      have hoff1 := pointer_notify_button_left_handed_off h1 hoff
      have hz : ¬ (0 < s1.dev.key_count code) := by
        rw [hk1, hn]
        simp
      refine ⟨s1, ?_, ?_, hoff1⟩
      · simp only [release_code, get_key_down_count, hpos, if_true, hk, hmap, h1]
        exact release_code_idle time code f _ hz
      · rw [hk1, hn]
        simp
    | succ n ih =>
      intro fuel s hoff hn hf
      obtain ⟨f, rfl⟩ : ∃ f, fuel = f + 1 := ⟨fuel - 1, by omega⟩
      have hpos : 0 < s.dev.key_count code := by rw [hn]; omega
      have hmap : evdev_to_left_handed s.dev code = code := by
        unfold evdev_to_left_handed
        rw [hoff.1]
        rfl
      obtain ⟨s1, h1, hk1, -⟩ := pointer_notify_button_release s time code hcode hpos
      have hoff1 := pointer_notify_button_left_handed_off h1 hoff
      have hn1 : s1.dev.key_count code = ((n + 1 : Nat) : Int) := by
        rw [hk1, hn]
        simp
      obtain ⟨s2, h2, hk2, hoff2⟩ := ih f s1 hoff1 hn1 (by omega)
      refine ⟨s2, ?_, ?_, hoff2⟩
      · simp only [release_code, get_key_down_count, hpos, if_true, hk, hmap, h1]
        exact h2
      · rw [hk2, hk1]
        simp

/-- The loop over a list of codes on which every positive count belongs to a
code of key or button type and is within the fuel, left-handed mode off: the
loop returns with no positive count left on the codes of the list. -/
theorem release_codes_typed (time fuel : Nat) :
    ∀ (L : List Nat) (s : State), left_handed_off s.dev →
      (∀ c ∈ L, 0 < s.dev.key_count c →
        get_key_type c ≠ EVDEV_KEY_TYPE_NONE ∧ s.dev.key_count c ≤ (fuel : Int)) →
      ∃ s1 : State, release_codes time fuel L s = some s1 ∧
        (∀ c ∈ L, ¬ (0 < s1.dev.key_count c)) ∧
        (∀ c, s1.dev.key_count c = s.dev.key_count c ∨ s1.dev.key_count c = 0) ∧
        left_handed_off s1.dev := by
  intro L
  induction L with
  | nil =>
    intro s hoff _
    exact ⟨s, rfl, fun c hc => absurd hc (List.not_mem_nil c), fun c => Or.inl rfl, hoff⟩
  | cons a rest ih =>
    intro s hoff hs
    have hstep : ∃ s1, release_code time a fuel s = some s1 ∧
        ¬ (0 < s1.dev.key_count a) ∧
        (∀ c, s1.dev.key_count c = s.dev.key_count c ∨ s1.dev.key_count c = 0) ∧
        left_handed_off s1.dev := by
      by_cases hpos : 0 < s.dev.key_count a
      · obtain ⟨hty, hfuel⟩ := hs a (List.mem_cons_self _ _) hpos
        obtain ⟨n, hn⟩ : ∃ n : Nat, s.dev.key_count a = ((n + 1 : Nat) : Int) :=
          ⟨(s.dev.key_count a).toNat - 1, by omega⟩
        obtain ⟨s1, h1, hk1, hoff1⟩ := release_code_typed time a hty n fuel s hoff hn (by omega)
        refine ⟨s1, h1, by rw [hk1]; simp, ?_, hoff1⟩
        intro c
        rw [hk1]
        by_cases hca : c = a
        · subst hca
          exact Or.inr (by simp)
        · exact Or.inl (by simp [Function.update, hca])
      · exact ⟨s, release_code_idle time a fuel s hpos, hpos, fun c => Or.inl rfl, hoff⟩
    obtain ⟨s1, h1, hz1, hk1, hoff1⟩ := hstep
    obtain ⟨s2, h2, hz2, hk2, hoff2⟩ := ih s1 hoff1 (by
      intro c hc hp
      rcases hk1 c with h | h
      · rw [h] at hp ⊢
        exact hs c (List.mem_cons_of_mem _ hc) hp
      · rw [h] at hp
        exact absurd hp (by decide))
    refine ⟨s2, ?_, ?_, ?_, hoff2⟩
    · simp only [release_codes, h1]
      exact h2
    · intro c hc
      rcases List.mem_cons.1 hc with h | h
      · subst h
        rcases hk2 c with h3 | h3
        · rw [h3]
          exact hz1
        · rw [h3]
          decide
      · exact hz2 c h
    · intro c
      rcases hk2 c with h3 | h3
      · rcases hk1 c with h4 | h4
        · exact Or.inl (h3.trans h4)
        · exact Or.inr (h3.trans h4)
      · exact Or.inr h3

/-- A bound on the ledger counts of the codes below `n`. -/
theorem ledger_bound (kc : Nat → Int) (n : Nat) :
    ∃ N : Nat, ∀ c, c < n → kc c ≤ (N : Int) := by
  induction n with
  | zero => exact ⟨0, fun c hc => absurd hc (Nat.not_lt_zero c)⟩
  | succ n ih =>
    obtain ⟨N, hN⟩ := ih
    refine ⟨max N (kc n).toNat, fun c hc => ?_⟩
    by_cases hcn : c = n
    · subst hcn
      have := le_max_right N (kc c).toNat
      omega
    · have h1 := hN c (by omega)
      have := le_max_left N (kc n).toNat
      omega
/-- The loop over the codes `a, a + 1, ...` skips the codes before `code` when
none of them has a positive count. -/
theorem release_codes_skip (time fuel code : Nat) (s : State) :
    ∀ (n a : Nat), a ≤ code → code ≤ a + n →
      (∀ c, a ≤ c → c < code → ¬ (0 < s.dev.key_count c)) →
      release_codes time fuel (List.range' a n) s =
        release_codes time fuel (List.range' code (a + n - code)) s := by
  intro n
  induction n with
  | zero =>
    intro a h1 h2 _
    have : a = code := by omega
    subst this
    simp
  | succ n ih =>
    intro a h1 h2 hidle
    by_cases hac : a = code
    · subst hac
      simp
    · rw [List.range'_succ]
      have h0 := release_code_idle time a fuel s (hidle a (le_refl _) (by omega))
      simp only [release_codes, h0]
      rw [ih (a + 1) (by omega) (by omega) (fun c hc1 hc2 => hidle c (by omega) hc2)]
      congr 2
      omega

theorem release_codes_cons (time fuel a : Nat) (rest : List Nat) (s : State) :
    release_codes time fuel (a :: rest) s =
      (release_code time a fuel s).bind (fun s1 => release_codes time fuel rest s1) := by
  rw [release_codes]
  cases release_code time a fuel s <;> rfl

/-- A key event on a code of type `EVDEV_KEY_TYPE_NONE` leaves the ledger as
it is. -/
theorem process_key_none_type_key_count {s s1 : State} {e : input_event} {time : Nat}
    (hty : get_key_type e.code = EVDEV_KEY_TYPE_NONE)
    (h : evdev_process_key s e time = some s1) : s1.dev.key_count = s.dev.key_count := by
  unfold evdev_process_key at h
  by_cases h2 : e.value = 2
  · rw [if_pos h2] at h
    simp only [Option.some.injEq] at h
    subst h
    rfl
  · rw [if_neg h2] at h
    by_cases hbt : e.code = BTN_TOUCH
    · rw [if_pos hbt] at h
      split_ifs at h
      · unfold evdev_process_touch_button at h
        simp only [] at h
        split at h
        · exact absurd h (by simp)
        · rename_i s2 hfl
          simp only [Option.some.injEq] at h
          subst h
          split_ifs at hfl
          · exact (keys_untouched_flush hfl).1
          · simp only [Option.some.injEq] at hfl
            subst hfl
            rfl
      · simp only [Option.some.injEq] at h
        subst h
        rfl
    · rw [if_neg hbt] at h
      split at h
      · exact absurd h (by simp)
      · rename_i s2 hfl
        simp only [] at h
        rw [if_neg (by rintro ⟨-, hne, -⟩; exact hne hty), hty] at h
        simp only [Option.some.injEq] at h
        subst h
        exact (keys_untouched_flush hfl).1

/-- With left-handed mode off (neither in effect nor requested) and every
positive ledger count on a code of key or button type, `release_pressed_keys`
returns for every fuel from some bound on, and when the clock can be read no
code of the ledger has a positive count afterwards. Every state that
`fallback_process` reaches from such a state with no configuration change
waiting is such a state again. A key event on a code of type
`EVDEV_KEY_TYPE_NONE` (`BTN_TOUCH`, code `0`, the codes outside the key and
button ranges) never changes the ledger. -/
theorem release_pressed_keys_terminates :
    (∀ (s : State) (now : Nat), left_handed_off s.dev → ledger_typed s.dev →
      ∃ N : Nat, ∀ fuel : Nat, N ≤ fuel →
        ∃ s1 : State, release_pressed_keys s now fuel = some s1 ∧
          (now ≠ 0 → ∀ c, c < KEY_CNT → ¬ (0 < s1.dev.key_count c))) ∧
    (∀ (s s1 : State) (evs : List input_event), left_handed_off s.dev → s.dev.settled →
      ledger_typed s.dev → process_events s evs = some s1 →
      left_handed_off s1.dev ∧ s1.dev.settled ∧ ledger_typed s1.dev) ∧
    (∀ (s s1 : State) (e : input_event) (time : Nat), e.type = EV_KEY →
      get_key_type e.code = EVDEV_KEY_TYPE_NONE → fallback_process s e time = some s1 →
      s1.dev.key_count = s.dev.key_count) ∧
    get_key_type BTN_TOUCH = EVDEV_KEY_TYPE_NONE ∧ get_key_type 0 = EVDEV_KEY_TYPE_NONE ∧
    (∀ c, KEY_CNT ≤ c → get_key_type c = EVDEV_KEY_TYPE_NONE) := by
  refine ⟨?_, ?_, ?_, by decide, by decide, ?_⟩
  · intro s now hoff hty
    obtain ⟨N, hN⟩ := ledger_bound s.dev.key_count KEY_CNT
    refine ⟨N, fun fuel hfuel => ?_⟩
    unfold release_pressed_keys
    by_cases hnow : now = 0
    · rw [if_pos hnow]
      exact ⟨s, rfl, fun h => absurd hnow h⟩
    · rw [if_neg hnow]
      obtain ⟨s1, h1, hz, -, -⟩ := release_codes_typed now fuel (List.range KEY_CNT) s hoff (by
        intro c hc hpos
        have hlt := List.mem_range.1 hc
        have := hN c hlt
        exact ⟨hty c hpos, by omega⟩)
      exact ⟨s1, h1, fun _ c hc => hz c (List.mem_range.2 hc)⟩
  · intro s s1 evs hoff hset hty h
    obtain ⟨hf, hm, hk, -⟩ := stable_process_events evs s s1 h
    have hm1 := hm hset
    obtain ⟨-, -, -, hw, -⟩ := fixed_part_fields hf
    obtain ⟨he, -, -⟩ := mode_part_fields hm1
    exact ⟨⟨he.trans hoff.1, hw.trans hoff.2⟩, settled_congr hf hm1 hset, hk hty⟩
  · intro s s1 e time he hty h
    unfold fallback_process at h
    rw [he, if_neg (by decide), if_neg (by decide), if_pos rfl] at h
    exact process_key_none_type_key_count hty h
  · intro c hc
    unfold KEY_CNT at hc
    unfold get_key_type BTN_TOUCH KEY_ESC KEY_MICMUTE BTN_MISC BTN_GEAR_UP KEY_OK
      KEY_LIGHTS_TOGGLE BTN_DPAD_UP BTN_TRIGGER_HAPPY40
    rw [if_neg (by omega), if_neg (by omega), if_neg (by omega), if_neg (by omega),
      if_neg (by omega)]

theorem release_pressed_keys_terminates_witness :
    left_handed_off key_and_button_down.dev ∧ ledger_typed key_and_button_down.dev ∧
    ∃ N : Nat, ∀ fuel : Nat, N ≤ fuel →
      ∃ s1 : State, release_pressed_keys key_and_button_down 7 fuel = some s1 ∧
        ((7 : Nat) ≠ 0 → ∀ c, c < KEY_CNT → ¬ (0 < s1.dev.key_count c)) := by
  have hoff : left_handed_off key_and_button_down.dev := ⟨rfl, rfl⟩
  have hty : ledger_typed key_and_button_down.dev := by
    intro c hc
    simp only [key_and_button_down] at hc
    split_ifs at hc with h1 h2
    · rw [h1]; decide
    · rw [h2]; decide
    · exact absurd hc (by decide)
  exact ⟨hoff, hty, release_pressed_keys_terminates.1 key_and_button_down 7 hoff hty⟩

/-! ## Ledger safety along a run of key events -/

theorem ledger_covers_congr {d d1 : Device} (hk : d1.key_count = d.key_count)
    (hm : d1.hw_key_mask = d.hw_key_mask) (hmode : d1.mode_part = d.mode_part)
    (h : ledger_covers d) : ledger_covers d1 := by
  obtain ⟨a, b, c⟩ := mode_part_fields hmode
  obtain ⟨h1, h2, h3⟩ := h
  have hmap : ∀ x, evdev_to_left_handed d1 x = evdev_to_left_handed d x := by
    intro x
    unfold evdev_to_left_handed
    rw [a]
  refine ⟨?_, ?_, ?_⟩
  · intro x
    rw [hk]
    exact h1 x
  · intro x hx hty
    rw [hk]
    exact h2 x (by unfold hw_is_key_down at hx ⊢; rw [← hm]; exact hx) hty
  · intro x hx hty hns
    rw [hk, hmap]
    exact h3 x (by unfold hw_is_key_down at hx ⊢; rw [← hm]; exact hx) hty
      (by rw [← b, ← c]; exact hns)

/-- The invariant carries over to a state with the same configuration, ledger
and hardware bitmap. -/
theorem key_run_inv_of {s s1 : State} (h : key_run_inv s)
    (hf : s1.dev.fixed_part = s.dev.fixed_part) (hmode : s1.dev.mode_part = s.dev.mode_part)
    (hp : s1.dev.pending_event = EVDEV_NONE ∨
      s1.dev.pending_event = EVDEV_ABSOLUTE_TOUCH_DOWN ∨
      s1.dev.pending_event = EVDEV_ABSOLUTE_TOUCH_UP)
    (ha : -1 ≤ s1.dev.abs_seat_slot ∧ s1.dev.abs_seat_slot < 32)
    (hcov : ledger_covers s1.dev) : key_run_inv s1 :=
  ⟨settled_congr hf hmode h.1, hp, ha, hcov⟩

/-- Under the invariant the flush returns, the invariant holds afterwards and
nothing is pending. -/
theorem key_run_flush (s : State) (time : Nat) (h : key_run_inv s) :
    ∃ s1, evdev_flush_pending_event s time = some s1 ∧ key_run_inv s1 ∧
      s1.dev.pending_event = EVDEV_NONE := by
  obtain ⟨hset, hp, ⟨ha1, ha2⟩, hcov⟩ := h
  have hex : ∃ s1, evdev_flush_pending_event s time = some s1 ∧
      -1 ≤ s1.dev.abs_seat_slot ∧ s1.dev.abs_seat_slot < 32 := by
    rcases hp with hp | hp | hp
    · exact ⟨s, flush_none time hp, ha1, ha2⟩
    · unfold evdev_flush_pending_event
      rw [hp]
      simp only [flush_case_touch_down]
      by_cases hcap : s.dev.seat_caps &&& EVDEV_DEVICE_TOUCH = 0
      · rw [if_pos hcap]
        exact ⟨_, rfl, ha1, ha2⟩
      · rw [if_neg hcap]
        by_cases hun : s.dev.abs_seat_slot ≠ -1
        · rw [if_pos hun]
          exact ⟨_, rfl, ha1, ha2⟩
        · rw [if_neg hun]
          rcases ffs_bnot32_cases s.slot_map with hk | ⟨k, hk, hk32, -⟩
          · rw [if_pos hk]
            refine ⟨_, rfl, ?_, ?_⟩
            · show -1 ≤ ((ffs (bnot32 s.slot_map) : Nat) : Int) - 1
              omega
            · show ((ffs (bnot32 s.slot_map) : Nat) : Int) - 1 < 32
              omega
          · rw [if_neg (by omega)]
            refine ⟨_, rfl, ?_, ?_⟩
            · show -1 ≤ ((ffs (bnot32 s.slot_map) : Nat) : Int) - 1
              omega
            · show ((ffs (bnot32 s.slot_map) : Nat) : Int) - 1 < 32
              omega
    · unfold evdev_flush_pending_event
      rw [hp]
      simp only [flush_case_touch_up]
      by_cases hcap : s.dev.seat_caps &&& EVDEV_DEVICE_TOUCH = 0
      · rw [if_pos hcap]
        exact ⟨_, rfl, ha1, ha2⟩
      · rw [if_neg hcap]
        by_cases hun : s.dev.abs_seat_slot = -1
        · rw [if_pos hun]
          exact ⟨_, rfl, le_refl (-1 : Int), (by decide : (-1 : Int) < 32)⟩
        · rw [if_neg hun]
          have hclr : slot_map_clear s.slot_map s.dev.abs_seat_slot =
              some (s.slot_map &&& bnot32 (1 <<< s.dev.abs_seat_slot.toNat)) := by
            unfold slot_map_clear
            rw [if_pos ⟨by omega, ha2⟩]
          simp only [hclr]
          exact ⟨_, rfl, le_refl (-1 : Int), (by decide : (-1 : Int) < 32)⟩
  obtain ⟨s1, hf, hb1, hb2⟩ := hex
  obtain ⟨hfix, hmode, -, -⟩ := stable_flush hf
  obtain ⟨hk, hm, -⟩ := keys_untouched_flush hf
  have hnone := (flushed_flush hf).1
  exact ⟨s1, hf, key_run_inv_of ⟨hset, hp, ⟨ha1, ha2⟩, hcov⟩ hfix (hmode hset) (Or.inl hnone)
    ⟨hb1, hb2⟩ (ledger_covers_congr hk hm (hmode hset) hcov), hnone⟩
theorem evdev_to_left_handed_inj (d : Device) (a b : Nat)
    (h : evdev_to_left_handed d a = evdev_to_left_handed d b) : a = b := by
  unfold evdev_to_left_handed at h
  unfold BTN_LEFT BTN_RIGHT at h
  split_ifs at h <;> omega

theorem evdev_to_left_handed_congr {d d1 : Device} (h : d1.mode_part = d.mode_part) (x : Nat) :
    evdev_to_left_handed d1 x = evdev_to_left_handed d x := by
  unfold evdev_to_left_handed
  rw [(mode_part_fields h).1]

/-- What a code is notified as: itself for a key-type code, its image under
`evdev_to_left_handed` for a button-type code. -/
theorem notified_code_type (d : Device) (c code : Nat)
    (hc : (get_key_type c = EVDEV_KEY_TYPE_KEY ∧ code = c) ∨
      (get_key_type c = EVDEV_KEY_TYPE_BUTTON ∧ code = evdev_to_left_handed d c)) :
    get_key_type code = get_key_type c := by
  rcases hc with ⟨h1, h2⟩ | ⟨h1, h2⟩
  · rw [h2]
  · rw [h2, h1]
    exact evdev_to_left_handed_button d c h1

/-- A press keeps the cover: the hardware bit of `c` is set and the count of
the code it is notified as goes up by one. -/
theorem ledger_covers_press {d d1 : Device} (c code : Nat)
    (hmode : d1.mode_part = d.mode_part)
    (hm : d1.hw_key_mask = Function.update d.hw_key_mask c true)
    (hk : d1.key_count = Function.update d.key_count code (d.key_count code + 1))
    (hc : (get_key_type c = EVDEV_KEY_TYPE_KEY ∧ code = c) ∨
      (get_key_type c = EVDEV_KEY_TYPE_BUTTON ∧ code = evdev_to_left_handed d c))
    (h : ledger_covers d) : ledger_covers d1 := by
  obtain ⟨h1, h2, h3⟩ := h
  obtain ⟨-, b, e⟩ := mode_part_fields hmode
  have hmono : ∀ x, d.key_count x ≤ d1.key_count x := by
    intro x
    rw [hk]
    by_cases hx : x = code
    · subst hx
      simp
    · simp [Function.update, hx]
  have hnew : 1 ≤ d1.key_count code := by
    rw [hk]
    have := h1 code
    simp only [Function.update_same]
    omega
  have hbit : ∀ x, hw_is_key_down d1 x = true → x ≠ c → hw_is_key_down d x = true := by
    intro x hx hxc
    unfold hw_is_key_down at hx ⊢
    rw [hm, Function.update_noteq hxc] at hx
    exact hx
  refine ⟨fun x => le_trans (h1 x) (hmono x), ?_, ?_⟩
  · intro x hx hty
    by_cases hxc : x = c
    · subst hxc
      rcases hc with ⟨-, h5⟩ | ⟨h4, -⟩
      · rw [← h5]
        exact hnew
      · rw [hty] at h4
        exact absurd h4 (by decide)
    · exact le_trans (h2 x (hbit x hx hxc) hty) (hmono x)
  · intro x hx hty hns
    rw [evdev_to_left_handed_congr hmode]
    by_cases hxc : x = c
    · subst hxc
      rcases hc with ⟨h4, -⟩ | ⟨-, h5⟩
      · rw [hty] at h4
        exact absurd h4 (by decide)
      · rw [← h5]
        exact hnew
    · exact le_trans (h3 x (hbit x hx hxc) hty (by rw [← b, ← e]; exact hns)) (hmono _)

/-- A release keeps the cover: the hardware bit of `c` is cleared and the
count of the code it is notified as, which was at least `1`, goes down by
one. -/
theorem ledger_covers_release {d d1 : Device} (c code : Nat)
    (hmode : d1.mode_part = d.mode_part)
    (hm : d1.hw_key_mask = Function.update d.hw_key_mask c false)
    (hk : d1.key_count = Function.update d.key_count code (d.key_count code - 1))
    (hc : (get_key_type c = EVDEV_KEY_TYPE_KEY ∧ code = c) ∨
      (get_key_type c = EVDEV_KEY_TYPE_BUTTON ∧ code = evdev_to_left_handed d c))
    (hpos : 1 ≤ d.key_count code)
    (h : ledger_covers d) : ledger_covers d1 := by
  obtain ⟨h1, h2, h3⟩ := h
  obtain ⟨-, b, e⟩ := mode_part_fields hmode
  have hty_code := notified_code_type d c code hc
  have hbit : ∀ x, hw_is_key_down d1 x = true → x ≠ c ∧ hw_is_key_down d x = true := by
    intro x hx
    unfold hw_is_key_down at hx ⊢
    rw [hm] at hx
    by_cases hxc : x = c
    · subst hxc
      simp at hx
    · rw [Function.update_noteq hxc] at hx
      exact ⟨hxc, hx⟩
  refine ⟨?_, ?_, ?_⟩
  · intro x
    rw [hk]
    by_cases hx : x = code
    · subst hx
      simp only [Function.update_same]
      omega
    · simp only [Function.update_noteq hx]
      exact h1 x
  · intro x hx hty
    obtain ⟨hxc, hxd⟩ := hbit x hx
    have hne : x ≠ code := by
      intro hxe
      subst hxe
      rcases hc with ⟨-, h5⟩ | ⟨h4, -⟩
      · exact hxc h5
      · rw [hty_code, h4] at hty
        exact absurd hty (by decide)
    rw [hk, Function.update_noteq hne]
    exact h2 x hxd hty
  · intro x hx hty hns
    obtain ⟨hxc, hxd⟩ := hbit x hx
    rw [evdev_to_left_handed_congr hmode]
    have hne : evdev_to_left_handed d x ≠ code := by
      intro hxe
      rcases hc with ⟨h4, -⟩ | ⟨-, h5⟩
      · have := evdev_to_left_handed_button d x hty
        rw [hxe, hty_code, h4] at this
        exact absurd this (by decide)
      · rw [h5] at hxe
        exact hxc (evdev_to_left_handed_inj d x c hxe)
    rw [hk, Function.update_noteq hne]
    exact h3 x hxd hty (by rw [← b, ← e]; exact hns)

/-- Setting the hardware bit of a code of type `EVDEV_KEY_TYPE_NONE`, or of the
scroll button of a device in the button-scrolling method, keeps the cover;
clearing a hardware bit always does. -/
theorem ledger_covers_bit {d d1 : Device} (c : Nat) (v : Bool)
    (hmode : d1.mode_part = d.mode_part)
    (hm : d1.hw_key_mask = Function.update d.hw_key_mask c v)
    (hk : d1.key_count = d.key_count)
    (hc : v = false ∨ get_key_type c = EVDEV_KEY_TYPE_NONE ∨
      (get_key_type c = EVDEV_KEY_TYPE_BUTTON ∧
        d.scroll_method = LIBINPUT_CONFIG_SCROLL_ON_BUTTON_DOWN ∧ c = d.scroll_button))
    (h : ledger_covers d) : ledger_covers d1 := by
  obtain ⟨h1, h2, h3⟩ := h
  obtain ⟨-, b, e⟩ := mode_part_fields hmode
  have hbit : ∀ x, hw_is_key_down d1 x = true →
      (x ≠ c ∧ hw_is_key_down d x = true) ∨ (x = c ∧ v = true) := by
    intro x hx
    unfold hw_is_key_down at hx ⊢
    rw [hm] at hx
    by_cases hxc : x = c
    · subst hxc
      simp only [Function.update_same] at hx
      exact Or.inr ⟨rfl, hx⟩
    · rw [Function.update_noteq hxc] at hx
      exact Or.inl ⟨hxc, hx⟩
  refine ⟨fun x => by rw [hk]; exact h1 x, ?_, ?_⟩
  · intro x hx hty
    rw [hk]
    rcases hbit x hx with ⟨-, hxd⟩ | ⟨hxc, hv⟩
    · exact h2 x hxd hty
    · subst hxc
      rcases hc with h4 | h4 | ⟨h4, -⟩
      · rw [h4] at hv
        exact absurd hv (by decide)
      · rw [h4] at hty
        exact absurd hty (by decide)
      · rw [h4] at hty
        exact absurd hty (by decide)
  · intro x hx hty hns
    rw [hk, evdev_to_left_handed_congr hmode]
    rcases hbit x hx with ⟨-, hxd⟩ | ⟨hxc, hv⟩
    · exact h3 x hxd hty (by rw [← b, ← e]; exact hns)
    · subst hxc
      rcases hc with h4 | h4 | ⟨-, h4⟩
      · rw [h4] at hv
        exact absurd hv (by decide)
      · rw [h4] at hty
        exact absurd hty (by decide)
      · exact absurd (by rw [b, e]; exact h4) hns
theorem key_frame_refl (d : Device) : key_frame d d := ⟨rfl, rfl, rfl, rfl, rfl⟩

theorem key_frame_trans {a b c : Device} (h1 : key_frame a b) (h2 : key_frame b c) :
    key_frame a c :=
  ⟨h2.1.trans h1.1, h2.2.1.trans h1.2.1, h2.2.2.1.trans h1.2.2.1,
    h2.2.2.2.1.trans h1.2.2.2.1, h2.2.2.2.2.trans h1.2.2.2.2⟩

theorem key_frame_update_key_down_count {d d1 : Device} {code : Nat} {pressed cnt : Int}
    (h : update_key_down_count d code pressed = some (d1, cnt)) : key_frame d d1 := by
  unfold update_key_down_count at h
  split_ifs at h <;> simp only [Option.some.injEq, Prod.mk.injEq] at h <;>
    obtain ⟨rfl, -⟩ := h <;> exact ⟨rfl, rfl, rfl, rfl, rfl⟩

theorem key_frame_keyboard_notify_key {s s1 : State} {time key : Nat}
    {state : libinput_key_state}
    (h : evdev_keyboard_notify_key s time key state = some s1) : key_frame s.dev s1.dev := by
  unfold evdev_keyboard_notify_key at h
  split at h
  · exact absurd h (by simp)
  · rename_i d cnt hupd
    have hd := key_frame_update_key_down_count hupd
    split_ifs at h <;> simp only [Option.some.injEq] at h <;> subst h <;> exact hd

theorem key_frame_pointer_notify_button {s s1 : State} {time button : Nat}
    {state : libinput_button_state}
    (h : evdev_pointer_notify_button s time button state = some s1) (hset : s.dev.settled) :
    key_frame s.dev s1.dev := by
  unfold evdev_pointer_notify_button at h
  split at h
  · exact absurd h (by simp)
  · rename_i d cnt hupd
    have hd := key_frame_update_key_down_count hupd
    split_ifs at h <;> simp only [Option.some.injEq] at h <;> subst h
    · rw [hooks_settled _ _ (settled_congr hd.1 hd.2.1 hset)]
      exact hd
    · exact hd

/-- The invariant after a step that changed the ledger and the hardware bitmap
only, given the cover afterwards. -/
theorem key_run_inv_frame {s s1 : State} (h : key_run_inv s)
    (hf : key_frame { s.dev with hw_key_mask := s1.dev.hw_key_mask } s1.dev)
    (hcov : ledger_covers s1.dev) : key_run_inv s1 := by
  obtain ⟨a, b, -, d, e⟩ := hf
  exact key_run_inv_of h a b (by rw [d]; exact h.2.1) (by rw [e]; exact h.2.2.1) hcov

/-- A key-type code that is not ignored, after the flush. -/
theorem key_run_key (s2 : State) (e : input_event) (t : Nat) (h : key_run_inv s2)
    (hty : get_key_type e.code = EVDEV_KEY_TYPE_KEY)
    (hgo : e.value ≠ 0 ∨ hw_is_key_down s2.dev e.code = true) :
    ∃ s1, evdev_keyboard_notify_key { s2 with dev := hw_set_key_down s2.dev e.code e.value } t
        e.code (if e.value ≠ 0 then LIBINPUT_KEY_STATE_PRESSED
          else LIBINPUT_KEY_STATE_RELEASED) = some s1 ∧ key_run_inv s1 := by
  have hcode := (get_key_type_key e.code hty).1
  have hcov := h.2.2.2
  by_cases hv : e.value ≠ 0
  · rw [if_pos hv]
    obtain ⟨s1, h1, hk1, -⟩ := keyboard_notify_key_press
      { s2 with dev := hw_set_key_down s2.dev e.code e.value } t e.code hcode
    obtain ⟨a, b, c, d, f⟩ := key_frame_keyboard_notify_key h1
    have hm : s1.dev.hw_key_mask = Function.update s2.dev.hw_key_mask e.code true := by
      rw [c]
      simp [hw_set_key_down, hv]
    refine ⟨s1, h1, key_run_inv_frame h ⟨a, b, rfl, d, f⟩ ?_⟩
    exact ledger_covers_press (d := s2.dev) e.code e.code b hm hk1 (Or.inl ⟨hty, rfl⟩) hcov
  · rw [if_neg hv]
    have hdown : hw_is_key_down s2.dev e.code = true := by
      rcases hgo with h0 | h0
      · exact absurd h0 hv
      · exact h0
    have hpos : 1 ≤ s2.dev.key_count e.code := hcov.2.1 e.code hdown hty
    obtain ⟨s1, h1, hk1, -⟩ := keyboard_notify_key_release
      { s2 with dev := hw_set_key_down s2.dev e.code e.value } t e.code hcode
      (show 0 < s2.dev.key_count e.code by omega)
    obtain ⟨a, b, c, d, f⟩ := key_frame_keyboard_notify_key h1
    have hm : s1.dev.hw_key_mask = Function.update s2.dev.hw_key_mask e.code false := by
      rw [c]
      simp [hw_set_key_down, not_not.1 hv]
    refine ⟨s1, h1, key_run_inv_frame h ⟨a, b, rfl, d, f⟩ ?_⟩
    exact ledger_covers_release (d := s2.dev) e.code e.code b hm hk1 (Or.inl ⟨hty, rfl⟩) hpos hcov

/-- A button-type code that is not ignored and is not the scroll button of the
button-scrolling method, after the flush. -/
theorem key_run_button (s2 : State) (e : input_event) (t : Nat) (h : key_run_inv s2)
    (hty : get_key_type e.code = EVDEV_KEY_TYPE_BUTTON)
    (hns : ¬ (s2.dev.scroll_method = LIBINPUT_CONFIG_SCROLL_ON_BUTTON_DOWN ∧
      e.code = s2.dev.scroll_button))
    (hgo : e.value ≠ 0 ∨ hw_is_key_down s2.dev e.code = true) :
    ∃ s1, evdev_pointer_notify_button
        { s2 with dev := hw_set_key_down s2.dev e.code e.value } t
        (evdev_to_left_handed (hw_set_key_down s2.dev e.code e.value) e.code)
        (if e.value ≠ 0 then LIBINPUT_BUTTON_STATE_PRESSED
          else LIBINPUT_BUTTON_STATE_RELEASED) = some s1 ∧ key_run_inv s1 := by
  have hmap : evdev_to_left_handed (hw_set_key_down s2.dev e.code e.value) e.code =
      evdev_to_left_handed s2.dev e.code := rfl
  rw [hmap]
  have hcode := (get_key_type_button _ (evdev_to_left_handed_button s2.dev e.code hty)).1
  have hcov := h.2.2.2
  have hset3 : (hw_set_key_down s2.dev e.code e.value).settled := h.1
  by_cases hv : e.value ≠ 0
  · rw [if_pos hv]
    obtain ⟨s1, h1, hk1, -⟩ := pointer_notify_button_press
      { s2 with dev := hw_set_key_down s2.dev e.code e.value } t
      (evdev_to_left_handed s2.dev e.code) hcode
    obtain ⟨a, b, c, d, f⟩ := key_frame_pointer_notify_button h1 hset3
    have hm : s1.dev.hw_key_mask = Function.update s2.dev.hw_key_mask e.code true := by
      rw [c]
      simp [hw_set_key_down, hv]
    refine ⟨s1, h1, key_run_inv_frame h ⟨a, b, rfl, d, f⟩ ?_⟩
    exact ledger_covers_press (d := s2.dev) e.code _ b hm hk1 (Or.inr ⟨hty, rfl⟩) hcov
  · rw [if_neg hv]
    have hdown : hw_is_key_down s2.dev e.code = true := by
      rcases hgo with h0 | h0
      · exact absurd h0 hv
      · exact h0
    have hpos : 1 ≤ s2.dev.key_count (evdev_to_left_handed s2.dev e.code) :=
      hcov.2.2 e.code hdown hty hns
    obtain ⟨s1, h1, hk1, -⟩ := pointer_notify_button_release
      { s2 with dev := hw_set_key_down s2.dev e.code e.value } t
      (evdev_to_left_handed s2.dev e.code) hcode
      (show 0 < s2.dev.key_count (evdev_to_left_handed s2.dev e.code) by omega)
    obtain ⟨a, b, c, d, f⟩ := key_frame_pointer_notify_button h1 hset3
    have hm : s1.dev.hw_key_mask = Function.update s2.dev.hw_key_mask e.code false := by
      rw [c]
      simp [hw_set_key_down, not_not.1 hv]
    refine ⟨s1, h1, key_run_inv_frame h ⟨a, b, rfl, d, f⟩ ?_⟩
    exact ledger_covers_release (d := s2.dev) e.code _ b hm hk1 (Or.inr ⟨hty, rfl⟩) hpos hcov
/-- The scroll button of the button-scrolling method, after the flush: the
press arms the timer; the release ends the scroll or, when the timer has not
fired, notifies the press and the release of the button one after the other,
which leaves the ledger as it was. -/
theorem key_run_scroll_button (s2 : State) (e : input_event) (t : Nat) (h : key_run_inv s2)
    (hty : get_key_type e.code = EVDEV_KEY_TYPE_BUTTON)
    (hsb : s2.dev.scroll_method = LIBINPUT_CONFIG_SCROLL_ON_BUTTON_DOWN ∧
      e.code = s2.dev.scroll_button) :
    ∃ s1, evdev_button_scroll_button
        { s2 with dev := hw_set_key_down s2.dev e.code e.value } t e.value = some s1 ∧
      key_run_inv s1 := by
  have hcode := (get_key_type_button _ hty).1
  have hcov := h.2.2.2
  unfold evdev_button_scroll_button
  by_cases hv : e.value ≠ 0
  · rw [if_pos hv]
    refine ⟨_, rfl, key_run_inv_frame h ⟨rfl, rfl, rfl, rfl, rfl⟩ ?_⟩
    exact ledger_covers_bit (d := s2.dev) e.code true rfl (by simp [hw_set_key_down, hv]) rfl
      (Or.inr (Or.inr ⟨hty, hsb⟩)) hcov
  · rw [if_neg hv]
    simp only []
    by_cases hact : s2.dev.scroll_button_scroll_active = true
    · have hact1 : ({ s2 with dev := { hw_set_key_down s2.dev e.code e.value with
          scroll_timer := none } } : State).dev.scroll_button_scroll_active = true := hact
      rw [if_pos hact1]
      refine ⟨_, rfl, key_run_inv_frame h ?_ ?_⟩
      · unfold evdev_stop_scroll
        simp only []
        split_ifs <;> exact ⟨rfl, rfl, rfl, rfl, rfl⟩
      · refine ledger_covers_bit (d := s2.dev) e.code false ?_ ?_ ?_ (Or.inl rfl) hcov
        · unfold evdev_stop_scroll
          simp only []
          split_ifs <;> rfl
        · unfold evdev_stop_scroll
          simp only []
          split_ifs <;> simp [hw_set_key_down, not_not.1 hv, State.post]
        · unfold evdev_stop_scroll
          simp only []
          split_ifs <;> rfl
    · have hact1 : ¬ (({ s2 with dev := { hw_set_key_down s2.dev e.code e.value with
          scroll_timer := none } } : State).dev.scroll_button_scroll_active = true) := hact
      rw [if_neg hact1]
      have hcodeb : s2.dev.scroll_button < KEY_CNT := hsb.2 ▸ hcode
      obtain ⟨s5, h5, hk5, -⟩ := pointer_notify_button_press
        { s2 with dev := { hw_set_key_down s2.dev e.code e.value with scroll_timer := none } }
        t s2.dev.scroll_button hcodeb
      obtain ⟨a5, b5, c5, d5, f5⟩ := key_frame_pointer_notify_button h5 h.1
      have hb5 : s5.dev.scroll_button = s2.dev.scroll_button := (mode_part_fields b5).2.2
      have hk5e : s5.dev.key_count s2.dev.scroll_button =
          s2.dev.key_count s2.dev.scroll_button + 1 := by
        rw [hk5, Function.update_same]
        rfl
      have hnn := hcov.1 s2.dev.scroll_button
      obtain ⟨s6, h6, hk6, -⟩ := pointer_notify_button_release s5 t s2.dev.scroll_button hcodeb
        (by omega)
      obtain ⟨a6, b6, c6, d6, f6⟩ := key_frame_pointer_notify_button h6
        (settled_congr a5 b5 h.1)
      have hk62 : s6.dev.key_count = s2.dev.key_count := by
        rw [hk6, hk5e, hk5]
        funext x
        by_cases hx : x = s2.dev.scroll_button
        · rw [hx, Function.update_same]
          omega
        · rw [Function.update_noteq hx, Function.update_noteq hx]
          rfl
      generalize hq : evdev_pointer_notify_button _ t _ LIBINPUT_BUTTON_STATE_PRESSED = q
      have hq5 : q = some s5 := hq.symm.trans h5
      subst hq5
      simp only []
      rw [hb5]
      refine ⟨s6, h6, key_run_inv_frame h ⟨a6.trans a5, b6.trans b5, rfl, d6.trans d5,
        f6.trans f5⟩ ?_⟩
      refine ledger_covers_bit (d := s2.dev) e.code false (b6.trans b5) ?_ hk62 (Or.inl rfl) hcov
      rw [c6, c5]
      simp [hw_set_key_down, not_not.1 hv]
theorem key_run_touch_button (s : State) (t : Nat) (v : Int) (h : key_run_inv s) :
    ∃ s1, evdev_process_touch_button s t v = some s1 ∧ key_run_inv s1 := by
  have hpend : ∀ s2 : State, key_run_inv s2 →
      key_run_inv { s2 with dev := { s2.dev with pending_event :=
        if v ≠ 0 then EVDEV_ABSOLUTE_TOUCH_DOWN else EVDEV_ABSOLUTE_TOUCH_UP } } := by
    intro s2 h2
    refine key_run_inv_of h2 rfl rfl ?_ h2.2.2.1 (ledger_covers_congr rfl rfl rfl h2.2.2.2)
    by_cases hv : v ≠ 0
    · exact Or.inr (Or.inl (if_pos hv))
    · exact Or.inr (Or.inr (if_neg hv))
  unfold evdev_process_touch_button
  simp only []
  by_cases hc : s.dev.pending_event ≠ EVDEV_NONE ∧ s.dev.pending_event ≠ EVDEV_ABSOLUTE_MOTION
  · rw [if_pos hc]
    obtain ⟨s2, hf, h2, -⟩ := key_run_flush s t h
    rw [hf]
    exact ⟨_, rfl, hpend s2 h2⟩
  · rw [if_neg hc]
    exact ⟨_, rfl, hpend s h⟩

/-- One key event under the invariant: `evdev_process_event` returns and the
invariant holds afterwards. -/
theorem key_run_step (s : State) (e : input_event) (h : key_run_inv s) (he : e.type = EV_KEY) :
    ∃ s1, evdev_process_event s e = some s1 ∧ key_run_inv s1 := by
  unfold evdev_process_event fallback_process
  rw [he, if_neg (by decide), if_neg (by decide), if_pos rfl]
  generalize e.tv_sec * 1000 + e.tv_usec / 1000 = t
  unfold evdev_process_key
  by_cases h2 : e.value = 2
  · rw [if_pos h2]
    exact ⟨s, rfl, h⟩
  · rw [if_neg h2]
    by_cases hbt : e.code = BTN_TOUCH
    · rw [if_pos hbt]
      by_cases hmt : (!s.dev.is_mt) = true
      · rw [if_pos hmt]
        exact key_run_touch_button s t e.value h
      · rw [if_neg hmt]
        exact ⟨s, rfl, h⟩
    · rw [if_neg hbt]
      obtain ⟨s2, hf, h2i, -⟩ := key_run_flush s t h
      rw [hf]
      simp only []
      by_cases hrel : e.value = 0 ∧ get_key_type e.code ≠ EVDEV_KEY_TYPE_NONE ∧
          (!hw_is_key_down s2.dev e.code) = true
      · rw [if_pos hrel]
        exact ⟨s2, rfl, h2i⟩
      · rw [if_neg hrel]
        have hgo : get_key_type e.code ≠ EVDEV_KEY_TYPE_NONE →
            e.value ≠ 0 ∨ hw_is_key_down s2.dev e.code = true := by
          intro hne
          by_cases hv : e.value = 0
          · right
            by_contra hb
            exact hrel ⟨hv, hne, by simpa using hb⟩
          · exact Or.inl hv
        cases hty : get_key_type e.code with
        | EVDEV_KEY_TYPE_NONE =>
          simp only []
          refine ⟨_, rfl, key_run_inv_frame h2i ⟨rfl, rfl, rfl, rfl, rfl⟩ ?_⟩
          exact ledger_covers_bit (d := s2.dev) e.code (decide (e.value ≠ 0)) rfl rfl rfl
            (Or.inr (Or.inl hty)) h2i.2.2.2
        | EVDEV_KEY_TYPE_KEY =>
          simp only []
          exact key_run_key s2 e t h2i hty (hgo (by rw [hty]; decide))
        | EVDEV_KEY_TYPE_BUTTON =>
          simp only []
          by_cases hsb : s2.dev.scroll_method = LIBINPUT_CONFIG_SCROLL_ON_BUTTON_DOWN ∧
              e.code = s2.dev.scroll_button
          · have hsb1 : (hw_set_key_down s2.dev e.code e.value).scroll_method =
                LIBINPUT_CONFIG_SCROLL_ON_BUTTON_DOWN ∧
                e.code = (hw_set_key_down s2.dev e.code e.value).scroll_button := hsb
            rw [if_pos hsb1]
            exact key_run_scroll_button s2 e t h2i hty hsb
          · have hsb1 : ¬ ((hw_set_key_down s2.dev e.code e.value).scroll_method =
                LIBINPUT_CONFIG_SCROLL_ON_BUTTON_DOWN ∧
                e.code = (hw_set_key_down s2.dev e.code e.value).scroll_button) := hsb
            rw [if_neg hsb1]
            exact key_run_button s2 e t h2i hty hsb (hgo (by rw [hty]; decide))

theorem key_run_events (evs : List input_event) :
    ∀ s : State, key_run_inv s → (∀ e ∈ evs, e.type = EV_KEY) →
      ∃ s1, process_events s evs = some s1 ∧ key_run_inv s1 := by
  induction evs with
  | nil => exact fun s h _ => ⟨s, rfl, h⟩
  | cons e rest ih =>
    intro s h hev
    obtain ⟨s1, h1, hi1⟩ := key_run_step s e h (hev e (List.mem_cons_self _ _))
    obtain ⟨s2, h2, hi2⟩ := ih s1 hi1 (fun x hx => hev x (List.mem_cons_of_mem _ hx))
    refine ⟨s2, ?_, hi2⟩
    unfold process_events
    rw [h1]
    exact h2
/-- C32: on a device as it is right after creation (every ledger count `0`,
no hardware bit set, nothing pending, no seat slot held by the single-touch
stream, no configuration change waiting), every sequence of key events is
processed to the end by `evdev_process_event`, so no step fails an `assert`
of `update_key_down_count`, and afterwards the ledger covers the hardware
bitmap: no count is negative, and a set hardware bit of a key-type code, or of
a button-type code other than the scroll button of the button-scrolling
method, comes with a count of at least `1` on the code it is notified as. -/
theorem ledger_safety (s : State) (evs : List input_event)
    (hcount : ∀ c, s.dev.key_count c = 0) (hmask : ∀ c, hw_is_key_down s.dev c = false)
    (hset : s.dev.settled) (hp : s.dev.pending_event = EVDEV_NONE)
    (ha : s.dev.abs_seat_slot = -1) (hev : ∀ e ∈ evs, e.type = EV_KEY) :
    ∃ s1, process_events s evs = some s1 ∧ ledger_covers s1.dev ∧ s1.dev.settled := by
  have hinv : key_run_inv s := by
    refine ⟨hset, Or.inl hp, by rw [ha]; decide, ?_, ?_, ?_⟩
    · intro c
      rw [hcount c]
    · intro c hc
      rw [hmask c] at hc
      exact absurd hc (by decide)
    · intro c hc
      rw [hmask c] at hc
      exact absurd hc (by decide)
  obtain ⟨s1, h1, hi1⟩ := key_run_events evs s hinv hev
  exact ⟨s1, h1, hi1.2.2.2, hi1.1⟩

theorem ledger_safety_witness :
    ∃ s1, process_events button_scroll_idle
        [key_event BTN_LEFT 1, key_event BTN_LEFT 1, key_event BTN_LEFT 0,
          key_event BTN_LEFT 0, key_event 30 0, key_event BTN_MIDDLE 1] = some s1 ∧
      ledger_covers s1.dev ∧ s1.dev.settled :=
  ledger_safety button_scroll_idle
    [key_event BTN_LEFT 1, key_event BTN_LEFT 1, key_event BTN_LEFT 0,
      key_event BTN_LEFT 0, key_event 30 0, key_event BTN_MIDDLE 1]
    (fun _ => rfl) (fun _ => rfl) ⟨rfl, rfl, rfl⟩ rfl rfl (by decide)

/-- The counterexample to the invariant without the exception for the scroll
button: on a device created for button scrolling on the middle button, the
press of the middle button sets its hardware bit and arms the timer, and the
ledger count of the button stays `0`. -/
theorem scroll_button_held_counterexample :
    (∀ c, button_scroll_idle.dev.key_count c = 0) ∧
    (∀ c, hw_is_key_down button_scroll_idle.dev c = false) ∧
    ∃ s1, process_events button_scroll_idle [key_event BTN_MIDDLE 1] = some s1 ∧
      get_key_type BTN_MIDDLE = EVDEV_KEY_TYPE_BUTTON ∧
      hw_is_key_down s1.dev BTN_MIDDLE = true ∧
      evdev_to_left_handed s1.dev BTN_MIDDLE = BTN_MIDDLE ∧
      s1.dev.key_count BTN_MIDDLE = 0 :=
  ⟨fun _ => rfl, fun _ => rfl,
    { button_scroll_idle with dev := { hw_set_key_down button_scroll_idle.dev BTN_MIDDLE 1 with
        scroll_timer := some (0 + DEFAULT_MIDDLE_BUTTON_SCROLL_TIMEOUT) } },
    rfl, by decide, by decide, rfl, rfl⟩

/-- Left-handed mode requested and not yet in effect, the callback installed,
no button down in the hardware bitmap, the left and the right button each
counted once and no code below them counted: `release_pressed_keys` with a
readable clock does not return, whatever the fuel. The release of the left
button lets the callback put left-handed mode into effect; the release for the
right button is then made on the left button, whose count is `0`, and hits the
`assert` of the ledger. -/
theorem release_pressed_keys_requested_stuck (s : State)
    (hen : s.dev.left_handed_enabled = false)
    (hwant : s.dev.left_handed_want_enabled = true)
    (hcb : s.dev.left_handed_change_to_enabled = true)
    (hdown : evdev_any_button_down s.dev = false)
    (hl : s.dev.key_count BTN_LEFT = 1) (hr : s.dev.key_count BTN_RIGHT = 1)
    (hlow : ∀ c, c < BTN_LEFT → ¬ (0 < s.dev.key_count c)) :
    ∀ now fuel : Nat, now ≠ 0 → release_pressed_keys s now fuel = none := by
  intro now fuel hnow
  obtain ⟨s1, h1, hk1, he1⟩ : ∃ s1 : State,
      evdev_pointer_notify_button s now BTN_LEFT LIBINPUT_BUTTON_STATE_RELEASED = some s1 ∧
      s1.dev.key_count = Function.update s.dev.key_count BTN_LEFT 0 ∧
      s1.dev.left_handed_enabled = true := by
    unfold evdev_pointer_notify_button update_key_down_count
    simp only [show BTN_LEFT < KEY_CNT by decide, if_true, libinput_button_state.toInt, ne_eq,
      not_true_eq_false, if_false, hl, zero_lt_one, sub_self, and_true, or_true]
    refine ⟨_, rfl, ?_, ?_⟩
    · rw [scroll_method_hook_key_count, left_handed_hook_key_count]
      rfl
    · rw [(scroll_method_hook_left_handed _ _).1]
      unfold left_handed_hook
      rw [if_pos ⟨rfl, hcb⟩]
      unfold evdev_change_to_left_handed
      rw [if_neg (by
        show ¬ (s.dev.left_handed_want_enabled = s.dev.left_handed_enabled)
        rw [hwant, hen]; decide)]
      rw [if_neg (by
        show ¬ (evdev_any_button_down s.dev = true)
        rw [hdown]; decide)]
      exact hwant
  unfold release_pressed_keys
  rw [if_neg hnow, List.range_eq_range',
    release_codes_skip now fuel BTN_LEFT s KEY_CNT 0 (by decide) (by decide)
      (fun c _ hc => hlow c hc)]
  have hr0 : List.range' BTN_LEFT (0 + KEY_CNT - BTN_LEFT) =
      BTN_LEFT :: List.range' BTN_RIGHT (KEY_CNT - BTN_RIGHT) := by
    rw [show 0 + KEY_CNT - BTN_LEFT = (KEY_CNT - BTN_RIGHT) + 1 by decide, List.range'_succ]
    rfl
  rw [hr0]
  cases fuel with
  | zero =>
    rw [release_codes_cons]
    have : release_code now BTN_LEFT 0 s = none := by
      simp [release_code, get_key_down_count, hl]
    rw [this]
    rfl
  | succ f =>
    have hl1 : release_code now BTN_LEFT (f + 1) s = some s1 := by
      have hz : ¬ (0 < s1.dev.key_count BTN_LEFT) := by simp [hk1]
      have hpos : get_key_down_count s.dev BTN_LEFT > 0 := by
        unfold get_key_down_count
        rw [hl]; decide
      have hty : get_key_type BTN_LEFT = EVDEV_KEY_TYPE_BUTTON := by decide
      have hmap : evdev_to_left_handed s.dev BTN_LEFT = BTN_LEFT := by
        unfold evdev_to_left_handed
        rw [hen]; rfl
      rw [release_code, if_pos hpos]
      simp only [hty]
      rw [hmap, h1]
      exact release_code_idle now BTN_LEFT f _ hz
    rw [release_codes_cons, hl1, Option.some_bind]
    have hmap1 : evdev_to_left_handed s1.dev BTN_RIGHT = BTN_LEFT := by
      unfold evdev_to_left_handed
      rw [he1]; rfl
    have hstuck : release_code now BTN_RIGHT (f + 1) s1 = none :=
      release_code_button_mismatch now BTN_RIGHT (f + 1) _ (by decide)
        (by
          rw [hk1, Function.update_noteq (by decide : BTN_RIGHT ≠ BTN_LEFT), hr]
          decide)
        (by rw [hmap1, hk1]; simp)
    exact release_codes_stuck now (f + 1) BTN_RIGHT _ hstuck (KEY_CNT - BTN_RIGHT) BTN_RIGHT
      (le_refl _) (by decide) (fun c h1 h2 => by omega)

/-- C33 fails on the code: a fresh mouse, left-handed mode neither in effect
nor requested, receives two presses of the left and two of the right button;
left-handed mode is requested through `evdev_left_handed_set`, which defers
the change while buttons are down; one release of each button follows. In the
state reached left-handed mode is not in effect and every positive ledger
count is on a code of button type, and `release_pressed_keys` with a readable
clock does not return, whatever the fuel: the release of the left button lets
the callback put left-handed mode into effect, the release for the right
button is then made on its left-handed image, the left button, whose count is
`0`, and hits the `assert` of `update_key_down_count`. -/
theorem release_pressed_keys_left_handed_requested_fails :
    ∃ (s1 : State) (d2 : Device) (s3 : State),
      process_events two_button_mouse
        [key_event BTN_LEFT 1, key_event BTN_LEFT 1, key_event BTN_RIGHT 1,
         key_event BTN_RIGHT 1] = some s1 ∧
      evdev_left_handed_set s1.dev 1 = some d2 ∧
      process_events { s1 with dev := d2 } [key_event BTN_LEFT 0, key_event BTN_RIGHT 0] =
        some s3 ∧
      s3.dev.left_handed_enabled = false ∧ ledger_typed s3.dev ∧
      ∀ now fuel : Nat, now ≠ 0 → release_pressed_keys s3 now fuel = none := by
  obtain ⟨s1, d2, s3, h1, h2, h3, hen, hwant, hcb, hdown, hk⟩ :
      ∃ (s1 : State) (d2 : Device) (s3 : State),
        process_events two_button_mouse
          [key_event BTN_LEFT 1, key_event BTN_LEFT 1, key_event BTN_RIGHT 1,
           key_event BTN_RIGHT 1] = some s1 ∧
        evdev_left_handed_set s1.dev 1 = some d2 ∧
        process_events { s1 with dev := d2 } [key_event BTN_LEFT 0, key_event BTN_RIGHT 0] =
          some s3 ∧
        s3.dev.left_handed_enabled = false ∧ s3.dev.left_handed_want_enabled = true ∧
        s3.dev.left_handed_change_to_enabled = true ∧
        evdev_any_button_down s3.dev = false ∧
        s3.dev.key_count =
          Function.update (Function.update (Function.update (Function.update
            (Function.update (Function.update (fun _ => 0) BTN_LEFT 1) BTN_LEFT 2)
            BTN_RIGHT 1) BTN_RIGHT 2) BTN_LEFT 1) BTN_RIGHT 1 :=
    ⟨_, _, _, rfl, rfl, rfl, rfl, rfl, rfl, rfl, rfl⟩
  have hkc : ∀ c, s3.dev.key_count c =
      if c = BTN_RIGHT then 1 else if c = BTN_LEFT then 1 else 0 := by
    intro c
    rw [hk]
    by_cases hcr : c = BTN_RIGHT
    · subst hcr
      simp
    · by_cases hcl : c = BTN_LEFT
      · subst hcl
        simp [Function.update, BTN_LEFT, BTN_RIGHT]
      · simp [Function.update, hcr, hcl]
  refine ⟨s1, d2, s3, h1, h2, h3, hen, ?_, ?_⟩
  · intro c hc
    rw [hkc c] at hc
    split_ifs at hc with hcr hcl
    · rw [hcr]; decide
    · rw [hcl]; decide
    · exact absurd hc (by decide)
  · exact release_pressed_keys_requested_stuck s3 hen hwant hcb hdown
      (by rw [hkc]; decide) (by rw [hkc]; decide)
      (fun c hc => by
        rw [hkc, if_neg (by unfold BTN_RIGHT; unfold BTN_LEFT at hc; omega),
          if_neg (by omega)]
        decide)

/-- Suspending a device with no positive ledger count posts nothing: the
lifecycle steps around the release loop are all that happens. -/
theorem suspend_idle_ledger (m : Managed) (now fuel : Nat)
    (h : ∀ c, ¬ (0 < m.st.dev.key_count c)) :
    evdev_device_suspend m now fuel = some (suspend_close (suspend_detach m)) := by
  have hrel : release_pressed_keys (suspend_detach m).st now fuel =
      some (suspend_detach m).st := by
    unfold release_pressed_keys
    split_ifs
    · rfl
    · exact release_codes_idle now fuel _ _ (fun c _ => by rw [suspend_detach_st]; exact h c)
  unfold evdev_device_suspend
  simp only [hrel]

/-- The scroll button of a button-scroll device is pressed, the timer fires,
and the device is suspended and resumed while the button is held. The resume
clears the hardware key bitmap, so the release of the button that follows is
ignored, and the flag `button_scroll_active` stays set. A press of the scroll
button and its release before the timer fires then post nothing: the release
takes the branch that stops the scroll. -/
theorem button_scroll_active_left_over :
    ∃ (s1 : State) (m2 m3 : Managed) (s4 s5 s6 : State),
      fallback_process button_scroll_idle (key_event BTN_MIDDLE 1) 0 = some s1 ∧
      evdev_device_suspend
        { st := { s1 with dev := evdev_button_scroll_timeout s1.dev },
          life := { fd := 7, source := true } } 300 1 = some m2 ∧
      evdev_device_resume m2 resume_env_ok = (0, m3) ∧
      fallback_process m3.st (key_event BTN_MIDDLE 0) 400 = some s4 ∧
      s4.dev.scroll_method = LIBINPUT_CONFIG_SCROLL_ON_BUTTON_DOWN ∧
      s4.dev.scroll_button = BTN_MIDDLE ∧
      get_key_type BTN_MIDDLE = EVDEV_KEY_TYPE_BUTTON ∧
      s4.dev.pending_event = EVDEV_NONE ∧
      s4.dev.key_count BTN_MIDDLE = 0 ∧
      s4.dev.scroll_button_scroll_active = true ∧
      s4.out = [] ∧
      fallback_process s4 (key_event BTN_MIDDLE 1) 500 = some s5 ∧
      s5.out = [] ∧
      fallback_process s5 (key_event BTN_MIDDLE 0) 510 = some s6 ∧
      s6.out = [] := by
  have h1 : fallback_process button_scroll_idle (key_event BTN_MIDDLE 1) 0 =
      some { button_scroll_idle with
        dev := { hw_set_key_down button_scroll_idle.dev BTN_MIDDLE 1 with
          scroll_timer := some (0 + DEFAULT_MIDDLE_BUTTON_SCROLL_TIMEOUT) } } := rfl
  have h2 := suspend_idle_ledger
    { st := { button_scroll_idle with
        dev := evdev_button_scroll_timeout
          { hw_set_key_down button_scroll_idle.dev BTN_MIDDLE 1 with
            scroll_timer := some (0 + DEFAULT_MIDDLE_BUTTON_SCROLL_TIMEOUT) } },
      life := { fd := 7, source := true } } 300 1
    (fun c => by
      show ¬ ((0 : Int) < 0)
      decide)
  exact ⟨_, _, _, _, _, _, h1, h2, rfl, rfl, rfl, rfl, rfl, rfl, rfl, rfl, rfl, rfl, rfl,
    rfl, rfl⟩

/-- With a relative motion pending, the press of the scroll button flushes it:
a pointer motion is posted while the press is processed. -/
theorem button_scroll_press_flushes_motion :
    (fallback_process button_scroll_motion_pending (key_event BTN_MIDDLE 1) 0).map
      (fun s => s.out) = some [Notification.pointer_motion 0 3 0 3 0] := by
  have hfl : evdev_flush_pending_event button_scroll_motion_pending 0 =
      some { button_scroll_idle with
        out := [Notification.pointer_motion 0 3 0 3 0] } := by
    norm_num [evdev_flush_pending_event, flush_case_relative_motion, apply_filter,
      button_scroll_motion_pending, button_scroll_idle, hw_is_key_down, State.post,
      State.clear_pending, DEFAULT_MOUSE_DPI]
  have hty : get_key_type BTN_MIDDLE = EVDEV_KEY_TYPE_BUTTON := by decide
  have hrun : fallback_process button_scroll_motion_pending (key_event BTN_MIDDLE 1) 0 =
      evdev_process_key button_scroll_motion_pending (key_event BTN_MIDDLE 1) 0 := rfl
  rw [hrun]
  unfold evdev_process_key
  rw [if_neg (by decide), if_neg (by decide), hfl]
  simp only [key_event, hty]
  rfl

/-- C14 as stated fails at two inputs. The scroll button of a button-scroll
device is pressed, the timer fires, and the device is suspended and resumed
while the button is held. The resume clears the hardware key bitmap, so the
release of the button that follows is ignored, and the flag
`button_scroll_active` stays set; the device has the button-scroll method,
nothing pending and the scroll button at ledger count `0`. A press of the
scroll button and its release before the timer fires then post nothing: the
release takes the branch that stops the scroll. On a button-scroll device with
the scroll button at ledger count `0`, button scrolling not active and a
relative motion pending, the press of the scroll button posts a pointer
motion, the flush of what was pending. -/
theorem button_scroll_quick_tap_counterexample :
    (∃ (s1 : State) (m2 m3 : Managed) (s4 s5 s6 : State),
      fallback_process button_scroll_idle (key_event BTN_MIDDLE 1) 0 = some s1 ∧
      evdev_device_suspend
        { st := { s1 with dev := evdev_button_scroll_timeout s1.dev },
          life := { fd := 7, source := true } } 300 1 = some m2 ∧
      evdev_device_resume m2 resume_env_ok = (0, m3) ∧
      fallback_process m3.st (key_event BTN_MIDDLE 0) 400 = some s4 ∧
      s4.dev.scroll_method = LIBINPUT_CONFIG_SCROLL_ON_BUTTON_DOWN ∧
      s4.dev.scroll_button = BTN_MIDDLE ∧
      get_key_type BTN_MIDDLE = EVDEV_KEY_TYPE_BUTTON ∧
      s4.dev.pending_event = EVDEV_NONE ∧
      s4.dev.key_count BTN_MIDDLE = 0 ∧
      s4.dev.scroll_button_scroll_active = true ∧
      s4.out = [] ∧
      fallback_process s4 (key_event BTN_MIDDLE 1) 500 = some s5 ∧
      s5.out = [] ∧
      fallback_process s5 (key_event BTN_MIDDLE 0) 510 = some s6 ∧
      s6.out = []) ∧
    (button_scroll_motion_pending.dev.scroll_method = LIBINPUT_CONFIG_SCROLL_ON_BUTTON_DOWN ∧
      button_scroll_motion_pending.dev.scroll_button = BTN_MIDDLE ∧
      button_scroll_motion_pending.dev.key_count BTN_MIDDLE = 0 ∧
      button_scroll_motion_pending.dev.scroll_button_scroll_active = false ∧
      (fallback_process button_scroll_motion_pending (key_event BTN_MIDDLE 1) 0).map
        (fun s => s.out) = some [Notification.pointer_motion 0 3 0 3 0]) :=
  ⟨button_scroll_active_left_over, rfl, rfl, rfl, rfl, button_scroll_press_flushes_motion⟩

end Evdev
